import Mathlib

/-! # Surface address library for R6xx/R7xx: model and verified properties

A shallow embedding of the address-arithmetic engine (`core/addrcommon.h`,
`core/addrlib.cpp`, `core/addrelemlib.cpp`, `r600/r600addrlib.cpp`).

Conventions of the embedding:

* `uint32_t` and `uint64_t` values are natural numbers; every operation that can
  wrap in the source is followed by `u32` or `u64` (reduction modulo `2 ^ 32`,
  `2 ^ 64`). Subtraction and bitwise complement have their own helpers.
* Out-parameters become components of the returned value.
* The library instance (`mPipes`, `mBanks`, ... and the configuration flags) is
  an explicit record passed to every member function.
* `while` loops are bounded recursions; where the source loop can fail to
  terminate the model returns `none`.
* Division is the division of natural numbers, so a quotient by zero is 0 in the
  model. A theorem stated for every request holds in particular for the requests
  on which no divisor of the source is zero (`bpp` and `numSamples` at least 1).
-/

namespace AddrLib

/-! ## Machine integers (`addrcommon.h`) -/

/-- Truncation to an unsigned 32-bit value. -/
def u32 (n : Nat) : Nat := n % 2 ^ 32

/-- Truncation to an unsigned 64-bit value. -/
def u64 (n : Nat) : Nat := n % 2 ^ 64

/-- Unsigned 32-bit subtraction `a - b`. -/
def sub32 (a b : Nat) : Nat := u32 (a + (2 ^ 32 - u32 b))

/-- Bitwise complement of a 32-bit value. -/
def not32 (a : Nat) : Nat := 2 ^ 32 - 1 - u32 a

/-- Bitwise complement of a 64-bit value. -/
def not64 (a : Nat) : Nat := 2 ^ 64 - 1 - u64 a

/-- `BITS_TO_BYTES(x)` evaluated in 32-bit arithmetic. -/
def BITS_TO_BYTES32 (x : Nat) : Nat := u32 (x + 7) / 8

/-- `BITS_TO_BYTES(x)` evaluated in 64-bit arithmetic. -/
def BITS_TO_BYTES64 (x : Nat) : Nat := u64 (x + 7) / 8

/-- `_BIT(v, b)`: bit `b` of `v`. -/
def BIT (v b : Nat) : Nat := (v >>> b) &&& 1

def MicroTileWidth : Nat := 8
def MicroTileHeight : Nat := 8
def ThickTileThickness : Nat := 4
def XThickTileThickness : Nat := 8
def HtileCacheBits : Nat := 16384
def MicroTilePixels : Nat := MicroTileWidth * MicroTileHeight

/-- `IsPow2(dim)` on `uint32_t`: `!(dim & (dim - 1))`. -/
def IsPow2 (dim : Nat) : Bool := decide (dim &&& sub32 dim 1 = 0)

/-- `PowTwoAlign(x, align)` on `uint32_t`: `(x + (align - 1)) & ~(align - 1)`. -/
def PowTwoAlign (x align : Nat) : Nat :=
  u32 (x + sub32 align 1) &&& not32 (sub32 align 1)

/-- The loop of `NextPow2`: `while (newDim < dim) newDim <<= 1`. -/
def NextPow2Loop : Nat → Nat → Nat → Nat
  | 0, _, newDim => newDim
  | fuel + 1, dim, newDim =>
    if newDim < dim then NextPow2Loop fuel dim (u32 (newDim <<< 1)) else newDim

/-- `NextPow2(dim)`. The loop runs at most 31 times when `dim <= 0x7fffffff`. -/
def NextPow2 (dim : Nat) : Nat :=
  if dim > 0x7fffffff then 0x80000000 else NextPow2Loop 32 dim 1

/-- The loop of `Log2`: `while (x > 1) { x >>= 1; y++; }`. -/
def Log2Loop : Nat → Nat → Nat → Nat
  | 0, _, y => y
  | fuel + 1, x, y => if x > 1 then Log2Loop fuel (x >>> 1) (y + 1) else y

/-- `Log2(x)`; 64 iterations cover every 64-bit argument. -/
def Log2 (x : Nat) : Nat := Log2Loop 64 x 0

/-! ## Enumerations (`addrtypes.h`, `addrcommon.h`, `addrelemlib.h`) -/

/-- `AddrTileMode` (`ADDR_TM_LINEAR_SPECIAL` is an alias of `ADDR_TM_2D_TILED_XTHICK`). -/
inductive AddrTileMode
  | ADDR_TM_LINEAR_GENERAL
  | ADDR_TM_LINEAR_ALIGNED
  | ADDR_TM_1D_TILED_THIN1
  | ADDR_TM_1D_TILED_THICK
  | ADDR_TM_2D_TILED_THIN1
  | ADDR_TM_2D_TILED_THIN2
  | ADDR_TM_2D_TILED_THIN4
  | ADDR_TM_2D_TILED_THICK
  | ADDR_TM_2B_TILED_THIN1
  | ADDR_TM_2B_TILED_THIN2
  | ADDR_TM_2B_TILED_THIN4
  | ADDR_TM_2B_TILED_THICK
  | ADDR_TM_3D_TILED_THIN1
  | ADDR_TM_3D_TILED_THICK
  | ADDR_TM_3B_TILED_THIN1
  | ADDR_TM_3B_TILED_THICK
  | ADDR_TM_2D_TILED_XTHICK
  | ADDR_TM_3D_TILED_XTHICK
  | ADDR_TM_POWER_SAVE
  deriving DecidableEq, Repr

open AddrTileMode

/-- Numeric value of an `AddrTileMode` enumerator. -/
def AddrTileMode.toNat : AddrTileMode → Nat
  | ADDR_TM_LINEAR_GENERAL => 0x0
  | ADDR_TM_LINEAR_ALIGNED => 0x1
  | ADDR_TM_1D_TILED_THIN1 => 0x2
  | ADDR_TM_1D_TILED_THICK => 0x3
  | ADDR_TM_2D_TILED_THIN1 => 0x4
  | ADDR_TM_2D_TILED_THIN2 => 0x5
  | ADDR_TM_2D_TILED_THIN4 => 0x6
  | ADDR_TM_2D_TILED_THICK => 0x7
  | ADDR_TM_2B_TILED_THIN1 => 0x8
  | ADDR_TM_2B_TILED_THIN2 => 0x9
  | ADDR_TM_2B_TILED_THIN4 => 0xA
  | ADDR_TM_2B_TILED_THICK => 0xB
  | ADDR_TM_3D_TILED_THIN1 => 0xC
  | ADDR_TM_3D_TILED_THICK => 0xD
  | ADDR_TM_3B_TILED_THIN1 => 0xE
  | ADDR_TM_3B_TILED_THICK => 0xF
  | ADDR_TM_2D_TILED_XTHICK => 0x10
  | ADDR_TM_3D_TILED_XTHICK => 0x11
  | ADDR_TM_POWER_SAVE => 0x12

/-- `AddrTileType`. -/
inductive AddrTileType
  | ADDR_DISPLAYABLE
  | ADDR_NON_DISPLAYABLE
  | ADDR_DEPTH_SAMPLE_ORDER
  | ADDR_THICK_TILING
  deriving DecidableEq, Repr

open AddrTileType

/-- `AddrChipFamily`. -/
inductive AddrChipFamily
  | ADDR_CHIP_FAMILY_IVLD
  | ADDR_CHIP_FAMILY_R6XX
  | ADDR_CHIP_FAMILY_R7XX
  | ADDR_CHIP_FAMILY_R8XX
  | ADDR_CHIP_FAMILY_R9XX
  | ADDR_CHIP_FAMILY_SI
  deriving DecidableEq, Repr

open AddrChipFamily

/-- `ADDR_E_RETURNCODE`. -/
inductive ADDR_E_RETURNCODE
  | ADDR_OK
  | ADDR_ERROR
  | ADDR_OUTOFMEMORY
  | ADDR_INVALIDPARAMS
  | ADDR_NOTSUPPORTED
  | ADDR_NOTIMPLEMENTED
  | ADDR_PARAMSIZEMISMATCH
  deriving DecidableEq, Repr

open ADDR_E_RETURNCODE

/-- `AddrElemMode`. -/
inductive AddrElemMode
  | ADDR_ROUND_BY_HALF
  | ADDR_ROUND_TRUNCATE
  | ADDR_ROUND_DITHER
  | ADDR_UNCOMPRESSED
  | ADDR_EXPANDED
  | ADDR_PACKED_STD
  | ADDR_PACKED_REV
  | ADDR_PACKED_GBGR
  | ADDR_PACKED_BGRG
  | ADDR_PACKED_BC1
  | ADDR_PACKED_BC2
  | ADDR_PACKED_BC3
  | ADDR_PACKED_BC4
  | ADDR_PACKED_BC5
  | ADDR_ZPLANE_R5XX
  | ADDR_ZPLANE_R6XX
  | ADDR_END_ELEMENT
  deriving DecidableEq, Repr

open AddrElemMode

/-! ## Records -/

/-- `ADDR_CONFIG_FLAGS`. -/
structure ADDR_CONFIG_FLAGS where
  forceLinearAligned : Bool
  optimalBankSwap : Bool
  no1DTiledMSAA : Bool
  noCubeMipSlicesPad : Bool
  sliceSizeComputing : Nat
  fillSizeFields : Bool
  useTileIndex : Bool
  useTileCaps : Bool
  deriving DecidableEq, Repr

/-- The data members of an `R600AddrLib` instance that the engine reads. -/
structure R600AddrLib where
  mChipFamily : AddrChipFamily
  mConfigFlags : ADDR_CONFIG_FLAGS
  mPipes : Nat
  mBanks : Nat
  mPipeInterleaveBytes : Nat
  mRowSize : Nat
  mSwapSize : Nat
  mSplitSize : Nat
  deriving DecidableEq, Repr

/-- The hardware geometries that `DecodeGbRegs` can produce. -/
def R600AddrLib.ValidConfig (lib : R600AddrLib) : Prop :=
  (lib.mPipes = 1 ∨ lib.mPipes = 2 ∨ lib.mPipes = 4 ∨ lib.mPipes = 8) ∧
  (lib.mBanks = 4 ∨ lib.mBanks = 8) ∧
  (lib.mPipeInterleaveBytes = 256 ∨ lib.mPipeInterleaveBytes = 512) ∧
  (lib.mRowSize = 1024 ∨ lib.mRowSize = 2048 ∨ lib.mRowSize = 4096 ∨ lib.mRowSize = 8192) ∧
  (lib.mSwapSize = 128 ∨ lib.mSwapSize = 256 ∨ lib.mSwapSize = 512 ∨ lib.mSwapSize = 1024) ∧
  (lib.mSplitSize = 1024 ∨ lib.mSplitSize = 2048 ∨ lib.mSplitSize = 4096 ∨
    lib.mSplitSize = 8192)

instance (lib : R600AddrLib) : Decidable lib.ValidConfig := by
  unfold R600AddrLib.ValidConfig
  infer_instance

/-- `ADDR_SURFACE_FLAGS`. -/
structure ADDR_SURFACE_FLAGS where
  color : Bool
  depth : Bool
  stencil : Bool
  texture : Bool
  cube : Bool
  volume : Bool
  fmask : Bool
  cubeAsArray : Bool
  compressZ : Bool
  linearWA : Bool
  overlay : Bool
  noStencil : Bool
  inputBaseMap : Bool
  display : Bool
  opt4Space : Bool
  prt : Bool
  qbStereo : Bool
  pow2Pad : Bool
  deriving DecidableEq, Repr

/-- All surface flags clear. -/
def ADDR_SURFACE_FLAGS.none : ADDR_SURFACE_FLAGS :=
  ⟨false, false, false, false, false, false, false, false, false,
   false, false, false, false, false, false, false, false, false⟩

/-! ## Tile-mode classification (`addrlib.cpp`) -/

/-- `AddrLib::IsMacroTiled`. -/
def IsMacroTiled (tileMode : AddrTileMode) : Bool :=
  decide (tileMode.toNat ≥ ADDR_TM_2D_TILED_THIN1.toNat ∧
    tileMode.toNat ≤ ADDR_TM_3D_TILED_XTHICK.toNat)

/-- `AddrLib::ComputeSurfaceThickness`. -/
def ComputeSurfaceThickness : AddrTileMode → Nat
  | ADDR_TM_1D_TILED_THICK
  | ADDR_TM_2D_TILED_THICK
  | ADDR_TM_2B_TILED_THICK
  | ADDR_TM_3D_TILED_THICK
  | ADDR_TM_3B_TILED_THICK => 4
  | ADDR_TM_2D_TILED_XTHICK
  | ADDR_TM_3D_TILED_XTHICK => 8
  | _ => 1

/-- `AddrLib::ComputePixelIndexWithinMicroTile`. -/
def ComputePixelIndexWithinMicroTile (x y z bpp : Nat) (tileMode : AddrTileMode)
    (tileType : AddrTileType) : Nat :=
  let x0 := BIT x 0
  let x1 := BIT x 1
  let x2 := BIT x 2
  let y0 := BIT y 0
  let y1 := BIT y 1
  let y2 := BIT y 2
  let z0 := BIT z 0
  let z1 := BIT z 1
  let z2 := BIT z 2
  let thickness := ComputeSurfaceThickness tileMode
  -- (pixelBit0, ..., pixelBit5) of the non-thick tile types
  let low : Nat × Nat × Nat × Nat × Nat × Nat :=
    if tileType = ADDR_NON_DISPLAYABLE then (x0, y0, x1, y1, x2, y2)
    else if bpp = 8 then (x0, x1, x2, y1, y0, y2)
    else if bpp = 16 then (x0, x1, x2, y0, y1, y2)
    else if bpp = 64 then (x0, y0, x1, x2, y1, y2)
    else if bpp = 128 then (y0, x0, x1, x2, y1, y2)
    else (x0, x1, y0, x2, y1, y2)
  let bits : Nat × Nat × Nat × Nat × Nat × Nat × Nat × Nat :=
    if tileType = ADDR_THICK_TILING then (x0, y0, z0, x1, y1, z1, x2, y2)
    else if thickness > 1 then
      (low.1, low.2.1, low.2.2.1, low.2.2.2.1, low.2.2.2.2.1, low.2.2.2.2.2, z0, z1)
    else
      (low.1, low.2.1, low.2.2.1, low.2.2.2.1, low.2.2.2.2.1, low.2.2.2.2.2, 0, 0)
  let pixelBit8 := if thickness = 8 then z2 else 0
  bits.1 |||
  (bits.2.1 <<< 1) |||
  (bits.2.2.1 <<< 2) |||
  (bits.2.2.2.1 <<< 3) |||
  (bits.2.2.2.2.1 <<< 4) |||
  (bits.2.2.2.2.2.1 <<< 5) |||
  (bits.2.2.2.2.2.2.1 <<< 6) |||
  (bits.2.2.2.2.2.2.2 <<< 7) |||
  (pixelBit8 <<< 8)

/-- `AddrLib::ComputeSurfaceAddrFromCoordLinear`; returns `(addr, bitPosition)`. -/
def ComputeSurfaceAddrFromCoordLinear (x y slice sample bpp pitch height numSlices : Nat) :
    Nat × Nat :=
  let sliceSize := u64 (pitch * height)
  let sliceOffset := u64 (sliceSize * u32 (slice + u32 (sample * numSlices)))
  let rowOffset := u64 (y * pitch)
  let pixOffset := x
  let addr := u64 (u64 (u64 (sliceOffset + rowOffset) + pixOffset) * bpp)
  (addr / 8, u32 (addr % 8))

/-! ## R6xx/R7xx engine: pipe and bank of a coordinate (`r600addrlib.cpp`) -/

/-- `R600AddrLib::GetTileType`. -/
def GetTileType (isDepth : Bool) : AddrTileType :=
  if isDepth then ADDR_NON_DISPLAYABLE else ADDR_DISPLAYABLE

/-- `R600AddrLib::ComputePipeFromCoordWoRotation`. -/
def ComputePipeFromCoordWoRotation (lib : R600AddrLib) (x y : Nat) : Nat :=
  let x3 := BIT x 3
  let x4 := BIT x 4
  let x5 := BIT x 5
  let y3 := BIT y 3
  let y4 := BIT y 4
  let y5 := BIT y 5
  let bits : Nat × Nat × Nat :=
    if lib.mPipes = 1 then (0, 0, 0)
    else if lib.mPipes = 2 then (y3 ^^^ x3, 0, 0)
    else if lib.mPipes = 4 then (y3 ^^^ x4, y4 ^^^ x3, 0)
    else if lib.mPipes = 8 then (y3 ^^^ x5, y4 ^^^ x5 ^^^ x4, y5 ^^^ x3)
    else (0, 0, 0)
  bits.1 ||| (bits.2.1 <<< 1) ||| (bits.2.2 <<< 2)

/-- `R600AddrLib::ComputeBankFromCoordWoRotation`. -/
def ComputeBankFromCoordWoRotation (lib : R600AddrLib) (x y : Nat) : Nat :=
  let numPipes := lib.mPipes
  let numBanks := lib.mBanks
  let bankOpt := lib.mConfigFlags.optimalBankSwap
  let tx := x / numBanks
  let ty := y / numPipes
  let x3 := BIT x 3
  let x4 := BIT x 4
  let x5 := BIT x 5
  let tx3 := BIT tx 3
  let ty3 := BIT ty 3
  let ty4 := BIT ty 4
  let ty5 := BIT ty 5
  let bits : Nat × Nat × Nat :=
    if lib.mBanks = 4 then
      let bankBit0 := ty4 ^^^ x3
      let bankBit0 := if bankOpt = true ∧ numPipes = 8 then bankBit0 ^^^ x5 else bankBit0
      (bankBit0, ty3 ^^^ x4, 0)
    else if lib.mBanks = 8 then
      let bankBit0 := ty5 ^^^ x3
      let bankBit0 := if bankOpt = true ∧ numPipes = 8 then bankBit0 ^^^ tx3 else bankBit0
      (bankBit0, ty5 ^^^ ty4 ^^^ x4, ty3 ^^^ x5)
    else (0, 0, 0)
  bits.1 ||| (bits.2.1 <<< 1) ||| (bits.2.2 <<< 2)

/-! ## R6xx/R7xx engine: tile-mode helpers (`r600addrlib.cpp`) -/

/-- `R600AddrLib::ConvertToNonBankSwappedMode`. -/
def ConvertToNonBankSwappedMode : AddrTileMode → AddrTileMode
  | ADDR_TM_2B_TILED_THIN1 => ADDR_TM_2D_TILED_THIN1
  | ADDR_TM_2B_TILED_THIN2 => ADDR_TM_2D_TILED_THIN2
  | ADDR_TM_2B_TILED_THIN4 => ADDR_TM_2D_TILED_THIN4
  | ADDR_TM_2B_TILED_THICK => ADDR_TM_2D_TILED_THICK
  | ADDR_TM_3B_TILED_THIN1 => ADDR_TM_3D_TILED_THIN1
  | ADDR_TM_3B_TILED_THICK => ADDR_TM_3D_TILED_THICK
  | tileMode => tileMode

/-- `R600AddrLib::ComputeSurfaceTileSlices`. -/
def ComputeSurfaceTileSlices (lib : R600AddrLib) (tileMode : AddrTileMode)
    (bpp numSamples : Nat) : Nat :=
  let bytesPerSample := BITS_TO_BYTES32 (u32 (bpp * 64))
  let numSamples := if ComputeSurfaceThickness tileMode > 1 then 4 else numSamples
  if bytesPerSample ≠ 0 then
    let samplePerTile := lib.mSplitSize / bytesPerSample
    if samplePerTile ≠ 0 then max 1 (numSamples / samplePerTile) else 1
  else 1

/-- `R600AddrLib::ComputeSurfaceRotationFromTileMode`. -/
def ComputeSurfaceRotationFromTileMode (lib : R600AddrLib) : AddrTileMode → Nat
  | ADDR_TM_2D_TILED_THIN1
  | ADDR_TM_2D_TILED_THIN2
  | ADDR_TM_2D_TILED_THIN4
  | ADDR_TM_2D_TILED_THICK
  | ADDR_TM_2B_TILED_THIN1
  | ADDR_TM_2B_TILED_THIN2
  | ADDR_TM_2B_TILED_THIN4
  | ADDR_TM_2B_TILED_THICK => u32 (lib.mPipes * sub32 (lib.mBanks >>> 1) 1)
  | ADDR_TM_3D_TILED_THIN1
  | ADDR_TM_3D_TILED_THICK
  | ADDR_TM_3B_TILED_THIN1
  | ADDR_TM_3B_TILED_THICK =>
    if lib.mPipes ≥ 4 then sub32 (lib.mPipes >>> 1) 1 else 1
  | _ => 0

/-- `R600AddrLib::ComputeMacroTileAspectRatio`. -/
def ComputeMacroTileAspectRatio : AddrTileMode → Nat
  | ADDR_TM_2B_TILED_THIN1
  | ADDR_TM_3D_TILED_THIN1
  | ADDR_TM_3B_TILED_THIN1 => 1
  | ADDR_TM_2D_TILED_THIN2
  | ADDR_TM_2B_TILED_THIN2 => 2
  | ADDR_TM_2D_TILED_THIN4
  | ADDR_TM_2B_TILED_THIN4 => 4
  | _ => 1

/-- `R600AddrLib::IsThickMacroTiled`. -/
def IsThickMacroTiled : AddrTileMode → Bool
  | ADDR_TM_2D_TILED_THICK
  | ADDR_TM_2B_TILED_THICK
  | ADDR_TM_3D_TILED_THICK
  | ADDR_TM_3B_TILED_THICK => true
  | _ => false

/-- `R600AddrLib::IsBankSwappedTileMode`. -/
def IsBankSwappedTileMode : AddrTileMode → Bool
  | ADDR_TM_2B_TILED_THIN1
  | ADDR_TM_2B_TILED_THIN2
  | ADDR_TM_2B_TILED_THIN4
  | ADDR_TM_2B_TILED_THICK
  | ADDR_TM_3B_TILED_THIN1
  | ADDR_TM_3B_TILED_THICK => true
  | _ => false

/-- The loop `while (bankSwapWidth >= 2 * pitch) bankSwapWidth >>= 1` with `twoPitch`
the 32-bit value of `2 * pitch`; `none` when the fuel runs out. -/
def BankSwapHalveLoop : Nat → Nat → Nat → Option Nat
  | 0, _, _ => none
  | fuel + 1, bankSwapWidth, twoPitch =>
    if bankSwapWidth ≥ twoPitch then BankSwapHalveLoop fuel (bankSwapWidth >>> 1) twoPitch
    else some bankSwapWidth

/-- `R600AddrLib::ComputeSurfaceBankSwappedWidth`. Both call sites pass `nullptr` for
`pSlicesPerTile`, so only the returned width is modelled. A 32-bit width is zero after 32
halvings; the loop then never ends when `2 * pitch` is zero too, and the result is `none`. -/
def ComputeSurfaceBankSwappedWidth (lib : R600AddrLib) (tileMode : AddrTileMode)
    (bpp numSamples pitch : Nat) : Option Nat :=
  let numBanks := lib.mBanks
  let numPipes := lib.mPipes
  let swapSize := lib.mSwapSize
  let rowSize := lib.mRowSize
  let splitSize := lib.mSplitSize
  let groupSize := lib.mPipeInterleaveBytes
  let bytesPerSample := u32 (8 * bpp)
  let samplesPerTile := splitSize / bytesPerSample
  let slicesPerTile :=
    if splitSize / bytesPerSample ≠ 0 then max 1 (numSamples / samplesPerTile) else 1
  let numSamples := if IsThickMacroTiled tileMode then 4 else numSamples
  let bytesPerTileSlice := u32 (numSamples * bytesPerSample) / slicesPerTile
  if IsBankSwappedTileMode tileMode then
    let factor := ComputeMacroTileAspectRatio tileMode
    let swapTiles := max 1 ((swapSize >>> 1) / bpp)
    let swapWidth := u32 (swapTiles * 8 * numBanks)
    let heightBytes := u32 (numSamples * factor * numPipes * bpp) / slicesPerTile
    let swapMax := u32 (numPipes * numBanks * rowSize) / heightBytes
    let swapMin := u32 (groupSize * 8 * numBanks) / bytesPerTileSlice
    BankSwapHalveLoop 34 (min swapMax (max swapMin swapWidth)) (u32 (2 * pitch))
  else some 0

/-! ## R6xx/R7xx engine: address from coordinate (`r600addrlib.cpp`) -/

/-- `R600AddrLib::ComputeSurfaceAddrFromCoordMicroTiled`; returns `(addr, bitPosition)`. -/
def ComputeSurfaceAddrFromCoordMicroTiled (x y slice bpp pitch height : Nat)
    (tileMode : AddrTileMode) (isDepth : Bool) (tileBase compBits : Nat) : Nat × Nat :=
  let microTileThickness := if tileMode = ADDR_TM_1D_TILED_THICK then 4 else 1
  let microTileBytes := BITS_TO_BYTES64 (u64 (MicroTilePixels * microTileThickness * bpp))
  let microTilesPerRow := pitch / MicroTileWidth
  let microTileIndexX := x / MicroTileWidth
  let microTileIndexY := y / MicroTileHeight
  let microTileIndexZ := slice / microTileThickness
  let microTileOffset :=
    u64 (microTileBytes * (microTileIndexX + microTileIndexY * microTilesPerRow))
  -- `pitch * height` is a product of two `uint32_t`; the rest is 64-bit
  let sliceBytes := BITS_TO_BYTES64 (u64 (u32 (pitch * height) * microTileThickness * bpp))
  let sliceOffset := u64 (microTileIndexZ * sliceBytes)
  let pixelIndex :=
    ComputePixelIndexWithinMicroTile x y slice bpp tileMode (GetTileType isDepth)
  let pixelOffset :=
    if compBits ≠ 0 ∧ compBits ≠ bpp ∧ isDepth = true then
      u64 (tileBase + compBits * pixelIndex)
    else u64 (bpp * pixelIndex)
  let bitPosition := u32 (pixelOffset % 8)
  let pixelOffset := pixelOffset / 8
  (u64 (pixelOffset + microTileOffset + sliceOffset), bitPosition)

/-- The constant table `bankSwapOrder` of `ComputeSurfaceAddrFromCoordMacroTiled`. -/
def bankSwapOrder : List Nat := [0, 1, 3, 2, 6, 7, 5, 4, 0, 0]

/-- The intermediate values of `ComputeSurfaceAddrFromCoordMacroTiled` that enter the final
address: `elemOffset` (in bytes, after the sample split), the final `pipe` and `bank`,
`macroTileOffset`, `sliceOffset`, and the `bitPosition` output. -/
structure MacroTiledParts where
  elemOffset : Nat
  pipe : Nat
  bank : Nat
  macroTileOffset : Nat
  sliceOffset : Nat
  bitPosition : Nat
  deriving DecidableEq, Repr

/-- `R600AddrLib::ComputeSurfaceAddrFromCoordMacroTiled` up to the comment
"Calculate final offset". `none` when the bank-swap-width loop does not terminate. The
quotients are those of the total division of `Nat`;
`ComputeSurfaceAddrFromCoordMacroTiledZeroDivisor` tells whether one of the divisors is zero. -/
def ComputeSurfaceAddrFromCoordMacroTiledParts (lib : R600AddrLib)
    (x y slice sample bpp pitch height numSamples : Nat) (tileMode : AddrTileMode)
    (isDepth : Bool) (tileBase compBits pipeSwizzle bankSwizzle : Nat) :
    Option MacroTiledParts :=
  let numPipes := lib.mPipes
  let numBanks := lib.mBanks
  let microTileThickness := ComputeSurfaceThickness tileMode
  let microTileBits := u64 (MicroTilePixels * microTileThickness * bpp * numSamples)
  let microTileBytes := microTileBits / 8
  let pixelIndex :=
    ComputePixelIndexWithinMicroTile x y slice bpp tileMode (GetTileType isDepth)
  let sampleOffset :=
    if isDepth then
      if compBits ≠ 0 ∧ compBits ≠ bpp then u32 (tileBase + compBits * sample)
      else u32 (bpp * sample)
    else u64 (sample * (microTileBits / numSamples))
  let pixelOffset :=
    if isDepth then
      if compBits ≠ 0 ∧ compBits ≠ bpp then u64 (u32 (numSamples * compBits) * pixelIndex)
      else u64 (u32 (numSamples * bpp) * pixelIndex)
    else u64 (bpp * pixelIndex)
  let elemOffset := u64 (pixelOffset + sampleOffset)
  let bitPosition := u32 (elemOffset % 8)
  let bytesPerSample := microTileBytes / numSamples
  let split : Bool := decide (numSamples > 1 ∧ microTileBytes > lib.mSplitSize)
  let samplesPerSlice := if split then lib.mSplitSize / bytesPerSample else numSamples
  let numSampleSplits := if split then numSamples / samplesPerSlice else 1
  let tileSliceBits := microTileBits / numSampleSplits
  let sampleSlice := if split then elemOffset / tileSliceBits else 0
  let elemOffset := if split then elemOffset % tileSliceBits else elemOffset
  let numSamples := if split then u32 samplesPerSlice else numSamples
  let elemOffset := elemOffset / 8
  let pipe := ComputePipeFromCoordWoRotation lib x y
  let bank := ComputeBankFromCoordWoRotation lib x y
  let bankPipe := u64 (pipe + numPipes * bank)
  let rotation := ComputeSurfaceRotationFromTileMode lib tileMode
  let swizzle := u64 (pipeSwizzle + numPipes * bankSwizzle)
  let sliceIn := if IsThickMacroTiled tileMode then slice / ThickTileThickness else slice
  let bankPipe := bankPipe ^^^
    (u64 (numPipes * sampleSlice * ((numBanks >>> 1) + 1)) ^^^ u64 (swizzle + sliceIn * rotation))
  let bankPipe := bankPipe % u64 (numPipes * numBanks)
  let pipe := bankPipe % numPipes
  let bank := bankPipe / numPipes
  -- `pitch * height` is a product of two `uint32_t`; the rest is 64-bit
  let sliceBytes :=
    BITS_TO_BYTES64 (u64 (u32 (pitch * height) * microTileThickness * bpp * numSamples))
  let sliceOffset :=
    u64 (sliceBytes * (u64 (sampleSlice + numSampleSplits * slice) / microTileThickness))
  let macroTilePitch :=
    match tileMode with
    | ADDR_TM_2D_TILED_THIN2 | ADDR_TM_2B_TILED_THIN2 => 8 * numBanks / 2
    | ADDR_TM_2D_TILED_THIN4 | ADDR_TM_2B_TILED_THIN4 => 8 * numBanks / 4
    | _ => 8 * numBanks
  let macroTileHeight :=
    match tileMode with
    | ADDR_TM_2D_TILED_THIN2 | ADDR_TM_2B_TILED_THIN2 => 8 * numPipes * 2
    | ADDR_TM_2D_TILED_THIN4 | ADDR_TM_2B_TILED_THIN4 => 8 * numPipes * 4
    | _ => 8 * numPipes
  let macroTilesPerRow := pitch / macroTilePitch
  let macroTileBytes := BITS_TO_BYTES64
    (u64 (numSamples * microTileThickness * bpp * macroTileHeight * macroTilePitch))
  let macroTileIndexX := x / macroTilePitch
  let macroTileIndexY := y / macroTileHeight
  let macroTileOffset :=
    u64 (macroTileBytes * (macroTileIndexX + macroTilesPerRow * macroTileIndexY))
  if IsBankSwappedTileMode tileMode then
    match ComputeSurfaceBankSwappedWidth lib tileMode bpp numSamples pitch with
    | none => none
    | some bankSwapWidth =>
      let swapIndex := u64 (macroTilePitch * macroTileIndexX) / bankSwapWidth
      let bank := bank ^^^ bankSwapOrder.getD (swapIndex &&& sub32 lib.mBanks 1) 0
      some ⟨elemOffset, pipe, bank, macroTileOffset, sliceOffset, bitPosition⟩
  else
    some ⟨elemOffset, pipe, bank, macroTileOffset, sliceOffset, bitPosition⟩

/-- The `total_offset` of `ComputeSurfaceAddrFromCoordMacroTiled`. -/
def MacroTiledParts.totalOffset (lib : R600AddrLib) (p : MacroTiledParts) : Nat :=
  u64 (p.elemOffset +
    (u64 (p.macroTileOffset + p.sliceOffset) >>> (Log2 lib.mBanks + Log2 lib.mPipes)))

/-- The part of `ComputeSurfaceAddrFromCoordMacroTiled` after the comment
"Calculate final offset". -/
def MacroTiledParts.offset (lib : R600AddrLib) (p : MacroTiledParts) : Nat :=
  let numGroupBits := Log2 lib.mPipeInterleaveBytes
  let numPipeBits := Log2 lib.mPipes
  let numBankBits := Log2 lib.mBanks
  let group_mask := (1 <<< numGroupBits) - 1
  let total_offset := p.totalOffset lib
  let offset_high := u64 ((total_offset &&& not64 group_mask) <<< (numBankBits + numPipeBits))
  let offset_low := total_offset &&& group_mask
  let bank_bits := u64 (p.bank <<< (numPipeBits + numGroupBits))
  let pipe_bits := u64 (p.pipe <<< numGroupBits)
  bank_bits ||| pipe_bits ||| offset_low ||| offset_high

/-- `R600AddrLib::ComputeSurfaceAddrFromCoordMacroTiled`; returns `(addr, bitPosition)`. -/
def ComputeSurfaceAddrFromCoordMacroTiled (lib : R600AddrLib)
    (x y slice sample bpp pitch height numSamples : Nat) (tileMode : AddrTileMode)
    (isDepth : Bool) (tileBase compBits pipeSwizzle bankSwizzle : Nat) : Option (Nat × Nat) :=
  (ComputeSurfaceAddrFromCoordMacroTiledParts lib x y slice sample bpp pitch height numSamples
    tileMode isDepth tileBase compBits pipeSwizzle bankSwizzle).map
    fun p => (p.offset lib, p.bitPosition)

/-- `ADDR_COMPUTE_SURFACE_ADDRFROMCOORD_INPUT` (the fields the engine reads). -/
structure ADDR_COMPUTE_SURFACE_ADDRFROMCOORD_INPUT where
  size : Nat
  x : Nat
  y : Nat
  slice : Nat
  sample : Nat
  bpp : Nat
  pitch : Nat
  height : Nat
  numSlices : Nat
  numSamples : Nat
  tileMode : AddrTileMode
  isDepth : Bool
  tileBase : Nat
  compBits : Nat
  pipeSwizzle : Nat
  bankSwizzle : Nat
  numFrags : Nat
  tileType : AddrTileType
  tileIndex : Int
  deriving DecidableEq, Repr

/-- `ADDR_COMPUTE_SURFACE_ADDRFROMCOORD_OUTPUT`. -/
structure ADDR_COMPUTE_SURFACE_ADDRFROMCOORD_OUTPUT where
  size : Nat
  addr : Nat
  bitPosition : Nat
  deriving DecidableEq, Repr

/-- `R600AddrLib::DispatchComputeSurfaceAddrFromCoord`; returns the address and the updated
output record (`bitPosition` is written only by the three address routines). -/
def DispatchComputeSurfaceAddrFromCoord (lib : R600AddrLib)
    (pIn : ADDR_COMPUTE_SURFACE_ADDRFROMCOORD_INPUT)
    (pOut : ADDR_COMPUTE_SURFACE_ADDRFROMCOORD_OUTPUT) :
    Option (Nat × ADDR_COMPUTE_SURFACE_ADDRFROMCOORD_OUTPUT) :=
  let numSamples := max 1 pIn.numSamples
  match pIn.tileMode with
  | ADDR_TM_LINEAR_GENERAL
  | ADDR_TM_LINEAR_ALIGNED =>
    let r := ComputeSurfaceAddrFromCoordLinear pIn.x pIn.y pIn.slice pIn.sample pIn.bpp
      pIn.pitch pIn.height pIn.numSlices
    some (r.1, { pOut with bitPosition := r.2 })
  | ADDR_TM_1D_TILED_THIN1
  | ADDR_TM_1D_TILED_THICK =>
    let r := ComputeSurfaceAddrFromCoordMicroTiled pIn.x pIn.y pIn.slice pIn.bpp pIn.pitch
      pIn.height pIn.tileMode pIn.isDepth pIn.tileBase pIn.compBits
    some (r.1, { pOut with bitPosition := r.2 })
  | ADDR_TM_2D_TILED_THIN1
  | ADDR_TM_2D_TILED_THIN2
  | ADDR_TM_2D_TILED_THIN4
  | ADDR_TM_2D_TILED_THICK
  | ADDR_TM_2B_TILED_THIN1
  | ADDR_TM_2B_TILED_THIN2
  | ADDR_TM_2B_TILED_THIN4
  | ADDR_TM_2B_TILED_THICK
  | ADDR_TM_3D_TILED_THIN1
  | ADDR_TM_3D_TILED_THICK
  | ADDR_TM_3B_TILED_THIN1
  | ADDR_TM_3B_TILED_THICK =>
    (ComputeSurfaceAddrFromCoordMacroTiled lib pIn.x pIn.y pIn.slice pIn.sample pIn.bpp
      pIn.pitch pIn.height numSamples pIn.tileMode pIn.isDepth pIn.tileBase pIn.compBits
      pIn.pipeSwizzle pIn.bankSwizzle).map
      fun r => (r.1, { pOut with bitPosition := r.2 })
  | _ => some (0, pOut)

/-- `R600AddrLib::HwlComputeSurfaceAddrFromCoord`; returns the code and the output record. -/
def HwlComputeSurfaceAddrFromCoord (lib : R600AddrLib)
    (pIn : ADDR_COMPUTE_SURFACE_ADDRFROMCOORD_INPUT)
    (pOut : ADDR_COMPUTE_SURFACE_ADDRFROMCOORD_OUTPUT) :
    Option (ADDR_E_RETURNCODE × ADDR_COMPUTE_SURFACE_ADDRFROMCOORD_OUTPUT) :=
  if pIn.pipeSwizzle ≥ lib.mPipes
      ∨ pIn.bankSwizzle ≥ lib.mBanks
      ∨ pIn.x > pIn.pitch
      ∨ pIn.y > pIn.height
      ∨ pIn.numSamples > 8 then
    some (ADDR_INVALIDPARAMS, pOut)
  else
    (DispatchComputeSurfaceAddrFromCoord lib pIn pOut).map
      fun r => (ADDR_OK, { r.2 with addr := r.1 })

/-! ## Element library (`addrelemlib.cpp`); an `AddrFormat` is its numeric code -/

def ADDR_FMT_INVALID : Nat := 0x0
def ADDR_FMT_32_32_32 : Nat := 0x2F
def ADDR_FMT_32_32_32_FLOAT : Nat := 0x30
def ADDR_FMT_BC1 : Nat := 0x31
def ADDR_FMT_BC7 : Nat := 0x37

/-- `AddrElemLib::GetBitsPerPixel`; returns `(bpp, elemMode, expandX, expandY, unusedBits)`.
The cases are listed by the numeric value of the format enumerator. -/
def GetBitsPerPixel (format : Nat) : Nat × AddrElemMode × Nat × Nat × Nat :=
  match format with
  | 0x0 => (0, ADDR_UNCOMPRESSED, 1, 1, 0)   -- ADDR_FMT_INVALID
  | 0x1 => (8, ADDR_UNCOMPRESSED, 1, 1, 0)   -- ADDR_FMT_8
  | 0xA | 0x8 | 0x9 | 0x7 | 0xB | 0x5 | 0x6 =>
    (16, ADDR_UNCOMPRESSED, 1, 1, 0)   -- 1_5_5_5, 5_6_5, 6_5_5, 8_8, 4_4_4_4, 16, 16_FLOAT
  | 0x27 => (16, ADDR_PACKED_GBGR, 1, 1, 0)   -- ADDR_FMT_GB_GR
  | 0x28 => (16, ADDR_PACKED_BGRG, 1, 1, 0)   -- ADDR_FMT_BG_RG
  | 0x1A | 0x19 | 0x15 | 0x17 | 0xF | 0x10 | 0xD | 0xE | 0x13 | 0x14 =>
    (32, ADDR_UNCOMPRESSED, 1, 1, 0)   -- 8_8_8_8 ... 24_8_FLOAT
  | 0x1F | 0x20 | 0x1D | 0x1E | 0x3E =>
    (64, ADDR_UNCOMPRESSED, 1, 1, 0)   -- 16_16_16_16(_FLOAT), 32_32(_FLOAT), CTX1
  | 0x22 | 0x23 => (128, ADDR_UNCOMPRESSED, 1, 1, 0)   -- 32_32_32_32(_FLOAT)
  | 0x26 => (1, ADDR_PACKED_REV, 8, 1, 0)   -- ADDR_FMT_1_REVERSED
  | 0x25 => (1, ADDR_PACKED_STD, 8, 1, 0)   -- ADDR_FMT_1
  | 0x2 | 0x3 => (8, ADDR_UNCOMPRESSED, 1, 1, 0)   -- 4_4, 3_3_2
  | 0xC => (16, ADDR_UNCOMPRESSED, 1, 1, 0)   -- 5_5_5_1
  | 0x11 | 0x12 | 0x16 | 0x18 | 0x1B | 0x29 | 0x2A | 0x2B =>
    (32, ADDR_UNCOMPRESSED, 1, 1, 0)   -- 8_24 ... 5_9_9_9_SHAREDEXP
  | 0x1C => (64, ADDR_UNCOMPRESSED, 1, 1, 24)   -- ADDR_FMT_X24_8_32_FLOAT
  | 0x2C => (24, ADDR_EXPANDED, 3, 1, 0)   -- ADDR_FMT_8_8_8
  | 0x2D | 0x2E => (48, ADDR_EXPANDED, 3, 1, 0)   -- 16_16_16(_FLOAT)
  | 0x30 | 0x2F => (96, ADDR_EXPANDED, 3, 1, 0)   -- 32_32_32(_FLOAT)
  | 0x31 => (64, ADDR_PACKED_BC1, 4, 4, 0)   -- ADDR_FMT_BC1
  | 0x34 => (64, ADDR_PACKED_BC4, 4, 4, 0)   -- ADDR_FMT_BC4
  | 0x32 => (128, ADDR_PACKED_BC2, 4, 4, 0)   -- ADDR_FMT_BC2
  | 0x33 => (128, ADDR_PACKED_BC3, 4, 4, 0)   -- ADDR_FMT_BC3
  | 0x35 | 0x36 | 0x37 => (128, ADDR_PACKED_BC5, 4, 4, 0)   -- BC5, BC6, BC7
  | _ => (0, ADDR_UNCOMPRESSED, 1, 1, 0)

/-- `AddrElemLib::AdjustSurfaceInfo` (all pointers non-null); returns `(bpp, width, height)`. -/
def AdjustSurfaceInfo (elemMode : AddrElemMode) (expandX expandY bpp width height : Nat) :
    Nat × Nat × Nat :=
  let r : Nat × Bool :=
    match elemMode with
    | ADDR_EXPANDED => (bpp / expandX / expandY, false)
    | ADDR_PACKED_STD | ADDR_PACKED_REV => (u32 (expandY * expandX * bpp), false)
    | ADDR_PACKED_BC1 | ADDR_PACKED_BC4 => (64, true)
    | ADDR_PACKED_BC2 | ADDR_PACKED_BC3 | ADDR_PACKED_BC5 => (128, true)
    | _ => (bpp, false)
  let bBCnFormat := r.2
  if expandX > 1 ∨ expandY > 1 then
    let wh : Nat × Nat :=
      if elemMode = ADDR_EXPANDED then (u32 (expandX * width), u32 (expandY * height))
      else if bBCnFormat then (width / expandX, height / expandY)
      else (sub32 (u32 (width + expandX)) 1 / expandX, sub32 (u32 (height + expandY)) 1 / expandY)
    (r.1, max 1 wh.1, max 1 wh.2)
  else (r.1, width, height)

/-- `AddrElemLib::RestoreSurfaceInfo` (all pointers non-null); returns `(bpp, width, height)`. -/
def RestoreSurfaceInfo (elemMode : AddrElemMode) (expandX expandY bpp width height : Nat) :
    Nat × Nat × Nat :=
  let bpp :=
    match elemMode with
    | ADDR_EXPANDED => u32 (expandX * expandY * bpp)
    | ADDR_PACKED_STD | ADDR_PACKED_REV => bpp / expandX / expandY
    | ADDR_PACKED_BC1 | ADDR_PACKED_BC4 => 64
    | ADDR_PACKED_BC2 | ADDR_PACKED_BC3 | ADDR_PACKED_BC5 => 128
    | _ => bpp
  let wh : Nat × Nat :=
    if expandX > 1 ∨ expandY > 1 then
      if elemMode = ADDR_EXPANDED then (width / expandX, height / expandY)
      else (u32 (width * expandX), u32 (height * expandY))
    else (width, height)
  (bpp, max 1 wh.1, max 1 wh.2)

/-- `AddrElemLib::IsBlockCompressed`. -/
def IsBlockCompressed (format : Nat) : Bool :=
  decide (format ≥ ADDR_FMT_BC1 ∧ format ≤ ADDR_FMT_BC7)

/-! ## Surface sizing: records -/

/-- `ADDR_TILEINFO` (`pipeConfig` as its numeric code). -/
structure ADDR_TILEINFO where
  banks : Nat
  bankWidth : Nat
  bankHeight : Nat
  macroAspectRatio : Nat
  tileSplitBytes : Nat
  pipeConfig : Nat
  deriving DecidableEq, Repr

/-- `ADDR_QBSTEREOINFO`. -/
structure ADDR_QBSTEREOINFO where
  eyeHeight : Nat
  rightOffset : Nat
  deriving DecidableEq, Repr

/-- `ADDR_COMPUTE_SURFACE_INFO_INPUT`; an optional pointer is an `Option`. -/
structure ADDR_COMPUTE_SURFACE_INFO_INPUT where
  size : Nat
  tileMode : AddrTileMode
  format : Nat
  bpp : Nat
  numSamples : Nat
  width : Nat
  height : Nat
  numSlices : Nat
  slice : Nat
  mipLevel : Nat
  flags : ADDR_SURFACE_FLAGS
  numFrags : Nat
  pTileInfo : Option ADDR_TILEINFO
  tileType : AddrTileType
  tileIndex : Int
  deriving DecidableEq, Repr

/-- `ADDR_COMPUTE_SURFACE_INFO_OUTPUT`; an optional pointer is an `Option`. -/
structure ADDR_COMPUTE_SURFACE_INFO_OUTPUT where
  size : Nat
  pitch : Nat
  height : Nat
  depth : Nat
  surfSize : Nat
  tileMode : AddrTileMode
  baseAlign : Nat
  pitchAlign : Nat
  heightAlign : Nat
  depthAlign : Nat
  bpp : Nat
  pixelPitch : Nat
  pixelHeight : Nat
  pixelBits : Nat
  sliceSize : Nat
  pitchTileMax : Nat
  heightTileMax : Nat
  sliceTileMax : Nat
  pTileInfo : Option ADDR_TILEINFO
  tileType : AddrTileType
  tileIndex : Int
  pStereoInfo : Option ADDR_QBSTEREOINFO
  deriving DecidableEq, Repr

/-! ## Base engine: padding and mip levels (`addrlib.cpp`) -/

/-- `AddrLib::AdjustPitchAlignment`; returns the new `*pPitchAlign`. -/
def AdjustPitchAlignment (flags : ADDR_SURFACE_FLAGS) (pitchAlign : Nat) : Nat :=
  if flags.display then PowTwoAlign pitchAlign 32 else pitchAlign

/-- `AddrLib::PadDimensions`; returns the new `(*pPitch, *pHeight, *pSlices)`. -/
def PadDimensions (lib : R600AddrLib) (tileMode : AddrTileMode) (flags : ADDR_SURFACE_FLAGS)
    (padDims pitch pitchAlign height heightAlign slices sliceAlign : Nat) : Nat × Nat × Nat :=
  let thickness := ComputeSurfaceThickness tileMode
  let padDims := if padDims = 0 then 3 else padDims
  let pitch :=
    if IsPow2 pitchAlign then PowTwoAlign pitch pitchAlign
    else u32 (u32 (pitch + sub32 pitchAlign 1) / pitchAlign * pitchAlign)
  let height := if padDims > 1 then PowTwoAlign height heightAlign else height
  let slices :=
    if padDims > 2 ∨ thickness > 1 then
      let slices :=
        if flags.cube = true ∧ (lib.mConfigFlags.noCubeMipSlicesPad = false ∨
            flags.cubeAsArray = true) then NextPow2 slices
        else slices
      if thickness > 1 then PowTwoAlign slices sliceAlign else slices
    else slices
  (pitch, height, slices)

/-- `R600AddrLib::HwlComputeMipLevel`; returns the result and the updated input. -/
def HwlComputeMipLevel (pIn : ADDR_COMPUTE_SURFACE_INFO_INPUT) :
    Bool × ADDR_COMPUTE_SURFACE_INFO_INPUT :=
  if ¬ IsBlockCompressed pIn.format then (false, pIn)
  else if pIn.mipLevel > 0 then
    let whs : Nat × Nat × Nat :=
      if pIn.flags.inputBaseMap then
        (max 1 (pIn.width >>> pIn.mipLevel), max 1 (pIn.height >>> pIn.mipLevel),
          if ¬ pIn.flags.cube then max 1 (pIn.numSlices >>> pIn.mipLevel)
          else max 1 pIn.numSlices)
      else (pIn.width, pIn.height, pIn.numSlices)
    (true, { pIn with width := NextPow2 whs.1, height := NextPow2 whs.2.1,
                      numSlices := whs.2.2 })
  else (true, pIn)

/-- `AddrLib::ComputeMipLevel`; returns the updated input. -/
def ComputeMipLevel (pIn : ADDR_COMPUTE_SURFACE_INFO_INPUT) :
    ADDR_COMPUTE_SURFACE_INFO_INPUT :=
  let pIn :=
    if IsBlockCompressed pIn.format ∧ (pIn.mipLevel = 0 ∨ pIn.flags.inputBaseMap = true) then
      { pIn with width := PowTwoAlign pIn.width 4, height := PowTwoAlign pIn.height 4 }
    else pIn
  let r := HwlComputeMipLevel pIn
  let pIn := r.2
  if r.1 = false ∧ pIn.mipLevel ≠ 0 ∧ pIn.flags.inputBaseMap = true then
    let width := max 1 (pIn.width >>> pIn.mipLevel)
    let height := max 1 (pIn.height >>> pIn.mipLevel)
    let slices :=
      if ¬ pIn.flags.cube then max 1 (pIn.numSlices >>> pIn.mipLevel) else max 1 pIn.numSlices
    if pIn.format ≠ ADDR_FMT_32_32_32 ∧ pIn.format ≠ ADDR_FMT_32_32_32_FLOAT then
      { pIn with width := NextPow2 width, height := NextPow2 height,
                 numSlices := NextPow2 slices }
    else { pIn with width := width, height := height, numSlices := slices }
  else pIn

/-! ## R6xx/R7xx engine: tile-mode degradation (`r600addrlib.cpp`) -/

/-- `R600AddrLib::HwlDegradeThickTileMode`. -/
def HwlDegradeThickTileMode (lib : R600AddrLib) (tileMode : AddrTileMode)
    (numSamples tileSlices : Nat) (isDepth : Bool) : AddrTileMode :=
  match tileMode with
  | ADDR_TM_1D_TILED_THIN1 =>
    if numSamples > 1 ∧ lib.mConfigFlags.no1DTiledMSAA = true then ADDR_TM_2D_TILED_THIN1
    else tileMode
  | ADDR_TM_1D_TILED_THICK =>
    let tileMode :=
      if numSamples > 1 ∨ isDepth = true then ADDR_TM_1D_TILED_THIN1 else tileMode
    if numSamples = 2 ∨ numSamples = 4 then ADDR_TM_2D_TILED_THICK else tileMode
  | ADDR_TM_2D_TILED_THIN2 =>
    if u32 (2 * lib.mPipeInterleaveBytes) > lib.mSplitSize then ADDR_TM_2D_TILED_THIN1
    else tileMode
  | ADDR_TM_2D_TILED_THIN4 =>
    if u32 (4 * lib.mPipeInterleaveBytes) > lib.mSplitSize then ADDR_TM_2D_TILED_THIN2
    else tileMode
  | ADDR_TM_2D_TILED_THICK =>
    if numSamples > 1 ∨ tileSlices > 1 ∨ isDepth = true then ADDR_TM_2D_TILED_THIN1
    else tileMode
  | ADDR_TM_2B_TILED_THIN2 =>
    if u32 (2 * lib.mPipeInterleaveBytes) > lib.mSplitSize then ADDR_TM_2B_TILED_THIN1
    else tileMode
  | ADDR_TM_2B_TILED_THIN4 =>
    if u32 (4 * lib.mPipeInterleaveBytes) > lib.mSplitSize then ADDR_TM_2B_TILED_THIN2
    else tileMode
  | ADDR_TM_2B_TILED_THICK =>
    if numSamples > 1 ∨ tileSlices > 1 ∨ isDepth = true then ADDR_TM_2B_TILED_THIN1
    else tileMode
  | ADDR_TM_3D_TILED_THICK =>
    if numSamples > 1 ∨ tileSlices > 1 ∨ isDepth = true then ADDR_TM_3D_TILED_THIN1
    else tileMode
  | ADDR_TM_3B_TILED_THICK =>
    if numSamples > 1 ∨ tileSlices > 1 ∨ isDepth = true then ADDR_TM_3B_TILED_THIN1
    else tileMode
  | _ => tileMode

/-- `R600AddrLib::ComputeSurfaceMipLevelTileMode` up to its first `return`: the whole
function when `noRecursive || level == 0`. It reads neither the level nor the dimensions. -/
def ComputeSurfaceMipLevelTileModeNoRecursive (lib : R600AddrLib)
    (baseTileMode : AddrTileMode) (bpp numSamples : Nat) (isDepth : Bool) : AddrTileMode :=
  let tileSlices := ComputeSurfaceTileSlices lib baseTileMode bpp numSamples
  let tileMode := HwlDegradeThickTileMode lib baseTileMode numSamples tileSlices isDepth
  let rotation := ComputeSurfaceRotationFromTileMode lib tileMode
  if rotation % lib.mPipes = 0 then
    match tileMode with
    | ADDR_TM_3D_TILED_THIN1 => ADDR_TM_2D_TILED_THIN1
    | ADDR_TM_3D_TILED_THICK => ADDR_TM_2D_TILED_THICK
    | ADDR_TM_3B_TILED_THIN1 => ADDR_TM_2B_TILED_THIN1
    | ADDR_TM_3B_TILED_THICK => ADDR_TM_2B_TILED_THICK
    | _ => tileMode
  else tileMode

/-- `R600AddrLib::ComputeSurfaceMipLevelTileMode`. The one nested call passes
`noRecursive = true`, so it ends at the first `return` of the callee. -/
def ComputeSurfaceMipLevelTileMode (lib : R600AddrLib) (baseTileMode : AddrTileMode)
    (bpp level width height numSlices numSamples : Nat) (isDepth noRecursive : Bool) :
    AddrTileMode :=
  let tileMode := ComputeSurfaceMipLevelTileModeNoRecursive lib baseTileMode bpp numSamples isDepth
  if noRecursive = true ∨ level = 0 then tileMode
  else
    let bpp := if bpp = 96 ∨ bpp = 48 ∨ bpp = 24 then bpp / 3 else bpp
    let width := NextPow2 width
    let height := NextPow2 height
    let numSlices := NextPow2 numSlices
    let tileMode := ConvertToNonBankSwappedMode tileMode
    let thickness := ComputeSurfaceThickness tileMode
    let microTileBytes := BITS_TO_BYTES32 (u32 (numSamples * bpp * thickness * 64))
    let widthAlignFactor :=
      if microTileBytes ≤ lib.mPipeInterleaveBytes then lib.mPipeInterleaveBytes / microTileBytes
      else 1
    let macroTileWidth := u32 (8 * lib.mBanks)
    let macroTileHeight := u32 (8 * lib.mPipes)
    let tileMode :=
      match tileMode with
      | ADDR_TM_2D_TILED_THIN1
      | ADDR_TM_3D_TILED_THIN1 =>
        if width < u32 (widthAlignFactor * macroTileWidth) ∨ height < macroTileHeight then
          ADDR_TM_1D_TILED_THIN1
        else tileMode
      | ADDR_TM_2D_TILED_THIN2 =>
        let macroTileWidth := macroTileWidth >>> 1
        let macroTileHeight := u32 (macroTileHeight * 2)
        if width < u32 (widthAlignFactor * macroTileWidth) ∨ height < macroTileHeight then
          ADDR_TM_1D_TILED_THIN1
        else tileMode
      | ADDR_TM_2D_TILED_THIN4 =>
        let macroTileWidth := macroTileWidth >>> 2
        let macroTileHeight := u32 (macroTileHeight * 4)
        if width < u32 (widthAlignFactor * macroTileWidth) ∨ height < macroTileHeight then
          ADDR_TM_1D_TILED_THIN1
        else tileMode
      | ADDR_TM_2D_TILED_THICK
      | ADDR_TM_3D_TILED_THICK =>
        if width < u32 (widthAlignFactor * macroTileWidth) ∨ height < macroTileHeight then
          ADDR_TM_1D_TILED_THICK
        else tileMode
      | _ => tileMode
    let tileMode :=
      if tileMode = ADDR_TM_1D_TILED_THICK then
        if numSlices < 4 then ADDR_TM_1D_TILED_THIN1 else tileMode
      else if tileMode = ADDR_TM_2D_TILED_THICK then
        if numSlices < 4 then ADDR_TM_2D_TILED_THIN1 else tileMode
      else if tileMode = ADDR_TM_3D_TILED_THICK then
        if numSlices < 4 then ADDR_TM_3D_TILED_THIN1 else tileMode
      else tileMode
    ComputeSurfaceMipLevelTileModeNoRecursive lib tileMode bpp numSamples isDepth

/-! ## R6xx/R7xx engine: alignments (`r600addrlib.cpp`) -/

/-- `R600AddrLib::ComputeSurfaceAlignmentsLinear`;
returns `(baseAlign, pitchAlign, heightAlign)`. -/
def ComputeSurfaceAlignmentsLinear (lib : R600AddrLib) (tileMode : AddrTileMode) (bpp : Nat)
    (flags : ADDR_SURFACE_FLAGS) : Nat × Nat × Nat :=
  let r : Nat × Nat × Nat :=
    match tileMode with
    | ADDR_TM_LINEAR_GENERAL => (1, if bpp ≠ 1 then 1 else 8, 1)
    | ADDR_TM_LINEAR_ALIGNED =>
      (lib.mPipeInterleaveBytes, max 64 (u32 (8 * lib.mPipeInterleaveBytes) / bpp), 1)
    | _ => (1, 1, 1)
  (r.1, AdjustPitchAlignment flags r.2.1, r.2.2)

/-- `R600AddrLib::ComputeSurfaceAlignmentsMicrotiled`;
returns `(baseAlign, pitchAlign, heightAlign)`. -/
def ComputeSurfaceAlignmentsMicrotiled (lib : R600AddrLib) (tileMode : AddrTileMode)
    (bpp : Nat) (flags : ADDR_SURFACE_FLAGS) (numSamples : Nat) : Nat × Nat × Nat :=
  let bpp := if bpp = 96 ∨ bpp = 48 ∨ bpp = 24 then bpp / 3 else bpp
  let microTileThickness := ComputeSurfaceThickness tileMode
  let pitchAlignment := lib.mPipeInterleaveBytes / bpp / numSamples / microTileThickness
  (lib.mPipeInterleaveBytes, AdjustPitchAlignment flags (max 8 pitchAlignment), 8)

/-- `R600AddrLib::IsDualBaseAlignNeeded`. -/
def IsDualBaseAlignNeeded (lib : R600AddrLib) (tileMode : AddrTileMode) : Bool :=
  decide (lib.mChipFamily = ADDR_CHIP_FAMILY_R6XX ∧
    tileMode.toNat > ADDR_TM_1D_TILED_THICK.toNat)

/-- `R600AddrLib::ComputeSurfaceAlignmentsMacrotiled`;
returns `(baseAlign, pitchAlign, heightAlign, macroWidth, macroHeight)`. -/
def ComputeSurfaceAlignmentsMacrotiled (lib : R600AddrLib) (tileMode : AddrTileMode)
    (bpp : Nat) (_flags : ADDR_SURFACE_FLAGS) (numSamples : Nat) :
    Nat × Nat × Nat × Nat × Nat :=
  let aspectRatio := ComputeMacroTileAspectRatio tileMode
  let thickness := ComputeSurfaceThickness tileMode
  let bpp := if bpp = 96 ∨ bpp = 48 ∨ bpp = 24 then bpp / 3 else bpp
  let bpp := if bpp = 3 then 1 else bpp
  let numBanks := lib.mBanks
  let numPipes := lib.mPipes
  let groupBytes := lib.mPipeInterleaveBytes
  let splitBytes := lib.mSplitSize
  let macroTileWidth := u32 (8 * numBanks) / aspectRatio
  let macroTileHeight := u32 (aspectRatio * 8 * numPipes)
  let pitchAlign := max macroTileWidth
    (u32 (macroTileWidth * (groupBytes / bpp / u32 (8 * thickness) / numSamples)))
  let heightAlign := macroTileHeight
  let macroTileBytes :=
    u32 (numSamples * BITS_TO_BYTES32 (u32 (bpp * macroTileHeight * macroTileWidth)))
  let macroTileBytes :=
    if lib.mChipFamily = ADDR_CHIP_FAMILY_R6XX ∧ numSamples = 1 then u32 (macroTileBytes * 2)
    else macroTileBytes
  let baseAlign :=
    if thickness = 1 then
      max macroTileBytes (BITS_TO_BYTES32 (u32 (numSamples * heightAlign * bpp * pitchAlign)))
    else
      max groupBytes (BITS_TO_BYTES32 (u32 (4 * heightAlign * bpp * pitchAlign)))
  let microTileBytes := BITS_TO_BYTES32 (u32 (thickness * numSamples * bpp * 64))
  let numSlicesPerMicroTile :=
    if microTileBytes ≥ splitBytes then microTileBytes / splitBytes else 1
  let baseAlign := baseAlign / numSlicesPerMicroTile
  let baseAlign :=
    if IsDualBaseAlignNeeded lib tileMode then
      let macroBytes := BITS_TO_BYTES32 (u32 (bpp * macroTileHeight * macroTileWidth))
      if baseAlign / macroBytes % 2 ≠ 0 then u32 (baseAlign + macroBytes) else baseAlign
    else baseAlign
  (baseAlign, pitchAlign, heightAlign, macroTileWidth, macroTileHeight)

/-- `R600AddrLib::IsDualPitchAlignNeeded`. -/
def IsDualPitchAlignNeeded (lib : R600AddrLib) (tileMode : AddrTileMode) (isDepth : Bool)
    (mipLevel : Nat) : Bool :=
  if isDepth = true ∨ mipLevel ≠ 0 ∨ lib.mChipFamily ≠ ADDR_CHIP_FAMILY_R6XX then false
  else
    match tileMode with
    | ADDR_TM_LINEAR_GENERAL
    | ADDR_TM_LINEAR_ALIGNED
    | ADDR_TM_1D_TILED_THIN1
    | ADDR_TM_1D_TILED_THICK
    | ADDR_TM_2D_TILED_THICK
    | ADDR_TM_2B_TILED_THICK
    | ADDR_TM_3D_TILED_THICK
    | ADDR_TM_3B_TILED_THICK => false
    | _ => true

/-! ## R6xx/R7xx engine: surface sizing (`r600addrlib.cpp`) -/

/-- The common opening of the three sizing routines under `if (mipLevel)`:
returns `(pitch, height, numSlices, padDims)`. -/
def MipLevelDims (pIn : ADDR_COMPUTE_SURFACE_INFO_INPUT) (pitch padDims : Nat) :
    Nat × Nat × Nat × Nat :=
  if pIn.mipLevel ≠ 0 then
    if pIn.flags.cube then
      (NextPow2 pitch, NextPow2 pIn.height, pIn.numSlices, if pIn.numSlices ≤ 1 then 2 else 0)
    else (NextPow2 pitch, NextPow2 pIn.height, NextPow2 pIn.numSlices, padDims)
  else (pitch, pIn.height, pIn.numSlices, padDims)

/-- `R600AddrLib::ComputeSurfaceInfoLinear`; the return code is always `ADDR_OK`. -/
def ComputeSurfaceInfoLinear (lib : R600AddrLib) (pIn : ADDR_COMPUTE_SURFACE_INFO_INPUT)
    (pOut : ADDR_COMPUTE_SURFACE_INFO_OUTPUT) (padDims : Nat) (tileMode : AddrTileMode) :
    ADDR_COMPUTE_SURFACE_INFO_OUTPUT :=
  let microTileThickness := ComputeSurfaceThickness tileMode
  let numSamples := pIn.numSamples
  let mipLevel := pIn.mipLevel
  let bpp := pIn.bpp
  let al := ComputeSurfaceAlignmentsLinear lib pIn.tileMode pIn.bpp pIn.flags
  let pitch :=
    if pIn.flags.linearWA = true ∧ mipLevel = 0 then NextPow2 (pIn.width / 3) else pIn.width
  let d := MipLevelDims pIn pitch padDims
  let p := PadDimensions lib tileMode pIn.flags d.2.2.2 d.1 al.2.1 d.2.1 al.2.2 d.2.2.1
    microTileThickness
  let pitch := if pIn.flags.linearWA = true ∧ mipLevel = 0 then u32 (p.1 * 3) else p.1
  let height := p.2.1
  let numSlices := p.2.2
  let slices := u32 (numSlices * numSamples) / microTileThickness
  let surfaceSize := BITS_TO_BYTES64 (u64 (height * pitch * slices * bpp * numSamples))
  { pOut with baseAlign := al.1, pitchAlign := al.2.1, heightAlign := al.2.2,
              pitch := pitch, height := height, depth := numSlices, surfSize := surfaceSize,
              depthAlign := microTileThickness, tileMode := tileMode }

/-- `R600AddrLib::ComputeSurfaceInfoMicroTiled`; the return code is always `ADDR_OK`. -/
def ComputeSurfaceInfoMicroTiled (lib : R600AddrLib) (pIn : ADDR_COMPUTE_SURFACE_INFO_INPUT)
    (pOut : ADDR_COMPUTE_SURFACE_INFO_OUTPUT) (padDims : Nat) (tileMode : AddrTileMode) :
    ADDR_COMPUTE_SURFACE_INFO_OUTPUT :=
  let numSamples := pIn.numSamples
  let mipLevel := pIn.mipLevel
  let bpp := pIn.bpp
  let d := MipLevelDims pIn pIn.width padDims
  let thin : Bool :=
    decide (mipLevel ≠ 0 ∧ tileMode = ADDR_TM_1D_TILED_THICK ∧ d.2.2.1 < 4)
  let tileMode := if thin then ADDR_TM_1D_TILED_THIN1 else tileMode
  let microTileThickness := if thin then 1 else ComputeSurfaceThickness tileMode
  let al := ComputeSurfaceAlignmentsMicrotiled lib tileMode pIn.bpp pIn.flags pIn.numSamples
  let p := PadDimensions lib tileMode pIn.flags d.2.2.2 d.1 al.2.1 d.2.1 al.2.2 d.2.2.1
    microTileThickness
  let pitch := p.1
  let height := p.2.1
  let numSlices := p.2.2
  let surfaceSize := BITS_TO_BYTES64 (u64 (height * pitch * numSlices * bpp * numSamples))
  { pOut with baseAlign := al.1, pitchAlign := al.2.1, heightAlign := al.2.2,
              pitch := pitch, height := height, depth := numSlices, surfSize := surfaceSize,
              tileMode := tileMode, depthAlign := microTileThickness }

/-- The block of `ComputeSurfaceInfoMacroTiled` that starts at
`if (IsDualPitchAlignNeeded(tileMode, pIn->flags.depth, mipLevel))`; returns the new `pitch`. -/
def DualPitchAlign (lib : R600AddrLib) (tileMode : AddrTileMode) (isDepth : Bool)
    (mipLevel bpp numSamples pitch height macroWidth macroHeight : Nat) : Nat :=
  if IsDualPitchAlignNeeded lib tileMode isDepth mipLevel then
    let tilePerGroup := (lib.mPipeInterleaveBytes >>> 3) / bpp / numSamples
    let tilePerGroup := max 1 (tilePerGroup / ComputeSurfaceThickness tileMode)
    let evenWidth := (sub32 pitch 1 / macroWidth) &&& 1
    let evenHeight := (sub32 height 1 / macroHeight) &&& 1
    if numSamples = 1 ∧ tilePerGroup = 1 ∧ evenWidth = 0 then
      if pitch > macroWidth ∨ (evenHeight = 0 ∧ height > macroHeight) then
        u32 (pitch + macroWidth)
      else pitch
    else pitch
  else pitch

/-- `R600AddrLib::ComputeSurfaceInfoMacroTiled`; the return code is always `ADDR_OK`, and
the result is `none` when the bank-swap-width loop does not terminate. -/
def ComputeSurfaceInfoMacroTiled (lib : R600AddrLib) (pIn : ADDR_COMPUTE_SURFACE_INFO_INPUT)
    (pOut : ADDR_COMPUTE_SURFACE_INFO_OUTPUT) (padDims : Nat)
    (tileMode baseTileMode : AddrTileMode) : Option ADDR_COMPUTE_SURFACE_INFO_OUTPUT :=
  let numSamples := pIn.numSamples
  let mipLevel := pIn.mipLevel
  let bpp := pIn.bpp
  let d := MipLevelDims pIn pIn.width padDims
  let pitch := d.1
  let height := d.2.1
  let numSlices := d.2.2.1
  let padDims := d.2.2.2
  let thin : Bool :=
    decide (mipLevel ≠ 0 ∧ tileMode = ADDR_TM_2D_TILED_THICK ∧ numSlices < 4)
  let tileMode := if thin then ADDR_TM_2D_TILED_THIN1 else tileMode
  let microTileThickness := if thin then 1 else ComputeSurfaceThickness tileMode
  let fallback : Bool :=
    decide (tileMode ≠ baseTileMode ∧ mipLevel ≠ 0 ∧ IsThickMacroTiled baseTileMode = true ∧
      IsThickMacroTiled tileMode = false)
  let alBase := ComputeSurfaceAlignmentsMacrotiled lib baseTileMode pIn.bpp pIn.flags
    pIn.numSamples
  let pitchAlignFactor := max 1 ((lib.mPipeInterleaveBytes >>> 3) / bpp)
  if fallback = true ∧
      (pitch < u32 (alBase.2.1 * pitchAlignFactor) ∨ height < alBase.2.2.1) then
    some (ComputeSurfaceInfoMicroTiled lib pIn
      { pOut with baseAlign := alBase.1, pitchAlign := alBase.2.1, heightAlign := alBase.2.2.1 }
      padDims ADDR_TM_1D_TILED_THIN1)
  else
    let al := ComputeSurfaceAlignmentsMacrotiled lib tileMode pIn.bpp pIn.flags pIn.numSamples
    let macroWidth := al.2.2.2.1
    let macroHeight := al.2.2.2.2
    match ComputeSurfaceBankSwappedWidth lib tileMode bpp numSamples pitch with
    | none => none
    | some bankSwappedWidth =>
      let pitchAlign := max al.2.1 bankSwappedWidth
      let pitch := DualPitchAlign lib tileMode pIn.flags.depth mipLevel bpp numSamples pitch
        height macroWidth macroHeight
      let p := PadDimensions lib tileMode pIn.flags padDims pitch pitchAlign height al.2.2.1
        numSlices microTileThickness
      let pitch := p.1
      let height := p.2.1
      let numSlices := p.2.2
      let surfaceSize := BITS_TO_BYTES64 (u64 (height * pitch * numSlices * bpp * numSamples))
      some { pOut with baseAlign := al.1, heightAlign := al.2.2.1,
                       pitch := pitch, height := height, depth := numSlices,
                       surfSize := surfaceSize, tileMode := tileMode, pitchAlign := pitchAlign,
                       depthAlign := microTileThickness }

/-- `R600AddrLib::HwlComputeSurfaceInfo`; returns the code and the output record. -/
def HwlComputeSurfaceInfo (lib : R600AddrLib) (pIn : ADDR_COMPUTE_SURFACE_INFO_INPUT)
    (pOut : ADDR_COMPUTE_SURFACE_INFO_OUTPUT) :
    Option (ADDR_E_RETURNCODE × ADDR_COMPUTE_SURFACE_INFO_OUTPUT) :=
  let numSamples := max 1 pIn.numSamples
  let padDims := if pIn.flags.cube = true ∧ pIn.mipLevel = 0 then 2 else 0
  let tileMode :=
    if pIn.flags.fmask then ConvertToNonBankSwappedMode pIn.tileMode
    else ComputeSurfaceMipLevelTileMode lib pIn.tileMode pIn.bpp pIn.mipLevel pIn.width
      pIn.height pIn.numSlices numSamples pIn.flags.depth false
  match tileMode with
  | ADDR_TM_LINEAR_GENERAL
  | ADDR_TM_LINEAR_ALIGNED =>
    some (ADDR_OK, ComputeSurfaceInfoLinear lib pIn pOut padDims tileMode)
  | ADDR_TM_1D_TILED_THIN1
  | ADDR_TM_1D_TILED_THICK =>
    some (ADDR_OK, ComputeSurfaceInfoMicroTiled lib pIn pOut padDims tileMode)
  | ADDR_TM_2D_TILED_THIN1
  | ADDR_TM_2D_TILED_THIN2
  | ADDR_TM_2D_TILED_THIN4
  | ADDR_TM_2D_TILED_THICK
  | ADDR_TM_2B_TILED_THIN1
  | ADDR_TM_2B_TILED_THIN2
  | ADDR_TM_2B_TILED_THIN4
  | ADDR_TM_2B_TILED_THICK
  | ADDR_TM_3D_TILED_THIN1
  | ADDR_TM_3D_TILED_THICK
  | ADDR_TM_3B_TILED_THIN1
  | ADDR_TM_3B_TILED_THICK =>
    (ComputeSurfaceInfoMacroTiled lib pIn pOut padDims tileMode pIn.tileMode).map
      fun o => (ADDR_OK, o)
  | _ => some (ADDR_INVALIDPARAMS, pOut)

/-! ## Base engine: the sizing entry point (`addrlib.cpp`) -/

def TILEINDEX_INVALID : Int := -1

/-- `AddrLib::UseTileIndex`. -/
def UseTileIndex (lib : R600AddrLib) (tileIndex : Int) : Bool :=
  lib.mConfigFlags.useTileIndex && decide (tileIndex ≠ TILEINDEX_INVALID)

/-- `AddrLib::ComputeQbStereoInfo` when `pOut->pStereoInfo` is present. -/
def ComputeQbStereoInfo (pOut : ADDR_COMPUTE_SURFACE_INFO_OUTPUT) :
    ADDR_COMPUTE_SURFACE_INFO_OUTPUT :=
  match pOut.pStereoInfo with
  | none => pOut
  | some _ =>
    { pOut with pStereoInfo := some ⟨pOut.height, u32 pOut.surfSize⟩,
                height := u32 (pOut.height <<< 1),
                pixelHeight := u32 (pOut.pixelHeight <<< 1),
                surfSize := u64 (pOut.surfSize <<< 1) }

/-- The closing block of `AddrLib::ComputeSurfaceInfo`, entered when the hardware layer
returned `ADDR_OK`; `bpp` is the function-scope local (the request's `bpp` before the
format adjustment) and `size_t` is taken to be 64 bits wide. -/
def ComputeSurfaceInfoFinish (lib : R600AddrLib) (pIn : ADDR_COMPUTE_SURFACE_INFO_INPUT)
    (pOut : ADDR_COMPUTE_SURFACE_INFO_OUTPUT) (elem : Nat × AddrElemMode × Nat × Nat × Nat)
    (bpp : Nat) : ADDR_COMPUTE_SURFACE_INFO_OUTPUT :=
  let sliceFlags := lib.mConfigFlags.sliceSizeComputing
  let pOut := { pOut with bpp := pIn.bpp, pixelPitch := pOut.pitch, pixelHeight := pOut.height }
  let pOut :=
    if pIn.format ≠ ADDR_FMT_INVALID ∧ (pIn.flags.linearWA = false ∨ pIn.mipLevel = 0) then
      let r := RestoreSurfaceInfo elem.2.1 elem.2.2.1 elem.2.2.2.1 bpp pOut.pixelPitch
        pOut.pixelHeight
      { pOut with pixelPitch := r.2.1, pixelHeight := r.2.2 }
    else pOut
  let pOut :=
    if pIn.flags.qbStereo = true ∧ pOut.pStereoInfo.isSome = true then ComputeQbStereoInfo pOut
    else pOut
  let pOut :=
    if sliceFlags ≠ 0 then
      if sliceFlags = 1 then
        let bits := u64 (pOut.height * pOut.pitch * pOut.bpp * pIn.numSamples)
        { pOut with sliceSize := u32 (BITS_TO_BYTES64 bits) }
      else pOut
    else if pIn.flags.volume then { pOut with sliceSize := u32 pOut.surfSize }
    else
      let sliceSize := u32 (pOut.surfSize / pOut.depth)
      let sliceSize :=
        if pIn.numSlices > 1 ∧ pIn.slice = sub32 pIn.numSlices 1 then
          u32 (sliceSize + sliceSize * sub32 pOut.depth pIn.numSlices)
        else sliceSize
      { pOut with sliceSize := sliceSize }
  { pOut with pitchTileMax := sub32 (pOut.pitch / 8) 1,
              heightTileMax := sub32 (pOut.height / 8) 1,
              sliceTileMax := sub32 (u32 (pOut.pitch * (pOut.height / 64))) 1 }

/-- `AddrLib::ComputeSurfaceInfo`; returns the code and the updated request and response.
`sizeIn` and `sizeOut` stand for `sizeof(ADDR_COMPUTE_SURFACE_INFO_INPUT)` and
`sizeof(ADDR_COMPUTE_SURFACE_INFO_OUTPUT)`. `HwlSetupTileCfg` returns `ADDR_OK` and changes
nothing. -/
def ComputeSurfaceInfo (lib : R600AddrLib) (sizeIn sizeOut : Nat)
    (pIn : ADDR_COMPUTE_SURFACE_INFO_INPUT) (pOut : ADDR_COMPUTE_SURFACE_INFO_OUTPUT) :
    Option (ADDR_E_RETURNCODE × ADDR_COMPUTE_SURFACE_INFO_INPUT ×
      ADDR_COMPUTE_SURFACE_INFO_OUTPUT) :=
  let returnCode :=
    if lib.mConfigFlags.fillSizeFields = true ∧ (pIn.size ≠ sizeIn ∨ pOut.size ≠ sizeOut) then
      ADDR_PARAMSIZEMISMATCH
    else ADDR_OK
  let returnCode := if pIn.bpp > 128 then ADDR_INVALIDPARAMS else returnCode
  if returnCode ≠ ADDR_OK then some (returnCode, pIn, pOut)
  else
    let pIn := ComputeMipLevel pIn
    let width := pIn.width
    let height := pIn.height
    let bpp := pIn.bpp
    let tileInfoNull : ADDR_TILEINFO := ⟨0, 0, 0, 0, 0, 0⟩
    let useNull : Bool := UseTileIndex lib pIn.tileIndex && pIn.pTileInfo.isNone
    let pIn :=
      { pIn with pTileInfo :=
          if useNull then (if pOut.pTileInfo.isSome then pOut.pTileInfo else some tileInfoNull)
          else pIn.pTileInfo }
    let pOut :=
      { pOut with pTileInfo :=
          if useNull = true ∧ pOut.pTileInfo.isNone = true then some tileInfoNull
          else pOut.pTileInfo }
    let pOut := { pOut with pixelBits := pIn.bpp }
    let elem := GetBitsPerPixel pIn.format
    if pIn.format ≠ ADDR_FMT_INVALID ∨ pIn.bpp ≠ 0 then
      let pIn :=
        if pIn.format ≠ ADDR_FMT_INVALID then
          let pIn :=
            if elem.2.1 = ADDR_EXPANDED ∧ elem.2.2.1 = 3 ∧
                pIn.tileMode = ADDR_TM_LINEAR_ALIGNED then
              let flags := pIn.flags
              { pIn with flags := { flags with linearWA := true } }
            else pIn
          let a := AdjustSurfaceInfo elem.2.1 elem.2.2.1 elem.2.2.2.1 elem.1 width height
          { pIn with width := a.2.1, height := a.2.2, bpp := a.1 }
        else { pIn with width := max 1 pIn.width, height := max 1 pIn.height }
      match HwlComputeSurfaceInfo lib pIn pOut with
      | none => none
      | some (ADDR_OK, pOut) =>
        some (ADDR_OK, pIn, ComputeSurfaceInfoFinish lib pIn pOut elem bpp)
      | some (code, pOut) => some (code, pIn, pOut)
    else some (ADDR_INVALIDPARAMS, pIn, pOut)

/-! ## The formulas of the specification, written from its words -/

/-- Number with the given binary digits, least significant first. -/
def ofBits : List Bool → Nat
  | [] => 0
  | b :: bs => b.toNat + 2 * ofBits bs

/-- Pipe of a coordinate as section 4.4 of the specification gives it
("Pipe / bank XOR networks"), bit 0 first. -/
def pipeSpec (pipes x y : Nat) : Nat :=
  let xb := fun i => x.testBit i
  let yb := fun i => y.testBit i
  if pipes = 1 then 0
  else if pipes = 2 then ofBits [xor (yb 3) (xb 3)]
  else if pipes = 4 then ofBits [xor (yb 3) (xb 4), xor (yb 4) (xb 3)]
  else ofBits [xor (yb 3) (xb 5), xor (xor (yb 4) (xb 5)) (xb 4), xor (yb 5) (xb 3)]

/-- Bank of a coordinate as section 4.4 of the specification gives it
("Pipe / bank XOR networks"), bit 0 first, with `tx = x / banks` and `ty = y / pipes`. -/
def bankSpec (pipes banks : Nat) (optimalBankSwap : Bool) (x y : Nat) : Nat :=
  let xb := fun i => x.testBit i
  let txb := fun i => (x / banks).testBit i
  let tyb := fun i => (y / pipes).testBit i
  let opt : Bool := optimalBankSwap && decide (pipes = 8)
  if banks = 4 then
    ofBits [xor (xor (tyb 4) (xb 3)) (opt && xb 5), xor (tyb 3) (xb 4)]
  else
    ofBits [xor (xor (tyb 5) (xb 3)) (opt && txb 3), xor (xor (tyb 5) (tyb 4)) (xb 4),
      xor (tyb 3) (xb 5)]

/-- Pixel index inside a micro tile as section 4.3 of the specification lists it
("Intra-micro-tile pixel index"), bit 0 first. `ADDR_DEPTH_SAMPLE_ORDER` is not listed
there; the last case gives it the displayable layout, as the code does. -/
def pixelIndexSpec (x y z bpp thickness : Nat) (tileType : AddrTileType) : Nat :=
  let x0 := x.testBit 0
  let x1 := x.testBit 1
  let x2 := x.testBit 2
  let y0 := y.testBit 0
  let y1 := y.testBit 1
  let y2 := y.testBit 2
  let z0 := z.testBit 0
  let z1 := z.testBit 1
  let z2 := z.testBit 2
  let zLow : List Bool := if thickness > 1 then [z0, z1] else [false, false]
  let zHigh : List Bool := if thickness = 8 then [z2] else [false]
  match tileType with
  | ADDR_THICK_TILING => ofBits ([x0, y0, z0, x1, y1, z1, x2, y2] ++ zHigh)
  | ADDR_NON_DISPLAYABLE => ofBits ([x0, y0, x1, y1, x2, y2] ++ zLow ++ zHigh)
  | _ =>
    if bpp = 8 then ofBits ([x0, x1, x2, y1, y0, y2] ++ zLow ++ zHigh)
    else if bpp = 16 then ofBits ([x0, x1, x2, y0, y1, y2] ++ zLow ++ zHigh)
    else if bpp = 64 then ofBits ([x0, y0, x1, x2, y1, y2] ++ zLow ++ zHigh)
    else if bpp = 128 then ofBits ([y0, x0, x1, x2, y1, y2] ++ zLow ++ zHigh)
    else ofBits ([x0, x1, y0, x2, y1, y2] ++ zLow ++ zHigh)

/-- Bit offset of a pixel in a linear surface, by the closed form of section 4.3. -/
def linearAddrBits (x y slice sample bpp pitch height numSlices : Nat) : Nat :=
  ((slice + sample * numSlices) * pitch * height + y * pitch + x) * bpp

/-- The micro-tiled address of section 4.4 ("Micro-tiled address"), every product taken
without wraparound; returns `(addr, bitPosition)`. -/
def microTiledAddrSpec (x y slice bpp pitch height thickness pixelIndex : Nat) : Nat × Nat :=
  let microTileBytes := (64 * thickness * bpp + 7) / 8
  (microTileBytes * (x / 8 + (y / 8) * (pitch / 8)) +
      (slice / thickness) * ((pitch * height * thickness * bpp + 7) / 8) +
      (bpp * pixelIndex) / 8,
    (bpp * pixelIndex) % 8)

/-- The quantity `T` of the macro-tiled address:
`elemOffset + (macroTileOffset + sliceOffset) / (pipes * banks)`, without wraparound. -/
def MacroTiledParts.T (lib : R600AddrLib) (p : MacroTiledParts) : Nat :=
  p.elemOffset + (p.macroTileOffset + p.sliceOffset) / (lib.mPipes * lib.mBanks)

/-- The macro-tile width and height of section 4.4 for a tile mode. -/
def macroTileDims (lib : R600AddrLib) (tileMode : AddrTileMode) : Nat × Nat :=
  (8 * lib.mBanks / ComputeMacroTileAspectRatio tileMode,
    ComputeMacroTileAspectRatio tileMode * 8 * lib.mPipes)

/-- The `widthAlignFactor` of the tile-mode degradation for a thin mode and one sample, from
section 4.4 of the specification: `max(1, pipeInterleave / microTileBytes)` with
`microTileBytes = thickness * samples * bpp * 8` and a three-component `bpp` divided by 3. -/
def mipWidthAlignFactorSpec (pipeInterleaveBytes bpp : Nat) : Nat :=
  let bpp := if bpp = 96 ∨ bpp = 48 ∨ bpp = 24 then bpp / 3 else bpp
  max 1 (pipeInterleaveBytes / (1 * 1 * bpp * 8))

/-! ## Auxiliary predicates -/

/-- The alignment invariant of a sizing result: pitch, height and depth are multiples of
the pitch, height and depth alignments. -/
def ADDR_COMPUTE_SURFACE_INFO_OUTPUT.Aligned (o : ADDR_COMPUTE_SURFACE_INFO_OUTPUT) : Prop :=
  o.pitch % o.pitchAlign = 0 ∧ o.height % o.heightAlign = 0 ∧ o.depth % o.depthAlign = 0

/-- An R7xx instance: 4 pipes, 4 banks, 256-byte interleave, 2 KiB rows, 256-byte bank swap,
2 KiB sample split (the geometry of scenario 4 of the specification). -/
def exampleLib : R600AddrLib :=
  ⟨ADDR_CHIP_FAMILY_R7XX, ⟨false, false, true, false, 0, false, false, false⟩,
    4, 4, 256, 2048, 256, 2048⟩

/-- An R6xx instance with 8 pipes, 8 banks and optimal bank swap. -/
def exampleLibR6 : R600AddrLib :=
  ⟨ADDR_CHIP_FAMILY_R6XX, ⟨false, true, true, true, 0, false, false, false⟩,
    8, 8, 512, 4096, 512, 4096⟩

/-- An R7xx instance with one pipe and four banks. -/
def exampleLibOnePipe : R600AddrLib :=
  ⟨ADDR_CHIP_FAMILY_R7XX, ⟨false, false, true, false, 0, false, false, false⟩,
    1, 4, 256, 1024, 128, 1024⟩

/-- A linear-aligned address request: pixel (5, 3) of slice 1 in a 128 x 16 x 4 surface
with 32 bits per pixel. -/
def exampleLinearAddrIn : ADDR_COMPUTE_SURFACE_ADDRFROMCOORD_INPUT :=
  ⟨0, 5, 3, 1, 0, 32, 128, 16, 4, 1, ADDR_TM_LINEAR_ALIGNED, false, 0, 0, 0, 0, 0,
    ADDR_DISPLAYABLE, -1⟩

/-- An all-zero address response record. -/
def exampleAddrOut : ADDR_COMPUTE_SURFACE_ADDRFROMCOORD_OUTPUT := ⟨0, 0, 0⟩

/-- An all-zero sizing response record without tile-info and stereo-info outputs. -/
def exampleSurfOut : ADDR_COMPUTE_SURFACE_INFO_OUTPUT :=
  ⟨0, 0, 0, 0, 0, ADDR_TM_LINEAR_GENERAL, 0, 0, 0, 0, 0, 0, 0, 0, 0, 0, 0, 0, none,
    ADDR_DISPLAYABLE, 0, none⟩

/-- A sizing request at mip level 0 with no format, no surface flag and one slice. -/
def exampleSurfIn (tileMode : AddrTileMode) (bpp numSamples width height : Nat) :
    ADDR_COMPUTE_SURFACE_INFO_INPUT :=
  ⟨0, tileMode, ADDR_FMT_INVALID, bpp, numSamples, width, height, 1, 0, 0,
    ADDR_SURFACE_FLAGS.none, 0, none, ADDR_DISPLAYABLE, -1⟩

/-- What `HwlComputeSurfaceInfo` writes for a 100 x 100 surface of 32 bits per pixel in a
macro-tiled mode on `exampleLib`, for the given mode and pitch alignment. -/
def exampleMacroOut (tileMode : AddrTileMode) (pitchAlign : Nat) :
    ADDR_COMPUTE_SURFACE_INFO_OUTPUT :=
  ⟨0, 128, 128, 1, 65536, tileMode, 4096, pitchAlign, 32, 1, 0, 0, 0, 0, 0, 0, 0, 0, none,
    ADDR_DISPLAYABLE, 0, none⟩

/-- Scenario 3 of the specification: base mode `2D_TILED_THIN1`, 16 x 16, 32 bits per pixel,
one sample, mip level 3 with `inputBaseMap`. -/
def scenario3In : ADDR_COMPUTE_SURFACE_INFO_INPUT :=
  ⟨0, ADDR_TM_2D_TILED_THIN1, ADDR_FMT_INVALID, 32, 1, 16, 16, 1, 0, 3,
    { ADDR_SURFACE_FLAGS.none with inputBaseMap := true }, 0, none, ADDR_DISPLAYABLE, -1⟩

/-! ## R6xx/R7xx engine: register decoding and swizzle extraction (`r600addrlib.cpp`) -/

/-- `GB_TILING_CONFIG`: the bit fields of the register value, allocated from the least
significant bit (one unnamed bit first). -/
structure GB_TILING_CONFIG where
  pipe_tiling : Nat
  bank_tiling : Nat
  group_size : Nat
  row_tiling : Nat
  bank_swaps : Nat
  sample_split : Nat
  backend_map : Nat
  deriving DecidableEq, Repr

/-- Reading the union `GB_TILING_CONFIG` through its member `value`. -/
def GB_TILING_CONFIG.ofValue (value : Nat) : GB_TILING_CONFIG :=
  ⟨(value >>> 1) % 2 ^ 3, (value >>> 4) % 2 ^ 2, (value >>> 6) % 2 ^ 2, (value >>> 8) % 2 ^ 3,
    (value >>> 11) % 2 ^ 3, (value >>> 14) % 2 ^ 2, (value >>> 16) % 2 ^ 16⟩

/-- The `switch (reg.pipe_tiling)` of `DecodeGbRegs`, on the pair `(valid, instance)`. -/
def DecodePipeTiling (s : Bool × R600AddrLib) (pipe_tiling : Nat) : Bool × R600AddrLib :=
  match pipe_tiling with
  | 0 => (s.1, { s.2 with mPipes := 1 })
  | 1 => (s.1, { s.2 with mPipes := 2 })
  | 2 => (s.1, { s.2 with mPipes := 4 })
  | 3 => (s.1, { s.2 with mPipes := 8 })
  | _ => (false, s.2)

/-- The `switch (reg.bank_tiling)` of `DecodeGbRegs`. -/
def DecodeBankTiling (s : Bool × R600AddrLib) (bank_tiling : Nat) : Bool × R600AddrLib :=
  match bank_tiling with
  | 0 => (s.1, { s.2 with mBanks := 4 })
  | 1 => (s.1, { s.2 with mBanks := 8 })
  | _ => (false, s.2)

/-- The `switch (reg.group_size)` of `DecodeGbRegs`. -/
def DecodeGroupSize (s : Bool × R600AddrLib) (group_size : Nat) : Bool × R600AddrLib :=
  match group_size with
  | 0 => (s.1, { s.2 with mPipeInterleaveBytes := 256 })
  | 1 => (s.1, { s.2 with mPipeInterleaveBytes := 512 })
  | _ => (false, s.2)

/-- The `switch (reg.row_tiling)` of `DecodeGbRegs`. -/
def DecodeRowTiling (s : Bool × R600AddrLib) (row_tiling : Nat) : Bool × R600AddrLib :=
  let flags := s.2.mConfigFlags
  let swap : ADDR_CONFIG_FLAGS := { flags with optimalBankSwap := true }
  match row_tiling with
  | 0 => (s.1, { s.2 with mRowSize := 1024 })
  | 1 => (s.1, { s.2 with mRowSize := 2048 })
  | 2 => (s.1, { s.2 with mRowSize := 4096 })
  | 3 => (s.1, { s.2 with mRowSize := 8192 })
  | 4 => (s.1, { s.2 with mConfigFlags := swap, mRowSize := 1024 })
  | 5 => (s.1, { s.2 with mConfigFlags := swap, mRowSize := 2048 })
  | 6 => (s.1, { s.2 with mConfigFlags := swap, mRowSize := 4096 })
  | 7 => (s.1, { s.2 with mConfigFlags := swap, mRowSize := 8192 })
  | _ => (false, s.2)

/-- The `switch (reg.bank_swaps)` of `DecodeGbRegs`. -/
def DecodeBankSwaps (s : Bool × R600AddrLib) (bank_swaps : Nat) : Bool × R600AddrLib :=
  match bank_swaps with
  | 0 => (s.1, { s.2 with mSwapSize := 128 })
  | 1 => (s.1, { s.2 with mSwapSize := 256 })
  | 2 => (s.1, { s.2 with mSwapSize := 512 })
  | 3 => (s.1, { s.2 with mSwapSize := 1024 })
  | _ => (false, s.2)

/-- The `switch (reg.sample_split)` of `DecodeGbRegs`. -/
def DecodeSampleSplit (s : Bool × R600AddrLib) (sample_split : Nat) : Bool × R600AddrLib :=
  match sample_split with
  | 0 => (s.1, { s.2 with mSplitSize := 1024 })
  | 1 => (s.1, { s.2 with mSplitSize := 2048 })
  | 2 => (s.1, { s.2 with mSplitSize := 4096 })
  | 3 => (s.1, { s.2 with mSplitSize := 8192 })
  | _ => (false, s.2)

/-- `R600AddrLib::DecodeGbRegs`; returns `valid` and the instance with the members that the
six switches assigned, in the order of the source. -/
def DecodeGbRegs (lib : R600AddrLib) (gbAddrConfig : Nat) : Bool × R600AddrLib :=
  let reg := GB_TILING_CONFIG.ofValue gbAddrConfig
  let s : Bool × R600AddrLib := (true, lib)
  let s := DecodePipeTiling s reg.pipe_tiling
  let s := DecodeBankTiling s reg.bank_tiling
  let s := DecodeGroupSize s reg.group_size
  let s := DecodeRowTiling s reg.row_tiling
  let s := DecodeBankSwaps s reg.bank_swaps
  DecodeSampleSplit s reg.sample_split

/-- `R600AddrLib::ExtractBankPipeSwizzle`; returns `(*pBankSwizzle, *pPipeSwizzle)`. -/
def ExtractBankPipeSwizzle (lib : R600AddrLib) (base256b : Nat) : Nat × Nat :=
  let bankMask := sub32 (u32 (1 <<< Log2 lib.mBanks)) 1
  let pipeMask := sub32 (u32 (1 <<< Log2 lib.mPipes)) 1
  let groupBytes := lib.mPipeInterleaveBytes
  let pipeSwizzle := (base256b / (groupBytes >>> 8)) &&& pipeMask
  let bankSwizzle := (base256b / (groupBytes >>> 8) / lib.mPipes) &&& bankMask
  (bankSwizzle, pipeSwizzle)

/-! ## HTILE sizing (`addrlib.cpp`, `r600addrlib.cpp`) -/

/-- Subtraction of 64-bit unsigned values, wrapping around. -/
def sub64 (a b : Nat) : Nat := u64 (a + (2 ^ 64 - u64 b))

/-- `PowTwoAlign<uint64_t>(x, align)`: `(x + (align - 1)) & ~(align - 1)`. -/
def PowTwoAlign64 (x align : Nat) : Nat :=
  u64 (x + sub64 align 1) &&& not64 (sub64 align 1)

/-- `R600AddrLib::HwlComputeHtileBpp`. -/
def HwlComputeHtileBpp (isWidth8 isHeight8 : Bool) : Nat :=
  let htileX := if isWidth8 then 1 else 2
  let htileY := if isHeight8 then 1 else 2
  htileX * htileY * 32

/-- `R600AddrLib::HwlComputeHtileBaseAlign`. -/
def HwlComputeHtileBaseAlign (lib : R600AddrLib) (isLinear : Bool) (pipes : Nat) : Nat :=
  let align := u32 (pipes * lib.mPipeInterleaveBytes)
  if isLinear then max align (BITS_TO_BYTES32 (u32 (pipes * HtileCacheBits))) else align

/-- `R600AddrLib::HwlComputeHtileBytes`. -/
def HwlComputeHtileBytes (lib : R600AddrLib) (pitch height bpp : Nat) (isLinear : Bool)
    (numSlices baseAlign : Nat) : Nat :=
  let htileCacheLineSize := BITS_TO_BYTES32 HtileCacheBits
  let sliceBytes := BITS_TO_BYTES64 (u64 (height * pitch * bpp * numSlices) / 0x40)
  let htileBytes := PowTwoAlign64 sliceBytes (u32 (lib.mPipes * htileCacheLineSize))
  if isLinear then PowTwoAlign64 htileBytes baseAlign else htileBytes

/-- `AddrLib::HwlComputeTileDataWidthAndHeightLinear`;
returns `(*pMacroWidth, *pMacroHeight)`. -/
def HwlComputeTileDataWidthAndHeightLinear (lib : R600AddrLib) (bpp : Nat) : Nat × Nat :=
  ((8 * 512) / bpp, u32 (8 * lib.mPipes))

/-- The loop of `ComputeTileDataWidthAndHeight`:
`while ((width > height * 2 * pipes) && !(width & 1)) { width /= 2; height *= 2; }`;
returns `(width, height)`. A 32-bit `width` is zero after 32 halvings. -/
def TileDataLoop : Nat → Nat → Nat → Nat → Nat × Nat
  | 0, width, height, _ => (width, height)
  | fuel + 1, width, height, pipes =>
    if width > u32 (height * 2 * pipes) ∧ width &&& 1 = 0 then
      TileDataLoop fuel (width / 2) (u32 (height * 2)) pipes
    else (width, height)

/-- `AddrLib::ComputeTileDataWidthAndHeight`; returns `(*pMacroWidth, *pMacroHeight)`.
`GetNumPipes` returns `mPipes`. -/
def ComputeTileDataWidthAndHeight (lib : R600AddrLib) (bpp cacheBits : Nat) : Nat × Nat :=
  let pipes := lib.mPipes
  let r := TileDataLoop 33 (cacheBits / bpp) 1 pipes
  (u32 (8 * r.1), u32 (8 * r.2 * pipes))

/-- The values that `AddrLib::ComputeHtileInfo` returns and writes. -/
structure HtileInfo where
  bpp : Nat
  pitchOut : Nat
  heightOut : Nat
  htileBytes : Nat
  macroWidth : Nat
  macroHeight : Nat
  sliceBytes : Nat
  baseAlign : Nat
  deriving DecidableEq, Repr

/-- `AddrLib::ComputeHtileInfo` (the member with the out-parameters, all non-null). -/
def ComputeHtileInfo (lib : R600AddrLib) (pitchIn heightIn numSlices : Nat)
    (isLinear isWidth8 isHeight8 : Bool) : HtileInfo :=
  let pipes := lib.mPipes
  let bpp := HwlComputeHtileBpp isWidth8 isHeight8
  let tileData : Nat × Nat :=
    if isLinear then HwlComputeTileDataWidthAndHeightLinear lib bpp
    else ComputeTileDataWidthAndHeight lib bpp HtileCacheBits
  let pitchOut := PowTwoAlign pitchIn tileData.1
  let heightOut := PowTwoAlign heightIn tileData.2
  let baseAlign := HwlComputeHtileBaseAlign lib isLinear pipes
  let surfBytes := HwlComputeHtileBytes lib pitchOut heightOut bpp isLinear numSlices baseAlign
  let sliceBytes := BITS_TO_BYTES64 (u64 (heightOut * pitchOut * bpp) / 64)
  ⟨bpp, pitchOut, heightOut, surfBytes, tileData.1, tileData.2, sliceBytes, baseAlign⟩

/-- Rounding `x` up to a multiple of `a`, from the words "align_up" of the specification. -/
def alignUp (x a : Nat) : Nat := (x + (a - 1)) / a * a

/-- Quotient rounded up, from the words "ceil" of the specification. -/
def ceilDiv (x d : Nat) : Nat := (x + (d - 1)) / d

/-- A bank-swapped address request with pitch 0: pixel (0, 0) of a `2B_TILED_THIN1` surface
with 32 bits per pixel and zero swizzles. -/
def exampleZeroPitchAddrIn : ADDR_COMPUTE_SURFACE_ADDRFROMCOORD_INPUT :=
  ⟨0, 0, 0, 0, 0, 32, 0, 0, 1, 1, ADDR_TM_2B_TILED_THIN1, false, 0, 0, 0, 0, 0,
    ADDR_DISPLAYABLE, -1⟩

/-- The instance `exampleLib` created with `sliceSizeComputing = 1`. -/
def exampleLibSliceBytes : R600AddrLib :=
  ⟨ADDR_CHIP_FAMILY_R7XX, ⟨false, false, true, false, 1, false, false, false⟩,
    4, 4, 256, 2048, 256, 2048⟩

/-- A `LINEAR_ALIGNED` sizing request of 1 x 1 pixels of 3 bits with 5 slices, at mip level 0
with no format and no surface flag. -/
def exampleLinearSlicesIn : ADDR_COMPUTE_SURFACE_INFO_INPUT :=
  ⟨0, ADDR_TM_LINEAR_ALIGNED, ADDR_FMT_INVALID, 3, 1, 1, 1, 5, 0, 0,
    ADDR_SURFACE_FLAGS.none, 0, none, ADDR_DISPLAYABLE, -1⟩

/-! ## R6xx/R7xx engine: slice tile swizzle (`r600addrlib.cpp`) -/

/-- `R600AddrLib::ComputeSliceTileSwizzle`; `baseAddr` is a `size_t`. -/
def ComputeSliceTileSwizzle (lib : R600AddrLib) (tileMode : AddrTileMode)
    (baseSwizzle slice baseAddr : Nat) : Nat :=
  if ¬ IsMacroTiled tileMode then 0
  else
    let thickness := ComputeSurfaceThickness tileMode
    let rotation := ComputeSurfaceRotationFromTileMode lib tileMode
    let groupMask := sub32 (u32 (lib.mPipes * lib.mBanks)) 1
    let firstSlice := slice / thickness
    let tileSwizzle := u32 (baseSwizzle + u32 (firstSlice * rotation)) &&& groupMask
    let baseAddr := baseAddr ^^^ u32 (tileSwizzle * lib.mPipeInterleaveBytes)
    let baseAddr := baseAddr >>> 8
    u32 baseAddr

/-- The rotation of a tile mode as the specification lists it ("Per mode"): the 2D and 2B
modes of thickness 1 and 4, the 3D and 3B modes of thickness 1 and 4, and 0 otherwise. -/
def rotationSpec (pipes banks : Nat) (tileMode : AddrTileMode) : Nat :=
  if tileMode ∈ [ADDR_TM_2D_TILED_THIN1, ADDR_TM_2D_TILED_THIN2, ADDR_TM_2D_TILED_THIN4,
      ADDR_TM_2D_TILED_THICK, ADDR_TM_2B_TILED_THIN1, ADDR_TM_2B_TILED_THIN2,
      ADDR_TM_2B_TILED_THIN4, ADDR_TM_2B_TILED_THICK] then pipes * (banks / 2 - 1)
  else if tileMode ∈ [ADDR_TM_3D_TILED_THIN1, ADDR_TM_3D_TILED_THICK, ADDR_TM_3B_TILED_THIN1,
      ADDR_TM_3B_TILED_THICK] then (if pipes ≥ 4 then pipes / 2 - 1 else 1)
  else 0

/-- The slice tile swizzle as the specification gives it, without wraparound. -/
def sliceTileSwizzleSpec (pipes banks pipeInterleaveBytes : Nat) (tileMode : AddrTileMode)
    (baseSwizzle slice baseAddr : Nat) : Nat :=
  if tileMode.toNat < ADDR_TM_2D_TILED_THIN1.toNat ∨
      ADDR_TM_3D_TILED_XTHICK.toNat < tileMode.toNat then 0
  else
    let s := (baseSwizzle + slice / ComputeSurfaceThickness tileMode *
      rotationSpec pipes banks tileMode) % (pipes * banks)
    ((baseAddr ^^^ (s * pipeInterleaveBytes)) >>> 8) % 2 ^ 32

/-- The thickness table of the specification: 4 for the five `THICK` modes, 8 for the two
`XTHICK` modes and 1 for every other mode. -/
def thicknessSpec (tileMode : AddrTileMode) : Nat :=
  if tileMode ∈ [ADDR_TM_1D_TILED_THICK, ADDR_TM_2D_TILED_THICK, ADDR_TM_2B_TILED_THICK,
      ADDR_TM_3D_TILED_THICK, ADDR_TM_3B_TILED_THICK] then 4
  else if tileMode ∈ [ADDR_TM_2D_TILED_XTHICK, ADDR_TM_3D_TILED_XTHICK] then 8
  else 1

/-- Mip level 1 of a 256 x 256 x 2 `2D_TILED_THICK` request with 32 bits per pixel and no
surface flag. -/
def exampleThickMipIn : ADDR_COMPUTE_SURFACE_INFO_INPUT :=
  ⟨0, ADDR_TM_2D_TILED_THICK, ADDR_FMT_INVALID, 32, 1, 256, 256, 2, 0, 1,
    ADDR_SURFACE_FLAGS.none, 0, none, ADDR_DISPLAYABLE, -1⟩

/-- What `HwlComputeSurfaceInfo` writes for `exampleThickMipIn` on `exampleLib`: the level is
sized as `2D_TILED_THIN1`. -/
def exampleThickMipOut : ADDR_COMPUTE_SURFACE_INFO_OUTPUT :=
  ⟨0, 256, 256, 2, 524288, ADDR_TM_2D_TILED_THIN1, 4096, 32, 32, 1, 0, 0, 0, 0, 0, 0, 0, 0,
    none, ADDR_DISPLAYABLE, 0, none⟩

/-- A response record whose stereo-info pointer is present. -/
def exampleStereoOut : ADDR_COMPUTE_SURFACE_INFO_OUTPUT :=
  ⟨0, 0, 0, 0, 0, ADDR_TM_LINEAR_GENERAL, 0, 0, 0, 0, 0, 0, 0, 0, 0, 0, 0, 0, none,
    ADDR_DISPLAYABLE, 0, some ⟨0, 0⟩⟩

/-- A `LINEAR_ALIGNED` sizing request with the `qbStereo` flag, at mip level 0 with no format
and one slice. -/
def exampleStereoIn (bpp width height : Nat) : ADDR_COMPUTE_SURFACE_INFO_INPUT :=
  ⟨0, ADDR_TM_LINEAR_ALIGNED, ADDR_FMT_INVALID, bpp, 1, width, height, 1, 0, 0,
    { ADDR_SURFACE_FLAGS.none with qbStereo := true }, 0, none, ADDR_DISPLAYABLE, -1⟩

/-- A 128 x 16 sizing request of 32 bits per pixel with the given tile mode, mip level, slice
count, slice index and `inputBaseMap` flag. -/
def exampleSlicesIn (tileMode : AddrTileMode) (mipLevel numSlices slice : Nat)
    (inputBaseMap : Bool) : ADDR_COMPUTE_SURFACE_INFO_INPUT :=
  ⟨0, tileMode, ADDR_FMT_INVALID, 32, 1, 128, 16, numSlices, slice, mipLevel,
    { ADDR_SURFACE_FLAGS.none with inputBaseMap := inputBaseMap }, 0, none, ADDR_DISPLAYABLE, -1⟩

/-- A 16 x 16 sizing request of 32 bits per pixel with the `display` flag, at mip level 0
with no format and one slice. -/
def exampleDisplayIn (tileMode : AddrTileMode) : ADDR_COMPUTE_SURFACE_INFO_INPUT :=
  ⟨0, tileMode, ADDR_FMT_INVALID, 32, 1, 16, 16, 1, 0, 0,
    { ADDR_SURFACE_FLAGS.none with display := true }, 0, none, ADDR_DISPLAYABLE, -1⟩

/-! ## Format codes named by the claims on `GetBitsPerPixel` (`addrtypes.h`) -/

def ADDR_FMT_X24_8_32_FLOAT : Nat := 0x1C
def ADDR_FMT_1 : Nat := 0x25
def ADDR_FMT_1_REVERSED : Nat := 0x26
def ADDR_FMT_8_8_8 : Nat := 0x2C
def ADDR_FMT_16_16_16 : Nat := 0x2D
def ADDR_FMT_16_16_16_FLOAT : Nat := 0x2E
def ADDR_FMT_BC4 : Nat := 0x34

/-- The expansion factors `(expandX, expandY)` as the specification lists them: 4 x 4 for the
block-compressed formats, 3 x 1 for the three-component formats, 8 x 1 for the 1-bit formats
and 1 x 1 otherwise. -/
def expansionSpec (format : Nat) : Nat × Nat :=
  if IsBlockCompressed format = true then (4, 4)
  else if format ∈ [ADDR_FMT_8_8_8, ADDR_FMT_16_16_16, ADDR_FMT_16_16_16_FLOAT,
      ADDR_FMT_32_32_32, ADDR_FMT_32_32_32_FLOAT] then (3, 1)
  else if format ∈ [ADDR_FMT_1, ADDR_FMT_1_REVERSED] then (8, 1)
  else (1, 1)

/-! ## Tile-mode tables as the specification words them -/

/-- The `THIN1` mode of the family (2D, 2B, 3D, 3B) of a macro tile mode. -/
def thin1OfFamily : AddrTileMode → AddrTileMode
  | ADDR_TM_2D_TILED_THIN2 | ADDR_TM_2D_TILED_THIN4 | ADDR_TM_2D_TILED_THICK =>
    ADDR_TM_2D_TILED_THIN1
  | ADDR_TM_2B_TILED_THIN2 | ADDR_TM_2B_TILED_THIN4 | ADDR_TM_2B_TILED_THICK =>
    ADDR_TM_2B_TILED_THIN1
  | ADDR_TM_3D_TILED_THICK => ADDR_TM_3D_TILED_THIN1
  | ADDR_TM_3B_TILED_THICK => ADDR_TM_3B_TILED_THIN1
  | tileMode => tileMode

/-- The `THIN2` mode of the family (2D, 2B) of a `THIN4` mode. -/
def thin2OfFamily : AddrTileMode → AddrTileMode
  | ADDR_TM_2D_TILED_THIN4 => ADDR_TM_2D_TILED_THIN2
  | ADDR_TM_2B_TILED_THIN4 => ADDR_TM_2B_TILED_THIN2
  | tileMode => tileMode

/-- The degradation table of `HwlDegradeThickTileMode` as the specification gives it. -/
def degradeThickSpec (pipeInterleaveBytes splitSize : Nat) (no1DTiledMSAA : Bool)
    (tileMode : AddrTileMode) (numSamples tileSlices : Nat) (isDepth : Bool) : AddrTileMode :=
  if tileMode = ADDR_TM_1D_TILED_THIN1 then
    if numSamples > 1 ∧ no1DTiledMSAA = true then ADDR_TM_2D_TILED_THIN1 else tileMode
  else if tileMode = ADDR_TM_1D_TILED_THICK then
    if numSamples = 2 ∨ numSamples = 4 then ADDR_TM_2D_TILED_THICK
    else if numSamples > 1 ∨ isDepth = true then ADDR_TM_1D_TILED_THIN1
    else tileMode
  else if tileMode = ADDR_TM_2D_TILED_THIN2 ∨ tileMode = ADDR_TM_2B_TILED_THIN2 then
    if 2 * pipeInterleaveBytes > splitSize then thin1OfFamily tileMode else tileMode
  else if tileMode = ADDR_TM_2D_TILED_THIN4 ∨ tileMode = ADDR_TM_2B_TILED_THIN4 then
    if 4 * pipeInterleaveBytes > splitSize then thin2OfFamily tileMode else tileMode
  else if tileMode = ADDR_TM_2D_TILED_THICK ∨ tileMode = ADDR_TM_2B_TILED_THICK ∨
      tileMode = ADDR_TM_3D_TILED_THICK ∨ tileMode = ADDR_TM_3B_TILED_THICK then
    if numSamples > 1 ∨ tileSlices > 1 ∨ isDepth = true then thin1OfFamily tileMode
    else tileMode
  else tileMode

/-- The 2D or 2B mode of the same thickness as a 3D or 3B mode; other modes are kept. -/
def demote3DSpec : AddrTileMode → AddrTileMode
  | ADDR_TM_3D_TILED_THIN1 => ADDR_TM_2D_TILED_THIN1
  | ADDR_TM_3D_TILED_THICK => ADDR_TM_2D_TILED_THICK
  | ADDR_TM_3B_TILED_THIN1 => ADDR_TM_2B_TILED_THIN1
  | ADDR_TM_3B_TILED_THICK => ADDR_TM_2B_TILED_THICK
  | tileMode => tileMode

/-- The 3D and 3B tile modes that `ComputeSurfaceMipLevelTileMode` can demote. -/
def modes3D : List AddrTileMode :=
  [ADDR_TM_3D_TILED_THIN1, ADDR_TM_3D_TILED_THICK, ADDR_TM_3B_TILED_THIN1,
    ADDR_TM_3B_TILED_THICK]

/-- The bpp that `ComputeSurfaceAlignmentsMacrotiled` computes with: a third of 96, 48 and
24, and 1 for 3. -/
def normalisedBppSpec (bpp : Nat) : Nat :=
  if bpp = 96 ∨ bpp = 48 ∨ bpp = 24 then bpp / 3 else if bpp = 3 then 1 else bpp

/-- The width that `ComputeSurfaceBankSwappedWidth` halves, for a bank-swapped mode:
`std::min(swapMax, std::max(swapMin, swapWidth))`. -/
def BankSwapClamp (lib : R600AddrLib) (tileMode : AddrTileMode) (bpp numSamples : Nat) : Nat :=
  let numBanks := lib.mBanks
  let numPipes := lib.mPipes
  let swapSize := lib.mSwapSize
  let rowSize := lib.mRowSize
  let splitSize := lib.mSplitSize
  let groupSize := lib.mPipeInterleaveBytes
  let bytesPerSample := u32 (8 * bpp)
  let samplesPerTile := splitSize / bytesPerSample
  let slicesPerTile :=
    if splitSize / bytesPerSample ≠ 0 then max 1 (numSamples / samplesPerTile) else 1
  let numSamples := if IsThickMacroTiled tileMode then 4 else numSamples
  let bytesPerTileSlice := u32 (numSamples * bytesPerSample) / slicesPerTile
  let factor := ComputeMacroTileAspectRatio tileMode
  let swapTiles := max 1 ((swapSize >>> 1) / bpp)
  let swapWidth := u32 (swapTiles * 8 * numBanks)
  let heightBytes := u32 (numSamples * factor * numPipes * bpp) / slicesPerTile
  let swapMax := u32 (numPipes * numBanks * rowSize) / heightBytes
  let swapMin := u32 (groupSize * 8 * numBanks) / bytesPerTileSlice
  min swapMax (max swapMin swapWidth)

/-- The divisors of `ComputeSurfaceAddrFromCoordMacroTiled`, in program order. -/
inductive MacroTiledDivisor where
  | numSamples
  | bytesPerSample
  | samplesPerSlice
  | numSampleSplits
  | tileSliceBits
  | numPipesTimesNumBanks
  | numPipes
  | microTileThickness
  | macroTilePitch
  | macroTileHeight
  | bankSwapWidth
  deriving DecidableEq, Repr

/-- The divisions and remainders of `R600AddrLib::ComputeSurfaceAddrFromCoordMacroTiled`
followed in program order: `some d` names the divisor that is zero at the first division by
zero, `none` says that the routine reaches its end without one (or that the bank-swap-width
loop does not terminate). The divisors depend on `bpp`, `pitch`, `numSamples` and the tile
mode only. `ComputeSurfaceAddrFromCoordMacroTiledParts` computes the same quotients with the
total division of `Nat`. -/
def ComputeSurfaceAddrFromCoordMacroTiledZeroDivisor (lib : R600AddrLib)
    (bpp pitch numSamples : Nat) (tileMode : AddrTileMode) : Option MacroTiledDivisor :=
  let numPipes := lib.mPipes
  let numBanks := lib.mBanks
  let microTileThickness := ComputeSurfaceThickness tileMode
  let microTileBits := u64 (MicroTilePixels * microTileThickness * bpp * numSamples)
  let microTileBytes := microTileBits / 8
  -- `microTileBits / numSamples` and `bytesPerSample = microTileBytes / numSamples`
  if numSamples = 0 then some MacroTiledDivisor.numSamples
  else
    let bytesPerSample := microTileBytes / numSamples
    let split : Bool := decide (numSamples > 1 ∧ microTileBytes > lib.mSplitSize)
    -- `samplesPerSlice = mSplitSize / bytesPerSample`
    if split = true ∧ bytesPerSample = 0 then some MacroTiledDivisor.bytesPerSample
    else
      let samplesPerSlice := if split then lib.mSplitSize / bytesPerSample else numSamples
      -- `numSampleSplits = numSamples / samplesPerSlice`
      if split = true ∧ samplesPerSlice = 0 then some MacroTiledDivisor.samplesPerSlice
      else
        let numSampleSplits := if split then numSamples / samplesPerSlice else 1
        -- `tileSliceBits = microTileBits / numSampleSplits`
        if split = true ∧ numSampleSplits = 0 then some MacroTiledDivisor.numSampleSplits
        else
          let tileSliceBits := microTileBits / numSampleSplits
          -- `sampleSlice = elemOffset / tileSliceBits; elemOffset %= tileSliceBits`
          if split = true ∧ tileSliceBits = 0 then some MacroTiledDivisor.tileSliceBits
          else
            let numSamples := if split then u32 samplesPerSlice else numSamples
            -- `bankPipe %= numPipes * numBanks`
            if u64 (numPipes * numBanks) = 0 then some MacroTiledDivisor.numPipesTimesNumBanks
            -- `pipe = bankPipe % numPipes; bank = bankPipe / numPipes`
            else if numPipes = 0 then some MacroTiledDivisor.numPipes
            -- `sliceOffset = sliceBytes * (... / microTileThickness)`
            else if microTileThickness = 0 then some MacroTiledDivisor.microTileThickness
            else
              let macroTilePitch :=
                match tileMode with
                | ADDR_TM_2D_TILED_THIN2 | ADDR_TM_2B_TILED_THIN2 => 8 * numBanks / 2
                | ADDR_TM_2D_TILED_THIN4 | ADDR_TM_2B_TILED_THIN4 => 8 * numBanks / 4
                | _ => 8 * numBanks
              let macroTileHeight :=
                match tileMode with
                | ADDR_TM_2D_TILED_THIN2 | ADDR_TM_2B_TILED_THIN2 => 8 * numPipes * 2
                | ADDR_TM_2D_TILED_THIN4 | ADDR_TM_2B_TILED_THIN4 => 8 * numPipes * 4
                | _ => 8 * numPipes
              -- `macroTilesPerRow = pitch / macroTilePitch; macroTileIndexX = x / macroTilePitch`
              if macroTilePitch = 0 then some MacroTiledDivisor.macroTilePitch
              -- `macroTileIndexY = y / macroTileHeight`
              else if macroTileHeight = 0 then some MacroTiledDivisor.macroTileHeight
              else if IsBankSwappedTileMode tileMode then
                match ComputeSurfaceBankSwappedWidth lib tileMode bpp numSamples pitch with
                | none => none
                | some bankSwapWidth =>
                  -- `swapIndex = macroTilePitch * macroTileIndexX / bankSwapWidth`
                  if bankSwapWidth = 0 then some MacroTiledDivisor.bankSwapWidth else none
              else none

/-- A request for pixel (0, 0), sample 0 of a `2D_TILED_THICK` surface of 32 x 32 x 4 pixels
with 128 bits per pixel and two samples, zero swizzles. -/
def exampleThickSplitAddrIn : ADDR_COMPUTE_SURFACE_ADDRFROMCOORD_INPUT :=
  ⟨0, 0, 0, 0, 0, 128, 32, 32, 4, 2, ADDR_TM_2D_TILED_THICK, false, 0, 0, 0, 0, 0,
    ADDR_DISPLAYABLE, -1⟩

/-! # Properties -/

/-! ## Machine-integer lemmas -/

theorem u32_of_lt {n : Nat} (h : n < 2 ^ 32) : u32 n = n := Nat.mod_eq_of_lt h

theorem u64_of_lt {n : Nat} (h : n < 2 ^ 64) : u64 n = n := Nat.mod_eq_of_lt h

theorem u32_lt (n : Nat) : u32 n < 2 ^ 32 := Nat.mod_lt _ (by norm_num)

theorem u64_lt (n : Nat) : u64 n < 2 ^ 64 := Nat.mod_lt _ (by norm_num)

theorem u32_le (n : Nat) : u32 n ≤ n := Nat.mod_le _ _

theorem sub32_eq {a b : Nat} (hb : b ≤ a) (ha : a < 2 ^ 32) : sub32 a b = a - b := by
  unfold sub32 u32
  have h1 : b % 2 ^ 32 = b := Nat.mod_eq_of_lt (by omega)
  rw [h1]
  omega

/-- Masking off the low `k` bits of a `w`-bit value. -/
theorem and_two_pow_sub_two_pow (y k w : Nat) (hy : y < 2 ^ w) (hk : k ≤ w) :
    y &&& (2 ^ w - 2 ^ k) = y / 2 ^ k * 2 ^ k := by
  apply Nat.eq_of_testBit_eq
  intro i
  have hlt : 2 ^ k - 1 < 2 ^ w := by
    have := Nat.pow_le_pow_right (show 0 < 2 by norm_num) hk
    have := Nat.one_le_two_pow (n := k)
    omega
  have hrw : 2 ^ w - 2 ^ k = 2 ^ w - (2 ^ k - 1 + 1) := by
    have := Nat.one_le_two_pow (n := k)
    omega
  rw [Nat.testBit_and, hrw, Nat.testBit_two_pow_sub_succ hlt, Nat.testBit_two_pow_sub_one,
    Nat.mul_comm, Nat.testBit_mul_pow_two, ← Nat.shiftRight_eq_div_pow, Nat.testBit_shiftRight]
  by_cases hik : k ≤ i
  · have e : k + (i - k) = i := by omega
    rw [e]
    by_cases hiw : i < w
    · simp [hik, hiw, Nat.not_lt.mpr hik]
    · have : y.testBit i = false :=
        Nat.testBit_lt_two_pow (Nat.lt_of_lt_of_le hy
          (Nat.pow_le_pow_right (by norm_num) (Nat.not_lt.mp hiw)))
      simp [this]
  · have : i < k := Nat.not_le.mp hik
    simp [hik, this]

theorem not32_two_pow_sub_one {k : Nat} (hk : k ≤ 32) : not32 (2 ^ k - 1) = 2 ^ 32 - 2 ^ k := by
  unfold not32
  have h1 := Nat.pow_le_pow_right (show 0 < 2 by norm_num) hk
  have h2 := Nat.one_le_two_pow (n := k)
  rw [u32_of_lt (by omega)]
  omega

theorem not64_two_pow_sub_one {k : Nat} (hk : k ≤ 64) : not64 (2 ^ k - 1) = 2 ^ 64 - 2 ^ k := by
  unfold not64
  have h1 := Nat.pow_le_pow_right (show 0 < 2 by norm_num) hk
  have h2 := Nat.one_le_two_pow (n := k)
  rw [u64_of_lt (by omega)]
  omega

/-- `PowTwoAlign` rounds up to the next multiple of a power of two when nothing wraps. -/
theorem PowTwoAlign_eq (x k : Nat) (hk : k ≤ 31) (hx : x + 2 ^ k ≤ 2 ^ 32) :
    PowTwoAlign x (2 ^ k) = (x + (2 ^ k - 1)) / 2 ^ k * 2 ^ k := by
  unfold PowTwoAlign
  have h1 := Nat.one_le_two_pow (n := k)
  have h2 : 2 ^ k < 2 ^ 32 := Nat.pow_lt_pow_right (by norm_num) (by omega)
  rw [sub32_eq h1 h2, not32_two_pow_sub_one (by omega), u32_of_lt (by omega)]
  exact and_two_pow_sub_two_pow _ _ _ (by omega) (by omega)

theorem PowTwoAlign_mod (x k : Nat) (hk : k ≤ 31) (hx : x + 2 ^ k ≤ 2 ^ 32) :
    PowTwoAlign x (2 ^ k) % 2 ^ k = 0 := by
  rw [PowTwoAlign_eq x k hk hx]
  exact Nat.mul_mod_left _ _

theorem PowTwoAlign_ge (x k : Nat) (hk : k ≤ 31) (hx : x + 2 ^ k ≤ 2 ^ 32) :
    x ≤ PowTwoAlign x (2 ^ k) ∧ PowTwoAlign x (2 ^ k) < x + 2 ^ k := by
  rw [PowTwoAlign_eq x k hk hx]
  have hp : 0 < 2 ^ k := Nat.pos_pow_of_pos k (by norm_num)
  have h1 := Nat.div_add_mod (x + (2 ^ k - 1)) (2 ^ k)
  have h2 := Nat.mod_lt (x + (2 ^ k - 1)) hp
  rw [Nat.mul_comm] at h1
  constructor <;> omega

/-- A non-zero 32-bit value that passes `IsPow2` is a power of two. -/
theorem IsPow2_two_pow : ∀ (a : Nat), 0 < a → a < 2 ^ 32 → IsPow2 a = true →
    ∃ k, k ≤ 31 ∧ a = 2 ^ k := by
  intro a ha hlt h
  unfold IsPow2 at h
  rw [sub32_eq ha hlt] at h
  have h0 : a &&& (a - 1) = 0 := of_decide_eq_true h
  clear h
  have key : ∀ n a : Nat, a ≤ n → 0 < a → a &&& (a - 1) = 0 → ∃ k, a = 2 ^ k := by
    intro n
    induction n with
    | zero => intro a h1 h2; omega
    | succ n ih =>
      intro a hle hpos hz
      by_cases hodd : a % 2 = 1
      · -- odd: a &&& (a - 1) = a - 1
        have hbit : ∀ i, (a &&& (a - 1)).testBit i = false := by
          intro i; rw [hz]; simp
        have h1 : a - 1 = 0 := by
          apply Nat.eq_of_testBit_eq
          intro i
          have hi := hbit i
          rw [Nat.testBit_and] at hi
          simp only [Nat.zero_testBit]
          by_cases hi0 : i = 0
          · subst hi0
            simp [Nat.testBit_zero]
            omega
          · obtain ⟨j, rfl⟩ : ∃ j, i = j + 1 := ⟨i - 1, by omega⟩
            rw [Nat.testBit_succ] at hi ⊢
            rw [Nat.testBit_succ] at hi
            have e : (a - 1) / 2 = a / 2 := by omega
            rw [e] at hi ⊢
            simpa using hi
        exact ⟨0, by omega⟩
      · have heven : a % 2 = 0 := by omega
        have hb : a / 2 &&& (a / 2 - 1) = 0 := by
          apply Nat.eq_of_testBit_eq
          intro i
          have hi : (a &&& (a - 1)).testBit (i + 1) = false := by rw [hz]; simp
          rw [Nat.testBit_and, Nat.testBit_succ, Nat.testBit_succ] at hi
          have e : (a - 1) / 2 = a / 2 - 1 := by omega
          rw [e] at hi
          rw [Nat.testBit_and]
          simpa using hi
        obtain ⟨k, hk⟩ := ih (a / 2) (by omega) (by omega) hb
        exact ⟨k + 1, by rw [Nat.pow_succ]; omega⟩
  obtain ⟨k, hk⟩ := key a a (Nat.le_refl _) ha h0
  refine ⟨k, ?_, hk⟩
  by_contra hc
  have : 2 ^ 32 ≤ 2 ^ k := Nat.pow_le_pow_right (by norm_num) (by omega)
  omega

theorem BIT_eq_div_mod (v b : Nat) : BIT v b = v / 2 ^ b % 2 := by
  unfold BIT
  rw [Nat.shiftRight_eq_div_pow, Nat.and_one_is_mod]

theorem BIT_eq_toNat (v b : Nat) : BIT v b = (v.testBit b).toNat := by
  rw [BIT_eq_div_mod, Nat.toNat_testBit]

theorem lor_shift_bits (b0 b1 b2 b3 b4 b5 b6 b7 b8 : Bool) :
    b0.toNat ||| (b1.toNat <<< 1) ||| (b2.toNat <<< 2) ||| (b3.toNat <<< 3) |||
      (b4.toNat <<< 4) ||| (b5.toNat <<< 5) ||| (b6.toNat <<< 6) ||| (b7.toNat <<< 7) |||
      (b8.toNat <<< 8) = ofBits [b0, b1, b2, b3, b4, b5, b6, b7, b8] := by
  cases b0 <;> cases b1 <;> cases b2 <;> cases b3 <;> cases b4 <;> cases b5 <;> cases b6 <;>
    cases b7 <;> cases b8 <;> decide

/-! ## Bit networks -/

/-- C7: for all `x`, `y`, `z`, `bpp`, tile mode and tile type,
`ComputePixelIndexWithinMicroTile` is the bit concatenation that the specification lists for
the tile type and `bpp` (bit 0 first), with bits 6 and 7 equal to `(z0, z1)` exactly when the
thickness exceeds 1 (non-thick tile types) and bit 8 equal to `z2` exactly when the thickness
is 8. -/
theorem C7_pixel_index_is_listed_permutation (x y z bpp : Nat) (tileMode : AddrTileMode)
    (tileType : AddrTileType) :
    ComputePixelIndexWithinMicroTile x y z bpp tileMode tileType =
      pixelIndexSpec x y z bpp (ComputeSurfaceThickness tileMode) tileType := by
  have hz : (0 : Nat) = (false).toNat := rfl
  unfold ComputePixelIndexWithinMicroTile pixelIndexSpec
  simp only [BIT_eq_toNat]
  generalize ComputeSurfaceThickness tileMode = t
  by_cases h8 : t = 8
  · subst h8
    cases tileType <;> simp only [reduceCtorEq, if_true, if_false] <;>
      (try split_ifs) <;> simp only [hz, lor_shift_bits] <;> simp
  · by_cases h1 : t > 1
    · cases tileType <;> simp only [reduceCtorEq, if_true, if_false, h8, h1] <;>
        (try split_ifs) <;> simp only [hz, lor_shift_bits] <;> simp
    · cases tileType <;> simp only [reduceCtorEq, if_true, if_false, h8, h1] <;>
        (try split_ifs) <;> simp only [hz, lor_shift_bits] <;> simp

/-- C8: for `pipes` in {1, 2, 4, 8} and all `x`, `y`, `ComputePipeFromCoordWoRotation` is the
XOR network of the specification, and the result is below `pipes`. -/
theorem C8_pipe_from_coord (lib : R600AddrLib) (x y : Nat)
    (hp : lib.mPipes = 1 ∨ lib.mPipes = 2 ∨ lib.mPipes = 4 ∨ lib.mPipes = 8) :
    ComputePipeFromCoordWoRotation lib x y = pipeSpec lib.mPipes x y ∧
    ComputePipeFromCoordWoRotation lib x y < lib.mPipes := by
  unfold ComputePipeFromCoordWoRotation pipeSpec
  simp only [BIT_eq_toNat]
  generalize x.testBit 3 = x3
  generalize x.testBit 4 = x4
  generalize x.testBit 5 = x5
  generalize y.testBit 3 = y3
  generalize y.testBit 4 = y4
  generalize y.testBit 5 = y5
  rcases hp with h | h | h | h <;> rw [h] <;>
    cases x3 <;> cases x4 <;> cases x5 <;> cases y3 <;> cases y4 <;> cases y5 <;> decide

/-- C8 at the instance `exampleLibR6` (8 pipes) and the pixel (40, 24). -/
theorem C8_pipe_from_coord_witness :
    (exampleLibR6.mPipes = 1 ∨ exampleLibR6.mPipes = 2 ∨ exampleLibR6.mPipes = 4 ∨
      exampleLibR6.mPipes = 8) ∧
    ComputePipeFromCoordWoRotation exampleLibR6 40 24 = pipeSpec exampleLibR6.mPipes 40 24 ∧
    ComputePipeFromCoordWoRotation exampleLibR6 40 24 < exampleLibR6.mPipes :=
  ⟨by decide, C8_pipe_from_coord exampleLibR6 40 24 (by decide)⟩

/-- C9: for `banks` in {4, 8}, every pipe count, either value of `optimalBankSwap` and all
`x`, `y`, `ComputeBankFromCoordWoRotation` is the XOR network of the specification (with
`tx = x / banks`, `ty = y / pipes`), and the result is below `banks`. -/
theorem C9_bank_from_coord (lib : R600AddrLib) (x y : Nat)
    (hb : lib.mBanks = 4 ∨ lib.mBanks = 8) :
    ComputeBankFromCoordWoRotation lib x y =
      bankSpec lib.mPipes lib.mBanks lib.mConfigFlags.optimalBankSwap x y ∧
    ComputeBankFromCoordWoRotation lib x y < lib.mBanks := by
  unfold ComputeBankFromCoordWoRotation bankSpec
  simp only [BIT_eq_toNat]
  generalize x.testBit 3 = x3
  generalize x.testBit 4 = x4
  generalize x.testBit 5 = x5
  generalize (x / lib.mBanks).testBit 3 = tx3
  generalize (y / lib.mPipes).testBit 3 = ty3
  generalize (y / lib.mPipes).testBit 4 = ty4
  generalize (y / lib.mPipes).testBit 5 = ty5
  generalize lib.mConfigFlags.optimalBankSwap = opt
  by_cases h8 : lib.mPipes = 8
  · rcases hb with hb | hb <;> simp only [hb, h8] <;>
      cases opt <;> cases x3 <;> cases x4 <;> cases x5 <;> cases tx3 <;> cases ty3 <;>
      cases ty4 <;> cases ty5 <;> decide
  · rcases hb with hb | hb <;> simp only [hb, h8] <;>
      cases opt <;> cases x3 <;> cases x4 <;> cases x5 <;> cases tx3 <;> cases ty3 <;>
      cases ty4 <;> cases ty5 <;> decide

/-- C9 at the instance `exampleLibR6` (8 pipes, 8 banks, optimal bank swap) and the pixel
(200, 328). -/
theorem C9_bank_from_coord_witness :
    (exampleLibR6.mBanks = 4 ∨ exampleLibR6.mBanks = 8) ∧
    ComputeBankFromCoordWoRotation exampleLibR6 200 328 =
      bankSpec exampleLibR6.mPipes exampleLibR6.mBanks
        exampleLibR6.mConfigFlags.optimalBankSwap 200 328 ∧
    ComputeBankFromCoordWoRotation exampleLibR6 200 328 < exampleLibR6.mBanks :=
  ⟨by decide, C9_bank_from_coord exampleLibR6 200 328 (by decide)⟩

/-! ## Address from coordinate -/

theorem ComputeSurfaceAddrFromCoordLinear_spec (x y slice sample bpp pitch height numSlices : Nat)
    (hs : slice + sample * numSlices < 2 ^ 32)
    (ht : linearAddrBits x y slice sample bpp pitch height numSlices < 2 ^ 64) :
    8 * (ComputeSurfaceAddrFromCoordLinear x y slice sample bpp pitch height numSlices).1 +
        (ComputeSurfaceAddrFromCoordLinear x y slice sample bpp pitch height numSlices).2 =
      linearAddrBits x y slice sample bpp pitch height numSlices ∧
    (ComputeSurfaceAddrFromCoordLinear x y slice sample bpp pitch height numSlices).2 < 8 := by
  unfold ComputeSurfaceAddrFromCoordLinear
  simp only
  have h1 : u32 (sample * numSlices) = sample * numSlices := u32_of_lt (by omega)
  have h2 : u32 (slice + sample * numSlices) = slice + sample * numSlices := u32_of_lt hs
  rw [h1, h2]
  have key : u64 (u64 (u64 (u64 (u64 (pitch * height) * (slice + sample * numSlices)) +
      u64 (y * pitch)) + x) * bpp) =
      linearAddrBits x y slice sample bpp pitch height numSlices := by
    unfold linearAddrBits at ht ⊢
    unfold u64
    simp only [Nat.mod_mul_mod, Nat.mod_add_mod, Nat.add_mod_mod, Nat.mul_mod_mod]
    rw [Nat.mod_eq_of_lt]
    · ring
    · calc _ = ((slice + sample * numSlices) * pitch * height + y * pitch + x) * bpp := by ring
        _ < _ := ht
  rw [key]
  have h3 : linearAddrBits x y slice sample bpp pitch height numSlices % 8 < 8 :=
    Nat.mod_lt _ (by norm_num)
  rw [u32_of_lt (by omega)]
  omega

/-- C4: a request with tile mode `LINEAR_GENERAL` or `LINEAR_ALIGNED` that passes the
validation of `HwlComputeSurfaceAddrFromCoord`, with `slice + sample * numSlices < 2 ^ 32`
and the total bit offset below `2 ^ 64`, returns `ADDR_OK` with
`8 * addr + bitPosition = ((slice + sample * numSlices) * pitch * height + y * pitch + x) * bpp`
and `bitPosition < 8`. -/
theorem C4_linear_address (lib : R600AddrLib) (pIn : ADDR_COMPUTE_SURFACE_ADDRFROMCOORD_INPUT)
    (pOut : ADDR_COMPUTE_SURFACE_ADDRFROMCOORD_OUTPUT)
    (hm : pIn.tileMode = ADDR_TM_LINEAR_GENERAL ∨ pIn.tileMode = ADDR_TM_LINEAR_ALIGNED)
    (hv : pIn.pipeSwizzle < lib.mPipes ∧ pIn.bankSwizzle < lib.mBanks ∧ pIn.x ≤ pIn.pitch ∧
      pIn.y ≤ pIn.height ∧ pIn.numSamples ≤ 8)
    (hs : pIn.slice + pIn.sample * pIn.numSlices < 2 ^ 32)
    (ht : linearAddrBits pIn.x pIn.y pIn.slice pIn.sample pIn.bpp pIn.pitch pIn.height
      pIn.numSlices < 2 ^ 64) :
    ∃ out, HwlComputeSurfaceAddrFromCoord lib pIn pOut = some (ADDR_OK, out) ∧
      8 * out.addr + out.bitPosition =
        linearAddrBits pIn.x pIn.y pIn.slice pIn.sample pIn.bpp pIn.pitch pIn.height
          pIn.numSlices ∧
      out.bitPosition < 8 := by
  have hspec := ComputeSurfaceAddrFromCoordLinear_spec pIn.x pIn.y pIn.slice pIn.sample pIn.bpp
    pIn.pitch pIn.height pIn.numSlices hs ht
  have hnv : ¬ (pIn.pipeSwizzle ≥ lib.mPipes ∨ pIn.bankSwizzle ≥ lib.mBanks ∨
      pIn.x > pIn.pitch ∨ pIn.y > pIn.height ∨ pIn.numSamples > 8) := by omega
  unfold HwlComputeSurfaceAddrFromCoord DispatchComputeSurfaceAddrFromCoord
  rw [if_neg hnv]
  rcases hm with h | h <;> rw [h] <;> exact ⟨_, rfl, hspec⟩

/-- C4 at pixel (5, 3) of slice 1 of a 128 x 16 x 4 surface with 32 bits per pixel. -/
theorem C4_linear_address_witness :
    (exampleLinearAddrIn.tileMode = ADDR_TM_LINEAR_GENERAL ∨
      exampleLinearAddrIn.tileMode = ADDR_TM_LINEAR_ALIGNED) ∧
    ∃ out, HwlComputeSurfaceAddrFromCoord exampleLib exampleLinearAddrIn exampleAddrOut =
        some (ADDR_OK, out) ∧
      8 * out.addr + out.bitPosition = linearAddrBits 5 3 1 0 32 128 16 4 ∧
      out.bitPosition < 8 :=
  ⟨by decide, C4_linear_address exampleLib exampleLinearAddrIn exampleAddrOut (by decide)
    (by decide) (by decide) (by decide)⟩

/-- The final OR of the macro-tiled address is a sum of four disjoint fields. -/
theorem macro_offset_fields (g pb bb T pipe bank : Nat) (hsum : g + pb + bb ≤ 64)
    (hT : T < 2 ^ (64 - (pb + bb))) (hpipe : pipe < 2 ^ pb) (hbank : bank < 2 ^ bb) :
    u64 (bank <<< (pb + g)) ||| u64 (pipe <<< g) ||| (T &&& ((1 <<< g) - 1)) |||
        u64 ((T &&& not64 ((1 <<< g) - 1)) <<< (bb + pb)) =
      2 ^ (g + pb + bb) * (T / 2 ^ g) + (2 ^ (g + pb) * bank + (2 ^ g * pipe + T % 2 ^ g)) := by
  have hT64 : T < 2 ^ 64 :=
    Nat.lt_of_lt_of_le hT (Nat.pow_le_pow_right (by norm_num) (by omega))
  have low : T &&& ((1 <<< g) - 1) = T % 2 ^ g := by
    rw [Nat.one_shiftLeft]
    exact Nat.and_pow_two_sub_one_eq_mod _ _
  have high : T &&& not64 ((1 <<< g) - 1) = T / 2 ^ g * 2 ^ g := by
    rw [Nat.one_shiftLeft, not64_two_pow_sub_one (by omega)]
    exact and_two_pow_sub_two_pow T g 64 hT64 (by omega)
  have hg : 0 < 2 ^ g := Nat.pos_pow_of_pos g (by norm_num)
  have hr : T % 2 ^ g < 2 ^ g := Nat.mod_lt _ hg
  -- bounds of the partial sums
  have h1 : 2 ^ g * pipe + T % 2 ^ g < 2 ^ (g + pb) := by
    rw [Nat.pow_add]
    calc 2 ^ g * pipe + T % 2 ^ g < 2 ^ g * pipe + 2 ^ g := by omega
      _ = 2 ^ g * (pipe + 1) := by ring
      _ ≤ 2 ^ g * 2 ^ pb := Nat.mul_le_mul_left _ hpipe
  have h2 : 2 ^ (g + pb) * bank + (2 ^ g * pipe + T % 2 ^ g) < 2 ^ (g + pb + bb) := by
    rw [Nat.pow_add (2) (g + pb) bb]
    calc 2 ^ (g + pb) * bank + (2 ^ g * pipe + T % 2 ^ g)
          < 2 ^ (g + pb) * bank + 2 ^ (g + pb) := by omega
      _ = 2 ^ (g + pb) * (bank + 1) := by ring
      _ ≤ 2 ^ (g + pb) * 2 ^ bb := Nat.mul_le_mul_left _ hbank
  have hq : T / 2 ^ g < 2 ^ (64 - (g + pb + bb)) := by
    rw [Nat.div_lt_iff_lt_mul hg, ← Nat.pow_add]
    have e : 64 - (g + pb + bb) + g = 64 - (pb + bb) := by omega
    rw [e]
    exact hT
  have h3 : 2 ^ (g + pb + bb) * (T / 2 ^ g) < 2 ^ 64 := by
    calc 2 ^ (g + pb + bb) * (T / 2 ^ g) < 2 ^ (g + pb + bb) * 2 ^ (64 - (g + pb + bb)) :=
          Nat.mul_lt_mul_of_pos_left hq (Nat.pos_pow_of_pos _ (by norm_num))
      _ = 2 ^ 64 := by rw [← Nat.pow_add]; congr 1; omega
  have hle : 2 ^ (g + pb + bb) ≤ 2 ^ 64 := Nat.pow_le_pow_right (by norm_num) hsum
  -- the four fields as products
  have eB : u64 (bank <<< (pb + g)) = 2 ^ (g + pb) * bank := by
    rw [Nat.shiftLeft_eq, Nat.add_comm pb g, Nat.mul_comm]
    exact u64_of_lt (by omega)
  have eP : u64 (pipe <<< g) = 2 ^ g * pipe := by
    rw [Nat.shiftLeft_eq, Nat.mul_comm]
    exact u64_of_lt (by omega)
  have eH : u64 ((T / 2 ^ g * 2 ^ g) <<< (bb + pb)) = 2 ^ (g + pb + bb) * (T / 2 ^ g) := by
    have e : (T / 2 ^ g * 2 ^ g) <<< (bb + pb) = 2 ^ (g + pb + bb) * (T / 2 ^ g) := by
      rw [Nat.shiftLeft_eq, Nat.pow_add, Nat.pow_add, Nat.pow_add]
      ring
    rw [e]
    exact u64_of_lt h3
  rw [low, high, eB, eP, eH]
  rw [Nat.mul_add_lt_is_or h2, Nat.mul_add_lt_is_or h1, Nat.mul_add_lt_is_or hr]
  rw [Nat.lor_comm _ (2 ^ (g + pb + bb) * (T / 2 ^ g)), Nat.lor_assoc (2 ^ (g + pb) * bank)]

theorem bankSwapOrder_lt (banks idx : Nat) (hb : banks = 4 ∨ banks = 8) (hi : idx < banks) :
    bankSwapOrder.getD idx 0 < banks := by
  rcases hb with h | h <;> subst h <;> interval_cases idx <;> decide

theorem xor_lt_banks (banks a b : Nat) (hb : banks = 4 ∨ banks = 8) (ha : a < banks)
    (hc : b < banks) : a ^^^ b < banks := by
  rcases hb with h | h <;> subst h
  · exact Nat.xor_lt_two_pow (n := 2) ha hc
  · exact Nat.xor_lt_two_pow (n := 3) ha hc

theorem and_sub32_one_lt (banks s : Nat) (hb : banks = 4 ∨ banks = 8) :
    s &&& sub32 banks 1 < banks := by
  rcases hb with h | h <;> subst h
  · exact Nat.and_lt_two_pow (n := 2) s (by decide)
  · exact Nat.and_lt_two_pow (n := 3) s (by decide)

theorem MacroTiledParts_pipe_bank (lib : R600AddrLib) (hv : lib.ValidConfig)
    (x y slice sample bpp pitch height numSamples : Nat) (tileMode : AddrTileMode)
    (isDepth : Bool) (tileBase compBits pipeSwizzle bankSwizzle : Nat) (p : MacroTiledParts)
    (hp : ComputeSurfaceAddrFromCoordMacroTiledParts lib x y slice sample bpp pitch height
      numSamples tileMode isDepth tileBase compBits pipeSwizzle bankSwizzle = some p) :
    p.pipe < lib.mPipes ∧ p.bank < lib.mBanks := by
  obtain ⟨hpipes, hbanks, -⟩ := hv
  have hP : 0 < lib.mPipes := by omega
  have hB : 0 < lib.mBanks := by omega
  have hPB : u64 (lib.mPipes * lib.mBanks) = lib.mPipes * lib.mBanks := by
    apply u64_of_lt
    rcases hpipes with h | h | h | h <;> rcases hbanks with h' | h' <;> rw [h, h'] <;> norm_num
  have hbk : ∀ v : Nat, v % (lib.mPipes * lib.mBanks) / lib.mPipes < lib.mBanks := by
    intro v
    rw [Nat.div_lt_iff_lt_mul hP, Nat.mul_comm lib.mBanks]
    exact Nat.mod_lt _ (Nat.mul_pos hP hB)
  unfold ComputeSurfaceAddrFromCoordMacroTiledParts at hp
  simp only [hPB] at hp
  split at hp
  · split at hp
    · exact absurd hp (by simp)
    · injection hp with hp
      subst hp
      refine ⟨Nat.mod_lt _ hP, ?_⟩
      exact xor_lt_banks _ _ _ hbanks (hbk _)
        (bankSwapOrder_lt _ _ hbanks (and_sub32_one_lt _ _ hbanks))
  · injection hp with hp
    subst hp
    exact ⟨Nat.mod_lt _ hP, hbk _⟩

/-- Reading the four fields back from their sum. -/
theorem fields_extract (g pb bb A bank pipe r : Nat) (hr : r < 2 ^ g) (hpipe : pipe < 2 ^ pb)
    (hbank : bank < 2 ^ bb) :
    (2 ^ (g + pb + bb) * A + (2 ^ (g + pb) * bank + (2 ^ g * pipe + r))) % 2 ^ g = r ∧
    (2 ^ (g + pb + bb) * A + (2 ^ (g + pb) * bank + (2 ^ g * pipe + r))) / 2 ^ g % 2 ^ pb
      = pipe ∧
    (2 ^ (g + pb + bb) * A + (2 ^ (g + pb) * bank + (2 ^ g * pipe + r))) / 2 ^ (g + pb) % 2 ^ bb
      = bank ∧
    (2 ^ (g + pb + bb) * A + (2 ^ (g + pb) * bank + (2 ^ g * pipe + r))) / 2 ^ (g + pb + bb)
      = A := by
  have hg : 0 < 2 ^ g := Nat.pos_pow_of_pos g (by norm_num)
  have hpb : 0 < 2 ^ pb := Nat.pos_pow_of_pos pb (by norm_num)
  have hbb : 0 < 2 ^ bb := Nat.pos_pow_of_pos bb (by norm_num)
  have e0 : 2 ^ (g + pb + bb) * A + (2 ^ (g + pb) * bank + (2 ^ g * pipe + r)) =
      2 ^ g * (2 ^ pb * (2 ^ bb * A + bank) + pipe) + r := by
    rw [Nat.pow_add, Nat.pow_add]
    ring
  have d1 : (2 ^ g * (2 ^ pb * (2 ^ bb * A + bank) + pipe) + r) / 2 ^ g =
      2 ^ pb * (2 ^ bb * A + bank) + pipe := by
    rw [Nat.mul_add_div hg, Nat.div_eq_of_lt hr, Nat.add_zero]
  have d2 : (2 ^ pb * (2 ^ bb * A + bank) + pipe) / 2 ^ pb = 2 ^ bb * A + bank := by
    rw [Nat.mul_add_div hpb, Nat.div_eq_of_lt hpipe, Nat.add_zero]
  have d3 : (2 ^ bb * A + bank) / 2 ^ bb = A := by
    rw [Nat.mul_add_div hbb, Nat.div_eq_of_lt hbank, Nat.add_zero]
  rw [e0]
  refine ⟨?_, ?_, ?_, ?_⟩
  · rw [Nat.mul_add_mod, Nat.mod_eq_of_lt hr]
  · rw [d1, Nat.mul_add_mod, Nat.mod_eq_of_lt hpipe]
  · rw [Nat.pow_add, ← Nat.div_div_eq_div_mul, d1, d2, Nat.mul_add_mod, Nat.mod_eq_of_lt hbank]
  · rw [Nat.pow_add, Nat.pow_add, ← Nat.div_div_eq_div_mul, ← Nat.div_div_eq_div_mul, d1, d2, d3]

/-- C5 (amended): for a valid geometry and a macro-tiled request whose computation ends
(`p` are its intermediate values), with `g`, `pb`, `bb` the base-2 logarithms of
`pipeInterleaveBytes`, `pipes`, `banks` and
`T = elemOffset + (macroTileOffset + sliceOffset) / (pipes * banks)`: if `T < 2 ^ (64 - pb - bb)`
then the final pipe is below `pipes`, the final bank is below `banks`, and the returned
address has `addr mod 2 ^ g = T mod 2 ^ g`, `(addr >> g) mod 2 ^ pb = pipe`,
`(addr >> (g + pb)) mod 2 ^ bb = bank` and `addr >> (g + pb + bb) = T >> g`. -/
theorem C5_macro_tiled_bit_layout (lib : R600AddrLib) (hv : lib.ValidConfig)
    (x y slice sample bpp pitch height numSamples : Nat) (tileMode : AddrTileMode)
    (isDepth : Bool) (tileBase compBits pipeSwizzle bankSwizzle : Nat) (p : MacroTiledParts)
    (hp : ComputeSurfaceAddrFromCoordMacroTiledParts lib x y slice sample bpp pitch height
      numSamples tileMode isDepth tileBase compBits pipeSwizzle bankSwizzle = some p)
    (hT : p.T lib < 2 ^ (64 - (Log2 lib.mPipes + Log2 lib.mBanks))) :
    p.pipe < lib.mPipes ∧ p.bank < lib.mBanks ∧
    ∃ addr, ComputeSurfaceAddrFromCoordMacroTiled lib x y slice sample bpp pitch height
        numSamples tileMode isDepth tileBase compBits pipeSwizzle bankSwizzle =
        some (addr, p.bitPosition) ∧
      addr % 2 ^ Log2 lib.mPipeInterleaveBytes = p.T lib % 2 ^ Log2 lib.mPipeInterleaveBytes ∧
      (addr >>> Log2 lib.mPipeInterleaveBytes) % 2 ^ Log2 lib.mPipes = p.pipe ∧
      (addr >>> (Log2 lib.mPipeInterleaveBytes + Log2 lib.mPipes)) % 2 ^ Log2 lib.mBanks =
        p.bank ∧
      addr >>> (Log2 lib.mPipeInterleaveBytes + Log2 lib.mPipes + Log2 lib.mBanks) =
        p.T lib >>> Log2 lib.mPipeInterleaveBytes := by
  obtain ⟨hpipe, hbank⟩ := MacroTiledParts_pipe_bank lib hv x y slice sample bpp pitch height
    numSamples tileMode isDepth tileBase compBits pipeSwizzle bankSwizzle p hp
  refine ⟨hpipe, hbank, p.offset lib, ?_, ?_⟩
  · unfold ComputeSurfaceAddrFromCoordMacroTiled
    rw [hp]
    rfl
  · obtain ⟨hpipes, hbanks, hgroup, -⟩ := hv
    -- one proof for every geometry, from the exponents of the three fields
    have main : ∀ g pb bb : Nat, Log2 lib.mPipeInterleaveBytes = g → Log2 lib.mPipes = pb →
        Log2 lib.mBanks = bb → lib.mPipes = 2 ^ pb → lib.mBanks = 2 ^ bb → g + pb + bb ≤ 64 →
        p.offset lib % 2 ^ g = p.T lib % 2 ^ g ∧
        (p.offset lib >>> g) % 2 ^ pb = p.pipe ∧
        (p.offset lib >>> (g + pb)) % 2 ^ bb = p.bank ∧
        p.offset lib >>> (g + pb + bb) = p.T lib >>> g := by
      intro g pb bb hg hpb hbb hP hB hsum
      have hPB : lib.mPipes * lib.mBanks = 2 ^ (bb + pb) := by
        rw [hP, hB, Nat.pow_add, Nat.mul_comm]
      rw [hpb, hbb] at hT
      have hT' : p.T lib < 2 ^ (64 - (pb + bb)) := hT
      have hMS : p.macroTileOffset + p.sliceOffset < 2 ^ 64 := by
        unfold MacroTiledParts.T at hT'
        rw [hPB] at hT'
        have hpos : 0 < 2 ^ (bb + pb) := Nat.pos_pow_of_pos _ (by norm_num)
        have h1 : (p.macroTileOffset + p.sliceOffset) / 2 ^ (bb + pb) < 2 ^ (64 - (pb + bb)) := by
          omega
        rw [Nat.div_lt_iff_lt_mul hpos, ← Nat.pow_add] at h1
        have e : 64 - (pb + bb) + (bb + pb) = 64 := by omega
        rw [e] at h1
        exact h1
      have htot : p.totalOffset lib = p.T lib := by
        unfold MacroTiledParts.totalOffset MacroTiledParts.T
        rw [hpb, hbb, u64_of_lt hMS, Nat.shiftRight_eq_div_pow, hPB]
        apply u64_of_lt
        have := Nat.pow_le_pow_right (show 0 < 2 by norm_num) (show 64 - (pb + bb) ≤ 64 by omega)
        unfold MacroTiledParts.T at hT'
        rw [hPB] at hT'
        omega
      have hoff : p.offset lib = 2 ^ (g + pb + bb) * (p.T lib / 2 ^ g) +
          (2 ^ (g + pb) * p.bank + (2 ^ g * p.pipe + p.T lib % 2 ^ g)) := by
        unfold MacroTiledParts.offset
        simp only [htot, hg, hpb, hbb]
        exact macro_offset_fields g pb bb (p.T lib) p.pipe p.bank hsum hT' (hP ▸ hpipe)
          (hB ▸ hbank)
      have hx := fields_extract g pb bb (p.T lib / 2 ^ g) p.bank p.pipe (p.T lib % 2 ^ g)
        (Nat.mod_lt _ (Nat.pos_pow_of_pos g (by norm_num))) (hP ▸ hpipe) (hB ▸ hbank)
      rw [← hoff] at hx
      simp only [Nat.shiftRight_eq_div_pow]
      exact hx
    rcases hpipes with h1 | h1 | h1 | h1 <;> rcases hbanks with h2 | h2 <;>
      rcases hgroup with h3 | h3 <;>
      exact main _ _ _ rfl rfl rfl (by rw [h1]; decide) (by rw [h2]; decide)
        (by rw [h1, h2, h3]; decide)

/-- C5 (amended) at scenario 4 of the specification: `2B_TILED_THIN1`, 32 bits per pixel,
pitch and height 256, pixel (40, 24). -/
theorem C5_macro_tiled_bit_layout_witness :
    exampleLib.ValidConfig ∧
    ComputeSurfaceAddrFromCoordMacroTiledParts exampleLib 40 24 0 0 32 256 256 1
      ADDR_TM_2B_TILED_THIN1 false 0 0 0 0 = some ⟨0, 1, 1, 4096, 0, 0⟩ ∧
    (1 < exampleLib.mPipes ∧ 1 < exampleLib.mBanks ∧
      ∃ addr, ComputeSurfaceAddrFromCoordMacroTiled exampleLib 40 24 0 0 32 256 256 1
          ADDR_TM_2B_TILED_THIN1 false 0 0 0 0 = some (addr, 0) ∧
        addr % 2 ^ 8 = 256 % 2 ^ 8 ∧ (addr >>> 8) % 2 ^ 2 = 1 ∧ (addr >>> (8 + 2)) % 2 ^ 2 = 1 ∧
        addr >>> (8 + 2 + 2) = 256 >>> 8) :=
  ⟨by decide, by decide,
    C5_macro_tiled_bit_layout exampleLib (by decide) 40 24 0 0 32 256 256 1
      ADDR_TM_2B_TILED_THIN1 false 0 0 0 0 ⟨0, 1, 1, 4096, 0, 0⟩ (by decide) (by decide)⟩

/-- C5 as stated fails: with one pipe, four banks, 128 bits per pixel, pitch `2 ^ 30 - 1`,
height 1 and slice `2 ^ 30 + 1`, every divisor is non-zero and `T = 2 ^ 62 + 236`, yet the
high field of the returned address is 0 and not `T >> 8` (it is shifted out of 64 bits). -/
theorem C5_high_field_overflow :
    exampleLibOnePipe.ValidConfig ∧
    ∃ p, ComputeSurfaceAddrFromCoordMacroTiledParts exampleLibOnePipe 7 1 (2 ^ 30 + 1) 0 128
        (2 ^ 30 - 1) 1 1 ADDR_TM_2D_TILED_THIN1 false 0 0 0 0 = some p ∧
      ∃ addr, ComputeSurfaceAddrFromCoordMacroTiled exampleLibOnePipe 7 1 (2 ^ 30 + 1) 0 128
          (2 ^ 30 - 1) 1 1 ADDR_TM_2D_TILED_THIN1 false 0 0 0 0 = some (addr, p.bitPosition) ∧
        addr >>> (Log2 exampleLibOnePipe.mPipeInterleaveBytes + Log2 exampleLibOnePipe.mPipes +
            Log2 exampleLibOnePipe.mBanks) ≠
          p.T exampleLibOnePipe >>> Log2 exampleLibOnePipe.mPipeInterleaveBytes :=
  ⟨by decide, ⟨240, 0, 1, 0, 18446744073709551600, 0⟩, by decide, 492, by decide, by decide⟩

/-- C6 (evaluation at the failing input): for `1D_TILED_THIN1`, 8 bits per pixel, pitch and
height 65536 and pixel (0, 0) of slice 1 the code returns address 0, because
`pitch * height` wraps to 0 in 32 bits, while the formula of the specification gives
`2 ^ 32`. -/
theorem C6_micro_tiled_slice_product_wraps :
    ComputeSurfaceAddrFromCoordMicroTiled 0 0 1 8 65536 65536 ADDR_TM_1D_TILED_THIN1 false 0 0 =
      (0, 0) ∧
    microTiledAddrSpec 0 0 1 8 65536 65536 1
      (ComputePixelIndexWithinMicroTile 0 0 1 8 ADDR_TM_1D_TILED_THIN1 (GetTileType false)) =
      (4294967296, 0) := by
  decide

/-! ## Surface sizing -/

theorem NextPow2Loop_le (K : Nat) (hK : K ≤ 31) (dim : Nat) (hd : dim ≤ 2 ^ K) :
    ∀ (fuel i : Nat), i ≤ K → NextPow2Loop fuel dim (2 ^ i) ≤ 2 ^ K := by
  intro fuel
  induction fuel with
  | zero =>
    intro i hi
    exact Nat.pow_le_pow_right (by norm_num) hi
  | succ n ih =>
    intro i hi
    unfold NextPow2Loop
    split_ifs with h
    · have hlt : i < K := by
        by_contra hc
        have : 2 ^ K ≤ 2 ^ i := Nat.pow_le_pow_right (by norm_num) (by omega)
        omega
      have e : u32 (2 ^ i <<< 1) = 2 ^ (i + 1) := by
        rw [Nat.shiftLeft_eq, ← Nat.pow_succ]
        apply u32_of_lt
        exact Nat.pow_lt_pow_right (by norm_num) (by omega)
      rw [e]
      exact ih (i + 1) hlt
    · exact Nat.pow_le_pow_right (by norm_num) hi

theorem NextPow2_le (K : Nat) (hK : K ≤ 31) (dim : Nat) (hd : dim ≤ 2 ^ K) :
    NextPow2 dim ≤ 2 ^ K := by
  unfold NextPow2
  have h31 : 2 ^ K ≤ 2 ^ 31 := Nat.pow_le_pow_right (by norm_num) hK
  split_ifs with h
  · omega
  · exact NextPow2Loop_le K hK dim hd 32 0 (Nat.zero_le _)

/-- Bounds on what `MipLevelDims` returns. -/
theorem MipLevelDims_bounds (pIn : ADDR_COMPUTE_SURFACE_INFO_INPUT) (pitch padDims : Nat)
    (hp : pitch ≤ 2 ^ 30) (hh : pIn.height ≤ 2 ^ 30) (hs : pIn.numSlices ≤ 2 ^ 30)
    (hpd : padDims ≠ 1) :
    (MipLevelDims pIn pitch padDims).1 ≤ 2 ^ 30 ∧
    (MipLevelDims pIn pitch padDims).2.1 ≤ 2 ^ 30 ∧
    (MipLevelDims pIn pitch padDims).2.2.1 ≤ 2 ^ 30 ∧
    (MipLevelDims pIn pitch padDims).2.2.2 ≠ 1 := by
  have h1 := NextPow2_le 30 (by norm_num) pitch hp
  have h2 := NextPow2_le 30 (by norm_num) pIn.height hh
  have h3 := NextPow2_le 30 (by norm_num) pIn.numSlices hs
  unfold MipLevelDims
  split_ifs <;> simp only <;> refine ⟨?_, ?_, ?_, ?_⟩ <;> first | assumption | omega

theorem AdjustPitchAlignment_bounds (flags : ADDR_SURFACE_FLAGS) (a : Nat) (ha : 0 < a)
    (hb : a ≤ 2 ^ 31) :
    0 < AdjustPitchAlignment flags a ∧ AdjustPitchAlignment flags a < a + 32 := by
  unfold AdjustPitchAlignment
  split_ifs
  · have := PowTwoAlign_ge a 5 (by norm_num) (by norm_num; omega)
    norm_num at this
    omega
  · omega

theorem ComputeSurfaceAlignmentsLinear_facts (lib : R600AddrLib) (hv : lib.ValidConfig)
    (tileMode : AddrTileMode) (bpp : Nat) (flags : ADDR_SURFACE_FLAGS) :
    0 < (ComputeSurfaceAlignmentsLinear lib tileMode bpp flags).2.1 ∧
    (ComputeSurfaceAlignmentsLinear lib tileMode bpp flags).2.1 < 2 ^ 13 ∧
    (ComputeSurfaceAlignmentsLinear lib tileMode bpp flags).2.2 = 1 := by
  obtain ⟨-, -, hgroup, -⟩ := hv
  unfold ComputeSurfaceAlignmentsLinear
  have hdiv : u32 (8 * lib.mPipeInterleaveBytes) / bpp ≤ 4096 := by
    have h1 : u32 (8 * lib.mPipeInterleaveBytes) ≤ 4096 := by
      rw [u32_of_lt (by omega)]
      omega
    exact Nat.le_trans (Nat.div_le_self _ _) h1
  have hall : ∀ r : Nat × Nat × Nat, 0 < r.2.1 ∧ r.2.1 ≤ 4096 → r.2.2 = 1 →
      0 < (r.1, AdjustPitchAlignment flags r.2.1, r.2.2).2.1 ∧
      (r.1, AdjustPitchAlignment flags r.2.1, r.2.2).2.1 < 2 ^ 13 ∧
      (r.1, AdjustPitchAlignment flags r.2.1, r.2.2).2.2 = 1 := by
    intro r h1 h2
    have := AdjustPitchAlignment_bounds flags r.2.1 h1.1 (by omega)
    exact ⟨this.1, by dsimp only; omega, h2⟩
  refine hall _ ?_ ?_
  · cases tileMode <;> dsimp only <;> first | omega | (split_ifs <;> omega)
  · cases tileMode <;> rfl

theorem ComputeSurfaceAlignmentsMicrotiled_facts (lib : R600AddrLib) (hv : lib.ValidConfig)
    (tileMode : AddrTileMode) (bpp : Nat) (flags : ADDR_SURFACE_FLAGS) (numSamples : Nat) :
    0 < (ComputeSurfaceAlignmentsMicrotiled lib tileMode bpp flags numSamples).2.1 ∧
    (ComputeSurfaceAlignmentsMicrotiled lib tileMode bpp flags numSamples).2.1 < 2 ^ 13 ∧
    (ComputeSurfaceAlignmentsMicrotiled lib tileMode bpp flags numSamples).2.2 = 8 := by
  obtain ⟨-, -, hgroup, -⟩ := hv
  unfold ComputeSurfaceAlignmentsMicrotiled
  dsimp only
  generalize (if bpp = 96 ∨ bpp = 48 ∨ bpp = 24 then bpp / 3 else bpp) = b
  have h1 : lib.mPipeInterleaveBytes / b / numSamples / ComputeSurfaceThickness tileMode ≤ 512 :=
    Nat.le_trans (Nat.div_le_self _ _) (Nat.le_trans (Nat.div_le_self _ _)
      (Nat.le_trans (Nat.div_le_self _ _) (by omega)))
  have := AdjustPitchAlignment_bounds flags
    (max 8 (lib.mPipeInterleaveBytes / b / numSamples / ComputeSurfaceThickness tileMode))
    (by omega) (by omega)
  refine ⟨this.1, ?_, rfl⟩
  omega

theorem aspect_cases (tileMode : AddrTileMode) :
    ComputeMacroTileAspectRatio tileMode = 1 ∨ ComputeMacroTileAspectRatio tileMode = 2 ∨
    ComputeMacroTileAspectRatio tileMode = 4 := by
  cases tileMode <;> simp [ComputeMacroTileAspectRatio]

theorem macroTileDims_facts (lib : R600AddrLib) (hv : lib.ValidConfig) (tileMode : AddrTileMode) :
    (∃ j, j ≤ 6 ∧ 3 ≤ j ∧ (macroTileDims lib tileMode).1 = 2 ^ j) ∧
    (∃ k, k ≤ 8 ∧ (macroTileDims lib tileMode).2 = 2 ^ k) := by
  obtain ⟨hpipes, hbanks, -⟩ := hv
  unfold macroTileDims
  constructor
  · rcases aspect_cases tileMode with h | h | h <;> rcases hbanks with h' | h' <;>
      rw [h, h']
    · exact ⟨5, by norm_num⟩
    · exact ⟨6, by norm_num⟩
    · exact ⟨4, by norm_num⟩
    · exact ⟨5, by norm_num⟩
    · exact ⟨3, by norm_num⟩
    · exact ⟨4, by norm_num⟩
  · rcases aspect_cases tileMode with h | h | h <;> rcases hpipes with h' | h' | h' | h' <;>
      rw [h, h']
    · exact ⟨3, by norm_num⟩
    · exact ⟨4, by norm_num⟩
    · exact ⟨5, by norm_num⟩
    · exact ⟨6, by norm_num⟩
    · exact ⟨4, by norm_num⟩
    · exact ⟨5, by norm_num⟩
    · exact ⟨6, by norm_num⟩
    · exact ⟨7, by norm_num⟩
    · exact ⟨5, by norm_num⟩
    · exact ⟨6, by norm_num⟩
    · exact ⟨7, by norm_num⟩
    · exact ⟨8, by norm_num⟩

theorem ComputeSurfaceAlignmentsMacrotiled_facts (lib : R600AddrLib) (hv : lib.ValidConfig)
    (tileMode : AddrTileMode) (bpp : Nat) (flags : ADDR_SURFACE_FLAGS) (numSamples : Nat) :
    (ComputeSurfaceAlignmentsMacrotiled lib tileMode bpp flags numSamples).2.2.2.1 =
      (macroTileDims lib tileMode).1 ∧
    (ComputeSurfaceAlignmentsMacrotiled lib tileMode bpp flags numSamples).2.2.2.2 =
      (macroTileDims lib tileMode).2 ∧
    (ComputeSurfaceAlignmentsMacrotiled lib tileMode bpp flags numSamples).2.2.1 =
      (macroTileDims lib tileMode).2 ∧
    (ComputeSurfaceAlignmentsMacrotiled lib tileMode bpp flags numSamples).2.1 %
      (macroTileDims lib tileMode).1 = 0 ∧
    0 < (ComputeSurfaceAlignmentsMacrotiled lib tileMode bpp flags numSamples).2.1 ∧
    (ComputeSurfaceAlignmentsMacrotiled lib tileMode bpp flags numSamples).2.1 ≤ 2 ^ 15 := by
  obtain ⟨⟨j, hj6, hj3, hj⟩, ⟨k, hk8, hk⟩⟩ := macroTileDims_facts lib hv tileMode
  obtain ⟨hpipes, hbanks, hgroup, -⟩ := hv
  have hw : u32 (8 * lib.mBanks) / ComputeMacroTileAspectRatio tileMode =
      (macroTileDims lib tileMode).1 := by
    unfold macroTileDims
    rw [u32_of_lt (by omega)]
  have hk256 : (macroTileDims lib tileMode).2 ≤ 2 ^ 8 := by
    rw [hk]
    exact Nat.pow_le_pow_right (by norm_num) hk8
  have hh : u32 (ComputeMacroTileAspectRatio tileMode * 8 * lib.mPipes) =
      (macroTileDims lib tileMode).2 := by
    apply u32_of_lt
    have : ComputeMacroTileAspectRatio tileMode * 8 * lib.mPipes = (macroTileDims lib tileMode).2 :=
      rfl
    omega
  have hj64 : (macroTileDims lib tileMode).1 ≤ 2 ^ 6 := by
    rw [hj]
    exact Nat.pow_le_pow_right (by norm_num) hj6
  have hjpos : 0 < (macroTileDims lib tileMode).1 := by
    rw [hj]
    exact Nat.pos_pow_of_pos _ (by norm_num)
  unfold ComputeSurfaceAlignmentsMacrotiled
  dsimp only
  rw [hw, hh]
  generalize (if (if bpp = 96 ∨ bpp = 48 ∨ bpp = 24 then bpp / 3 else bpp) = 3 then 1
    else if bpp = 96 ∨ bpp = 48 ∨ bpp = 24 then bpp / 3 else bpp) = b
  generalize hK : lib.mPipeInterleaveBytes / b / u32 (8 * ComputeSurfaceThickness tileMode) /
    numSamples = K
  have hK512 : K ≤ 512 := by
    rw [← hK]
    exact Nat.le_trans (Nat.div_le_self _ _) (Nat.le_trans (Nat.div_le_self _ _)
      (Nat.le_trans (Nat.div_le_self _ _) (by omega)))
  have hmul : (macroTileDims lib tileMode).1 * K ≤ 2 ^ 6 * 512 := Nat.mul_le_mul hj64 hK512
  rw [u32_of_lt (show (macroTileDims lib tileMode).1 * K < 2 ^ 32 by omega)]
  refine ⟨rfl, rfl, rfl, ?_, ?_, ?_⟩
  · rcases Nat.le_total ((macroTileDims lib tileMode).1) ((macroTileDims lib tileMode).1 * K)
      with h | h
    · rw [Nat.max_eq_right h]
      exact Nat.mul_mod_right _ _
    · rw [Nat.max_eq_left h]
      exact Nat.mod_self _
  · omega
  · omega

theorem BankSwapHalveLoop_le : ∀ (fuel w t r : Nat), BankSwapHalveLoop fuel w t = some r →
    r ≤ w := by
  intro fuel
  induction fuel with
  | zero => intro w t r h; simp [BankSwapHalveLoop] at h
  | succ n ih =>
    intro w t r h
    unfold BankSwapHalveLoop at h
    split_ifs at h
    · have := ih _ _ _ h
      have h2 : w >>> 1 ≤ w := by
        rw [Nat.shiftRight_eq_div_pow]
        exact Nat.div_le_self _ _
      omega
    · injection h with h
      omega

theorem ComputeSurfaceBankSwappedWidth_le (lib : R600AddrLib) (hv : lib.ValidConfig)
    (tileMode : AddrTileMode) (bpp numSamples pitch w : Nat)
    (h : ComputeSurfaceBankSwappedWidth lib tileMode bpp numSamples pitch = some w) :
    w ≤ 2 ^ 19 := by
  obtain ⟨hpipes, hbanks, -, hrow, -⟩ := hv
  unfold ComputeSurfaceBankSwappedWidth at h
  dsimp only at h
  by_cases hb : IsBankSwappedTileMode tileMode = true
  · rw [if_pos hb] at h
    have h1 := BankSwapHalveLoop_le _ _ _ _ h
    have h2 : lib.mPipes * lib.mBanks * lib.mRowSize ≤ 8 * 8 * 8192 :=
      Nat.mul_le_mul (Nat.mul_le_mul (by omega) (by omega)) (by omega)
    have h3 : u32 (lib.mPipes * lib.mBanks * lib.mRowSize) ≤ 2 ^ 19 := by
      have := u32_le (lib.mPipes * lib.mBanks * lib.mRowSize)
      omega
    refine Nat.le_trans h1 ?_
    refine Nat.le_trans (Nat.min_le_left _ _) ?_
    exact Nat.le_trans (Nat.div_le_self _ _) h3
  · rw [if_neg hb] at h
    injection h with h
    omega

theorem thickness_cases (tileMode : AddrTileMode) :
    ComputeSurfaceThickness tileMode = 1 ∨ ComputeSurfaceThickness tileMode = 4 ∨
    ComputeSurfaceThickness tileMode = 8 := by
  cases tileMode <;> simp [ComputeSurfaceThickness]

/-- Rounding up to a multiple without wraparound, the generic branch of `PadDimensions`. -/
theorem pad_generic (pitch a : Nat) (ha : 0 < a) (hp : pitch + a < 2 ^ 32) :
    u32 (u32 (pitch + sub32 a 1) / a * a) % a = 0 ∧
    u32 (u32 (pitch + sub32 a 1) / a * a) < pitch + a ∧
    pitch ≤ u32 (u32 (pitch + sub32 a 1) / a * a) := by
  rw [sub32_eq ha (by omega), u32_of_lt (show pitch + (a - 1) < 2 ^ 32 by omega)]
  have h1 := Nat.div_mul_le_self (pitch + (a - 1)) a
  have h2 := Nat.div_add_mod (pitch + (a - 1)) a
  have h3 := Nat.mod_lt (pitch + (a - 1)) ha
  rw [Nat.mul_comm] at h2
  rw [u32_of_lt (by omega)]
  refine ⟨Nat.mul_mod_left _ _, ?_, ?_⟩ <;> omega

/-- The pitch component of `PadDimensions`. -/
theorem PadDimensions_pitch (lib : R600AddrLib) (tileMode : AddrTileMode)
    (flags : ADDR_SURFACE_FLAGS)
    (padDims pitch pitchAlign height heightAlign slices sliceAlign : Nat)
    (hpa : 0 < pitchAlign) (hp : pitch + pitchAlign < 2 ^ 32) :
    (PadDimensions lib tileMode flags padDims pitch pitchAlign height heightAlign slices
      sliceAlign).1 % pitchAlign = 0 ∧
    (PadDimensions lib tileMode flags padDims pitch pitchAlign height heightAlign slices
      sliceAlign).1 < pitch + pitchAlign ∧
    pitch ≤ (PadDimensions lib tileMode flags padDims pitch pitchAlign height heightAlign slices
      sliceAlign).1 := by
  unfold PadDimensions
  simp only
  split_ifs with h
  · obtain ⟨k, hk, rfl⟩ := IsPow2_two_pow pitchAlign hpa (by omega) h
    exact ⟨PowTwoAlign_mod pitch k hk (Nat.le_of_lt hp),
      (PowTwoAlign_ge pitch k hk (Nat.le_of_lt hp)).2,
      (PowTwoAlign_ge pitch k hk (Nat.le_of_lt hp)).1⟩
  · exact pad_generic pitch pitchAlign hpa hp

/-- The height component of `PadDimensions`. -/
theorem PadDimensions_height (lib : R600AddrLib) (tileMode : AddrTileMode)
    (flags : ADDR_SURFACE_FLAGS)
    (padDims pitch pitchAlign height heightAlign slices sliceAlign : Nat)
    (hpd : padDims ≠ 1) (k : Nat) (hk : k ≤ 31) (hha : heightAlign = 2 ^ k)
    (hh : height + heightAlign ≤ 2 ^ 32) :
    (PadDimensions lib tileMode flags padDims pitch pitchAlign height heightAlign slices
      sliceAlign).2.1 % heightAlign = 0 := by
  unfold PadDimensions
  simp only
  subst hha
  have : (if padDims = 0 then 3 else padDims) > 1 := by split_ifs <;> omega
  rw [if_pos this]
  exact PowTwoAlign_mod height k hk hh

/-- The slice component of `PadDimensions` when the slice alignment is the thickness. -/
theorem PadDimensions_slices (lib : R600AddrLib) (tileMode : AddrTileMode)
    (flags : ADDR_SURFACE_FLAGS)
    (padDims pitch pitchAlign height heightAlign slices : Nat)
    (hs : slices ≤ 2 ^ 30) :
    (PadDimensions lib tileMode flags padDims pitch pitchAlign height heightAlign slices
      (ComputeSurfaceThickness tileMode)).2.2 % ComputeSurfaceThickness tileMode = 0 := by
  unfold PadDimensions
  simp only
  have hn := NextPow2_le 30 (by norm_num) slices hs
  rcases thickness_cases tileMode with h | h | h <;> rw [h]
  · exact Nat.mod_one _
  · simp only [show (4 : Nat) > 1 by norm_num, or_true, if_true]
    split_ifs
    · exact PowTwoAlign_mod _ 2 (by norm_num) (by omega)
    · exact PowTwoAlign_mod _ 2 (by norm_num) (by omega)
  · simp only [show (8 : Nat) > 1 by norm_num, or_true, if_true]
    split_ifs
    · exact PowTwoAlign_mod _ 3 (by norm_num) (by omega)
    · exact PowTwoAlign_mod _ 3 (by norm_num) (by omega)

theorem ComputeSurfaceInfoMicroTiled_THIN1_tileMode (lib : R600AddrLib)
    (pIn : ADDR_COMPUTE_SURFACE_INFO_INPUT) (pOut : ADDR_COMPUTE_SURFACE_INFO_OUTPUT)
    (padDims : Nat) :
    (ComputeSurfaceInfoMicroTiled lib pIn pOut padDims ADDR_TM_1D_TILED_THIN1).tileMode =
      ADDR_TM_1D_TILED_THIN1 := by
  unfold ComputeSurfaceInfoMicroTiled
  simp

theorem ComputeSurfaceInfoLinear_aligned (lib : R600AddrLib) (hv : lib.ValidConfig)
    (pIn : ADDR_COMPUTE_SURFACE_INFO_INPUT) (pOut : ADDR_COMPUTE_SURFACE_INFO_OUTPUT)
    (padDims : Nat) (tileMode : AddrTileMode)
    (hw : pIn.width ≤ 2 ^ 30) (hh : pIn.height ≤ 2 ^ 30) (hs : pIn.numSlices ≤ 2 ^ 30)
    (hpd : padDims ≠ 1) :
    (ComputeSurfaceInfoLinear lib pIn pOut padDims tileMode).Aligned := by
  have hal := ComputeSurfaceAlignmentsLinear_facts lib hv pIn.tileMode pIn.bpp pIn.flags
  have hp0 : (if pIn.flags.linearWA = true ∧ pIn.mipLevel = 0 then NextPow2 (pIn.width / 3)
      else pIn.width) ≤ 2 ^ 30 := by
    split_ifs
    · exact NextPow2_le 30 (by norm_num) _ (Nat.le_trans (Nat.div_le_self _ _) hw)
    · exact hw
  have hd := MipLevelDims_bounds pIn _ padDims hp0 hh hs hpd
  unfold ADDR_COMPUTE_SURFACE_INFO_OUTPUT.Aligned ComputeSurfaceInfoLinear
  dsimp only
  generalize ComputeSurfaceAlignmentsLinear lib pIn.tileMode pIn.bpp pIn.flags = al at hal ⊢
  generalize MipLevelDims pIn (if pIn.flags.linearWA = true ∧ pIn.mipLevel = 0 then
    NextPow2 (pIn.width / 3) else pIn.width) padDims = d at hd ⊢
  obtain ⟨ha0, ha1, ha2⟩ := hal
  obtain ⟨hd1, hd2, hd3, hd4⟩ := hd
  have hP := PadDimensions_pitch lib tileMode pIn.flags d.2.2.2 d.1 al.2.1 d.2.1 al.2.2 d.2.2.1
    (ComputeSurfaceThickness tileMode) ha0 (by omega)
  refine ⟨?_, ?_, ?_⟩
  · split_ifs
    · rw [u32_of_lt (by omega), Nat.mul_mod, hP.1, Nat.zero_mul, Nat.zero_mod]
    · exact hP.1
  · exact PadDimensions_height lib tileMode pIn.flags _ _ _ _ _ _ _ hd4 0 (by norm_num)
      (by rw [ha2]; norm_num) (by omega)
  · exact PadDimensions_slices lib tileMode pIn.flags _ _ _ _ _ _ hd3

theorem ComputeSurfaceInfoMicroTiled_aligned (lib : R600AddrLib) (hv : lib.ValidConfig)
    (pIn : ADDR_COMPUTE_SURFACE_INFO_INPUT) (pOut : ADDR_COMPUTE_SURFACE_INFO_OUTPUT)
    (padDims : Nat) (tileMode : AddrTileMode)
    (hw : pIn.width ≤ 2 ^ 30) (hh : pIn.height ≤ 2 ^ 30) (hs : pIn.numSlices ≤ 2 ^ 30)
    (hpd : padDims ≠ 1) :
    (ComputeSurfaceInfoMicroTiled lib pIn pOut padDims tileMode).Aligned := by
  have hd := MipLevelDims_bounds pIn _ padDims hw hh hs hpd
  unfold ADDR_COMPUTE_SURFACE_INFO_OUTPUT.Aligned ComputeSurfaceInfoMicroTiled
  dsimp only
  generalize MipLevelDims pIn pIn.width padDims = d at hd ⊢
  obtain ⟨hd1, hd2, hd3, hd4⟩ := hd
  generalize htm : (if decide (pIn.mipLevel ≠ 0 ∧ tileMode = ADDR_TM_1D_TILED_THICK ∧
    d.2.2.1 < 4) = true then ADDR_TM_1D_TILED_THIN1 else tileMode) = tm
  have hth : (if decide (pIn.mipLevel ≠ 0 ∧ tileMode = ADDR_TM_1D_TILED_THICK ∧
      d.2.2.1 < 4) = true then 1 else ComputeSurfaceThickness tm) =
      ComputeSurfaceThickness tm := by
    split_ifs with h
    · rw [← htm, if_pos h]
      rfl
    · rfl
  rw [hth]
  have hal := ComputeSurfaceAlignmentsMicrotiled_facts lib hv tm pIn.bpp pIn.flags pIn.numSamples
  generalize ComputeSurfaceAlignmentsMicrotiled lib tm pIn.bpp pIn.flags pIn.numSamples = al
    at hal ⊢
  obtain ⟨ha0, ha1, ha2⟩ := hal
  have hP := PadDimensions_pitch lib tm pIn.flags d.2.2.2 d.1 al.2.1 d.2.1 al.2.2 d.2.2.1
    (ComputeSurfaceThickness tm) ha0 (by omega)
  refine ⟨hP.1, ?_, ?_⟩
  · exact PadDimensions_height lib tm pIn.flags _ _ _ _ _ _ _ hd4 3 (by norm_num)
      (by rw [ha2]; norm_num) (by omega)
  · exact PadDimensions_slices lib tm pIn.flags _ _ _ _ _ _ hd3

theorem DualPitchAlign_le (lib : R600AddrLib) (tileMode : AddrTileMode) (isDepth : Bool)
    (mipLevel bpp numSamples pitch height macroWidth macroHeight : Nat) :
    DualPitchAlign lib tileMode isDepth mipLevel bpp numSamples pitch height macroWidth
      macroHeight ≤ pitch + macroWidth := by
  unfold DualPitchAlign
  dsimp only
  have := u32_le (pitch + macroWidth)
  split_ifs <;> omega

/-- What `ComputeSurfaceInfoMacroTiled` returns: either the micro-tiled fallback, or a result
in the mode `tm` chosen by the routine whose pitch is padded to
`max(pitchAlign, bankSwapWidth)` and whose height is padded to the macro-tile height. -/
theorem ComputeSurfaceInfoMacroTiled_cases (lib : R600AddrLib) (hv : lib.ValidConfig)
    (pIn : ADDR_COMPUTE_SURFACE_INFO_INPUT) (pOut : ADDR_COMPUTE_SURFACE_INFO_OUTPUT)
    (padDims : Nat) (tileMode baseTileMode : AddrTileMode)
    (o : ADDR_COMPUTE_SURFACE_INFO_OUTPUT)
    (hw : pIn.width ≤ 2 ^ 30) (hh : pIn.height ≤ 2 ^ 30) (hs : pIn.numSlices ≤ 2 ^ 30)
    (hpd : padDims ≠ 1)
    (h : ComputeSurfaceInfoMacroTiled lib pIn pOut padDims tileMode baseTileMode = some o) :
    (o.tileMode = ADDR_TM_1D_TILED_THIN1 ∧ o.Aligned) ∨
    (o.Aligned ∧ (o.tileMode = tileMode ∨ o.tileMode = ADDR_TM_2D_TILED_THIN1) ∧
      o.heightAlign = (macroTileDims lib o.tileMode).2 ∧
      ∃ pitch w, ComputeSurfaceBankSwappedWidth lib o.tileMode pIn.bpp pIn.numSamples pitch =
          some w ∧
        o.pitchAlign = max (ComputeSurfaceAlignmentsMacrotiled lib o.tileMode pIn.bpp pIn.flags
          pIn.numSamples).2.1 w) := by
  have hd := MipLevelDims_bounds pIn _ padDims hw hh hs hpd
  unfold ComputeSurfaceInfoMacroTiled at h
  dsimp only at h
  generalize MipLevelDims pIn pIn.width padDims = d at hd h
  obtain ⟨hd1, hd2, hd3, hd4⟩ := hd
  generalize htm : (if decide (pIn.mipLevel ≠ 0 ∧ tileMode = ADDR_TM_2D_TILED_THICK ∧
    d.2.2.1 < 4) = true then ADDR_TM_2D_TILED_THIN1 else tileMode) = tm at h
  have hth : (if decide (pIn.mipLevel ≠ 0 ∧ tileMode = ADDR_TM_2D_TILED_THICK ∧
      d.2.2.1 < 4) = true then 1 else ComputeSurfaceThickness tm) =
      ComputeSurfaceThickness tm := by
    split_ifs with h
    · rw [← htm, if_pos h]
      rfl
    · rfl
  have htm' : tm = tileMode ∨ tm = ADDR_TM_2D_TILED_THIN1 := by
    rw [← htm]
    split_ifs
    · exact Or.inr rfl
    · exact Or.inl rfl
  rw [hth] at h
  split at h
  · -- fallback to 1D tiling
    injection h with h
    subst h
    exact Or.inl ⟨ComputeSurfaceInfoMicroTiled_THIN1_tileMode lib pIn _ _,
      ComputeSurfaceInfoMicroTiled_aligned lib hv pIn _ _ _ hw hh hs hd4⟩
  · split at h
    · exact absurd h (by simp)
    · rename_i w hbsw
      injection h with h
      subst h
      have hal := ComputeSurfaceAlignmentsMacrotiled_facts lib hv tm pIn.bpp pIn.flags
        pIn.numSamples
      obtain ⟨⟨j, hj6, hj3, hj⟩, ⟨k, hk8, hk⟩⟩ := macroTileDims_facts lib hv tm
      have hwle := ComputeSurfaceBankSwappedWidth_le lib hv tm pIn.bpp pIn.numSamples d.1 w hbsw
      have hj64 : (macroTileDims lib tm).1 ≤ 2 ^ 6 := by
        rw [hj]
        exact Nat.pow_le_pow_right (by norm_num) hj6
      have hk256 : (macroTileDims lib tm).2 ≤ 2 ^ 8 := by
        rw [hk]
        exact Nat.pow_le_pow_right (by norm_num) hk8
      have hdp := DualPitchAlign_le lib tm pIn.flags.depth pIn.mipLevel pIn.bpp pIn.numSamples
        d.1 d.2.1 (ComputeSurfaceAlignmentsMacrotiled lib tm pIn.bpp pIn.flags
          pIn.numSamples).2.2.2.1 (ComputeSurfaceAlignmentsMacrotiled lib tm pIn.bpp pIn.flags
          pIn.numSamples).2.2.2.2
      generalize ComputeSurfaceAlignmentsMacrotiled lib tm pIn.bpp pIn.flags pIn.numSamples = al
        at hal hdp ⊢
      obtain ⟨ha1, ha2, ha3, ha4, ha5, ha6⟩ := hal
      generalize DualPitchAlign lib tm pIn.flags.depth pIn.mipLevel pIn.bpp pIn.numSamples
        d.1 d.2.1 al.2.2.2.1 al.2.2.2.2 = pitch1 at hdp ⊢
      have hP := PadDimensions_pitch lib tm pIn.flags d.2.2.2 pitch1 (max al.2.1 w) d.2.1
        al.2.2.1 d.2.2.1 (ComputeSurfaceThickness tm) (by omega) (by omega)
      refine Or.inr ⟨⟨hP.1, ?_, ?_⟩, htm', ha3, d.1, w, hbsw, rfl⟩
      · exact PadDimensions_height lib tm pIn.flags d.2.2.2 pitch1 (max al.2.1 w) d.2.1
          al.2.2.1 d.2.2.1 (ComputeSurfaceThickness tm) hd4 k (by omega)
          (by rw [ha3]; exact hk) (by omega)
      · exact PadDimensions_slices lib tm pIn.flags d.2.2.2 pitch1 (max al.2.1 w) d.2.1
          al.2.2.1 d.2.2.1 hd3

/-- The three ways in which `HwlComputeSurfaceInfo` returns `ADDR_OK`. -/
theorem HwlComputeSurfaceInfo_ok (lib : R600AddrLib) (pIn : ADDR_COMPUTE_SURFACE_INFO_INPUT)
    (pOut out : ADDR_COMPUTE_SURFACE_INFO_OUTPUT)
    (h : HwlComputeSurfaceInfo lib pIn pOut = some (ADDR_OK, out)) :
    ∃ padDims tm, padDims ≠ 1 ∧
      (((tm = ADDR_TM_LINEAR_GENERAL ∨ tm = ADDR_TM_LINEAR_ALIGNED) ∧
          out = ComputeSurfaceInfoLinear lib pIn pOut padDims tm) ∨
       ((tm = ADDR_TM_1D_TILED_THIN1 ∨ tm = ADDR_TM_1D_TILED_THICK) ∧
          out = ComputeSurfaceInfoMicroTiled lib pIn pOut padDims tm) ∨
       ((4 ≤ tm.toNat ∧ tm.toNat ≤ 15) ∧
          ComputeSurfaceInfoMacroTiled lib pIn pOut padDims tm pIn.tileMode = some out)) := by
  unfold HwlComputeSurfaceInfo at h
  dsimp only at h
  have hpd : (if pIn.flags.cube = true ∧ pIn.mipLevel = 0 then 2 else 0) ≠ 1 := by
    split_ifs <;> omega
  generalize (if pIn.flags.cube = true ∧ pIn.mipLevel = 0 then 2 else 0) = padDims at h hpd
  generalize (if pIn.flags.fmask = true then ConvertToNonBankSwappedMode pIn.tileMode
    else ComputeSurfaceMipLevelTileMode lib pIn.tileMode pIn.bpp pIn.mipLevel pIn.width
      pIn.height pIn.numSlices (max 1 pIn.numSamples) pIn.flags.depth false) = tm at h
  refine ⟨padDims, tm, hpd, ?_⟩
  cases tm <;> dsimp only at h <;>
    first
    | (simp only [Option.some.injEq, Prod.mk.injEq, true_and] at h
       first
       | exact Or.inl ⟨by simp, h.symm⟩
       | exact Or.inr (Or.inl ⟨by simp, h.symm⟩))
    | (rw [Option.map_eq_some'] at h
       obtain ⟨o, ho, heq⟩ := h
       simp only [Prod.mk.injEq, true_and] at heq
       subst heq
       exact Or.inr (Or.inr ⟨by decide, ho⟩))
    | (simp at h)

/-- C1: whenever `HwlComputeSurfaceInfo` returns `ADDR_OK` on a valid hardware configuration
for a request whose width, height and number of slices are at most `2 ^ 30` (so that no
32-bit addition wraps), the pitch is a multiple of `pitchAlign`, the height of `heightAlign`
and the depth of `depthAlign`, on the linear, micro-tiled and macro-tiled paths alike. -/
theorem C1_sizes_are_multiples_of_alignments (lib : R600AddrLib) (hv : lib.ValidConfig)
    (pIn : ADDR_COMPUTE_SURFACE_INFO_INPUT) (pOut out : ADDR_COMPUTE_SURFACE_INFO_OUTPUT)
    (hw : pIn.width ≤ 2 ^ 30) (hh : pIn.height ≤ 2 ^ 30) (hs : pIn.numSlices ≤ 2 ^ 30)
    (h : HwlComputeSurfaceInfo lib pIn pOut = some (ADDR_OK, out)) :
    out.pitch % out.pitchAlign = 0 ∧ out.height % out.heightAlign = 0 ∧
    out.depth % out.depthAlign = 0 := by
  obtain ⟨padDims, tm, hpd, h1 | h1 | h1⟩ := HwlComputeSurfaceInfo_ok lib pIn pOut out h
  · rw [h1.2]
    exact ComputeSurfaceInfoLinear_aligned lib hv pIn pOut padDims tm hw hh hs hpd
  · rw [h1.2]
    exact ComputeSurfaceInfoMicroTiled_aligned lib hv pIn pOut padDims tm hw hh hs hpd
  · rcases ComputeSurfaceInfoMacroTiled_cases lib hv pIn pOut padDims tm pIn.tileMode out
      hw hh hs hpd h1.2 with h2 | h2
    · exact h2.2
    · exact h2.1

/-- C1 at a 100 x 100 surface of 32 bits per pixel in `2D_TILED_THIN1`: pitch 128 and height
128 are multiples of the alignments 32 and 32, depth 1 of the depth alignment 1. -/
theorem C1_sizes_are_multiples_of_alignments_witness :
    exampleLib.ValidConfig ∧
    HwlComputeSurfaceInfo exampleLib (exampleSurfIn ADDR_TM_2D_TILED_THIN1 32 1 100 100)
      exampleSurfOut = some (ADDR_OK, exampleMacroOut ADDR_TM_2D_TILED_THIN1 32) ∧
    (128 % 32 = 0 ∧ 128 % 32 = 0 ∧ 1 % 1 = 0) :=
  ⟨by decide, by decide,
    C1_sizes_are_multiples_of_alignments exampleLib (by decide)
      (exampleSurfIn ADDR_TM_2D_TILED_THIN1 32 1 100 100) exampleSurfOut
      (exampleMacroOut ADDR_TM_2D_TILED_THIN1 32) (by decide) (by decide) (by decide)
      (by decide)⟩

/-! ## Tile mode of a mip level -/

theorem NoRecursive_1D_THIN1 (lib : R600AddrLib) (bpp : Nat) :
    ComputeSurfaceMipLevelTileModeNoRecursive lib ADDR_TM_1D_TILED_THIN1 bpp 1 false =
      ADDR_TM_1D_TILED_THIN1 := by
  unfold ComputeSurfaceMipLevelTileModeNoRecursive HwlDegradeThickTileMode
  simp

theorem NoRecursive_THIN1 (lib : R600AddrLib) (base : AddrTileMode) (bpp : Nat)
    (hbase : base = ADDR_TM_2D_TILED_THIN1 ∨ base = ADDR_TM_3D_TILED_THIN1) :
    ComputeSurfaceMipLevelTileModeNoRecursive lib base bpp 1 false = ADDR_TM_2D_TILED_THIN1 ∨
    ComputeSurfaceMipLevelTileModeNoRecursive lib base bpp 1 false = ADDR_TM_3D_TILED_THIN1 := by
  unfold ComputeSurfaceMipLevelTileModeNoRecursive HwlDegradeThickTileMode
  rcases hbase with h | h <;> subst h
  · simp
  · simp
    exact Decidable.em _

theorem mip_level_thin1_demotes (lib : R600AddrLib) (hv : lib.ValidConfig)
    (base : AddrTileMode) (bpp level width height numSlices : Nat)
    (hbase : base = ADDR_TM_2D_TILED_THIN1 ∨ base = ADDR_TM_3D_TILED_THIN1)
    (hl : 1 ≤ level) (hbpp : 1 ≤ bpp ∧ bpp ≤ 128)
    (hc : NextPow2 width < mipWidthAlignFactorSpec lib.mPipeInterleaveBytes bpp * (8 * lib.mBanks)
      ∨ NextPow2 height < 8 * lib.mPipes) :
    ComputeSurfaceMipLevelTileMode lib base bpp level width height numSlices 1 false false =
      ADDR_TM_1D_TILED_THIN1 := by
  obtain ⟨hpipes, hbanks, hgroup, -⟩ := hv
  unfold ComputeSurfaceMipLevelTileMode
  have hl0 : ¬ (false = true ∨ level = 0) := by simp; omega
  simp only [hl0, if_false]
  -- the normalised bpp
  generalize hb' : (if bpp = 96 ∨ bpp = 48 ∨ bpp = 24 then bpp / 3 else bpp) = bpp' at *
  have hb'r : 1 ≤ bpp' ∧ bpp' ≤ 128 := by
    subst hb'
    split_ifs <;> omega
  have hmtb : ∀ t : Nat, t = 1 → BITS_TO_BYTES32 (u32 (1 * bpp' * t * 64)) = bpp' * 8 := by
    intro t ht
    subst ht
    unfold BITS_TO_BYTES32
    have e1 : u32 (1 * bpp' * 1 * 64) = bpp' * 64 := by
      rw [u32_of_lt (by omega)]
      omega
    rw [e1, u32_of_lt (by omega)]
    omega
  have hwaf : ∀ t : Nat, t = 1 →
      (if BITS_TO_BYTES32 (u32 (1 * bpp' * t * 64)) ≤ lib.mPipeInterleaveBytes then
        lib.mPipeInterleaveBytes / BITS_TO_BYTES32 (u32 (1 * bpp' * t * 64)) else 1) =
      mipWidthAlignFactorSpec lib.mPipeInterleaveBytes bpp := by
    intro t ht
    rw [hmtb t ht]
    unfold mipWidthAlignFactorSpec
    simp only [hb', Nat.one_mul]
    split_ifs with h
    · have : 1 ≤ lib.mPipeInterleaveBytes / (bpp' * 8) :=
        (Nat.one_le_div_iff (by omega)).mpr h
      omega
    · have : lib.mPipeInterleaveBytes / (bpp' * 8) = 0 := Nat.div_eq_of_lt (by omega)
      omega
  have hwafle : mipWidthAlignFactorSpec lib.mPipeInterleaveBytes bpp ≤ 512 := by
    unfold mipWidthAlignFactorSpec
    simp only [hb', Nat.one_mul]
    have : lib.mPipeInterleaveBytes / (bpp' * 8) ≤ lib.mPipeInterleaveBytes := Nat.div_le_self _ _
    omega
  have hmw : u32 (8 * lib.mBanks) = 8 * lib.mBanks := u32_of_lt (by omega)
  have hmh : u32 (8 * lib.mPipes) = 8 * lib.mPipes := u32_of_lt (by omega)
  have hprod : u32 (mipWidthAlignFactorSpec lib.mPipeInterleaveBytes bpp * (8 * lib.mBanks)) =
      mipWidthAlignFactorSpec lib.mPipeInterleaveBytes bpp * (8 * lib.mBanks) := by
    apply u32_of_lt
    have : mipWidthAlignFactorSpec lib.mPipeInterleaveBytes bpp * (8 * lib.mBanks) ≤
        512 * (8 * 8) := Nat.mul_le_mul hwafle (by omega)
    omega
  rcases NoRecursive_THIN1 lib base bpp hbase with h | h <;> rw [h] <;>
    simp only [ConvertToNonBankSwappedMode, ComputeSurfaceThickness, hwaf 1 rfl, hmw, hmh,
      hprod, hc, if_true, reduceCtorEq, if_false] <;>
    exact NoRecursive_1D_THIN1 lib bpp'

theorem ComputeQbStereoInfo_tileMode (pOut : ADDR_COMPUTE_SURFACE_INFO_OUTPUT) :
    (ComputeQbStereoInfo pOut).tileMode = pOut.tileMode := by
  unfold ComputeQbStereoInfo
  split <;> rfl

theorem ComputeSurfaceInfoFinish_tileMode (lib : R600AddrLib)
    (pIn : ADDR_COMPUTE_SURFACE_INFO_INPUT) (pOut : ADDR_COMPUTE_SURFACE_INFO_OUTPUT)
    (elem : Nat × AddrElemMode × Nat × Nat × Nat) (bpp : Nat) :
    (ComputeSurfaceInfoFinish lib pIn pOut elem bpp).tileMode = pOut.tileMode := by
  unfold ComputeSurfaceInfoFinish
  simp only
  split_ifs <;> simp [ComputeQbStereoInfo_tileMode]

theorem HwlComputeSurfaceInfo_1D_THIN1 (lib : R600AddrLib)
    (pIn : ADDR_COMPUTE_SURFACE_INFO_INPUT) (pOut : ADDR_COMPUTE_SURFACE_INFO_OUTPUT)
    (hf : pIn.flags.fmask = false)
    (hm : ComputeSurfaceMipLevelTileMode lib pIn.tileMode pIn.bpp pIn.mipLevel pIn.width
      pIn.height pIn.numSlices (max 1 pIn.numSamples) pIn.flags.depth false =
      ADDR_TM_1D_TILED_THIN1) :
    HwlComputeSurfaceInfo lib pIn pOut =
      some (ADDR_OK, ComputeSurfaceInfoMicroTiled lib pIn pOut
        (if pIn.flags.cube = true ∧ pIn.mipLevel = 0 then 2 else 0) ADDR_TM_1D_TILED_THIN1) := by
  unfold HwlComputeSurfaceInfo
  simp only [hf, hm, Bool.false_eq_true, if_false]

theorem ComputeMipLevel_base_map (pIn : ADDR_COMPUTE_SURFACE_INFO_INPUT)
    (hfmt : pIn.format = ADDR_FMT_INVALID) (hmip : pIn.mipLevel ≠ 0)
    (hbase : pIn.flags.inputBaseMap = true) (hcube : pIn.flags.cube = false) :
    ComputeMipLevel pIn =
      { pIn with width := NextPow2 (max 1 (pIn.width >>> pIn.mipLevel)),
                 height := NextPow2 (max 1 (pIn.height >>> pIn.mipLevel)),
                 numSlices := NextPow2 (max 1 (pIn.numSlices >>> pIn.mipLevel)) } := by
  have hbc : IsBlockCompressed ADDR_FMT_INVALID = false := by decide
  have hne : ADDR_FMT_INVALID ≠ ADDR_FMT_32_32_32 ∧ ADDR_FMT_INVALID ≠ ADDR_FMT_32_32_32_FLOAT := by
    decide
  unfold ComputeMipLevel HwlComputeMipLevel
  simp only [hfmt, hbc, hmip, hbase, hcube, hne, Bool.false_eq_true, false_and, if_false,
    not_false_eq_true, if_true, ne_eq, and_self, true_and]

theorem scenario3_tileMode (lib : R600AddrLib) (hv : lib.ValidConfig)
    (sizeIn sizeOut : Nat) (pIn : ADDR_COMPUTE_SURFACE_INFO_INPUT)
    (pOut : ADDR_COMPUTE_SURFACE_INFO_OUTPUT)
    (hsize : lib.mConfigFlags.fillSizeFields = false ∨ (pIn.size = sizeIn ∧ pOut.size = sizeOut))
    (hmode : pIn.tileMode = ADDR_TM_2D_TILED_THIN1) (hfmt : pIn.format = ADDR_FMT_INVALID)
    (hbpp : pIn.bpp = 32) (hw : pIn.width = 16) (hh : pIn.height = 16)
    (hns : pIn.numSamples = 1) (hmip : pIn.mipLevel = 3)
    (hflags : pIn.flags = { ADDR_SURFACE_FLAGS.none with inputBaseMap := true }) :
    ∃ pIn' out, ComputeSurfaceInfo lib sizeIn sizeOut pIn pOut = some (ADDR_OK, pIn', out) ∧
      out.tileMode = ADDR_TM_1D_TILED_THIN1 := by
  have hdemote : ∀ ns : Nat, ComputeSurfaceMipLevelTileMode lib ADDR_TM_2D_TILED_THIN1 32 3 2 2 ns
      1 false false = ADDR_TM_1D_TILED_THIN1 := by
    intro ns
    apply mip_level_thin1_demotes lib hv _ _ _ _ _ _ (Or.inl rfl) (by norm_num) (by norm_num)
    right
    obtain ⟨hpipes, -⟩ := hv
    have : NextPow2 2 = 2 := by decide
    omega
  have hsz : ¬ (lib.mConfigFlags.fillSizeFields = true ∧ (pIn.size ≠ sizeIn ∨ pOut.size ≠ sizeOut)) := by
    rcases hsize with h | ⟨h1, h2⟩
    · simp [h]
    · simp [h1, h2]
  have hbase : pIn.flags.inputBaseMap = true := by rw [hflags]
  have hcube : pIn.flags.cube = false := by rw [hflags]; rfl
  have hfmask : pIn.flags.fmask = false := by rw [hflags]; rfl
  have hdepth : pIn.flags.depth = false := by rw [hflags]; rfl
  have h16 : NextPow2 (max 1 (16 >>> 3)) = 2 := by decide
  have hmax : max 1 2 = 2 := by decide
  have hmax1 : max 1 1 = 1 := by decide
  have hmipl := ComputeMipLevel_base_map pIn hfmt (by omega) hbase hcube
  rw [hw, hh, hmip, h16] at hmipl
  unfold ComputeSurfaceInfo
  simp only [hsz, if_false, hbpp, show ¬ (32 > 128) by norm_num, ne_eq, not_true_eq_false,
    hmipl, hfmt, not_false_eq_true, or_true, if_true, hmax, show ¬ (32 = 0) by norm_num,
    HwlComputeSurfaceInfo_1D_THIN1, hfmask, hmode, hmip, hns, hdepth, hmax1, hdemote]
  exact ⟨_, _, rfl, by rw [ComputeSurfaceInfoFinish_tileMode,
    ComputeSurfaceInfoMicroTiled_THIN1_tileMode]⟩

/-! ## Bank-swap width and macro-tile multiples -/

/-- `PowTwoAlign` to a power of two yields a multiple of it, also when the addition wraps. -/
theorem PowTwoAlign_mod_any (x k : Nat) (hk : k ≤ 31) : PowTwoAlign x (2 ^ k) % 2 ^ k = 0 := by
  unfold PowTwoAlign
  have h1 := Nat.one_le_two_pow (n := k)
  have h2 : 2 ^ k < 2 ^ 32 := Nat.pow_lt_pow_right (by norm_num) (by omega)
  rw [sub32_eq h1 h2, not32_two_pow_sub_one (by omega),
    and_two_pow_sub_two_pow _ _ _ (u32_lt _) (by omega)]
  exact Nat.mul_mod_left _ _

/-- C2 (evaluation at the failing input): for a `LINEAR_ALIGNED` surface of 64 x 1 x 1 with
32 bits per pixel and 2 samples the code returns pitch 64, height 1, depth 1 and
`surfSize = 1024`, while `ceil(height * pitch * depth * bpp * numSamples / 8)` is 512: the
linear path multiplies by `numSamples` twice. -/
theorem C2_linear_counts_samples_twice :
    ∃ out, HwlComputeSurfaceInfo exampleLib (exampleSurfIn ADDR_TM_LINEAR_ALIGNED 32 2 64 1)
        exampleSurfOut = some (ADDR_OK, out) ∧
      out.pitch = 64 ∧ out.height = 1 ∧ out.depth = 1 ∧ out.surfSize = 1024 ∧
      (out.height * out.pitch * out.depth * 32 * 2 + 7) / 8 = 512 :=
  ⟨⟨0, 64, 1, 1, 1024, ADDR_TM_LINEAR_ALIGNED, 256, 64, 1, 1, 0, 0, 0, 0, 0, 0, 0, 0, none,
      ADDR_DISPLAYABLE, 0, none⟩, by decide, by decide⟩

/-! ## Degradation of a thin macro-tiled mip level -/

/-- C10: on every valid hardware configuration, (1) for a base mode `2D_TILED_THIN1` or
`3D_TILED_THIN1`, a mip level of at least 1, one sample, no depth and `bpp` in 1..128, if
`NextPow2(width) < widthAlignFactor * 8 * banks` or `NextPow2(height) < 8 * pipes` then
`ComputeSurfaceMipLevelTileMode` returns `1D_TILED_THIN1`; and (2) `ComputeSurfaceInfo` on a
request with base mode `2D_TILED_THIN1`, 16 x 16, 32 bits per pixel, one sample, mip level 3
and `inputBaseMap` returns `ADDR_OK` with `tileMode = 1D_TILED_THIN1`. -/
theorem C10_thin1_mip_demotes_to_1D (lib : R600AddrLib) (hv : lib.ValidConfig) :
    (∀ (base : AddrTileMode) (bpp level width height numSlices : Nat),
      base = ADDR_TM_2D_TILED_THIN1 ∨ base = ADDR_TM_3D_TILED_THIN1 →
      1 ≤ level → 1 ≤ bpp ∧ bpp ≤ 128 →
      (NextPow2 width <
          mipWidthAlignFactorSpec lib.mPipeInterleaveBytes bpp * (8 * lib.mBanks) ∨
        NextPow2 height < 8 * lib.mPipes) →
      ComputeSurfaceMipLevelTileMode lib base bpp level width height numSlices 1 false false =
        ADDR_TM_1D_TILED_THIN1) ∧
    (∀ (sizeIn sizeOut : Nat) (pIn : ADDR_COMPUTE_SURFACE_INFO_INPUT)
        (pOut : ADDR_COMPUTE_SURFACE_INFO_OUTPUT),
      (lib.mConfigFlags.fillSizeFields = false ∨ (pIn.size = sizeIn ∧ pOut.size = sizeOut)) →
      pIn.tileMode = ADDR_TM_2D_TILED_THIN1 → pIn.format = ADDR_FMT_INVALID →
      pIn.bpp = 32 → pIn.width = 16 → pIn.height = 16 → pIn.numSamples = 1 →
      pIn.mipLevel = 3 →
      pIn.flags = { ADDR_SURFACE_FLAGS.none with inputBaseMap := true } →
      ∃ pIn' out, ComputeSurfaceInfo lib sizeIn sizeOut pIn pOut = some (ADDR_OK, pIn', out) ∧
        out.tileMode = ADDR_TM_1D_TILED_THIN1) :=
  ⟨fun base bpp level width height numSlices hbase hl hbpp hc =>
      mip_level_thin1_demotes lib hv base bpp level width height numSlices hbase hl hbpp hc,
    fun sizeIn sizeOut pIn pOut hsize hmode hfmt hbpp hw hh hns hmip hflags =>
      scenario3_tileMode lib hv sizeIn sizeOut pIn pOut hsize hmode hfmt hbpp hw hh hns hmip
        hflags⟩

/-- C10 on `exampleLib`: a 100 x 10 mip level 1 of a `3D_TILED_THIN1` surface (height 16
after rounding, below the macro-tile height 32) is demoted, and scenario 3 of the
specification yields `1D_TILED_THIN1`. -/
theorem C10_thin1_mip_demotes_to_1D_witness :
    exampleLib.ValidConfig ∧
    (NextPow2 100 < mipWidthAlignFactorSpec exampleLib.mPipeInterleaveBytes 32 *
        (8 * exampleLib.mBanks) ∨ NextPow2 10 < 8 * exampleLib.mPipes) ∧
    ComputeSurfaceMipLevelTileMode exampleLib ADDR_TM_3D_TILED_THIN1 32 1 100 10 1 1 false
      false = ADDR_TM_1D_TILED_THIN1 ∧
    ∃ pIn' out, ComputeSurfaceInfo exampleLib 0 0 scenario3In exampleSurfOut =
        some (ADDR_OK, pIn', out) ∧ out.tileMode = ADDR_TM_1D_TILED_THIN1 :=
  ⟨by decide, by decide,
    (C10_thin1_mip_demotes_to_1D exampleLib (by decide)).1 ADDR_TM_3D_TILED_THIN1 32 1 100 10 1
      (Or.inr rfl) (by decide) (by decide) (by decide),
    (C10_thin1_mip_demotes_to_1D exampleLib (by decide)).2 0 0 scenario3In exampleSurfOut
      (Or.inl rfl) rfl rfl rfl rfl rfl rfl rfl rfl⟩

/-! ## Register decoding -/

theorem DecodePipeTiling_spec (s : Bool × R600AddrLib) (f : Nat) (hf : f < 8) :
    (DecodePipeTiling s f).1 = (s.1 && decide (f ≤ 3)) ∧
    (f ≤ 3 → (DecodePipeTiling s f).2 = { s.2 with mPipes := 2 ^ f }) := by
  interval_cases f <;> simp [DecodePipeTiling]

theorem DecodeBankTiling_spec (s : Bool × R600AddrLib) (f : Nat) (hf : f < 4) :
    (DecodeBankTiling s f).1 = (s.1 && decide (f ≤ 1)) ∧
    (f ≤ 1 → (DecodeBankTiling s f).2 = { s.2 with mBanks := 4 * 2 ^ f }) := by
  interval_cases f <;> simp [DecodeBankTiling]

theorem DecodeGroupSize_spec (s : Bool × R600AddrLib) (f : Nat) (hf : f < 4) :
    (DecodeGroupSize s f).1 = (s.1 && decide (f ≤ 1)) ∧
    (f ≤ 1 → (DecodeGroupSize s f).2 = { s.2 with mPipeInterleaveBytes := 256 * 2 ^ f }) := by
  interval_cases f <;> simp [DecodeGroupSize]

theorem DecodeRowTiling_spec (s : Bool × R600AddrLib) (f : Nat) (hf : f < 8) :
    (DecodeRowTiling s f).1 = s.1 ∧
    (DecodeRowTiling s f).2.mRowSize = 1024 * 2 ^ (f % 4) ∧
    (DecodeRowTiling s f).2.mConfigFlags.optimalBankSwap =
      (decide (f ≥ 4) || s.2.mConfigFlags.optimalBankSwap) ∧
    (DecodeRowTiling s f).2.mPipes = s.2.mPipes ∧
    (DecodeRowTiling s f).2.mBanks = s.2.mBanks ∧
    (DecodeRowTiling s f).2.mPipeInterleaveBytes = s.2.mPipeInterleaveBytes := by
  interval_cases f <;> simp [DecodeRowTiling]

theorem DecodeBankSwaps_spec (s : Bool × R600AddrLib) (f : Nat) (hf : f < 8) :
    (DecodeBankSwaps s f).1 = (s.1 && decide (f ≤ 3)) ∧
    (f ≤ 3 → (DecodeBankSwaps s f).2 = { s.2 with mSwapSize := 128 * 2 ^ f }) := by
  interval_cases f <;> simp [DecodeBankSwaps]

theorem DecodeSampleSplit_spec (s : Bool × R600AddrLib) (f : Nat) (hf : f < 4) :
    (DecodeSampleSplit s f).1 = s.1 ∧
    (DecodeSampleSplit s f).2 = { s.2 with mSplitSize := 1024 * 2 ^ f } := by
  interval_cases f <;> simp [DecodeSampleSplit]

/-- C17: for every register value, with the fields read from the least significant bit,
`DecodeGbRegs` on an instance whose `optimalBankSwap` flag is clear reports valid exactly
when `pipe_tiling <= 3`, `bank_tiling <= 1`, `group_size <= 1` and `bank_swaps <= 3`; when
valid, `pipes = 2 ^ pipe_tiling`, `banks = 4 * 2 ^ bank_tiling`,
`pipeInterleaveBytes = 256 * 2 ^ group_size`, `rowSize = 1024 * 2 ^ (row_tiling mod 4)`,
`swapSize = 128 * 2 ^ bank_swaps`, `splitSize = 1024 * 2 ^ sample_split`,
`optimalBankSwap = (row_tiling >= 4)`, and every geometry value lies in its listed range. -/
theorem C17_decode_gb_regs (lib : R600AddrLib) (value : Nat)
    (hfresh : lib.mConfigFlags.optimalBankSwap = false) :
    ((DecodeGbRegs lib value).1 = true ↔
      (GB_TILING_CONFIG.ofValue value).pipe_tiling ≤ 3 ∧
      (GB_TILING_CONFIG.ofValue value).bank_tiling ≤ 1 ∧
      (GB_TILING_CONFIG.ofValue value).group_size ≤ 1 ∧
      (GB_TILING_CONFIG.ofValue value).bank_swaps ≤ 3) ∧
    ((DecodeGbRegs lib value).1 = true →
      (DecodeGbRegs lib value).2.mPipes = 2 ^ (GB_TILING_CONFIG.ofValue value).pipe_tiling ∧
      (DecodeGbRegs lib value).2.mBanks = 4 * 2 ^ (GB_TILING_CONFIG.ofValue value).bank_tiling ∧
      (DecodeGbRegs lib value).2.mPipeInterleaveBytes =
        256 * 2 ^ (GB_TILING_CONFIG.ofValue value).group_size ∧
      (DecodeGbRegs lib value).2.mRowSize =
        1024 * 2 ^ ((GB_TILING_CONFIG.ofValue value).row_tiling % 4) ∧
      (DecodeGbRegs lib value).2.mSwapSize =
        128 * 2 ^ (GB_TILING_CONFIG.ofValue value).bank_swaps ∧
      (DecodeGbRegs lib value).2.mSplitSize =
        1024 * 2 ^ (GB_TILING_CONFIG.ofValue value).sample_split ∧
      (DecodeGbRegs lib value).2.mConfigFlags.optimalBankSwap =
        decide ((GB_TILING_CONFIG.ofValue value).row_tiling ≥ 4) ∧
      (DecodeGbRegs lib value).2.ValidConfig) := by
  have hp : (GB_TILING_CONFIG.ofValue value).pipe_tiling < 8 := Nat.mod_lt _ (by norm_num)
  have hb : (GB_TILING_CONFIG.ofValue value).bank_tiling < 4 := Nat.mod_lt _ (by norm_num)
  have hg : (GB_TILING_CONFIG.ofValue value).group_size < 4 := Nat.mod_lt _ (by norm_num)
  have hr : (GB_TILING_CONFIG.ofValue value).row_tiling < 8 := Nat.mod_lt _ (by norm_num)
  have hw : (GB_TILING_CONFIG.ofValue value).bank_swaps < 8 := Nat.mod_lt _ (by norm_num)
  have hs : (GB_TILING_CONFIG.ofValue value).sample_split < 4 := Nat.mod_lt _ (by norm_num)
  unfold DecodeGbRegs
  dsimp only
  generalize (GB_TILING_CONFIG.ofValue value).pipe_tiling = p at *
  generalize (GB_TILING_CONFIG.ofValue value).bank_tiling = b at *
  generalize (GB_TILING_CONFIG.ofValue value).group_size = g at *
  generalize (GB_TILING_CONFIG.ofValue value).row_tiling = r at *
  generalize (GB_TILING_CONFIG.ofValue value).bank_swaps = w at *
  generalize (GB_TILING_CONFIG.ofValue value).sample_split = t at *
  obtain ⟨h1v, h1l⟩ := DecodePipeTiling_spec (true, lib) p hp
  generalize DecodePipeTiling (true, lib) p = s1 at *
  obtain ⟨h2v, h2l⟩ := DecodeBankTiling_spec s1 b hb
  generalize DecodeBankTiling s1 b = s2 at *
  obtain ⟨h3v, h3l⟩ := DecodeGroupSize_spec s2 g hg
  generalize DecodeGroupSize s2 g = s3 at *
  obtain ⟨h4v, h4r, h4o, h4p, h4b, h4g⟩ := DecodeRowTiling_spec s3 r hr
  generalize DecodeRowTiling s3 r = s4 at *
  obtain ⟨h5v, h5l⟩ := DecodeBankSwaps_spec s4 w hw
  generalize DecodeBankSwaps s4 w = s5 at *
  obtain ⟨h6v, h6l⟩ := DecodeSampleSplit_spec s5 t hs
  generalize DecodeSampleSplit s5 t = s6 at *
  have hvalid : s6.1 = true ↔ p ≤ 3 ∧ b ≤ 1 ∧ g ≤ 1 ∧ w ≤ 3 := by
    rw [h6v, h5v, h4v, h3v, h2v, h1v]
    simp only [Bool.true_and, Bool.and_eq_true, decide_eq_true_eq]
    tauto
  refine ⟨hvalid, fun hval => ?_⟩
  obtain ⟨hp3, hb1, hg1, hw3⟩ := hvalid.mp hval
  have e1 := h1l hp3
  have e2 := h2l hb1
  have e3 := h3l hg1
  have e5 := h5l hw3
  have hP : s6.2.mPipes = 2 ^ p := by rw [h6l, e5]; dsimp only; rw [h4p, e3, e2, e1]
  have hB : s6.2.mBanks = 4 * 2 ^ b := by rw [h6l, e5]; dsimp only; rw [h4b, e3, e2]
  have hG : s6.2.mPipeInterleaveBytes = 256 * 2 ^ g := by
    rw [h6l, e5]; dsimp only; rw [h4g, e3]
  have hR : s6.2.mRowSize = 1024 * 2 ^ (r % 4) := by rw [h6l, e5]; dsimp only; rw [h4r]
  have hW : s6.2.mSwapSize = 128 * 2 ^ w := by rw [h6l, e5]
  have hT : s6.2.mSplitSize = 1024 * 2 ^ t := by rw [h6l]
  have hO : s6.2.mConfigFlags.optimalBankSwap = decide (r ≥ 4) := by
    rw [h6l, e5]; dsimp only; rw [h4o, e3, e2, e1]; dsimp only; rw [hfresh, Bool.or_false]
  refine ⟨hP, hB, hG, hR, hW, hT, hO, ?_⟩
  unfold R600AddrLib.ValidConfig
  rw [hP, hB, hG, hR, hW, hT]
  have hr4 : r % 4 < 4 := Nat.mod_lt _ (by norm_num)
  refine ⟨?_, ?_, ?_, ?_, ?_, ?_⟩
  · interval_cases p <;> simp
  · interval_cases b <;> simp
  · interval_cases g <;> simp
  · generalize r % 4 = r4 at hr4
    interval_cases r4 <;> simp
  · interval_cases w <;> simp
  · interval_cases t <;> simp

/-- C17 at the register value `0xD552` (pipe_tiling 1, bank_tiling 1, group_size 1,
row_tiling 5, bank_swaps 2, sample_split 3) on `exampleLib`: valid, with 2 pipes, 8 banks,
512-byte interleave, 2 KiB rows with optimal bank swap, 512-byte swaps and 8 KiB splits. -/
theorem C17_decode_gb_regs_witness :
    exampleLib.mConfigFlags.optimalBankSwap = false ∧
    (DecodeGbRegs exampleLib 0xD552).1 = true ∧
    (DecodeGbRegs exampleLib 0xD552).2.mPipes = 2 ∧
    (DecodeGbRegs exampleLib 0xD552).2.mBanks = 8 ∧
    (DecodeGbRegs exampleLib 0xD552).2.mRowSize = 2048 ∧
    (DecodeGbRegs exampleLib 0xD552).2.mConfigFlags.optimalBankSwap = true :=
  ⟨rfl, by decide,
    ((C17_decode_gb_regs exampleLib 0xD552 rfl).2 (by decide)).1,
    ((C17_decode_gb_regs exampleLib 0xD552 rfl).2 (by decide)).2.1,
    ((C17_decode_gb_regs exampleLib 0xD552 rfl).2 (by decide)).2.2.2.1,
    ((C17_decode_gb_regs exampleLib 0xD552 rfl).2 (by decide)).2.2.2.2.2.2.1⟩

/-! ## Swizzle extraction -/

/-- The swizzle mask `(1 << Log2(n)) - 1` selects the residue modulo `n`. -/
theorem swizzle_mask (n : Nat) (h : n = 1 ∨ n = 2 ∨ n = 4 ∨ n = 8) (x : Nat) :
    x &&& sub32 (u32 (1 <<< Log2 n)) 1 = x % n := by
  rcases h with h | h | h | h <;> subst h
  · have e : sub32 (u32 (1 <<< Log2 1)) 1 = 2 ^ 0 - 1 := by decide
    rw [e, Nat.and_pow_two_sub_one_eq_mod]
  · have e : sub32 (u32 (1 <<< Log2 2)) 1 = 2 ^ 1 - 1 := by decide
    rw [e, Nat.and_pow_two_sub_one_eq_mod]
  · have e : sub32 (u32 (1 <<< Log2 4)) 1 = 2 ^ 2 - 1 := by decide
    rw [e, Nat.and_pow_two_sub_one_eq_mod]
  · have e : sub32 (u32 (1 <<< Log2 8)) 1 = 2 ^ 3 - 1 := by decide
    rw [e, Nat.and_pow_two_sub_one_eq_mod]

/-- C20: on every valid hardware configuration and for every `base256b`,
`ExtractBankPipeSwizzle` returns
`pipeSwizzle = (base256b / (pipeInterleaveBytes / 256)) mod pipes` and
`bankSwizzle = (base256b / (pipeInterleaveBytes / 256) / pipes) mod banks`, so that
`pipeSwizzle < pipes` and `bankSwizzle < banks`. -/
theorem C20_extract_bank_pipe_swizzle (lib : R600AddrLib) (hv : lib.ValidConfig)
    (base256b : Nat) :
    (ExtractBankPipeSwizzle lib base256b).2 =
      (base256b / (lib.mPipeInterleaveBytes / 256)) % lib.mPipes ∧
    (ExtractBankPipeSwizzle lib base256b).1 =
      (base256b / (lib.mPipeInterleaveBytes / 256) / lib.mPipes) % lib.mBanks ∧
    (ExtractBankPipeSwizzle lib base256b).2 < lib.mPipes ∧
    (ExtractBankPipeSwizzle lib base256b).1 < lib.mBanks := by
  obtain ⟨hpipes, hbanks, -⟩ := hv
  have hb : lib.mBanks = 1 ∨ lib.mBanks = 2 ∨ lib.mBanks = 4 ∨ lib.mBanks = 8 := by
    rcases hbanks with h | h
    · exact Or.inr (Or.inr (Or.inl h))
    · exact Or.inr (Or.inr (Or.inr h))
  have hsh : lib.mPipeInterleaveBytes >>> 8 = lib.mPipeInterleaveBytes / 256 := by
    rw [Nat.shiftRight_eq_div_pow]
  unfold ExtractBankPipeSwizzle
  dsimp only
  rw [swizzle_mask lib.mPipes hpipes, swizzle_mask lib.mBanks hb, hsh]
  refine ⟨rfl, rfl, Nat.mod_lt _ (by omega), Nat.mod_lt _ (by omega)⟩

/-- C20 on `exampleLib` (4 pipes, 4 banks, 256-byte interleave) at `base256b = 0x12345`:
pipe swizzle 1 and bank swizzle 1. -/
theorem C20_extract_bank_pipe_swizzle_witness :
    exampleLib.ValidConfig ∧
    (ExtractBankPipeSwizzle exampleLib 0x12345).2 = (0x12345 / (256 / 256)) % 4 ∧
    (ExtractBankPipeSwizzle exampleLib 0x12345).1 = (0x12345 / (256 / 256) / 4) % 4 ∧
    (ExtractBankPipeSwizzle exampleLib 0x12345).2 < 4 ∧
    (ExtractBankPipeSwizzle exampleLib 0x12345).1 < 4 :=
  ⟨by decide, C20_extract_bank_pipe_swizzle exampleLib (by decide) 0x12345⟩

/-! ## HTILE sizing -/

theorem sub64_eq {a b : Nat} (hb : b ≤ a) (ha : a < 2 ^ 64) : sub64 a b = a - b := by
  unfold sub64 u64
  have h1 : b % 2 ^ 64 = b := Nat.mod_eq_of_lt (by omega)
  rw [h1]
  omega

/-- `PowTwoAlign<uint64_t>` rounds up to the next multiple of a power of two when nothing
wraps. -/
theorem PowTwoAlign64_eq (x k : Nat) (hk : k ≤ 63) (hx : x + 2 ^ k ≤ 2 ^ 64) :
    PowTwoAlign64 x (2 ^ k) = alignUp x (2 ^ k) := by
  unfold PowTwoAlign64 alignUp
  have h1 := Nat.one_le_two_pow (n := k)
  have h2 : 2 ^ k < 2 ^ 64 := Nat.pow_lt_pow_right (by norm_num) (by omega)
  rw [sub64_eq h1 h2, not64_two_pow_sub_one (by omega), u64_of_lt (by omega)]
  exact and_two_pow_sub_two_pow _ _ _ (by omega) (by omega)

/-- `PowTwoAlign<uint64_t>` to a power of two yields a multiple of it, also when the
addition wraps. -/
theorem PowTwoAlign64_mod_any (x k : Nat) (hk : k ≤ 63) : PowTwoAlign64 x (2 ^ k) % 2 ^ k = 0 := by
  unfold PowTwoAlign64
  have h1 := Nat.one_le_two_pow (n := k)
  have h2 : 2 ^ k < 2 ^ 64 := Nat.pow_lt_pow_right (by norm_num) (by omega)
  rw [sub64_eq h1 h2, not64_two_pow_sub_one (by omega),
    and_two_pow_sub_two_pow _ _ _ (u64_lt _) (by omega)]
  exact Nat.mul_mod_left _ _

theorem alignUp_facts (x a : Nat) (ha : 0 < a) :
    alignUp x a % a = 0 ∧ x ≤ alignUp x a ∧ alignUp x a < x + a := by
  unfold alignUp
  have h1 := Nat.div_add_mod (x + (a - 1)) a
  have h2 := Nat.mod_lt (x + (a - 1)) ha
  rw [Nat.mul_comm] at h1
  refine ⟨Nat.mul_mod_left _ _, ?_, ?_⟩ <;> omega

theorem HwlComputeHtileBpp_cases (isWidth8 isHeight8 : Bool) :
    HwlComputeHtileBpp isWidth8 isHeight8 = 32 ∨ HwlComputeHtileBpp isWidth8 isHeight8 = 64 ∨
    HwlComputeHtileBpp isWidth8 isHeight8 = 128 := by
  cases isWidth8 <;> cases isHeight8 <;> decide

/-- The cache-line alignment `pipes * 2048` of the HTILE size and the linear base alignment
are one power of two. -/
theorem htile_align_pow (lib : R600AddrLib) (hv : lib.ValidConfig) :
    ∃ k, 11 ≤ k ∧ k ≤ 14 ∧ lib.mPipes * 2048 = 2 ^ k ∧
      u32 (lib.mPipes * BITS_TO_BYTES32 HtileCacheBits) = 2 ^ k ∧
      HwlComputeHtileBaseAlign lib true lib.mPipes = 2 ^ k ∧
      max (lib.mPipes * lib.mPipeInterleaveBytes) (lib.mPipes * 2048) = 2 ^ k := by
  obtain ⟨hpipes, -, hgroup, -⟩ := hv
  unfold HwlComputeHtileBaseAlign
  rcases hpipes with h | h | h | h <;> rcases hgroup with h' | h' <;> rw [h, h']
  · exact ⟨11, by decide⟩
  · exact ⟨11, by decide⟩
  · exact ⟨12, by decide⟩
  · exact ⟨12, by decide⟩
  · exact ⟨13, by decide⟩
  · exact ⟨13, by decide⟩
  · exact ⟨14, by decide⟩
  · exact ⟨14, by decide⟩

/-- The macro-tile shape of HTILE data: both dimensions are powers of two, the width an even
one. -/
theorem htile_macro_pow (lib : R600AddrLib) (hv : lib.ValidConfig)
    (isLinear isWidth8 isHeight8 : Bool) :
    ∃ a c, 1 ≤ a ∧ a ≤ 12 ∧ c ≤ 12 ∧
      (if isLinear = true then
          HwlComputeTileDataWidthAndHeightLinear lib (HwlComputeHtileBpp isWidth8 isHeight8)
        else ComputeTileDataWidthAndHeight lib (HwlComputeHtileBpp isWidth8 isHeight8)
          HtileCacheBits) = (2 ^ a, 2 ^ c) := by
  obtain ⟨hpipes, -⟩ := hv
  unfold HwlComputeTileDataWidthAndHeightLinear ComputeTileDataWidthAndHeight
  cases isLinear <;>
    rcases HwlComputeHtileBpp_cases isWidth8 isHeight8 with hb | hb | hb <;>
    rcases hpipes with h | h | h | h <;> rw [hb, h]
  all_goals first
    | exact ⟨7, 3, by decide⟩
    | exact ⟨7, 4, by decide⟩
    | exact ⟨7, 5, by decide⟩
    | exact ⟨7, 6, by decide⟩
    | exact ⟨6, 3, by decide⟩
    | exact ⟨6, 4, by decide⟩
    | exact ⟨6, 5, by decide⟩
    | exact ⟨6, 6, by decide⟩
    | exact ⟨5, 3, by decide⟩
    | exact ⟨5, 4, by decide⟩
    | exact ⟨5, 5, by decide⟩
    | exact ⟨5, 6, by decide⟩
    | exact ⟨8, 7, by decide⟩
    | exact ⟨8, 8, by decide⟩
    | exact ⟨9, 8, by decide⟩
    | exact ⟨9, 9, by decide⟩
    | exact ⟨7, 7, by decide⟩

theorem ComputeHtileInfo_linear_shape (lib : R600AddrLib) (hv : lib.ValidConfig)
    (isWidth8 isHeight8 : Bool) :
    ∃ a c, 1 ≤ a ∧ a ≤ 12 ∧ c ≤ 12 ∧
      HwlComputeTileDataWidthAndHeightLinear lib (HwlComputeHtileBpp isWidth8 isHeight8) =
        (2 ^ a, 2 ^ c) ∧
      2 ^ a = 4096 / HwlComputeHtileBpp isWidth8 isHeight8 ∧ 2 ^ c = 8 * lib.mPipes := by
  obtain ⟨a, c, ha1, ha12, hc12, hm⟩ := htile_macro_pow lib hv true isWidth8 isHeight8
  rw [if_pos rfl] at hm
  refine ⟨a, c, ha1, ha12, hc12, hm, ?_, ?_⟩
  · exact (congrArg Prod.fst hm).symm
  · have h2 := (congrArg Prod.snd hm).symm
    obtain ⟨hpipes, -⟩ := hv
    have e : u32 (8 * lib.mPipes) = 8 * lib.mPipes := u32_of_lt (by omega)
    rw [← e]
    exact h2

/-- C18: for a linear HTILE request on a valid hardware configuration, with no 32-bit
overflow in the padding, `ComputeHtileInfo` returns
`bpp = (isWidth8 ? 1 : 2) * (isHeight8 ? 1 : 2) * 32`, `macroWidth = 4096 / bpp`,
`macroHeight = 8 * pipes`, pitch and height the least multiples of `macroWidth` and
`macroHeight` at or above the inputs,
`baseAlign = max(pipes * pipeInterleaveBytes, pipes * 2048)`, and `htileBytes` a multiple
of `baseAlign`. -/
theorem C18_htile_linear (lib : R600AddrLib) (hv : lib.ValidConfig)
    (pitchIn heightIn numSlices : Nat) (isWidth8 isHeight8 : Bool) (r : HtileInfo)
    (hr : ComputeHtileInfo lib pitchIn heightIn numSlices true isWidth8 isHeight8 = r)
    (hp : pitchIn + 4096 / HwlComputeHtileBpp isWidth8 isHeight8 ≤ 2 ^ 32)
    (hh : heightIn + 8 * lib.mPipes ≤ 2 ^ 32) :
    r.bpp = (if isWidth8 = true then 1 else 2) * (if isHeight8 = true then 1 else 2) * 32 ∧
    r.macroWidth = 4096 / r.bpp ∧ r.macroHeight = 8 * lib.mPipes ∧
    (r.pitchOut % r.macroWidth = 0 ∧ pitchIn ≤ r.pitchOut ∧
      r.pitchOut < pitchIn + r.macroWidth) ∧
    (r.heightOut % r.macroHeight = 0 ∧ heightIn ≤ r.heightOut ∧
      r.heightOut < heightIn + r.macroHeight) ∧
    r.baseAlign = max (lib.mPipes * lib.mPipeInterleaveBytes) (lib.mPipes * 2048) ∧
    r.htileBytes % r.baseAlign = 0 := by
  obtain ⟨a, c, ha1, ha12, hc12, hm, hmw, hmh⟩ :=
    ComputeHtileInfo_linear_shape lib hv isWidth8 isHeight8
  obtain ⟨k, hk11, hk14, hk1, hk2, hk3, hk4⟩ := htile_align_pow lib hv
  subst hr
  unfold ComputeHtileInfo
  simp only [if_true]
  rw [hm, hk3, hk4]
  dsimp only
  rw [← hmw] at hp
  rw [← hmh] at hh
  refine ⟨rfl, hmw, hmh, ⟨PowTwoAlign_mod pitchIn a (by omega) hp,
      (PowTwoAlign_ge pitchIn a (by omega) hp).1, (PowTwoAlign_ge pitchIn a (by omega) hp).2⟩,
    ⟨PowTwoAlign_mod heightIn c (by omega) hh, (PowTwoAlign_ge heightIn c (by omega) hh).1,
      (PowTwoAlign_ge heightIn c (by omega) hh).2⟩, rfl, ?_⟩
  unfold HwlComputeHtileBytes
  simp only [if_true]
  exact PowTwoAlign64_mod_any _ k (by omega)

/-- C18 at 1024 x 1024 with 8 x 8 blocks on `exampleLib` (4 pipes, 256-byte interleave):
`bpp` 32, macro tile 128 x 32, base alignment 8192, 65536 bytes. -/
theorem C18_htile_linear_witness :
    exampleLib.ValidConfig ∧
    ComputeHtileInfo exampleLib 1024 1024 1 true true true =
      ⟨32, 1024, 1024, 65536, 128, 32, 65536, 8192⟩ ∧
    (32 = 1 * 1 * 32 ∧ 128 = 4096 / 32 ∧ 32 = 8 * 4 ∧
      (1024 % 128 = 0 ∧ 1024 ≤ 1024 ∧ 1024 < 1024 + 128) ∧
      (1024 % 32 = 0 ∧ 1024 ≤ 1024 ∧ 1024 < 1024 + 32) ∧
      8192 = max (4 * 256) (4 * 2048) ∧ 65536 % 8192 = 0) :=
  ⟨by decide, by decide,
    C18_htile_linear exampleLib (by decide) 1024 1024 1 true true
      ⟨32, 1024, 1024, 65536, 128, 32, 65536, 8192⟩ (by decide) (by decide) (by decide)⟩

/-- A quotient by 64 followed by a quotient by 8 rounded up is the quotient by 512 rounded
up, for a multiple of 64. -/
theorem bits_to_bytes_of_div64 (X : Nat) (h : 64 ∣ X) (hX : X < 2 ^ 64) :
    BITS_TO_BYTES64 (u64 X / 0x40) = ceilDiv X 512 := by
  obtain ⟨q, rfl⟩ := h
  unfold BITS_TO_BYTES64 ceilDiv
  rw [u64_of_lt hX, u64_of_lt (by omega)]
  omega

/-- C19 (amended): for every HTILE request on a valid hardware configuration whose bit count
`h' * p' * bpp * numSlices` (with `p'`, `h'` the padded pitch and height) is below `2 ^ 64`,
64 divides `h' * p' * bpp` and
`htileBytes = align_up(ceil(h' * p' * bpp * numSlices / 512), pipes * 2048)`, aligned up
again to `baseAlign` when linear. -/
theorem C19_htile_bytes (lib : R600AddrLib) (hv : lib.ValidConfig)
    (pitchIn heightIn numSlices : Nat) (isLinear isWidth8 isHeight8 : Bool) (r : HtileInfo)
    (hr : ComputeHtileInfo lib pitchIn heightIn numSlices isLinear isWidth8 isHeight8 = r)
    (hX : r.heightOut * r.pitchOut * r.bpp * numSlices < 2 ^ 64) :
    64 ∣ r.heightOut * r.pitchOut * r.bpp ∧
    r.htileBytes =
      if isLinear = true then
        alignUp (alignUp (ceilDiv (r.heightOut * r.pitchOut * r.bpp * numSlices) 512)
          (lib.mPipes * 2048)) r.baseAlign
      else alignUp (ceilDiv (r.heightOut * r.pitchOut * r.bpp * numSlices) 512)
        (lib.mPipes * 2048) := by
  obtain ⟨a, c, ha1, ha12, hc12, hm⟩ := htile_macro_pow lib hv isLinear isWidth8 isHeight8
  obtain ⟨k, hk11, hk14, hk1, hk2, hk3, hk4⟩ := htile_align_pow lib hv
  subst hr
  unfold ComputeHtileInfo at hX ⊢
  dsimp only at hX ⊢
  rw [hm] at hX ⊢
  dsimp only at hX ⊢
  have hpm := PowTwoAlign_mod_any pitchIn a (by omega)
  generalize PowTwoAlign pitchIn (2 ^ a) = p' at hX hpm ⊢
  generalize PowTwoAlign heightIn (2 ^ c) = h' at hX ⊢
  have hp2 : 2 ∣ p' := by
    have h1 : 2 ^ a ∣ p' := Nat.dvd_of_mod_eq_zero hpm
    have h2 : 2 ∣ 2 ^ a := dvd_pow_self 2 (by omega)
    exact Nat.dvd_trans h2 h1
  have hb32 : 32 ∣ HwlComputeHtileBpp isWidth8 isHeight8 := by
    rcases HwlComputeHtileBpp_cases isWidth8 isHeight8 with h | h | h <;> rw [h] <;> decide
  generalize HwlComputeHtileBpp isWidth8 isHeight8 = bpp at hX hb32 ⊢
  have h64 : 64 ∣ h' * p' * bpp := by
    obtain ⟨j, rfl⟩ := hp2
    obtain ⟨m, rfl⟩ := hb32
    exact ⟨h' * j * m, by ring⟩
  have h64n : 64 ∣ h' * p' * bpp * numSlices := Dvd.dvd.mul_right h64 _
  refine ⟨h64, ?_⟩
  unfold HwlComputeHtileBytes
  dsimp only
  rw [bits_to_bytes_of_div64 _ h64n hX, hk2]
  generalize hS : ceilDiv (h' * p' * bpp * numSlices) 512 = S
  have hSle : S ≤ 2 ^ 55 := by
    rw [← hS]
    unfold ceilDiv
    omega
  have h2k : 2 ^ k ≤ 2 ^ 14 := Nat.pow_le_pow_right (by norm_num) hk14
  have hpos : 0 < 2 ^ k := Nat.pos_pow_of_pos k (by norm_num)
  have e1 : PowTwoAlign64 S (2 ^ k) = alignUp S (2 ^ k) :=
    PowTwoAlign64_eq S k (by omega) (by omega)
  have hA := alignUp_facts S (2 ^ k) hpos
  rw [e1, hk1]
  cases isLinear
  · simp only [Bool.false_eq_true, if_false]
  · simp only [if_true]
    rw [hk3]
    exact PowTwoAlign64_eq _ k (by omega) (by omega)

/-- C19 (amended) at 1000 x 1000 x 3 with 8 x 8 blocks, not linear, on `exampleLib`: padded
to 1024 x 1024, `ceil(1024 * 1024 * 32 * 3 / 512) = 196608`, a multiple of `4 * 2048`. -/
theorem C19_htile_bytes_witness :
    exampleLib.ValidConfig ∧
    ComputeHtileInfo exampleLib 1000 1000 3 false true true =
      ⟨32, 1024, 1024, 196608, 512, 256, 65536, 1024⟩ ∧
    1024 * 1024 * 32 * 3 < 2 ^ 64 ∧
    (64 ∣ 1024 * 1024 * 32 ∧
      196608 = alignUp (ceilDiv (1024 * 1024 * 32 * 3) 512) (exampleLib.mPipes * 2048)) :=
  ⟨by decide, by decide, by decide,
    C19_htile_bytes exampleLib (by decide) 1000 1000 3 false true true
      ⟨32, 1024, 1024, 196608, 512, 256, 65536, 1024⟩ (by decide) (by decide)⟩

/-- C19 as stated fails: for 65536 x 65536 with `2 ^ 27` slices and 8 x 8 blocks the bit
count `65536 * 65536 * 32 * 2 ^ 27 = 2 ^ 64` wraps to 0 in 64 bits and the code returns
`htileBytes = 0`, while `ceil(2 ^ 64 / 512)` aligned up to `pipes * 2048` is `2 ^ 55`. -/
theorem C19_bit_count_wraps :
    exampleLib.ValidConfig ∧
    (ComputeHtileInfo exampleLib 65536 65536 (2 ^ 27) false true true).pitchOut = 65536 ∧
    (ComputeHtileInfo exampleLib 65536 65536 (2 ^ 27) false true true).heightOut = 65536 ∧
    (ComputeHtileInfo exampleLib 65536 65536 (2 ^ 27) false true true).bpp = 32 ∧
    (ComputeHtileInfo exampleLib 65536 65536 (2 ^ 27) false true true).htileBytes = 0 ∧
    alignUp (ceilDiv (65536 * 65536 * 32 * 2 ^ 27) 512) (exampleLib.mPipes * 2048) = 2 ^ 55 := by
  decide

/-! ## Format adjustment and restoration -/

/-- The four kinds of entry of the format table of `GetBitsPerPixel`. -/
theorem GetBitsPerPixel_cases (format : Nat) :
    ((GetBitsPerPixel format).2.2.1 = 1 ∧ (GetBitsPerPixel format).2.2.2.1 = 1 ∧
      ((GetBitsPerPixel format).2.1 = ADDR_UNCOMPRESSED ∨
        (GetBitsPerPixel format).2.1 = ADDR_PACKED_GBGR ∨
        (GetBitsPerPixel format).2.1 = ADDR_PACKED_BGRG)) ∨
    ((GetBitsPerPixel format).1 = 1 ∧ (GetBitsPerPixel format).2.2.1 = 8 ∧
      (GetBitsPerPixel format).2.2.2.1 = 1 ∧
      ((GetBitsPerPixel format).2.1 = ADDR_PACKED_STD ∨
        (GetBitsPerPixel format).2.1 = ADDR_PACKED_REV)) ∨
    (((GetBitsPerPixel format).1 = 24 ∨ (GetBitsPerPixel format).1 = 48 ∨
        (GetBitsPerPixel format).1 = 96) ∧ (GetBitsPerPixel format).2.2.1 = 3 ∧
      (GetBitsPerPixel format).2.2.2.1 = 1 ∧ (GetBitsPerPixel format).2.1 = ADDR_EXPANDED) ∨
    ((GetBitsPerPixel format).2.2.1 = 4 ∧ (GetBitsPerPixel format).2.2.2.1 = 4 ∧
      (((GetBitsPerPixel format).1 = 64 ∧ ((GetBitsPerPixel format).2.1 = ADDR_PACKED_BC1 ∨
          (GetBitsPerPixel format).2.1 = ADDR_PACKED_BC4)) ∨
        ((GetBitsPerPixel format).1 = 128 ∧ ((GetBitsPerPixel format).2.1 = ADDR_PACKED_BC2 ∨
          (GetBitsPerPixel format).2.1 = ADDR_PACKED_BC3 ∨
          (GetBitsPerPixel format).2.1 = ADDR_PACKED_BC5)))) := by
  unfold GetBitsPerPixel
  split <;> simp

/-- C13 (amended): for every format, with `(bpp, elemMode, expandX, expandY)` from
`GetBitsPerPixel`, and every 32-bit width and height of at least 1, `RestoreSurfaceInfo`
applied to the result of `AdjustSurfaceInfo` returns `(bpp, width, height)` again, the `bpp`
included, exactly when `expandX * width` is below `2 ^ 32` for an expanded format, and
`expandX` divides the width and `expandY` the height for every other format. -/
theorem C13_restore_adjust_roundtrip (format w h : Nat) (hw : 1 ≤ w) (hh : 1 ≤ h)
    (hw32 : w < 2 ^ 32) (hh32 : h < 2 ^ 32) :
    RestoreSurfaceInfo (GetBitsPerPixel format).2.1 (GetBitsPerPixel format).2.2.1
      (GetBitsPerPixel format).2.2.2.1
      (AdjustSurfaceInfo (GetBitsPerPixel format).2.1 (GetBitsPerPixel format).2.2.1
        (GetBitsPerPixel format).2.2.2.1 (GetBitsPerPixel format).1 w h).1
      (AdjustSurfaceInfo (GetBitsPerPixel format).2.1 (GetBitsPerPixel format).2.2.1
        (GetBitsPerPixel format).2.2.2.1 (GetBitsPerPixel format).1 w h).2.1
      (AdjustSurfaceInfo (GetBitsPerPixel format).2.1 (GetBitsPerPixel format).2.2.1
        (GetBitsPerPixel format).2.2.2.1 (GetBitsPerPixel format).1 w h).2.2 =
      ((GetBitsPerPixel format).1, w, h) ↔
    if (GetBitsPerPixel format).2.1 = ADDR_EXPANDED then
      (GetBitsPerPixel format).2.2.1 * w < 2 ^ 32
    else (GetBitsPerPixel format).2.2.1 ∣ w ∧ (GetBitsPerPixel format).2.2.2.1 ∣ h := by
  have hcases := GetBitsPerPixel_cases format
  generalize (GetBitsPerPixel format).1 = bpp at *
  generalize (GetBitsPerPixel format).2.1 = mode at *
  generalize (GetBitsPerPixel format).2.2.1 = ex at *
  generalize (GetBitsPerPixel format).2.2.2.1 = ey at *
  rcases hcases with ⟨rfl, rfl, hm⟩ | ⟨rfl, rfl, rfl, hm⟩ | ⟨hb, rfl, rfl, rfl⟩ |
    ⟨rfl, rfl, hm⟩
  · -- no expansion
    have key : ∀ m, m = ADDR_UNCOMPRESSED ∨ m = ADDR_PACKED_GBGR ∨ m = ADDR_PACKED_BGRG →
        RestoreSurfaceInfo m 1 1 (AdjustSurfaceInfo m 1 1 bpp w h).1
          (AdjustSurfaceInfo m 1 1 bpp w h).2.1 (AdjustSurfaceInfo m 1 1 bpp w h).2.2 =
          (bpp, max 1 w, max 1 h) := by
      intro m hm
      rcases hm with rfl | rfl | rfl <;> rfl
    have hne : mode ≠ ADDR_EXPANDED := by
      rcases hm with rfl | rfl | rfl <;> decide
    rw [key mode hm, if_neg hne, Prod.mk.injEq, Prod.mk.injEq]
    have d1 : 1 ∣ w := Nat.one_dvd _
    have d2 : 1 ∣ h := Nat.one_dvd _
    simp only [d1, d2, and_self, iff_true, true_and]
    omega
  · -- one bit per pixel, eight pixels per element
    have key : ∀ m, m = ADDR_PACKED_STD ∨ m = ADDR_PACKED_REV →
        RestoreSurfaceInfo m 8 1 (AdjustSurfaceInfo m 8 1 1 w h).1
          (AdjustSurfaceInfo m 8 1 1 w h).2.1 (AdjustSurfaceInfo m 8 1 1 w h).2.2 =
          (1, max 1 (u32 (max 1 (sub32 (u32 (w + 8)) 1 / 8) * 8)),
            max 1 (u32 (max 1 (sub32 (u32 (h + 1)) 1 / 1) * 1))) := by
      intro m hm
      have e8 : u32 8 = 8 := by decide
      rcases hm with rfl | rfl <;> simp [AdjustSurfaceInfo, RestoreSurfaceInfo, e8]
    have hne : mode ≠ ADDR_EXPANDED := by
      rcases hm with rfl | rfl <;> decide
    rw [key mode hm, if_neg hne, Prod.mk.injEq, Prod.mk.injEq]
    have d2 : 1 ∣ h := Nat.one_dvd _
    simp only [d2, and_true, true_and]
    unfold sub32 u32
    omega
  · -- three elements per pixel
    have key : RestoreSurfaceInfo ADDR_EXPANDED 3 1
        (AdjustSurfaceInfo ADDR_EXPANDED 3 1 bpp w h).1
        (AdjustSurfaceInfo ADDR_EXPANDED 3 1 bpp w h).2.1
        (AdjustSurfaceInfo ADDR_EXPANDED 3 1 bpp w h).2.2 =
        (u32 (3 * 1 * (bpp / 3 / 1)), max 1 (max 1 (u32 (3 * w)) / 3),
          max 1 (max 1 (u32 (1 * h)) / 1)) := rfl
    rw [key, if_pos rfl, Prod.mk.injEq, Prod.mk.injEq]
    have hbpp : u32 (3 * 1 * (bpp / 3 / 1)) = bpp := by
      rcases hb with rfl | rfl | rfl <;> decide
    have hh1 : max 1 (max 1 (u32 (1 * h)) / 1) = h := by
      rw [Nat.one_mul, u32_of_lt hh32, Nat.div_one]
      omega
    rw [hbpp, hh1]
    simp only [true_and, and_true]
    by_cases hx : 3 * w < 2 ^ 32
    · rw [u32_of_lt hx]
      omega
    · have hr := u32_lt (3 * w)
      generalize u32 (3 * w) = r at hr
      omega
  · -- block compressed
    have key : ∀ m b, (b = 64 ∧ (m = ADDR_PACKED_BC1 ∨ m = ADDR_PACKED_BC4)) ∨
        (b = 128 ∧ (m = ADDR_PACKED_BC2 ∨ m = ADDR_PACKED_BC3 ∨ m = ADDR_PACKED_BC5)) →
        RestoreSurfaceInfo m 4 4 (AdjustSurfaceInfo m 4 4 b w h).1
          (AdjustSurfaceInfo m 4 4 b w h).2.1 (AdjustSurfaceInfo m 4 4 b w h).2.2 =
          (b, max 1 (u32 (max 1 (w / 4) * 4)), max 1 (u32 (max 1 (h / 4) * 4))) := by
      intro m b hm
      rcases hm with ⟨rfl, rfl | rfl⟩ | ⟨rfl, rfl | rfl | rfl⟩ <;> rfl
    have hne : mode ≠ ADDR_EXPANDED := by
      rcases hm with ⟨-, rfl | rfl⟩ | ⟨-, rfl | rfl | rfl⟩ <;> decide
    rw [key mode bpp hm, if_neg hne, Prod.mk.injEq, Prod.mk.injEq]
    unfold u32
    omega

/-- C13 (amended) at `ADDR_FMT_BC1` (code `0x31`) and 8 x 12: adjusted to 2 x 3 blocks of 64
bits and restored to 8 x 12; and at the expanded format `ADDR_FMT_8_8_8` (code `0x2C`) and
5 x 7, a width that is not a multiple of 3: adjusted to 15 x 7 elements of 8 bits and
restored to 5 x 7 pixels of 24 bits. -/
theorem C13_restore_adjust_roundtrip_witness :
    (AdjustSurfaceInfo ADDR_PACKED_BC1 4 4 64 8 12 = (64, 2, 3) ∧
      RestoreSurfaceInfo ADDR_PACKED_BC1 4 4 64 2 3 = (64, 8, 12)) ∧
    (GetBitsPerPixel 0x2C = (24, ADDR_EXPANDED, 3, 1, 0) ∧ ¬ 3 ∣ 5 ∧
      AdjustSurfaceInfo ADDR_EXPANDED 3 1 24 5 7 = (8, 15, 7) ∧
      RestoreSurfaceInfo ADDR_EXPANDED 3 1 8 15 7 = (24, 5, 7)) :=
  ⟨⟨by decide,
      (C13_restore_adjust_roundtrip 0x31 8 12 (by decide) (by decide) (by decide)
        (by decide)).mpr (by decide)⟩,
    by decide, by decide, by decide,
    (C13_restore_adjust_roundtrip 0x2C 5 7 (by decide) (by decide) (by decide)
      (by decide)).mpr (by decide)⟩

/-- C13 as stated fails: for `ADDR_FMT_BC1` (code `0x31`, 4 x 4 blocks) and 5 x 5 pixels the
adjustment gives 1 x 1 blocks and the restoration 4 x 4 pixels, not 5 x 5. -/
theorem C13_block_compressed_size_not_restored :
    GetBitsPerPixel 0x31 = (64, ADDR_PACKED_BC1, 4, 4, 0) ∧
    AdjustSurfaceInfo ADDR_PACKED_BC1 4 4 64 5 5 = (64, 1, 1) ∧
    RestoreSurfaceInfo ADDR_PACKED_BC1 4 4 64 1 1 = (64, 4, 4) := by
  decide

/-! ## Validation at the entry points -/

/-- With `2 * pitch` equal to zero the halving loop of the bank-swap width never ends,
whatever the fuel. -/
theorem BankSwapHalveLoop_zero : ∀ (fuel w : Nat), BankSwapHalveLoop fuel w 0 = none := by
  intro fuel
  induction fuel with
  | zero => intro w; rfl
  | succ n ih =>
    intro w
    unfold BankSwapHalveLoop
    rw [if_pos (Nat.zero_le _)]
    exact ih _

/-- C14 (evaluation at the failing input): the request `exampleZeroPitchAddrIn` passes the
validation of `HwlComputeSurfaceAddrFromCoord` (swizzles 0, `x = 0 <= pitch = 0`,
`y = 0 <= height = 0`, one sample), but the call does not return: the mode is bank-swapped
and the loop `while (bankSwapWidth >= 2 * pitch)` has no exit for `pitch = 0`, with any
amount of fuel. -/
theorem C14_zero_pitch_bank_swapped_does_not_return :
    ¬ (exampleZeroPitchAddrIn.pipeSwizzle ≥ exampleLib.mPipes ∨
      exampleZeroPitchAddrIn.bankSwizzle ≥ exampleLib.mBanks ∨
      exampleZeroPitchAddrIn.x > exampleZeroPitchAddrIn.pitch ∨
      exampleZeroPitchAddrIn.y > exampleZeroPitchAddrIn.height ∨
      exampleZeroPitchAddrIn.numSamples > 8) ∧
    (∀ fuel w, BankSwapHalveLoop fuel w (u32 (2 * exampleZeroPitchAddrIn.pitch)) = none) ∧
    HwlComputeSurfaceAddrFromCoord exampleLib exampleZeroPitchAddrIn exampleAddrOut = none :=
  ⟨by decide, BankSwapHalveLoop_zero, by decide⟩

theorem alignUp_one (x : Nat) : alignUp x 1 = x := by
  unfold alignUp
  simp

/-- `PowTwoAlign` is `alignUp` when nothing wraps. -/
theorem PowTwoAlign_eq_alignUp (x k : Nat) (hk : k ≤ 31) (hx : x + 2 ^ k ≤ 2 ^ 32) :
    PowTwoAlign x (2 ^ k) = alignUp x (2 ^ k) := PowTwoAlign_eq x k hk hx

/-- What `PadDimensions` returns for a thin mode without the cube flag, all three dimensions
padded (`padDims = 0`), when no 32-bit addition wraps. -/
theorem PadDimensions_exact (lib : R600AddrLib) (tileMode : AddrTileMode)
    (flags : ADDR_SURFACE_FLAGS) (pitch pitchAlign height heightAlign slices : Nat)
    (hcube : flags.cube = false) (hthick : ComputeSurfaceThickness tileMode = 1)
    (hpa : 0 < pitchAlign) (hp : pitch + pitchAlign ≤ 2 ^ 32) (hp1 : 1 ≤ pitch)
    (k : Nat) (hk : k ≤ 31) (hha : heightAlign = 2 ^ k) (hh : height + 2 ^ k ≤ 2 ^ 32) :
    PadDimensions lib tileMode flags 0 pitch pitchAlign height heightAlign slices 1 =
      (alignUp pitch pitchAlign, alignUp height heightAlign, slices) := by
  unfold PadDimensions
  subst hha
  simp only [hthick, hcube, if_true, show (3 : Nat) > 1 by norm_num,
    show (3 : Nat) > 2 by norm_num, true_or, Bool.false_eq_true, false_and, if_false,
    show ¬ ((1 : Nat) > 1) by norm_num]
  rw [PowTwoAlign_eq_alignUp height k hk hh]
  have hpitch : (if IsPow2 pitchAlign = true then PowTwoAlign pitch pitchAlign
      else u32 (u32 (pitch + sub32 pitchAlign 1) / pitchAlign * pitchAlign)) =
      alignUp pitch pitchAlign := by
    split_ifs with h
    · obtain ⟨j, hj, rfl⟩ := IsPow2_two_pow pitchAlign hpa (by omega) h
      exact PowTwoAlign_eq_alignUp pitch j hj hp
    · unfold alignUp
      rw [sub32_eq hpa (by omega), u32_of_lt (show pitch + (pitchAlign - 1) < 2 ^ 32 by omega)]
      have h1 := Nat.div_mul_le_self (pitch + (pitchAlign - 1)) pitchAlign
      rw [u32_of_lt (by omega)]
  rw [hpitch]

theorem none_flags (flags : ADDR_SURFACE_FLAGS) (h : flags = ADDR_SURFACE_FLAGS.none) :
    flags.cube = false ∧ flags.linearWA = false ∧ flags.display = false ∧
    flags.fmask = false ∧ flags.depth = false ∧ flags.qbStereo = false ∧
    flags.volume = false ∧ flags.inputBaseMap = false := by
  subst h
  exact ⟨rfl, rfl, rfl, rfl, rfl, rfl, rfl, rfl⟩

/-- The linear-aligned sizing of a one-sample request at mip level 0 without flags, when no
32-bit addition and no 64-bit product wraps. -/
theorem ComputeSurfaceInfoLinear_exact (lib : R600AddrLib) (hv : lib.ValidConfig)
    (pIn : ADDR_COMPUTE_SURFACE_INFO_INPUT) (pOut : ADDR_COMPUTE_SURFACE_INFO_OUTPUT)
    (hmode : pIn.tileMode = ADDR_TM_LINEAR_ALIGNED) (hmip : pIn.mipLevel = 0)
    (hns : pIn.numSamples = 1) (hflags : pIn.flags = ADDR_SURFACE_FLAGS.none)
    (hw1 : 1 ≤ pIn.width)
    (hw32 : pIn.width + max 64 (8 * lib.mPipeInterleaveBytes / pIn.bpp) ≤ 2 ^ 32)
    (hh32 : pIn.height < 2 ^ 32) (hn32 : pIn.numSlices < 2 ^ 32)
    (h64 : alignUp pIn.width (max 64 (8 * lib.mPipeInterleaveBytes / pIn.bpp)) * pIn.height *
      pIn.numSlices * pIn.bpp + 7 < 2 ^ 64) :
    ComputeSurfaceInfoLinear lib pIn pOut 0 ADDR_TM_LINEAR_ALIGNED =
      { pOut with
        baseAlign := lib.mPipeInterleaveBytes,
        pitchAlign := max 64 (8 * lib.mPipeInterleaveBytes / pIn.bpp),
        heightAlign := 1,
        pitch := alignUp pIn.width (max 64 (8 * lib.mPipeInterleaveBytes / pIn.bpp)),
        height := pIn.height, depth := pIn.numSlices,
        surfSize := ceilDiv (alignUp pIn.width (max 64 (8 * lib.mPipeInterleaveBytes / pIn.bpp)) *
          pIn.height * pIn.numSlices * pIn.bpp) 8,
        depthAlign := 1, tileMode := ADDR_TM_LINEAR_ALIGNED } := by
  obtain ⟨hcube, hlwa, hdisp, -⟩ := none_flags pIn.flags hflags
  obtain ⟨-, -, hgroup, -⟩ := hv
  have e8 : u32 (8 * lib.mPipeInterleaveBytes) = 8 * lib.mPipeInterleaveBytes :=
    u32_of_lt (by omega)
  have hal : ComputeSurfaceAlignmentsLinear lib pIn.tileMode pIn.bpp pIn.flags =
      (lib.mPipeInterleaveBytes, max 64 (8 * lib.mPipeInterleaveBytes / pIn.bpp), 1) := by
    unfold ComputeSurfaceAlignmentsLinear AdjustPitchAlignment
    rw [hmode]
    simp only [hdisp, e8, Bool.false_eq_true, if_false]
  have hd : MipLevelDims pIn pIn.width 0 = (pIn.width, pIn.height, pIn.numSlices, 0) := by
    unfold MipLevelDims
    simp only [hmip, ne_eq, not_true_eq_false, if_false]
  generalize hpa : max 64 (8 * lib.mPipeInterleaveBytes / pIn.bpp) = pa at *
  have hpa64 : 64 ≤ pa := by rw [← hpa]; exact Nat.le_max_left _ _
  have hpad := PadDimensions_exact lib ADDR_TM_LINEAR_ALIGNED pIn.flags pIn.width pa pIn.height 1
    pIn.numSlices hcube rfl (by omega) hw32 hw1 0 (by norm_num) rfl (by omega)
  rw [alignUp_one] at hpad
  unfold ComputeSurfaceInfoLinear
  simp only [hlwa, Bool.false_eq_true, false_and, if_false, hal, hd]
  have ht : ComputeSurfaceThickness ADDR_TM_LINEAR_ALIGNED = 1 := rfl
  rw [ht, hpad]
  simp only [hns, Nat.mul_one, Nat.div_one]
  rw [u32_of_lt hn32]
  have hX : BITS_TO_BYTES64 (u64 (pIn.height * alignUp pIn.width pa * pIn.numSlices * pIn.bpp)) =
      ceilDiv (alignUp pIn.width pa * pIn.height * pIn.numSlices * pIn.bpp) 8 := by
    have e : pIn.height * alignUp pIn.width pa * pIn.numSlices * pIn.bpp =
        alignUp pIn.width pa * pIn.height * pIn.numSlices * pIn.bpp := by ring
    rw [e]
    generalize alignUp pIn.width pa * pIn.height * pIn.numSlices * pIn.bpp = X at h64
    unfold BITS_TO_BYTES64 ceilDiv
    have e1 : u64 X = X := u64_of_lt (by omega)
    rw [e1, u64_of_lt h64]
  rw [hX]

theorem MipLevelTileMode_linear_aligned (lib : R600AddrLib) (bpp level width height numSlices : Nat)
    (hl : level = 0) :
    ComputeSurfaceMipLevelTileMode lib ADDR_TM_LINEAR_ALIGNED bpp level width height numSlices 1
      false false = ADDR_TM_LINEAR_ALIGNED := by
  unfold ComputeSurfaceMipLevelTileMode ComputeSurfaceMipLevelTileModeNoRecursive
    HwlDegradeThickTileMode
  simp [hl, ComputeSurfaceRotationFromTileMode]

theorem HwlComputeSurfaceInfo_linear_aligned (lib : R600AddrLib)
    (pIn : ADDR_COMPUTE_SURFACE_INFO_INPUT) (pOut : ADDR_COMPUTE_SURFACE_INFO_OUTPUT)
    (hmode : pIn.tileMode = ADDR_TM_LINEAR_ALIGNED) (hmip : pIn.mipLevel = 0)
    (hns : pIn.numSamples = 1) (hflags : pIn.flags = ADDR_SURFACE_FLAGS.none) :
    HwlComputeSurfaceInfo lib pIn pOut =
      some (ADDR_OK, ComputeSurfaceInfoLinear lib pIn pOut 0 ADDR_TM_LINEAR_ALIGNED) := by
  obtain ⟨hcube, -, -, hfmask, hdepth, -⟩ := none_flags pIn.flags hflags
  unfold HwlComputeSurfaceInfo
  have hmax : max 1 1 = 1 := rfl
  simp only [hfmask, hcube, hmode, hmip, hns, hdepth, hmax, Bool.false_eq_true, false_and,
    if_false, MipLevelTileMode_linear_aligned]

/-- The fields that the closing block of `ComputeSurfaceInfo` leaves as the hardware layer
wrote them, when the stereo flag is clear. -/
theorem ComputeSurfaceInfoFinish_fields (lib : R600AddrLib)
    (pIn : ADDR_COMPUTE_SURFACE_INFO_INPUT) (pOut : ADDR_COMPUTE_SURFACE_INFO_OUTPUT)
    (elem : Nat × AddrElemMode × Nat × Nat × Nat) (bpp : Nat)
    (hq : pIn.flags.qbStereo = false) :
    (ComputeSurfaceInfoFinish lib pIn pOut elem bpp).pitch = pOut.pitch ∧
    (ComputeSurfaceInfoFinish lib pIn pOut elem bpp).height = pOut.height ∧
    (ComputeSurfaceInfoFinish lib pIn pOut elem bpp).depth = pOut.depth ∧
    (ComputeSurfaceInfoFinish lib pIn pOut elem bpp).surfSize = pOut.surfSize ∧
    (ComputeSurfaceInfoFinish lib pIn pOut elem bpp).baseAlign = pOut.baseAlign ∧
    (ComputeSurfaceInfoFinish lib pIn pOut elem bpp).pitchAlign = pOut.pitchAlign ∧
    (ComputeSurfaceInfoFinish lib pIn pOut elem bpp).heightAlign = pOut.heightAlign := by
  unfold ComputeSurfaceInfoFinish
  simp only [hq, Bool.false_eq_true, false_and, if_false]
  refine ⟨?_, ?_, ?_, ?_, ?_, ?_, ?_⟩ <;> split_ifs <;> rfl

/-- The slice size that the closing block of `ComputeSurfaceInfo` writes when neither the
stereo nor the volume flag is set and `sliceSizeComputing` is 0 or 1. -/
theorem ComputeSurfaceInfoFinish_sliceSize (lib : R600AddrLib)
    (pIn : ADDR_COMPUTE_SURFACE_INFO_INPUT) (pOut : ADDR_COMPUTE_SURFACE_INFO_OUTPUT)
    (elem : Nat × AddrElemMode × Nat × Nat × Nat) (bpp : Nat)
    (hq : pIn.flags.qbStereo = false) (hvol : pIn.flags.volume = false)
    (hsl : lib.mConfigFlags.sliceSizeComputing ≤ 1) :
    (ComputeSurfaceInfoFinish lib pIn pOut elem bpp).sliceSize =
      if lib.mConfigFlags.sliceSizeComputing = 1 then
        u32 (BITS_TO_BYTES64 (u64 (pOut.height * pOut.pitch * pIn.bpp * pIn.numSamples)))
      else if pIn.numSlices > 1 ∧ pIn.slice = sub32 pIn.numSlices 1 then
        u32 (u32 (pOut.surfSize / pOut.depth) +
          u32 (pOut.surfSize / pOut.depth) * sub32 pOut.depth pIn.numSlices)
      else u32 (pOut.surfSize / pOut.depth) := by
  unfold ComputeSurfaceInfoFinish
  have h01 : lib.mConfigFlags.sliceSizeComputing = 0 ∨ lib.mConfigFlags.sliceSizeComputing = 1 := by
    omega
  rcases h01 with h | h
  · simp only [hq, hvol, h, Bool.false_eq_true, false_and, if_false, ne_eq, not_true_eq_false,
      show ¬ ((0 : Nat) = 1) by norm_num]
    split_ifs <;> rfl
  · simp only [hq, h, Bool.false_eq_true, false_and, if_false, ne_eq, if_true,
      show ¬ ((1 : Nat) = 0) by norm_num, not_false_eq_true]
    split_ifs <;> rfl

theorem sub32_self (n : Nat) (h : n < 2 ^ 32) : sub32 n n = 0 := by
  unfold sub32
  rw [u32_of_lt h]
  unfold u32
  have : n + (2 ^ 32 - n) = 2 ^ 32 := by omega
  rw [this]
  exact Nat.mod_self _

/-- The response of `ComputeSurfaceInfo` for a linear-aligned request once the request has
reached the hardware layer: the closing block applied to the linear sizing. -/
theorem linear_aligned_core (lib : R600AddrLib) (hv : lib.ValidConfig)
    (hsl : lib.mConfigFlags.sliceSizeComputing ≤ 1)
    (pIn : ADDR_COMPUTE_SURFACE_INFO_INPUT) (pOut : ADDR_COMPUTE_SURFACE_INFO_OUTPUT)
    (elem : Nat × AddrElemMode × Nat × Nat × Nat) (bpp0 : Nat)
    (hmode : pIn.tileMode = ADDR_TM_LINEAR_ALIGNED) (hmip : pIn.mipLevel = 0)
    (hns : pIn.numSamples = 1) (hflags : pIn.flags = ADDR_SURFACE_FLAGS.none)
    (hw1 : 1 ≤ pIn.width) (hn1 : 1 ≤ pIn.numSlices)
    (hw32 : pIn.width + max 64 (8 * lib.mPipeInterleaveBytes / pIn.bpp) ≤ 2 ^ 32)
    (hh32 : pIn.height < 2 ^ 32) (hn32 : pIn.numSlices < 2 ^ 32)
    (h64 : alignUp pIn.width (max 64 (8 * lib.mPipeInterleaveBytes / pIn.bpp)) * pIn.height *
      pIn.numSlices * pIn.bpp + 7 < 2 ^ 64)
    (hs32 : (if lib.mConfigFlags.sliceSizeComputing = 1 then
        ceilDiv (alignUp pIn.width (max 64 (8 * lib.mPipeInterleaveBytes / pIn.bpp)) *
          pIn.height * pIn.bpp) 8
      else ceilDiv (alignUp pIn.width (max 64 (8 * lib.mPipeInterleaveBytes / pIn.bpp)) *
          pIn.height * pIn.numSlices * pIn.bpp) 8 / pIn.numSlices) < 2 ^ 32)
    (out : ADDR_COMPUTE_SURFACE_INFO_OUTPUT)
    (hout : out = ComputeSurfaceInfoFinish lib pIn
      (ComputeSurfaceInfoLinear lib pIn pOut 0 ADDR_TM_LINEAR_ALIGNED) elem bpp0) :
    out.baseAlign = lib.mPipeInterleaveBytes ∧
    out.pitchAlign = max 64 (8 * lib.mPipeInterleaveBytes / pIn.bpp) ∧
    out.heightAlign = 1 ∧
    out.pitch = alignUp pIn.width (max 64 (8 * lib.mPipeInterleaveBytes / pIn.bpp)) ∧
    out.height = pIn.height ∧ out.depth = pIn.numSlices ∧
    out.surfSize = ceilDiv (out.pitch * pIn.height * pIn.numSlices * pIn.bpp) 8 ∧
    out.sliceSize =
      if lib.mConfigFlags.sliceSizeComputing = 1 then
        ceilDiv (out.pitch * pIn.height * pIn.bpp) 8
      else out.surfSize / pIn.numSlices := by
  obtain ⟨-, -, -, -, -, hq, hvol, -⟩ := none_flags pIn.flags hflags
  have hlin := ComputeSurfaceInfoLinear_exact lib hv pIn pOut hmode hmip hns hflags hw1 hw32
    hh32 hn32 h64
  obtain ⟨f1, f2, f3, f4, f5, f6, f7⟩ := ComputeSurfaceInfoFinish_fields lib pIn
    (ComputeSurfaceInfoLinear lib pIn pOut 0 ADDR_TM_LINEAR_ALIGNED) elem bpp0 hq
  have f8 := ComputeSurfaceInfoFinish_sliceSize lib pIn
    (ComputeSurfaceInfoLinear lib pIn pOut 0 ADDR_TM_LINEAR_ALIGNED) elem bpp0 hq hvol hsl
  rw [← hout] at f1 f2 f3 f4 f5 f6 f7 f8
  rw [hlin] at f1 f2 f3 f4 f5 f6 f7 f8
  dsimp only at f1 f2 f3 f4 f5 f6 f7 f8
  generalize hP : alignUp pIn.width (max 64 (8 * lib.mPipeInterleaveBytes / pIn.bpp)) = P at *
  refine ⟨f5, f6, f7, f1, f2, f3, by rw [f4, f1], ?_⟩
  rw [f8, f4, f1, hns, Nat.mul_one]
  by_cases h1 : lib.mConfigFlags.sliceSizeComputing = 1
  · rw [if_pos h1] at hs32 ⊢
    rw [if_pos h1]
    have e : pIn.height * P * pIn.bpp = P * pIn.height * pIn.bpp := by ring
    rw [e]
    have hle : P * pIn.height * pIn.bpp ≤ P * pIn.height * pIn.numSlices * pIn.bpp := by
      calc P * pIn.height * pIn.bpp = P * pIn.height * 1 * pIn.bpp := by ring
        _ ≤ P * pIn.height * pIn.numSlices * pIn.bpp :=
          Nat.mul_le_mul_right _ (Nat.mul_le_mul_left _ hn1)
    generalize P * pIn.height * pIn.bpp = B at *
    unfold BITS_TO_BYTES64
    have e1 : u64 B = B := u64_of_lt (by omega)
    rw [e1, u64_of_lt (by omega)]
    unfold ceilDiv at hs32 ⊢
    exact u32_of_lt hs32
  · rw [if_neg h1] at hs32 ⊢
    rw [if_neg h1]
    generalize ceilDiv (P * pIn.height * pIn.numSlices * pIn.bpp) 8 / pIn.numSlices = E at *
    rw [sub32_self _ hn32, u32_of_lt hs32, Nat.mul_zero, Nat.add_zero, u32_of_lt hs32]
    split_ifs <;> rfl

theorem IsBlockCompressed_expand (format : Nat) (h : IsBlockCompressed format = true) :
    (GetBitsPerPixel format).2.2.1 = 4 := by
  unfold IsBlockCompressed ADDR_FMT_BC1 ADDR_FMT_BC7 at h
  have h2 := of_decide_eq_true h
  obtain ⟨h3, h4⟩ := h2
  interval_cases format <;> rfl

theorem ComputeMipLevel_level0 (pIn : ADDR_COMPUTE_SURFACE_INFO_INPUT)
    (hbc : IsBlockCompressed pIn.format = false) (hmip : pIn.mipLevel = 0) :
    ComputeMipLevel pIn = pIn := by
  unfold ComputeMipLevel HwlComputeMipLevel
  simp only [hbc, hmip, Bool.false_eq_true, false_and, if_false, not_false_eq_true, if_true,
    ne_eq, not_true_eq_false, and_false]

theorem AdjustSurfaceInfo_plain (elemMode : AddrElemMode) (bpp width height : Nat)
    (hm : elemMode = ADDR_UNCOMPRESSED ∨ elemMode = ADDR_PACKED_GBGR ∨
      elemMode = ADDR_PACKED_BGRG) :
    AdjustSurfaceInfo elemMode 1 1 bpp width height = (bpp, width, height) := by
  rcases hm with rfl | rfl | rfl <;> rfl

/-- C11 (amended): on a valid instance whose slice-size mode is 0 or 1, a `LINEAR_ALIGNED`
request at mip level 0 with one sample, no flags, element size `b` in 1..128 (either given
directly with `ADDR_FMT_INVALID`, or by a format with expansion factors 1 x 1), sizes of at
least 1, and with the 32-bit and 64-bit intermediate values in range, is answered `ADDR_OK`
with `baseAlign = pipeInterleaveBytes`, `pitchAlign = max 64 (8 * pipeInterleaveBytes / b)`,
`heightAlign = 1`, `pitch` the least multiple of `pitchAlign` that is at least the width,
`height` unchanged, `depth = numSlices`,
`surfSize = ceil (pitch * height * numSlices * b / 8)`, and `sliceSize` equal to
`surfSize / numSlices` in slice-size mode 0 and to `ceil (pitch * height * b / 8)` in
mode 1. -/
theorem C11_linear_aligned_sizing (lib : R600AddrLib) (hv : lib.ValidConfig)
    (hsl : lib.mConfigFlags.sliceSizeComputing ≤ 1) (sizeIn sizeOut : Nat)
    (pIn : ADDR_COMPUTE_SURFACE_INFO_INPUT) (pOut : ADDR_COMPUTE_SURFACE_INFO_OUTPUT) (b : Nat)
    (hsize : lib.mConfigFlags.fillSizeFields = false ∨ (pIn.size = sizeIn ∧ pOut.size = sizeOut))
    (hmode : pIn.tileMode = ADDR_TM_LINEAR_ALIGNED) (hmip : pIn.mipLevel = 0)
    (hns : pIn.numSamples = 1) (hflags : pIn.flags = ADDR_SURFACE_FLAGS.none)
    (hfmt : (pIn.format = ADDR_FMT_INVALID ∧ pIn.bpp = b) ∨
      (pIn.format ≠ ADDR_FMT_INVALID ∧ pIn.bpp ≤ 128 ∧ (GetBitsPerPixel pIn.format).1 = b ∧
        (GetBitsPerPixel pIn.format).2.2.1 = 1 ∧ (GetBitsPerPixel pIn.format).2.2.2.1 = 1))
    (hb : 1 ≤ b ∧ b ≤ 128) (hw : 1 ≤ pIn.width) (hh : 1 ≤ pIn.height)
    (hn : 1 ≤ pIn.numSlices)
    (hw32 : pIn.width + max 64 (8 * lib.mPipeInterleaveBytes / b) ≤ 2 ^ 32)
    (hh32 : pIn.height < 2 ^ 32) (hn32 : pIn.numSlices < 2 ^ 32)
    (h64 : alignUp pIn.width (max 64 (8 * lib.mPipeInterleaveBytes / b)) * pIn.height *
      pIn.numSlices * b + 7 < 2 ^ 64)
    (hs32 : (if lib.mConfigFlags.sliceSizeComputing = 1 then
        ceilDiv (alignUp pIn.width (max 64 (8 * lib.mPipeInterleaveBytes / b)) *
          pIn.height * b) 8
      else ceilDiv (alignUp pIn.width (max 64 (8 * lib.mPipeInterleaveBytes / b)) *
          pIn.height * pIn.numSlices * b) 8 / pIn.numSlices) < 2 ^ 32) :
    ∃ pIn' out, ComputeSurfaceInfo lib sizeIn sizeOut pIn pOut = some (ADDR_OK, pIn', out) ∧
      out.baseAlign = lib.mPipeInterleaveBytes ∧
      out.pitchAlign = max 64 (8 * lib.mPipeInterleaveBytes / b) ∧
      out.heightAlign = 1 ∧
      (out.pitch % out.pitchAlign = 0 ∧ pIn.width ≤ out.pitch ∧
        out.pitch < pIn.width + out.pitchAlign) ∧
      out.height = pIn.height ∧ out.depth = pIn.numSlices ∧
      out.surfSize = ceilDiv (out.pitch * pIn.height * pIn.numSlices * b) 8 ∧
      out.sliceSize =
        if lib.mConfigFlags.sliceSizeComputing = 1 then
          ceilDiv (out.pitch * pIn.height * b) 8
        else out.surfSize / pIn.numSlices := by
  have hsz : ¬ (lib.mConfigFlags.fillSizeFields = true ∧
      (pIn.size ≠ sizeIn ∨ pOut.size ≠ sizeOut)) := by
    rcases hsize with h | ⟨h1, h2⟩
    · simp [h]
    · simp [h1, h2]
  have hpa : 0 < max 64 (8 * lib.mPipeInterleaveBytes / b) := by
    have := Nat.le_max_left 64 (8 * lib.mPipeInterleaveBytes / b)
    omega
  have hal := alignUp_facts pIn.width (max 64 (8 * lib.mPipeInterleaveBytes / b)) hpa
  have hbc : IsBlockCompressed pIn.format = false := by
    rcases hfmt with ⟨h, -⟩ | ⟨-, -, -, hx, -⟩
    · rw [h]; rfl
    · by_contra hne
      have := IsBlockCompressed_expand pIn.format (by simpa using hne)
      omega
  have hmipl := ComputeMipLevel_level0 pIn hbc hmip
  have finish : ∀ out : ADDR_COMPUTE_SURFACE_INFO_OUTPUT,
      (out.baseAlign = lib.mPipeInterleaveBytes ∧
        out.pitchAlign = max 64 (8 * lib.mPipeInterleaveBytes / b) ∧
        out.heightAlign = 1 ∧
        out.pitch = alignUp pIn.width (max 64 (8 * lib.mPipeInterleaveBytes / b)) ∧
        out.height = pIn.height ∧ out.depth = pIn.numSlices ∧
        out.surfSize = ceilDiv (out.pitch * pIn.height * pIn.numSlices * b) 8 ∧
        out.sliceSize =
          if lib.mConfigFlags.sliceSizeComputing = 1 then
            ceilDiv (out.pitch * pIn.height * b) 8
          else out.surfSize / pIn.numSlices) →
      out.baseAlign = lib.mPipeInterleaveBytes ∧
      out.pitchAlign = max 64 (8 * lib.mPipeInterleaveBytes / b) ∧
      out.heightAlign = 1 ∧
      (out.pitch % out.pitchAlign = 0 ∧ pIn.width ≤ out.pitch ∧
        out.pitch < pIn.width + out.pitchAlign) ∧
      out.height = pIn.height ∧ out.depth = pIn.numSlices ∧
      out.surfSize = ceilDiv (out.pitch * pIn.height * pIn.numSlices * b) 8 ∧
      out.sliceSize =
        if lib.mConfigFlags.sliceSizeComputing = 1 then
          ceilDiv (out.pitch * pIn.height * b) 8
        else out.surfSize / pIn.numSlices := by
    rintro out ⟨g1, g2, g3, g4, g5, g6, g7, g8⟩
    refine ⟨g1, g2, g3, ?_, g5, g6, g7, g8⟩
    rw [g4, g2]
    exact hal
  have hH : ∀ (fmt w h bpp : Nat) (ti : Option ADDR_TILEINFO)
      (po : ADDR_COMPUTE_SURFACE_INFO_OUTPUT),
      HwlComputeSurfaceInfo lib
        { pIn with format := fmt, width := w, height := h, bpp := bpp, pTileInfo := ti } po =
      some (ADDR_OK, ComputeSurfaceInfoLinear lib
        { pIn with format := fmt, width := w, height := h, bpp := bpp, pTileInfo := ti } po 0
        ADDR_TM_LINEAR_ALIGNED) :=
    fun fmt w h bpp ti po => HwlComputeSurfaceInfo_linear_aligned lib
      { pIn with format := fmt, width := w, height := h, bpp := bpp, pTileInfo := ti } po
      hmode hmip hns hflags
  rcases hfmt with ⟨hf, hbpp⟩ | ⟨hf, hbpp, he1, hx, hy⟩
  · subst hbpp
    have hb128 : ¬ (pIn.bpp > 128) := by omega
    have hb0 : ¬ (pIn.bpp = 0) := by omega
    unfold ComputeSurfaceInfo
    simp only [hsz, if_false, hb128, ne_eq, not_true_eq_false, hmipl, hf, not_false_eq_true,
      false_or, hb0, if_true, Nat.max_eq_right hw, Nat.max_eq_right hh]
    rw [hH]
    refine ⟨_, _, rfl, finish _ ?_⟩
    exact linear_aligned_core lib hv hsl
      { pIn with format := ADDR_FMT_INVALID, width := pIn.width, height := pIn.height,
                 pTileInfo := _ } _ _ _ hmode hmip hns
      hflags hw hn hw32 hh32 hn32 h64 hs32 _ rfl
  · have hb128 : ¬ (pIn.bpp > 128) := by omega
    have hmodes : (GetBitsPerPixel pIn.format).2.1 = ADDR_UNCOMPRESSED ∨
        (GetBitsPerPixel pIn.format).2.1 = ADDR_PACKED_GBGR ∨
        (GetBitsPerPixel pIn.format).2.1 = ADDR_PACKED_BGRG := by
      rcases GetBitsPerPixel_cases pIn.format with ⟨-, -, h⟩ | ⟨-, h, -⟩ | ⟨-, h, -⟩ | ⟨h, -⟩
      · exact h
      · omega
      · omega
      · omega
    have hadj := AdjustSurfaceInfo_plain (GetBitsPerPixel pIn.format).2.1
      (GetBitsPerPixel pIn.format).1 pIn.width pIn.height hmodes
    rw [he1] at hadj
    unfold ComputeSurfaceInfo
    simp only [hsz, if_false, hb128, ne_eq, not_true_eq_false, hmipl, hf, not_false_eq_true,
      true_or, if_true, hx, hy, hadj, he1, show ¬ ((1 : Nat) = 3) by decide, false_and,
      and_false]
    rw [hH]
    refine ⟨_, _, rfl, finish _ ?_⟩
    exact linear_aligned_core lib hv hsl
      { pIn with width := pIn.width, height := pIn.height, bpp := b, pTileInfo := _ } _ _ _
      hmode hmip hns hflags hw hn hw32 hh32 hn32 h64 hs32 _ rfl

/-- C11 at the first scenario of the specification: 128 x 1 x 1 at 32 bits per pixel on 4
pipes, 4 banks and a 256-byte interleave gives pitch 128, pitch alignment 64, base alignment
256, and 512 bytes for the surface and for the slice. -/
theorem C11_linear_aligned_sizing_witness :
    ∃ pIn' out, ComputeSurfaceInfo exampleLib 0 0
        (exampleSurfIn ADDR_TM_LINEAR_ALIGNED 32 1 128 1) exampleSurfOut =
        some (ADDR_OK, pIn', out) ∧
      out.baseAlign = 256 ∧ out.pitchAlign = 64 ∧ out.heightAlign = 1 ∧
      (out.pitch % out.pitchAlign = 0 ∧ 128 ≤ out.pitch ∧ out.pitch < 128 + out.pitchAlign) ∧
      out.height = 1 ∧ out.depth = 1 ∧
      out.surfSize = ceilDiv (out.pitch * 1 * 1 * 32) 8 ∧
      out.sliceSize = out.surfSize / 1 :=
  C11_linear_aligned_sizing exampleLib (by decide) (by decide) 0 0
    (exampleSurfIn ADDR_TM_LINEAR_ALIGNED 32 1 128 1) exampleSurfOut 32 (Or.inl rfl) rfl rfl rfl
    rfl (Or.inl ⟨rfl, rfl⟩) (by decide) (by decide) (by decide) (by decide) (by decide)
    (by decide) (by decide) (by decide) (by decide)

/-- C11 as stated fails in two ways. With `sliceSizeComputing = 1` the slice size is computed
from the pitch and height, not from the surface size: 1 x 1 x 5 at 3 bits per pixel gives
`surfSize = 1279` and `sliceSize = 256`, while `1279 / 5 = 255`. And the padding of the width
wraps in 32 bits: a width of `2 ^ 32 - 1` at 32 bits per pixel gives pitch 0. -/
theorem C11_slice_size_and_pitch_wrap :
    exampleLibSliceBytes.ValidConfig ∧
    (∃ pIn' out, ComputeSurfaceInfo exampleLibSliceBytes 0 0 exampleLinearSlicesIn
        exampleSurfOut = some (ADDR_OK, pIn', out) ∧
      out.surfSize = 1279 ∧ out.sliceSize = 256 ∧
      out.sliceSize ≠ out.surfSize / exampleLinearSlicesIn.numSlices) ∧
    (∃ pIn' out, ComputeSurfaceInfo exampleLib 0 0
        (exampleSurfIn ADDR_TM_LINEAR_ALIGNED 32 1 4294967295 1) exampleSurfOut =
        some (ADDR_OK, pIn', out) ∧
      out.pitch = 0 ∧ ¬ (4294967295 ≤ out.pitch)) :=
  ⟨by decide,
    ⟨exampleLinearSlicesIn,
      ⟨0, 682, 1, 5, 1279, ADDR_TM_LINEAR_ALIGNED, 256, 682, 1, 1, 3, 682, 1, 3, 256, 84,
        4294967295, 4294967295, none, ADDR_DISPLAYABLE, 0, none⟩, by decide, by decide⟩,
    ⟨exampleSurfIn ADDR_TM_LINEAR_ALIGNED 32 1 4294967295 1,
      ⟨0, 0, 1, 1, 0, ADDR_TM_LINEAR_ALIGNED, 256, 64, 1, 1, 32, 0, 1, 32, 0, 4294967295,
        4294967295, 4294967295, none, ADDR_DISPLAYABLE, 0, none⟩, by decide, by decide⟩⟩

/-- Masking a wrapped 32-bit sum with `2 ^ k - 1` gives the residue of the exact sum. -/
theorem wrapped_sum_mask (k : Nat) (hk : k ≤ 32) (a b : Nat) :
    u32 (a + u32 b) &&& (2 ^ k - 1) = (a + b) % 2 ^ k := by
  rw [Nat.and_pow_two_sub_one_eq_mod]
  unfold u32
  rw [Nat.add_mod_mod, Nat.mod_mod_of_dvd _ (Nat.pow_dvd_pow 2 hk)]

theorem rotation_eq_spec (lib : R600AddrLib) (hv : lib.ValidConfig) (tileMode : AddrTileMode) :
    ComputeSurfaceRotationFromTileMode lib tileMode =
      rotationSpec lib.mPipes lib.mBanks tileMode := by
  obtain ⟨hp, hb, -⟩ := hv
  unfold ComputeSurfaceRotationFromTileMode rotationSpec
  rcases hp with h | h | h | h <;> rcases hb with h' | h' <;> rw [h, h'] <;>
    cases tileMode <;> decide

/-- C21: on every valid hardware configuration, `ComputeSliceTileSwizzle` returns 0 for the
tile modes outside `2D_TILED_THIN1 .. 3D_TILED_XTHICK`, and for the modes inside the range
the low 32 bits of `(baseAddr XOR (s * pipeInterleaveBytes)) >> 8` with
`s = (baseSwizzle + (slice / thickness) * rotation) mod (pipes * banks)` and the rotation of
the specification. -/
theorem C21_slice_tile_swizzle (lib : R600AddrLib) (hv : lib.ValidConfig)
    (tileMode : AddrTileMode) (baseSwizzle slice baseAddr : Nat) :
    ComputeSliceTileSwizzle lib tileMode baseSwizzle slice baseAddr =
      sliceTileSwizzleSpec lib.mPipes lib.mBanks lib.mPipeInterleaveBytes tileMode baseSwizzle
        slice baseAddr := by
  have hrot := rotation_eq_spec lib hv tileMode
  obtain ⟨hp, hb, hg, -⟩ := hv
  unfold ComputeSliceTileSwizzle sliceTileSwizzleSpec
  rw [hrot]
  by_cases hm : IsMacroTiled tileMode = true
  · have hr : ¬ (tileMode.toNat < ADDR_TM_2D_TILED_THIN1.toNat ∨
        ADDR_TM_3D_TILED_XTHICK.toNat < tileMode.toNat) := by
      unfold IsMacroTiled at hm
      have := of_decide_eq_true hm
      omega
    simp only [hm, not_true_eq_false, if_false, hr]
    generalize slice / ComputeSurfaceThickness tileMode *
      rotationSpec lib.mPipes lib.mBanks tileMode = r
    have key : ∀ k : Nat, k ≤ 6 → lib.mPipes * lib.mBanks = 2 ^ k →
        u32 ((baseAddr ^^^ u32 ((u32 (baseSwizzle + u32 r) &&&
          sub32 (u32 (lib.mPipes * lib.mBanks)) 1) * lib.mPipeInterleaveBytes)) >>> 8) =
        ((baseAddr ^^^ ((baseSwizzle + r) % (lib.mPipes * lib.mBanks) *
          lib.mPipeInterleaveBytes)) >>> 8) % 2 ^ 32 := by
      intro k hk hpb
      rw [hpb]
      have h1 : 2 ^ k ≤ 2 ^ 6 := Nat.pow_le_pow_right (by norm_num) hk
      have h0 : 0 < 2 ^ k := Nat.pos_pow_of_pos k (by norm_num)
      rw [u32_of_lt (show 2 ^ k < 2 ^ 32 by omega), sub32_eq h0 (by omega),
        wrapped_sum_mask k (by omega)]
      have hs : (baseSwizzle + r) % 2 ^ k < 2 ^ k := Nat.mod_lt _ h0
      have hprod : (baseSwizzle + r) % 2 ^ k * lib.mPipeInterleaveBytes < 2 ^ 32 := by
        have : (baseSwizzle + r) % 2 ^ k * lib.mPipeInterleaveBytes ≤ 64 * 512 :=
          Nat.mul_le_mul (by omega) (by omega)
        omega
      rw [u32_of_lt hprod]
      rfl
    rcases hp with h | h | h | h <;> rcases hb with h' | h'
    · exact key 2 (by norm_num) (by rw [h, h']; norm_num)
    · exact key 3 (by norm_num) (by rw [h, h']; norm_num)
    · exact key 3 (by norm_num) (by rw [h, h']; norm_num)
    · exact key 4 (by norm_num) (by rw [h, h']; norm_num)
    · exact key 4 (by norm_num) (by rw [h, h']; norm_num)
    · exact key 5 (by norm_num) (by rw [h, h']; norm_num)
    · exact key 5 (by norm_num) (by rw [h, h']; norm_num)
    · exact key 6 (by norm_num) (by rw [h, h']; norm_num)
  · have hr : tileMode.toNat < ADDR_TM_2D_TILED_THIN1.toNat ∨
        ADDR_TM_3D_TILED_XTHICK.toNat < tileMode.toNat := by
      have hm' : ¬ (tileMode.toNat ≥ ADDR_TM_2D_TILED_THIN1.toNat ∧
          tileMode.toNat ≤ ADDR_TM_3D_TILED_XTHICK.toNat) := by
        intro hc
        apply hm
        unfold IsMacroTiled
        exact decide_eq_true hc
      omega
    simp only [hm, Bool.false_eq_true, not_false_eq_true, if_true, hr]

/-- C21 on `exampleLib` (4 pipes, 4 banks, 256-byte interleave): slice 3 of a
`2D_TILED_THIN1` surface with base swizzle 5 and base address `0x12345600`. -/
theorem C21_slice_tile_swizzle_witness :
    exampleLib.ValidConfig ∧
    ComputeSliceTileSwizzle exampleLib ADDR_TM_2D_TILED_THIN1 5 3 0x12345600 =
      sliceTileSwizzleSpec 4 4 256 ADDR_TM_2D_TILED_THIN1 5 3 0x12345600 :=
  ⟨by decide, C21_slice_tile_swizzle exampleLib (by decide) ADDR_TM_2D_TILED_THIN1 5 3
    0x12345600⟩

/-! ## Depth alignment -/

theorem ComputeSurfaceInfoMicroTiled_depthAlign (lib : R600AddrLib)
    (pIn : ADDR_COMPUTE_SURFACE_INFO_INPUT) (pOut : ADDR_COMPUTE_SURFACE_INFO_OUTPUT)
    (padDims : Nat) (tileMode : AddrTileMode) :
    (ComputeSurfaceInfoMicroTiled lib pIn pOut padDims tileMode).depthAlign =
      ComputeSurfaceThickness
        (ComputeSurfaceInfoMicroTiled lib pIn pOut padDims tileMode).tileMode := by
  unfold ComputeSurfaceInfoMicroTiled
  dsimp only
  split_ifs <;> rfl

theorem ComputeSurfaceInfoMacroTiled_depthAlign (lib : R600AddrLib)
    (pIn : ADDR_COMPUTE_SURFACE_INFO_INPUT) (pOut : ADDR_COMPUTE_SURFACE_INFO_OUTPUT)
    (padDims : Nat) (tileMode baseTileMode : AddrTileMode)
    (o : ADDR_COMPUTE_SURFACE_INFO_OUTPUT)
    (h : ComputeSurfaceInfoMacroTiled lib pIn pOut padDims tileMode baseTileMode = some o) :
    o.depthAlign = ComputeSurfaceThickness o.tileMode := by
  unfold ComputeSurfaceInfoMacroTiled at h
  dsimp only at h
  generalize MipLevelDims pIn pIn.width padDims = d at h
  generalize decide (pIn.mipLevel ≠ 0 ∧ tileMode = ADDR_TM_2D_TILED_THICK ∧ d.2.2.1 < 4) = b
    at h
  cases b
  · simp only [Bool.false_eq_true, if_false] at h
    split at h
    · injection h with h
      subst h
      exact ComputeSurfaceInfoMicroTiled_depthAlign lib pIn _ _ _
    · split at h
      · exact absurd h (by simp)
      · injection h with h
        subst h
        rfl
  · simp only [if_true] at h
    split at h
    · injection h with h
      subst h
      exact ComputeSurfaceInfoMicroTiled_depthAlign lib pIn _ _ _
    · split at h
      · exact absurd h (by simp)
      · injection h with h
        subst h
        rfl

/-- C24: whenever `HwlComputeSurfaceInfo` returns `ADDR_OK`, the depth alignment of the
response is the thickness of the tile mode of the response, which is 4 for the five `THICK`
modes, 8 for the two `XTHICK` modes and 1 otherwise, and so lies in {1, 4, 8}; the tile mode
of the response is the one the sizing ended with, after any change of mode. -/
theorem C24_depth_align_is_thickness (lib : R600AddrLib)
    (pIn : ADDR_COMPUTE_SURFACE_INFO_INPUT) (pOut out : ADDR_COMPUTE_SURFACE_INFO_OUTPUT)
    (h : HwlComputeSurfaceInfo lib pIn pOut = some (ADDR_OK, out)) :
    out.depthAlign = ComputeSurfaceThickness out.tileMode ∧
    ComputeSurfaceThickness out.tileMode = thicknessSpec out.tileMode ∧
    (out.depthAlign = 1 ∨ out.depthAlign = 4 ∨ out.depthAlign = 8) := by
  have hspec : ∀ tm : AddrTileMode, ComputeSurfaceThickness tm = thicknessSpec tm := by
    intro tm
    cases tm <;> decide
  have hrange : ∀ tm : AddrTileMode, ComputeSurfaceThickness tm = 1 ∨
      ComputeSurfaceThickness tm = 4 ∨ ComputeSurfaceThickness tm = 8 := by
    intro tm
    cases tm <;> decide
  have hd : out.depthAlign = ComputeSurfaceThickness out.tileMode := by
    obtain ⟨padDims, tm, -, hc⟩ := HwlComputeSurfaceInfo_ok lib pIn pOut out h
    rcases hc with ⟨-, rfl⟩ | ⟨-, rfl⟩ | ⟨-, hm⟩
    · rfl
    · exact ComputeSurfaceInfoMicroTiled_depthAlign lib pIn pOut padDims tm
    · exact ComputeSurfaceInfoMacroTiled_depthAlign lib pIn pOut padDims tm pIn.tileMode out hm
  refine ⟨hd, hspec _, ?_⟩
  rw [hd]
  exact hrange _

/-- C24 at a mip level of a thick surface that is sized as a thin one: level 1 of a
16 x 16 x 2 `2D_TILED_THICK` request on `exampleLib`. -/
theorem C24_depth_align_is_thickness_witness :
    ∃ out, HwlComputeSurfaceInfo exampleLib exampleThickMipIn exampleSurfOut =
        some (ADDR_OK, out) ∧
      out.depthAlign = ComputeSurfaceThickness out.tileMode ∧
      ComputeSurfaceThickness out.tileMode = thicknessSpec out.tileMode ∧
      (out.depthAlign = 1 ∨ out.depthAlign = 4 ∨ out.depthAlign = 8) :=
  ⟨exampleThickMipOut, by decide,
    C24_depth_align_is_thickness exampleLib exampleThickMipIn exampleSurfOut
      exampleThickMipOut (by decide)⟩

/-! ## The closing block of `ComputeSurfaceInfo`: stereo and slice size -/

theorem NextPow2Loop_ge (dim : Nat) (hd : dim ≤ 2 ^ 31) :
    ∀ (fuel i : Nat), i ≤ 31 → 31 ≤ i + fuel → dim ≤ NextPow2Loop fuel dim (2 ^ i) := by
  intro fuel
  induction fuel with
  | zero =>
    intro i hi h31
    have : i = 31 := by omega
    subst this
    exact hd
  | succ n ih =>
    intro i hi h31
    unfold NextPow2Loop
    split_ifs with h
    · have hlt : i < 31 := by
        by_contra hc
        have : i = 31 := by omega
        subst this
        omega
      have e : u32 (2 ^ i <<< 1) = 2 ^ (i + 1) := by
        rw [Nat.shiftLeft_eq, ← Nat.pow_succ]
        apply u32_of_lt
        exact Nat.pow_lt_pow_right (by norm_num) (by omega)
      rw [e]
      exact ih (i + 1) (by omega) (by omega)
    · omega

theorem NextPow2_ge (dim : Nat) (hd : dim ≤ 2 ^ 31) : dim ≤ NextPow2 dim := by
  unfold NextPow2
  split_ifs with h
  · omega
  · exact NextPow2Loop_ge dim hd 32 0 (by omega) (by omega)

/-- The slice count after the mip-level adjustment is at least the request's and at most
`2 ^ 31`. -/
theorem MipLevelDims_slices (pIn : ADDR_COMPUTE_SURFACE_INFO_INPUT) (pitch padDims : Nat)
    (hs : pIn.numSlices ≤ 2 ^ 31) :
    pIn.numSlices ≤ (MipLevelDims pIn pitch padDims).2.2.1 ∧
    (MipLevelDims pIn pitch padDims).2.2.1 ≤ 2 ^ 31 := by
  unfold MipLevelDims
  split_ifs <;> dsimp only <;>
    first
    | exact ⟨Nat.le_refl _, hs⟩
    | exact ⟨NextPow2_ge _ hs, NextPow2_le 31 (by norm_num) _ hs⟩

/-- The padded slice count is at least the slice count and fits 32 bits, for a slice count
of at most `2 ^ 31` and a slice alignment of 1, 4 or 8. -/
theorem PadDimensions_slices_ge (lib : R600AddrLib) (tileMode : AddrTileMode)
    (flags : ADDR_SURFACE_FLAGS)
    (padDims pitch pitchAlign height heightAlign slices sliceAlign : Nat)
    (hs : slices ≤ 2 ^ 31) (ha : sliceAlign = 1 ∨ sliceAlign = 4 ∨ sliceAlign = 8) :
    slices ≤ (PadDimensions lib tileMode flags padDims pitch pitchAlign height heightAlign
      slices sliceAlign).2.2 ∧
    (PadDimensions lib tileMode flags padDims pitch pitchAlign height heightAlign
      slices sliceAlign).2.2 < 2 ^ 32 := by
  have hal : ∀ s : Nat, s ≤ 2 ^ 31 → s ≤ PowTwoAlign s sliceAlign ∧
      PowTwoAlign s sliceAlign < 2 ^ 32 := by
    intro s hs'
    have hlt : ∀ k : Nat, k ≤ 3 → s + 2 ^ k ≤ 2 ^ 32 := by
      intro k hk
      have : 2 ^ k ≤ 2 ^ 3 := Nat.pow_le_pow_right (by norm_num) hk
      omega
    have hmain : ∀ k : Nat, k ≤ 3 → s ≤ PowTwoAlign s (2 ^ k) ∧ PowTwoAlign s (2 ^ k) < 2 ^ 32 := by
      intro k hk
      refine ⟨(PowTwoAlign_ge s k (by omega) (hlt k hk)).1, ?_⟩
      unfold PowTwoAlign
      exact Nat.lt_of_le_of_lt Nat.and_le_left (u32_lt _)
    rcases ha with h | h | h <;> rw [h]
    · exact hmain 0 (by norm_num)
    · exact hmain 2 (by norm_num)
    · exact hmain 3 (by norm_num)
  have hn := NextPow2_ge slices hs
  have hn' : NextPow2 slices ≤ 2 ^ 31 := NextPow2_le 31 (Nat.le_refl _) slices hs
  unfold PadDimensions
  dsimp only
  obtain ⟨h1, h2⟩ := hal _ hn'
  have h3 := hal _ hs
  obtain ⟨h4, h5⟩ := h3
  split_ifs <;> constructor <;> omega

theorem thickness_one_four_eight (tileMode : AddrTileMode) :
    ComputeSurfaceThickness tileMode = 1 ∨ ComputeSurfaceThickness tileMode = 4 ∨
    ComputeSurfaceThickness tileMode = 8 := by
  cases tileMode <;> decide

theorem ComputeSurfaceInfoLinear_depth (lib : R600AddrLib)
    (pIn : ADDR_COMPUTE_SURFACE_INFO_INPUT) (pOut : ADDR_COMPUTE_SURFACE_INFO_OUTPUT)
    (padDims : Nat) (tileMode : AddrTileMode) (hs : pIn.numSlices ≤ 2 ^ 31) :
    pIn.numSlices ≤ (ComputeSurfaceInfoLinear lib pIn pOut padDims tileMode).depth ∧
    (ComputeSurfaceInfoLinear lib pIn pOut padDims tileMode).depth < 2 ^ 32 := by
  unfold ComputeSurfaceInfoLinear
  dsimp only
  generalize (if pIn.flags.linearWA = true ∧ pIn.mipLevel = 0 then NextPow2 (pIn.width / 3)
    else pIn.width) = pitch
  obtain ⟨h1, h2⟩ := MipLevelDims_slices pIn pitch padDims hs
  generalize MipLevelDims pIn pitch padDims = d at h1 h2
  have := PadDimensions_slices_ge lib tileMode pIn.flags d.2.2.2 d.1
    (ComputeSurfaceAlignmentsLinear lib pIn.tileMode pIn.bpp pIn.flags).2.1 d.2.1
    (ComputeSurfaceAlignmentsLinear lib pIn.tileMode pIn.bpp pIn.flags).2.2 d.2.2.1
    (ComputeSurfaceThickness tileMode) h2 (thickness_one_four_eight tileMode)
  omega

theorem ComputeSurfaceInfoMicroTiled_depth (lib : R600AddrLib)
    (pIn : ADDR_COMPUTE_SURFACE_INFO_INPUT) (pOut : ADDR_COMPUTE_SURFACE_INFO_OUTPUT)
    (padDims : Nat) (tileMode : AddrTileMode) (hs : pIn.numSlices ≤ 2 ^ 31) :
    pIn.numSlices ≤ (ComputeSurfaceInfoMicroTiled lib pIn pOut padDims tileMode).depth ∧
    (ComputeSurfaceInfoMicroTiled lib pIn pOut padDims tileMode).depth < 2 ^ 32 := by
  unfold ComputeSurfaceInfoMicroTiled
  dsimp only
  obtain ⟨h1, h2⟩ := MipLevelDims_slices pIn pIn.width padDims hs
  generalize MipLevelDims pIn pIn.width padDims = d at h1 h2
  generalize decide (pIn.mipLevel ≠ 0 ∧ tileMode = ADDR_TM_1D_TILED_THICK ∧ d.2.2.1 < 4) = b
  generalize (if b = true then ADDR_TM_1D_TILED_THIN1 else tileMode) = tm
  have hth : (if b = true then 1 else ComputeSurfaceThickness tm) = 1 ∨
      (if b = true then 1 else ComputeSurfaceThickness tm) = 4 ∨
      (if b = true then 1 else ComputeSurfaceThickness tm) = 8 := by
    split_ifs
    · exact Or.inl rfl
    · exact thickness_one_four_eight tm
  generalize (if b = true then 1 else ComputeSurfaceThickness tm) = th at hth
  have := PadDimensions_slices_ge lib tm pIn.flags d.2.2.2 d.1
    (ComputeSurfaceAlignmentsMicrotiled lib tm pIn.bpp pIn.flags pIn.numSamples).2.1 d.2.1
    (ComputeSurfaceAlignmentsMicrotiled lib tm pIn.bpp pIn.flags pIn.numSamples).2.2 d.2.2.1
    th h2 hth
  omega

theorem ComputeSurfaceInfoMacroTiled_depth (lib : R600AddrLib)
    (pIn : ADDR_COMPUTE_SURFACE_INFO_INPUT) (pOut : ADDR_COMPUTE_SURFACE_INFO_OUTPUT)
    (padDims : Nat) (tileMode baseTileMode : AddrTileMode)
    (o : ADDR_COMPUTE_SURFACE_INFO_OUTPUT) (hs : pIn.numSlices ≤ 2 ^ 31)
    (h : ComputeSurfaceInfoMacroTiled lib pIn pOut padDims tileMode baseTileMode = some o) :
    pIn.numSlices ≤ o.depth ∧ o.depth < 2 ^ 32 := by
  unfold ComputeSurfaceInfoMacroTiled at h
  dsimp only at h
  obtain ⟨h1, h2⟩ := MipLevelDims_slices pIn pIn.width padDims hs
  generalize MipLevelDims pIn pIn.width padDims = d at h h1 h2
  generalize decide (pIn.mipLevel ≠ 0 ∧ tileMode = ADDR_TM_2D_TILED_THICK ∧ d.2.2.1 < 4) = b
    at h
  generalize (if b = true then ADDR_TM_2D_TILED_THIN1 else tileMode) = tm at h
  have hth : (if b = true then 1 else ComputeSurfaceThickness tm) = 1 ∨
      (if b = true then 1 else ComputeSurfaceThickness tm) = 4 ∨
      (if b = true then 1 else ComputeSurfaceThickness tm) = 8 := by
    split_ifs
    · exact Or.inl rfl
    · exact thickness_one_four_eight tm
  generalize (if b = true then 1 else ComputeSurfaceThickness tm) = th at h hth
  split at h
  · injection h with h
    subst h
    -- the fallback sizes the adjusted dimensions again as a micro-tiled surface
    exact ComputeSurfaceInfoMicroTiled_depth lib pIn _ _ _ hs
  · split at h
    · exact absurd h (by simp)
    · rename_i w hbsw
      injection h with h
      subst h
      dsimp only
      generalize DualPitchAlign lib tm pIn.flags.depth pIn.mipLevel pIn.bpp pIn.numSamples
        d.1 d.2.1 (ComputeSurfaceAlignmentsMacrotiled lib tm pIn.bpp pIn.flags
          pIn.numSamples).2.2.2.1 (ComputeSurfaceAlignmentsMacrotiled lib tm pIn.bpp pIn.flags
          pIn.numSamples).2.2.2.2 = pitch1
      have := PadDimensions_slices_ge lib tm pIn.flags d.2.2.2 pitch1
        (max (ComputeSurfaceAlignmentsMacrotiled lib tm pIn.bpp pIn.flags pIn.numSamples).2.1 w)
        d.2.1 (ComputeSurfaceAlignmentsMacrotiled lib tm pIn.bpp pIn.flags pIn.numSamples).2.2.1
        d.2.2.1 th h2 hth
      omega

/-- The depth that the hardware layer returns is at least the slice count of the request
and fits 32 bits, for a slice count of at most `2 ^ 31`. -/
theorem HwlComputeSurfaceInfo_depth (lib : R600AddrLib)
    (pIn : ADDR_COMPUTE_SURFACE_INFO_INPUT) (pOut out : ADDR_COMPUTE_SURFACE_INFO_OUTPUT)
    (hs : pIn.numSlices ≤ 2 ^ 31)
    (h : HwlComputeSurfaceInfo lib pIn pOut = some (ADDR_OK, out)) :
    pIn.numSlices ≤ out.depth ∧ out.depth < 2 ^ 32 := by
  obtain ⟨padDims, tm, -, hc⟩ := HwlComputeSurfaceInfo_ok lib pIn pOut out h
  rcases hc with ⟨-, rfl⟩ | ⟨-, rfl⟩ | ⟨-, hm⟩
  · exact ComputeSurfaceInfoLinear_depth lib pIn pOut padDims tm hs
  · exact ComputeSurfaceInfoMicroTiled_depth lib pIn pOut padDims tm hs
  · exact ComputeSurfaceInfoMacroTiled_depth lib pIn pOut padDims tm pIn.tileMode out hs hm

theorem ComputeSurfaceInfoMacroTiled_pStereoInfo (lib : R600AddrLib)
    (pIn : ADDR_COMPUTE_SURFACE_INFO_INPUT) (pOut : ADDR_COMPUTE_SURFACE_INFO_OUTPUT)
    (padDims : Nat) (tileMode baseTileMode : AddrTileMode)
    (o : ADDR_COMPUTE_SURFACE_INFO_OUTPUT)
    (h : ComputeSurfaceInfoMacroTiled lib pIn pOut padDims tileMode baseTileMode = some o) :
    o.pStereoInfo = pOut.pStereoInfo := by
  unfold ComputeSurfaceInfoMacroTiled at h
  dsimp only at h
  generalize MipLevelDims pIn pIn.width padDims = d at h
  generalize decide (pIn.mipLevel ≠ 0 ∧ tileMode = ADDR_TM_2D_TILED_THICK ∧ d.2.2.1 < 4) = b
    at h
  generalize (if b = true then ADDR_TM_2D_TILED_THIN1 else tileMode) = tm at h
  generalize (if b = true then 1 else ComputeSurfaceThickness tm) = th at h
  split at h
  · injection h with h
    subst h
    rfl
  · split at h
    · exact absurd h (by simp)
    · injection h with h
      subst h
      rfl

/-- The hardware layer does not touch the stereo-info pointer of the response. -/
theorem HwlComputeSurfaceInfo_pStereoInfo (lib : R600AddrLib)
    (pIn : ADDR_COMPUTE_SURFACE_INFO_INPUT) (pOut out : ADDR_COMPUTE_SURFACE_INFO_OUTPUT)
    (h : HwlComputeSurfaceInfo lib pIn pOut = some (ADDR_OK, out)) :
    out.pStereoInfo = pOut.pStereoInfo := by
  obtain ⟨padDims, tm, -, hc⟩ := HwlComputeSurfaceInfo_ok lib pIn pOut out h
  rcases hc with ⟨-, rfl⟩ | ⟨-, rfl⟩ | ⟨-, hm⟩
  · rfl
  · rfl
  · exact ComputeSurfaceInfoMacroTiled_pStereoInfo lib pIn pOut padDims tm pIn.tileMode out hm

theorem HwlComputeMipLevel_fields (p : ADDR_COMPUTE_SURFACE_INFO_INPUT) :
    (HwlComputeMipLevel p).2.flags = p.flags ∧ (HwlComputeMipLevel p).2.slice = p.slice ∧
    (HwlComputeMipLevel p).2.numSamples = p.numSamples ∧
    (HwlComputeMipLevel p).2.format = p.format ∧
    (HwlComputeMipLevel p).2.mipLevel = p.mipLevel ∧
    (p.mipLevel = 0 → (HwlComputeMipLevel p).2.numSlices = p.numSlices) := by
  unfold HwlComputeMipLevel
  split_ifs <;> refine ⟨rfl, rfl, rfl, rfl, rfl, ?_⟩ <;> intro h0 <;>
    first
    | rfl
    | (exfalso; omega)

theorem ComputeMipLevel_fields (pIn : ADDR_COMPUTE_SURFACE_INFO_INPUT) :
    (ComputeMipLevel pIn).flags = pIn.flags ∧ (ComputeMipLevel pIn).slice = pIn.slice ∧
    (ComputeMipLevel pIn).numSamples = pIn.numSamples ∧
    (ComputeMipLevel pIn).format = pIn.format ∧
    (ComputeMipLevel pIn).mipLevel = pIn.mipLevel ∧
    (pIn.mipLevel = 0 → (ComputeMipLevel pIn).numSlices = pIn.numSlices) := by
  unfold ComputeMipLevel
  dsimp only
  generalize hp1 : (if IsBlockCompressed pIn.format = true ∧
      (pIn.mipLevel = 0 ∨ pIn.flags.inputBaseMap = true) then
      { pIn with width := PowTwoAlign pIn.width 4, height := PowTwoAlign pIn.height 4 }
    else pIn) = p1
  have hp : p1.flags = pIn.flags ∧ p1.slice = pIn.slice ∧ p1.numSamples = pIn.numSamples ∧
      p1.format = pIn.format ∧ p1.mipLevel = pIn.mipLevel ∧ p1.numSlices = pIn.numSlices := by
    rw [← hp1]
    split_ifs <;> exact ⟨rfl, rfl, rfl, rfl, rfl, rfl⟩
  obtain ⟨a1, a2, a3, a4, a5, a6⟩ := hp
  obtain ⟨b1, b2, b3, b4, b5, b6⟩ := HwlComputeMipLevel_fields p1
  generalize HwlComputeMipLevel p1 = r at b1 b2 b3 b4 b5 b6 ⊢
  split_ifs with c1 <;>
    refine ⟨b1.trans a1, b2.trans a2, b3.trans a3, b4.trans a4, b5.trans a5, ?_⟩ <;>
    intro h0 <;>
    first
    | exact absurd (b5.trans (a5.trans h0)) c1.2.1
    | exact (b6 (a5.trans h0)).trans a6

/-- Every `ADDR_OK` answer of `ComputeSurfaceInfo` is the closing block applied to an
`ADDR_OK` answer of the hardware layer for the request as `ComputeSurfaceInfo` returns it. -/
theorem ComputeSurfaceInfo_ok (lib : R600AddrLib) (sizeIn sizeOut : Nat)
    (pIn pIn' : ADDR_COMPUTE_SURFACE_INFO_INPUT)
    (pOut out : ADDR_COMPUTE_SURFACE_INFO_OUTPUT)
    (h : ComputeSurfaceInfo lib sizeIn sizeOut pIn pOut = some (ADDR_OK, pIn', out)) :
    ∃ pOut' hw bpp0, HwlComputeSurfaceInfo lib pIn' pOut' = some (ADDR_OK, hw) ∧
      out = ComputeSurfaceInfoFinish lib pIn' hw (GetBitsPerPixel pIn.format) bpp0 ∧
      pOut'.pStereoInfo = pOut.pStereoInfo ∧
      pIn'.flags.qbStereo = pIn.flags.qbStereo ∧ pIn'.flags.volume = pIn.flags.volume ∧
      pIn'.slice = pIn.slice ∧ pIn'.numSamples = pIn.numSamples ∧
      pIn'.format = pIn.format ∧ pIn'.mipLevel = pIn.mipLevel ∧
      (pIn.mipLevel = 0 → pIn'.numSlices = pIn.numSlices) := by
  obtain ⟨f1, f2, f3, f4, f5, f6⟩ := ComputeMipLevel_fields pIn
  unfold ComputeSurfaceInfo at h
  dsimp only at h
  by_cases hb : pIn.bpp > 128
  · simp only [hb, if_true, ne_eq, reduceCtorEq, not_false_eq_true, Option.some.injEq,
      Prod.mk.injEq, false_and] at h
  · by_cases hsz : lib.mConfigFlags.fillSizeFields = true ∧
        (pIn.size ≠ sizeIn ∨ pOut.size ≠ sizeOut)
    · simp only [hb, hsz, and_self, if_true, if_false, ne_eq, reduceCtorEq, not_false_eq_true,
        Option.some.injEq, Prod.mk.injEq, false_and] at h
    · rw [if_neg hb, if_neg hsz, if_neg (by simp)] at h
      split at h
      · split at h
        · exact absurd h (by simp)
        · rename_i o heq
          simp only [Option.some.injEq, Prod.mk.injEq, true_and] at h
          obtain ⟨h2, h3⟩ := h
          subst h2 h3
          refine ⟨_, o, (ComputeMipLevel pIn).bpp, heq, ?_, rfl, ?_, ?_, ?_, ?_, ?_, ?_, ?_⟩
          · rw [← f4]
          all_goals (split_ifs <;> simp [f1, f2, f3, f4, f5])
          all_goals exact f6
        · rename_i code o hne heq
          simp only [Option.some.injEq, Prod.mk.injEq] at h
          obtain ⟨h1, h2, h3⟩ := h
          subst h1
          exact absurd rfl hne
      · simp only [Option.some.injEq, Prod.mk.injEq, reduceCtorEq, false_and] at h

/-- The closing block of `ComputeSurfaceInfo` in stages: `s2` is the response after the pixel
pitch and height are set, `s3` the response after the stereo step; the slice size is computed
from `s3`, and the rest of `s3` is returned as it is. -/
theorem ComputeSurfaceInfoFinish_stages (lib : R600AddrLib)
    (pIn : ADDR_COMPUTE_SURFACE_INFO_INPUT) (hw : ADDR_COMPUTE_SURFACE_INFO_OUTPUT)
    (elem : Nat × AddrElemMode × Nat × Nat × Nat) (bpp0 : Nat)
    (s2 s3 : ADDR_COMPUTE_SURFACE_INFO_OUTPUT)
    (h2 : s2 = if pIn.format ≠ ADDR_FMT_INVALID ∧
        (pIn.flags.linearWA = false ∨ pIn.mipLevel = 0) then
        { hw with bpp := pIn.bpp,
                  pixelPitch := (RestoreSurfaceInfo elem.2.1 elem.2.2.1 elem.2.2.2.1 bpp0
                    hw.pitch hw.height).2.1,
                  pixelHeight := (RestoreSurfaceInfo elem.2.1 elem.2.2.1 elem.2.2.2.1 bpp0
                    hw.pitch hw.height).2.2 }
      else { hw with bpp := pIn.bpp, pixelPitch := hw.pitch, pixelHeight := hw.height })
    (h3 : s3 = if pIn.flags.qbStereo = true ∧ s2.pStereoInfo.isSome = true then
        ComputeQbStereoInfo s2 else s2) :
    (ComputeSurfaceInfoFinish lib pIn hw elem bpp0).height = s3.height ∧
    (ComputeSurfaceInfoFinish lib pIn hw elem bpp0).pitch = s3.pitch ∧
    (ComputeSurfaceInfoFinish lib pIn hw elem bpp0).depth = s3.depth ∧
    (ComputeSurfaceInfoFinish lib pIn hw elem bpp0).surfSize = s3.surfSize ∧
    (ComputeSurfaceInfoFinish lib pIn hw elem bpp0).bpp = s3.bpp ∧
    (ComputeSurfaceInfoFinish lib pIn hw elem bpp0).pixelHeight = s3.pixelHeight ∧
    (ComputeSurfaceInfoFinish lib pIn hw elem bpp0).pStereoInfo = s3.pStereoInfo ∧
    (ComputeSurfaceInfoFinish lib pIn hw elem bpp0).sliceSize =
      if lib.mConfigFlags.sliceSizeComputing ≠ 0 then
        if lib.mConfigFlags.sliceSizeComputing = 1 then
          u32 (BITS_TO_BYTES64 (u64 (s3.height * s3.pitch * s3.bpp * pIn.numSamples)))
        else s3.sliceSize
      else if pIn.flags.volume = true then u32 s3.surfSize
      else if pIn.numSlices > 1 ∧ pIn.slice = sub32 pIn.numSlices 1 then
        u32 (u32 (s3.surfSize / s3.depth) +
          u32 (s3.surfSize / s3.depth) * sub32 s3.depth pIn.numSlices)
      else u32 (s3.surfSize / s3.depth) := by
  unfold ComputeSurfaceInfoFinish
  dsimp only
  rw [← h2, ← h3]
  refine ⟨?_, ?_, ?_, ?_, ?_, ?_, ?_, ?_⟩ <;> split_ifs <;> rfl

theorem RestoreSurfaceInfo_height (elemMode : AddrElemMode) (expandX expandY b b' w h : Nat) :
    (RestoreSurfaceInfo elemMode expandX expandY b w h).2.2 =
      (RestoreSurfaceInfo elemMode expandX expandY b' w h).2.2 := by
  unfold RestoreSurfaceInfo
  rfl

theorem shiftLeft_one_u32 (x : Nat) : u32 (x <<< 1) = (2 * x) % 2 ^ 32 := by
  rw [Nat.shiftLeft_eq, Nat.pow_one, Nat.mul_comm]
  rfl

theorem shiftLeft_one_u64 (x : Nat) : u64 (x <<< 1) = (2 * x) % 2 ^ 64 := by
  rw [Nat.shiftLeft_eq, Nat.pow_one, Nat.mul_comm]
  rfl

/-- The response after the stereo step of the closing block, in terms of the response `hw`
of the hardware layer: the fields that the stereo step writes, and those it leaves. -/
theorem ComputeSurfaceInfoFinish_stage3
    (pIn : ADDR_COMPUTE_SURFACE_INFO_INPUT) (hw : ADDR_COMPUTE_SURFACE_INFO_OUTPUT)
    (elem : Nat × AddrElemMode × Nat × Nat × Nat) (bpp0 : Nat)
    (s2 s3 : ADDR_COMPUTE_SURFACE_INFO_OUTPUT)
    (h2 : s2 = if pIn.format ≠ ADDR_FMT_INVALID ∧
        (pIn.flags.linearWA = false ∨ pIn.mipLevel = 0) then
        { hw with bpp := pIn.bpp,
                  pixelPitch := (RestoreSurfaceInfo elem.2.1 elem.2.2.1 elem.2.2.2.1 bpp0
                    hw.pitch hw.height).2.1,
                  pixelHeight := (RestoreSurfaceInfo elem.2.1 elem.2.2.1 elem.2.2.2.1 bpp0
                    hw.pitch hw.height).2.2 }
      else { hw with bpp := pIn.bpp, pixelPitch := hw.pitch, pixelHeight := hw.height })
    (h3 : s3 = if pIn.flags.qbStereo = true ∧ s2.pStereoInfo.isSome = true then
        ComputeQbStereoInfo s2 else s2) (PH : Nat)
    (hPH : PH = if pIn.format ≠ ADDR_FMT_INVALID ∧
        (pIn.flags.linearWA = false ∨ pIn.mipLevel = 0) then
        (RestoreSurfaceInfo elem.2.1 elem.2.2.1 elem.2.2.2.1 0 hw.pitch hw.height).2.2
      else hw.height) :
    s3.depth = hw.depth ∧ s3.pitch = hw.pitch ∧ s3.bpp = pIn.bpp ∧
    (pIn.flags.qbStereo = true ∧ hw.pStereoInfo.isSome = true →
      s3.pStereoInfo = some ⟨hw.height, hw.surfSize % 2 ^ 32⟩ ∧
      s3.height = (2 * hw.height) % 2 ^ 32 ∧ s3.pixelHeight = (2 * PH) % 2 ^ 32 ∧
      s3.surfSize = (2 * hw.surfSize) % 2 ^ 64) ∧
    (¬ (pIn.flags.qbStereo = true ∧ hw.pStereoInfo.isSome = true) →
      s3.pStereoInfo = hw.pStereoInfo ∧ s3.height = hw.height ∧ s3.pixelHeight = PH ∧
      s3.surfSize = hw.surfSize) := by
  have a1 : s2.height = hw.height := by rw [h2]; split_ifs <;> rfl
  have a2 : s2.surfSize = hw.surfSize := by rw [h2]; split_ifs <;> rfl
  have a3 : s2.pStereoInfo = hw.pStereoInfo := by rw [h2]; split_ifs <;> rfl
  have a4 : s2.pixelHeight = PH := by
    rw [h2, hPH, RestoreSurfaceInfo_height _ _ _ 0 bpp0]
    split_ifs <;> rfl
  have a5 : s2.depth = hw.depth := by rw [h2]; split_ifs <;> rfl
  have a6 : s2.pitch = hw.pitch := by rw [h2]; split_ifs <;> rfl
  have a7 : s2.bpp = pIn.bpp := by rw [h2]; split_ifs <;> rfl
  clear h2 hPH
  rw [a3] at h3
  have b1 : s3.depth = hw.depth ∧ s3.pitch = hw.pitch ∧ s3.bpp = pIn.bpp := by
    rw [h3, ← a5, ← a6, ← a7]
    unfold ComputeQbStereoInfo
    split_ifs
    · split <;> exact ⟨rfl, rfl, rfl⟩
    · exact ⟨rfl, rfl, rfl⟩
  refine ⟨b1.1, b1.2.1, b1.2.2, ?_, ?_⟩
  · rintro ⟨hq, hs⟩
    obtain ⟨si, hsi⟩ := Option.isSome_iff_exists.mp hs
    rw [if_pos ⟨hq, hs⟩] at h3
    unfold ComputeQbStereoInfo at h3
    rw [a3, hsi] at h3
    dsimp only at h3
    rw [h3, ← shiftLeft_one_u32, ← shiftLeft_one_u32, ← shiftLeft_one_u64, ← a1, ← a2, ← a4]
    exact ⟨rfl, rfl, rfl, rfl⟩
  · intro hn
    rw [if_neg hn] at h3
    rw [h3]
    exact ⟨a3, a1, a4, a2⟩

/-- The closing block of `ComputeSurfaceInfo`, summarised: there is a response `s3` (the one
after the stereo step) from which the returned fields and the slice size are read, and whose
fields are given in terms of the response `hw` of the hardware layer. -/
theorem ComputeSurfaceInfoFinish_summary (lib : R600AddrLib)
    (pIn : ADDR_COMPUTE_SURFACE_INFO_INPUT) (hw : ADDR_COMPUTE_SURFACE_INFO_OUTPUT)
    (elem : Nat × AddrElemMode × Nat × Nat × Nat) (bpp0 : Nat) (PH : Nat)
    (hPH : PH = if pIn.format ≠ ADDR_FMT_INVALID ∧
        (pIn.flags.linearWA = false ∨ pIn.mipLevel = 0) then
        (RestoreSurfaceInfo elem.2.1 elem.2.2.1 elem.2.2.2.1 0 hw.pitch hw.height).2.2
      else hw.height) :
    ∃ s3 : ADDR_COMPUTE_SURFACE_INFO_OUTPUT,
      ((ComputeSurfaceInfoFinish lib pIn hw elem bpp0).height = s3.height ∧
        (ComputeSurfaceInfoFinish lib pIn hw elem bpp0).pitch = s3.pitch ∧
        (ComputeSurfaceInfoFinish lib pIn hw elem bpp0).depth = s3.depth ∧
        (ComputeSurfaceInfoFinish lib pIn hw elem bpp0).surfSize = s3.surfSize ∧
        (ComputeSurfaceInfoFinish lib pIn hw elem bpp0).bpp = s3.bpp ∧
        (ComputeSurfaceInfoFinish lib pIn hw elem bpp0).pixelHeight = s3.pixelHeight ∧
        (ComputeSurfaceInfoFinish lib pIn hw elem bpp0).pStereoInfo = s3.pStereoInfo ∧
        (ComputeSurfaceInfoFinish lib pIn hw elem bpp0).sliceSize =
          if lib.mConfigFlags.sliceSizeComputing ≠ 0 then
            if lib.mConfigFlags.sliceSizeComputing = 1 then
              u32 (BITS_TO_BYTES64 (u64 (s3.height * s3.pitch * s3.bpp * pIn.numSamples)))
            else s3.sliceSize
          else if pIn.flags.volume = true then u32 s3.surfSize
          else if pIn.numSlices > 1 ∧ pIn.slice = sub32 pIn.numSlices 1 then
            u32 (u32 (s3.surfSize / s3.depth) +
              u32 (s3.surfSize / s3.depth) * sub32 s3.depth pIn.numSlices)
          else u32 (s3.surfSize / s3.depth)) ∧
      (s3.depth = hw.depth ∧ s3.pitch = hw.pitch ∧ s3.bpp = pIn.bpp ∧
        (pIn.flags.qbStereo = true ∧ hw.pStereoInfo.isSome = true →
          s3.pStereoInfo = some ⟨hw.height, hw.surfSize % 2 ^ 32⟩ ∧
          s3.height = (2 * hw.height) % 2 ^ 32 ∧ s3.pixelHeight = (2 * PH) % 2 ^ 32 ∧
          s3.surfSize = (2 * hw.surfSize) % 2 ^ 64) ∧
        (¬ (pIn.flags.qbStereo = true ∧ hw.pStereoInfo.isSome = true) →
          s3.pStereoInfo = hw.pStereoInfo ∧ s3.height = hw.height ∧ s3.pixelHeight = PH ∧
          s3.surfSize = hw.surfSize)) :=
  ⟨_, ComputeSurfaceInfoFinish_stages lib pIn hw elem bpp0 _ _ rfl rfl,
    ComputeSurfaceInfoFinish_stage3 pIn hw elem bpp0 _ _ rfl rfl PH hPH⟩

/-- C22 (amended): for every `ADDR_OK` answer of `ComputeSurfaceInfo`, with `hw` the answer
of the hardware layer for the request as returned (so `hw.height` and `hw.surfSize` are the
height `H` and the size `S` before the stereo step) and `PH` the pixel height before the
stereo step: when the `qbStereo` flag is set and the stereo-info output is present,
`eyeHeight = H`, `rightOffset = S mod 2 ^ 32`, and `height`, `pixelHeight`, `surfSize` are
`2 * H`, `2 * PH`, `2 * S` reduced modulo `2 ^ 32`, `2 ^ 32`, `2 ^ 64`; otherwise the stereo
info, `height`, `pixelHeight` and `surfSize` are left as produced. -/
theorem C22_qb_stereo (lib : R600AddrLib) (sizeIn sizeOut : Nat)
    (pIn pIn' : ADDR_COMPUTE_SURFACE_INFO_INPUT)
    (pOut out : ADDR_COMPUTE_SURFACE_INFO_OUTPUT)
    (h : ComputeSurfaceInfo lib sizeIn sizeOut pIn pOut = some (ADDR_OK, pIn', out)) :
    ∃ pOut' hw PH, HwlComputeSurfaceInfo lib pIn' pOut' = some (ADDR_OK, hw) ∧
      PH = (if pIn'.format ≠ ADDR_FMT_INVALID ∧
          (pIn'.flags.linearWA = false ∨ pIn'.mipLevel = 0) then
          (RestoreSurfaceInfo (GetBitsPerPixel pIn.format).2.1
            (GetBitsPerPixel pIn.format).2.2.1 (GetBitsPerPixel pIn.format).2.2.2.1 0
            hw.pitch hw.height).2.2
        else hw.height) ∧
      (pIn.flags.qbStereo = true ∧ pOut.pStereoInfo.isSome = true →
        out.pStereoInfo = some ⟨hw.height, hw.surfSize % 2 ^ 32⟩ ∧
        out.height = (2 * hw.height) % 2 ^ 32 ∧
        out.pixelHeight = (2 * PH) % 2 ^ 32 ∧
        out.surfSize = (2 * hw.surfSize) % 2 ^ 64) ∧
      (¬ (pIn.flags.qbStereo = true ∧ pOut.pStereoInfo.isSome = true) →
        out.pStereoInfo = pOut.pStereoInfo ∧ out.height = hw.height ∧
        out.pixelHeight = PH ∧ out.surfSize = hw.surfSize) := by
  obtain ⟨pOut', hw, bpp0, hH, hout, hps, hqb, -⟩ :=
    ComputeSurfaceInfo_ok lib sizeIn sizeOut pIn pIn' pOut out h
  have hsp := HwlComputeSurfaceInfo_pStereoInfo lib pIn' pOut' hw hH
  rw [hps] at hsp
  refine ⟨pOut', hw, _, hH, rfl, ?_⟩
  obtain ⟨s3, ⟨g1, -, -, g4, -, g6, g7, -⟩, -, -, -, c1, c2⟩ :=
    ComputeSurfaceInfoFinish_summary lib pIn' hw (GetBitsPerPixel pIn.format) bpp0 _ rfl
  rw [← hout] at g1 g4 g6 g7
  rw [← g1, ← g4, ← g6, ← g7, hqb, hsp] at c1 c2
  exact ⟨c1, c2⟩

/-- C22 (amended) on `exampleLib`: a 128 x 16 stereo request of 32 bits per pixel gets
`eyeHeight = 16`, `rightOffset = 8192`, height 32 and 16384 bytes. -/
theorem C22_qb_stereo_witness :
    ∃ pOut' hw PH, HwlComputeSurfaceInfo exampleLib (exampleStereoIn 32 128 16) pOut' =
        some (ADDR_OK, hw) ∧
      PH = hw.height ∧
      ((exampleStereoIn 32 128 16).flags.qbStereo = true ∧
          exampleStereoOut.pStereoInfo.isSome = true →
        (some ⟨16, 8192⟩ : Option ADDR_QBSTEREOINFO) = some ⟨hw.height, hw.surfSize % 2 ^ 32⟩ ∧
        32 = (2 * hw.height) % 2 ^ 32 ∧ 32 = (2 * PH) % 2 ^ 32 ∧
        16384 = (2 * hw.surfSize) % 2 ^ 64) ∧
      (¬ ((exampleStereoIn 32 128 16).flags.qbStereo = true ∧
          exampleStereoOut.pStereoInfo.isSome = true) →
        (some ⟨16, 8192⟩ : Option ADDR_QBSTEREOINFO) = exampleStereoOut.pStereoInfo ∧
        32 = hw.height ∧ 32 = PH ∧ 16384 = hw.surfSize) :=
  C22_qb_stereo exampleLib 0 0 (exampleStereoIn 32 128 16) (exampleStereoIn 32 128 16)
    exampleStereoOut
    ⟨0, 128, 32, 1, 16384, ADDR_TM_LINEAR_ALIGNED, 256, 64, 1, 1, 32, 128, 32, 32, 16384, 15, 3,
      4294967295, none, ADDR_DISPLAYABLE, 0, some ⟨16, 8192⟩⟩ (by decide)

/-- C22 as stated fails: the doubling is done in 32 bits. A stereo request of height
`2 ^ 31` is answered `ADDR_OK` with `eyeHeight = 2 ^ 31` and `height = 0`, not `2 * H`. -/
theorem C22_height_doubling_wraps :
    ∃ pIn' out, ComputeSurfaceInfo exampleLib 0 0 (exampleStereoIn 8 1 2147483648)
        exampleStereoOut = some (ADDR_OK, pIn', out) ∧
      out.pStereoInfo = some ⟨2147483648, 0⟩ ∧ out.height = 0 ∧
      out.height ≠ 2 * 2147483648 :=
  ⟨exampleStereoIn 8 1 2147483648,
    ⟨0, 256, 0, 1, 1099511627776, ADDR_TM_LINEAR_ALIGNED, 256, 256, 1, 1, 8, 256, 0, 8, 0, 31,
      4294967295, 4294967295, none, ADDR_DISPLAYABLE, 0, some ⟨2147483648, 0⟩⟩,
    by decide, by decide⟩

/-- C23 (amended): for every `ADDR_OK` answer of `ComputeSurfaceInfo`, with `numSlices` the
slice count of the request as the call
returns it (the mip-level adjustment can overwrite it; at mip level 0 it is the caller's),
`1 <= numSlices <= 2 ^ 31`: `depth >= numSlices >= 1` and `depth < 2 ^ 32`; with
`sliceSizeComputing = 1`, `sliceSize = ceil (height * pitch * bpp * numSamples / 8)` truncated
to 32 bits (when the bit count does not wrap in 64 bits); with `sliceSizeComputing = 0` and
the volume flag, `sliceSize = surfSize` truncated to 32 bits; with `sliceSizeComputing = 0`
and no volume flag, `sliceSize = s` with `s = floor (surfSize / depth)` truncated to 32 bits,
replaced by `s + s * (depth - numSlices)` truncated to 32 bits exactly when `numSlices > 1`
and `slice = numSlices - 1`. -/
theorem C23_slice_size (lib : R600AddrLib) (sizeIn sizeOut : Nat)
    (pIn pIn' : ADDR_COMPUTE_SURFACE_INFO_INPUT)
    (pOut out : ADDR_COMPUTE_SURFACE_INFO_OUTPUT)
    (h : ComputeSurfaceInfo lib sizeIn sizeOut pIn pOut = some (ADDR_OK, pIn', out))
    (hn1 : 1 ≤ pIn'.numSlices) (hn : pIn'.numSlices ≤ 2 ^ 31) :
    (pIn'.numSlices ≤ out.depth ∧ 1 ≤ out.depth ∧ out.depth < 2 ^ 32) ∧
    (pIn.mipLevel = 0 → pIn'.numSlices = pIn.numSlices) ∧
    (lib.mConfigFlags.sliceSizeComputing = 1 →
      out.height * out.pitch * out.bpp * pIn.numSamples + 7 < 2 ^ 64 →
      out.sliceSize = ceilDiv (out.height * out.pitch * out.bpp * pIn.numSamples) 8 % 2 ^ 32) ∧
    (lib.mConfigFlags.sliceSizeComputing = 0 → pIn.flags.volume = true →
      out.sliceSize = out.surfSize % 2 ^ 32) ∧
    (lib.mConfigFlags.sliceSizeComputing = 0 → pIn.flags.volume = false →
      out.sliceSize =
        if pIn'.numSlices > 1 ∧ pIn.slice = pIn'.numSlices - 1 then
          ((out.surfSize / out.depth) % 2 ^ 32 +
            (out.surfSize / out.depth) % 2 ^ 32 * (out.depth - pIn'.numSlices)) % 2 ^ 32
        else (out.surfSize / out.depth) % 2 ^ 32) := by
  obtain ⟨pOut', hw, bpp0, hH, hout, _, _, hvol, hslice, hns, _, _, hnum⟩ :=
    ComputeSurfaceInfo_ok lib sizeIn sizeOut pIn pIn' pOut out h
  obtain ⟨hd1, hd2⟩ := HwlComputeSurfaceInfo_depth lib pIn' pOut' hw hn hH
  obtain ⟨s3, ⟨g1, g2, g3, g4, g5, -, -, g8⟩, c1, -⟩ :=
    ComputeSurfaceInfoFinish_summary lib pIn' hw (GetBitsPerPixel pIn.format) bpp0 _ rfl
  rw [← hout] at g1 g2 g3 g4 g5 g8
  rw [← g1, ← g2, ← g3, ← g4, ← g5] at g8
  rw [← g3] at c1
  rw [← c1] at hd1 hd2
  clear g1 g2 g3 g4 g5 c1 hout
  rw [hvol, hslice, hns] at g8
  have hsub1 : sub32 pIn'.numSlices 1 = pIn'.numSlices - 1 := sub32_eq hn1 (by omega)
  have hsub2 : sub32 out.depth pIn'.numSlices = out.depth - pIn'.numSlices :=
    sub32_eq hd1 hd2
  rw [hsub1, hsub2] at g8
  refine ⟨⟨hd1, by omega, hd2⟩, hnum, ?_, ?_, ?_⟩
  · intro h1 h64
    rw [g8, if_pos (by omega), if_pos h1]
    generalize out.height * out.pitch * out.bpp * pIn.numSamples = X at h64
    unfold BITS_TO_BYTES64 ceilDiv
    have e1 : u64 X = X := u64_of_lt (by omega)
    rw [e1, u64_of_lt h64]
    rfl
  · intro h0 hv
    rw [g8, if_neg (by omega), if_pos hv]
    rfl
  · intro h0 hv
    rw [g8, if_neg (by omega), if_neg (by rw [hv]; exact Bool.false_ne_true)]
    rfl

/-- C23 (amended) on `exampleLib` (`sliceSizeComputing = 0`): the last of 6 slices of a
128 x 16 `1D_TILED_THICK` surface of 32 bits per pixel has depth 8, 65536 bytes, and the
slice size `8192 + 8192 * (8 - 6) = 24576`. -/
theorem C23_slice_size_witness :
    (6 ≤ 8 ∧ 1 ≤ 8 ∧ 8 < 2 ^ 32) ∧
    ((0 : Nat) = 0 → 6 = 6) ∧
    (exampleLib.mConfigFlags.sliceSizeComputing = 1 →
      16 * 128 * 32 * 1 + 7 < 2 ^ 64 → 24576 = ceilDiv (16 * 128 * 32 * 1) 8 % 2 ^ 32) ∧
    (exampleLib.mConfigFlags.sliceSizeComputing = 0 → false = true →
      24576 = 65536 % 2 ^ 32) ∧
    (exampleLib.mConfigFlags.sliceSizeComputing = 0 → false = false →
      24576 =
        if 6 > 1 ∧ 5 = 6 - 1 then
          ((65536 / 8) % 2 ^ 32 + (65536 / 8) % 2 ^ 32 * (8 - 6)) % 2 ^ 32
        else (65536 / 8) % 2 ^ 32) :=
  C23_slice_size exampleLib 0 0 (exampleSlicesIn ADDR_TM_1D_TILED_THICK 0 6 5 false)
    (exampleSlicesIn ADDR_TM_1D_TILED_THICK 0 6 5 false) exampleSurfOut
    ⟨0, 128, 16, 8, 65536, ADDR_TM_1D_TILED_THICK, 256, 8, 8, 4, 32, 128, 16, 32, 24576, 15, 1,
      4294967295, none, ADDR_DISPLAYABLE, 0, none⟩ (by decide) (by decide) (by decide)

/-- C23 as stated fails in two ways. The slice size is truncated to 32 bits: a 65536 x 65536
`LINEAR_ALIGNED` surface of 32 bits per pixel has `surfSize = 2 ^ 34`, `depth = 1` and
`sliceSize = 0`. And the mip-level adjustment overwrites the slice count of the request
before it is compared: at mip level 1 with `inputBaseMap`, a request with 6 slices and
`slice = 5` is sized with 4 slices, so `depth = 4 < 6` and the slice size is not increased. -/
theorem C23_slice_size_truncated_and_slices_overwritten :
    (∃ pIn' out, ComputeSurfaceInfo exampleLib 0 0
        (exampleSurfIn ADDR_TM_LINEAR_ALIGNED 32 1 65536 65536) exampleSurfOut =
        some (ADDR_OK, pIn', out) ∧
      out.surfSize = 17179869184 ∧ out.depth = 1 ∧ out.sliceSize = 0 ∧
      out.sliceSize ≠ out.surfSize / out.depth) ∧
    (∃ pIn' out, ComputeSurfaceInfo exampleLib 0 0
        (exampleSlicesIn ADDR_TM_LINEAR_ALIGNED 1 6 5 true) exampleSurfOut =
        some (ADDR_OK, pIn', out) ∧
      pIn'.numSlices = 4 ∧ out.depth = 4 ∧
      ¬ ((exampleSlicesIn ADDR_TM_LINEAR_ALIGNED 1 6 5 true).numSlices ≤ out.depth) ∧
      out.sliceSize = out.surfSize / out.depth) :=
  ⟨⟨exampleSurfIn ADDR_TM_LINEAR_ALIGNED 32 1 65536 65536,
      ⟨0, 65536, 65536, 1, 17179869184, ADDR_TM_LINEAR_ALIGNED, 256, 64, 1, 1, 32, 65536, 65536,
        32, 0, 8191, 8191, 67108863, none, ADDR_DISPLAYABLE, 0, none⟩, by decide, by decide⟩,
    ⟨⟨0, ADDR_TM_LINEAR_ALIGNED, ADDR_FMT_INVALID, 32, 1, 64, 8, 4, 5, 1,
        { ADDR_SURFACE_FLAGS.none with inputBaseMap := true }, 0, none, ADDR_DISPLAYABLE, -1⟩,
      ⟨0, 64, 8, 4, 8192, ADDR_TM_LINEAR_ALIGNED, 256, 64, 1, 1, 32, 64, 8, 32, 2048, 7, 0,
        4294967295, none, ADDR_DISPLAYABLE, 0, none⟩, by decide, by decide⟩⟩

/-! ## Display surfaces -/

/-- C25 (evaluation at the failing input): on `exampleLib`, a 16 x 16 request of 32 bits per
pixel with the `display` flag in `2D_TILED_THIN2` is answered `ADDR_OK` with pitch alignment
16 and pitch 16, neither a multiple of 32: the macro-tiled alignments do not apply the
display fix-up. The same request in `1D_TILED_THIN1` or `LINEAR_GENERAL` gets pitch alignment
32 and pitch 32. -/
theorem C25_macro_tiled_ignores_display_flag :
    (exampleDisplayIn ADDR_TM_2D_TILED_THIN2).flags.display = true ∧
    (∃ out, HwlComputeSurfaceInfo exampleLib (exampleDisplayIn ADDR_TM_2D_TILED_THIN2)
        exampleSurfOut = some (ADDR_OK, out) ∧
      out.tileMode = ADDR_TM_2D_TILED_THIN2 ∧ out.pitchAlign = 16 ∧ out.pitch = 16 ∧
      out.pitchAlign % 32 ≠ 0 ∧ out.pitch % 32 ≠ 0) ∧
    (∃ out, HwlComputeSurfaceInfo exampleLib (exampleDisplayIn ADDR_TM_1D_TILED_THIN1)
        exampleSurfOut = some (ADDR_OK, out) ∧ out.pitchAlign = 32 ∧ out.pitch = 32) ∧
    (∃ out, HwlComputeSurfaceInfo exampleLib (exampleDisplayIn ADDR_TM_LINEAR_GENERAL)
        exampleSurfOut = some (ADDR_OK, out) ∧ out.pitchAlign = 32 ∧ out.pitch = 32) :=
  ⟨rfl,
    ⟨⟨0, 16, 64, 1, 4096, ADDR_TM_2D_TILED_THIN2, 4096, 16, 64, 1, 0, 0, 0, 0, 0, 0, 0, 0, none,
      ADDR_DISPLAYABLE, 0, none⟩, by decide, by decide⟩,
    ⟨⟨0, 32, 16, 1, 2048, ADDR_TM_1D_TILED_THIN1, 256, 32, 8, 1, 0, 0, 0, 0, 0, 0, 0, 0, none,
      ADDR_DISPLAYABLE, 0, none⟩, by decide, by decide⟩,
    ⟨⟨0, 32, 16, 1, 2048, ADDR_TM_LINEAR_GENERAL, 1, 32, 1, 1, 0, 0, 0, 0, 0, 0, 0, 0, none,
      ADDR_DISPLAYABLE, 0, none⟩, by decide, by decide⟩⟩

/-! ## Bijections of the bit networks -/

theorem xor_mod_two (a b : Nat) : (a % 2) ^^^ (b % 2) = (a + b) % 2 := by
  rcases Nat.mod_two_eq_zero_or_one a with ha | ha <;>
    rcases Nat.mod_two_eq_zero_or_one b with hb | hb <;>
    rw [Nat.add_mod, ha, hb] <;> rfl

theorem lor_shiftLeft_eq_add (k a b : Nat) (h : a < 2 ^ k) : a ||| (b <<< k) = a + 2 ^ k * b := by
  rw [Nat.lor_comm, Nat.shiftLeft_eq, Nat.mul_comm, ← Nat.mul_add_lt_is_or h, Nat.add_comm]

/-- Nine binary digits joined by shifts and ORs, as a sum. -/
theorem lor_shift_sum (a0 a1 a2 a3 a4 a5 a6 a7 a8 : Nat) :
    (a0 % 2) ||| ((a1 % 2) <<< 1) ||| ((a2 % 2) <<< 2) ||| ((a3 % 2) <<< 3) |||
      ((a4 % 2) <<< 4) ||| ((a5 % 2) <<< 5) ||| ((a6 % 2) <<< 6) ||| ((a7 % 2) <<< 7) |||
      ((a8 % 2) <<< 8) =
    a0 % 2 + 2 * (a1 % 2) + 4 * (a2 % 2) + 8 * (a3 % 2) + 16 * (a4 % 2) + 32 * (a5 % 2) +
      64 * (a6 % 2) + 128 * (a7 % 2) + 256 * (a8 % 2) := by
  rw [lor_shiftLeft_eq_add 1 (a0 % 2) (a1 % 2) (by omega),
    lor_shiftLeft_eq_add 2 (a0 % 2 + 2 ^ 1 * (a1 % 2)) (a2 % 2) (by omega),
    lor_shiftLeft_eq_add 3 (a0 % 2 + 2 ^ 1 * (a1 % 2) + 2 ^ 2 * (a2 % 2)) (a3 % 2) (by omega),
    lor_shiftLeft_eq_add 4 (a0 % 2 + 2 ^ 1 * (a1 % 2) + 2 ^ 2 * (a2 % 2) + 2 ^ 3 * (a3 % 2))
      (a4 % 2) (by omega),
    lor_shiftLeft_eq_add 5 (a0 % 2 + 2 ^ 1 * (a1 % 2) + 2 ^ 2 * (a2 % 2) + 2 ^ 3 * (a3 % 2) +
      2 ^ 4 * (a4 % 2)) (a5 % 2) (by omega),
    lor_shiftLeft_eq_add 6 (a0 % 2 + 2 ^ 1 * (a1 % 2) + 2 ^ 2 * (a2 % 2) + 2 ^ 3 * (a3 % 2) +
      2 ^ 4 * (a4 % 2) + 2 ^ 5 * (a5 % 2)) (a6 % 2) (by omega),
    lor_shiftLeft_eq_add 7 (a0 % 2 + 2 ^ 1 * (a1 % 2) + 2 ^ 2 * (a2 % 2) + 2 ^ 3 * (a3 % 2) +
      2 ^ 4 * (a4 % 2) + 2 ^ 5 * (a5 % 2) + 2 ^ 6 * (a6 % 2)) (a7 % 2) (by omega),
    lor_shiftLeft_eq_add 8 (a0 % 2 + 2 ^ 1 * (a1 % 2) + 2 ^ 2 * (a2 % 2) + 2 ^ 3 * (a3 % 2) +
      2 ^ 4 * (a4 % 2) + 2 ^ 5 * (a5 % 2) + 2 ^ 6 * (a6 % 2) + 2 ^ 7 * (a7 % 2)) (a8 % 2)
      (by omega)]
  omega

theorem lor_shift_sum8 (a0 a1 a2 a3 a4 a5 a6 a7 : Nat) :
    (a0 % 2) ||| ((a1 % 2) <<< 1) ||| ((a2 % 2) <<< 2) ||| ((a3 % 2) <<< 3) |||
      ((a4 % 2) <<< 4) ||| ((a5 % 2) <<< 5) ||| ((a6 % 2) <<< 6) ||| ((a7 % 2) <<< 7) |||
      (0 <<< 8) =
    a0 % 2 + 2 * (a1 % 2) + 4 * (a2 % 2) + 8 * (a3 % 2) + 16 * (a4 % 2) + 32 * (a5 % 2) +
      (64 * (a6 % 2) + 128 * (a7 % 2)) := by
  have h := lor_shift_sum a0 a1 a2 a3 a4 a5 a6 a7 0
  rw [show (0 : Nat) % 2 = 0 from rfl] at h
  rw [h]; omega

theorem lor_shift_sum6 (a0 a1 a2 a3 a4 a5 : Nat) :
    (a0 % 2) ||| ((a1 % 2) <<< 1) ||| ((a2 % 2) <<< 2) ||| ((a3 % 2) <<< 3) |||
      ((a4 % 2) <<< 4) ||| ((a5 % 2) <<< 5) ||| (0 <<< 6) ||| (0 <<< 7) ||| (0 <<< 8) =
    a0 % 2 + 2 * (a1 % 2) + 4 * (a2 % 2) + 8 * (a3 % 2) + 16 * (a4 % 2) + 32 * (a5 % 2) := by
  have h := lor_shift_sum a0 a1 a2 a3 a4 a5 0 0 0
  rw [show (0 : Nat) % 2 = 0 from rfl] at h
  rw [h]; omega

/-- The pixel index of the displayable and non-displayable tile types as a sum of binary
digits of the coordinates; `ADDR_DEPTH_SAMPLE_ORDER` takes the displayable layout too. -/
theorem ComputePixelIndexWithinMicroTile_sum (x y z bpp : Nat) (tileMode : AddrTileMode)
    (tileType : AddrTileType) (htt : tileType ≠ ADDR_THICK_TILING) :
    ComputePixelIndexWithinMicroTile x y z bpp tileMode tileType =
      (if tileType = ADDR_NON_DISPLAYABLE then
          x % 2 + 2 * (y % 2) + 4 * (x / 2 % 2) + 8 * (y / 2 % 2) + 16 * (x / 4 % 2) +
            32 * (y / 4 % 2)
        else if bpp = 8 then
          x % 2 + 2 * (x / 2 % 2) + 4 * (x / 4 % 2) + 8 * (y / 2 % 2) + 16 * (y % 2) +
            32 * (y / 4 % 2)
        else if bpp = 16 then
          x % 2 + 2 * (x / 2 % 2) + 4 * (x / 4 % 2) + 8 * (y % 2) + 16 * (y / 2 % 2) +
            32 * (y / 4 % 2)
        else if bpp = 64 then
          x % 2 + 2 * (y % 2) + 4 * (x / 2 % 2) + 8 * (x / 4 % 2) + 16 * (y / 2 % 2) +
            32 * (y / 4 % 2)
        else if bpp = 128 then
          y % 2 + 2 * (x % 2) + 4 * (x / 2 % 2) + 8 * (x / 4 % 2) + 16 * (y / 2 % 2) +
            32 * (y / 4 % 2)
        else
          x % 2 + 2 * (x / 2 % 2) + 4 * (y % 2) + 8 * (x / 4 % 2) + 16 * (y / 2 % 2) +
            32 * (y / 4 % 2)) +
      (if ComputeSurfaceThickness tileMode > 1 then 64 * (z % 2) + 128 * (z / 2 % 2) else 0) +
      (if ComputeSurfaceThickness tileMode = 8 then 256 * (z / 4 % 2) else 0) := by
  unfold ComputePixelIndexWithinMicroTile
  simp only [BIT_eq_div_mod, htt, if_false, Nat.pow_zero, Nat.div_one, Nat.pow_one,
    show (2 : Nat) ^ 2 = 4 by norm_num]
  generalize ComputeSurfaceThickness tileMode = t
  by_cases h8 : t = 8
  · subst h8
    simp only [show (8 : Nat) > 1 by decide, if_true]
    split_ifs <;> dsimp only <;> rw [lor_shift_sum] <;> omega
  · by_cases h1 : t > 1
    · simp only [h8, h1, if_true, if_false, Nat.add_zero]
      split_ifs <;> dsimp only <;> exact lor_shift_sum8 _ _ _ _ _ _ _ _
    · simp only [h8, h1, if_false, Nat.add_zero]
      split_ifs <;> dsimp only <;> exact lor_shift_sum6 _ _ _ _ _ _

theorem digits_inj (a0 a1 a2 a3 a4 a5 a6 a7 b0 b1 b2 b3 b4 b5 b6 b7 : Nat)
    (h : a0 % 2 + 2 * (a1 % 2) + 4 * (a2 % 2) + 8 * (a3 % 2) + 16 * (a4 % 2) + 32 * (a5 % 2) +
        (64 * (a6 % 2) + 128 * (a7 % 2)) =
      b0 % 2 + 2 * (b1 % 2) + 4 * (b2 % 2) + 8 * (b3 % 2) + 16 * (b4 % 2) + 32 * (b5 % 2) +
        (64 * (b6 % 2) + 128 * (b7 % 2))) :
    a0 % 2 = b0 % 2 ∧ a1 % 2 = b1 % 2 ∧ a2 % 2 = b2 % 2 ∧ a3 % 2 = b3 % 2 ∧
    a4 % 2 = b4 % 2 ∧ a5 % 2 = b5 % 2 ∧ a6 % 2 = b6 % 2 ∧ a7 % 2 = b7 % 2 := by
  have h0 : a0 % 2 = b0 % 2 := by omega
  have h1 : a1 % 2 = b1 % 2 := by omega
  have h2 : a2 % 2 = b2 % 2 := by omega
  have h3 : a3 % 2 = b3 % 2 := by omega
  have h4 : a4 % 2 = b4 % 2 := by omega
  have h5 : a5 % 2 = b5 % 2 := by omega
  have h6 : a6 % 2 = b6 % 2 := by omega
  have h7 : a7 % 2 = b7 % 2 := by omega
  exact ⟨h0, h1, h2, h3, h4, h5, h6, h7⟩

theorem digits_inj6 (a0 a1 a2 a3 a4 a5 b0 b1 b2 b3 b4 b5 : Nat)
    (h : a0 % 2 + 2 * (a1 % 2) + 4 * (a2 % 2) + 8 * (a3 % 2) + 16 * (a4 % 2) + 32 * (a5 % 2) =
      b0 % 2 + 2 * (b1 % 2) + 4 * (b2 % 2) + 8 * (b3 % 2) + 16 * (b4 % 2) + 32 * (b5 % 2)) :
    a0 % 2 = b0 % 2 ∧ a1 % 2 = b1 % 2 ∧ a2 % 2 = b2 % 2 ∧ a3 % 2 = b3 % 2 ∧
    a4 % 2 = b4 % 2 ∧ a5 % 2 = b5 % 2 := by
  have h' := digits_inj a0 a1 a2 a3 a4 a5 0 0 b0 b1 b2 b3 b4 b5 0 0 (by omega)
  exact ⟨h'.1, h'.2.1, h'.2.2.1, h'.2.2.2.1, h'.2.2.2.2.1, h'.2.2.2.2.2.1⟩

theorem mod8_of_digits (x x' : Nat) (h0 : x % 2 = x' % 2) (h1 : x / 2 % 2 = x' / 2 % 2)
    (h2 : x / 4 % 2 = x' / 4 % 2) : x % 8 = x' % 8 := by omega

theorem digits_mod8 (x : Nat) :
    x % 8 % 2 = x % 2 ∧ x % 8 / 2 % 2 = x / 2 % 2 ∧ x % 8 / 4 % 2 = x / 4 % 2 := by omega

theorem digits_mod4 (x : Nat) : x % 4 % 2 = x % 2 ∧ x % 4 / 2 % 2 = x / 2 % 2 := by omega

theorem pixelIndex_periodic (x y z bpp : Nat) (tileMode : AddrTileMode)
    (tileType : AddrTileType) (htt : tileType ≠ ADDR_THICK_TILING) :
    ComputePixelIndexWithinMicroTile x y z bpp tileMode tileType =
      ComputePixelIndexWithinMicroTile (x % 8) (y % 8) (z % ComputeSurfaceThickness tileMode)
        bpp tileMode tileType := by
  rewrite [ComputePixelIndexWithinMicroTile_sum x y z bpp tileMode tileType htt,
    ComputePixelIndexWithinMicroTile_sum (x % 8) (y % 8) _ bpp tileMode tileType htt]
  obtain ⟨x0, x1, x2⟩ := digits_mod8 x
  obtain ⟨y0, y1, y2⟩ := digits_mod8 y
  obtain ⟨z0, z1, z2⟩ := digits_mod8 z
  obtain ⟨w0, w1⟩ := digits_mod4 z
  rcases thickness_one_four_eight tileMode with h | h | h <;> rewrite [h] <;>
    simp only [show ¬ ((1 : Nat) > 1) by decide, show (4 : Nat) > 1 by decide,
      show (8 : Nat) > 1 by decide, show ¬ ((1 : Nat) = 8) by decide,
      show ¬ ((4 : Nat) = 8) by decide, if_true, if_false, x0, x1, x2, y0, y1, y2, z0, z1, z2,
      w0, w1]

theorem pixelIndex_thin (x y z x' y' z' bpp : Nat) (tileMode : AddrTileMode)
    (tileType : AddrTileType) (htt : tileType ≠ ADDR_THICK_TILING)
    (ht : ComputeSurfaceThickness tileMode = 1) :
    ComputePixelIndexWithinMicroTile x y z bpp tileMode tileType < 64 ∧
    (ComputePixelIndexWithinMicroTile x y z bpp tileMode tileType =
        ComputePixelIndexWithinMicroTile x' y' z' bpp tileMode tileType →
      x % 8 = x' % 8 ∧ y % 8 = y' % 8) := by
  rewrite [ComputePixelIndexWithinMicroTile_sum x y z bpp tileMode tileType htt,
    ComputePixelIndexWithinMicroTile_sum x' y' z' bpp tileMode tileType htt, ht]
  simp only [show ¬ ((1 : Nat) > 1) by decide, show ¬ ((1 : Nat) = 8) by decide, if_false,
    Nat.add_zero]
  split_ifs <;> refine ⟨by omega, fun h => ?_⟩ <;>
    obtain ⟨e0, e1, e2, e3, e4, e5⟩ := digits_inj6 _ _ _ _ _ _ _ _ _ _ _ _ h <;>
    clear h <;> constructor <;> omega

theorem pixelIndex_thick (x y z x' y' z' bpp : Nat) (tileMode : AddrTileMode)
    (tileType : AddrTileType) (htt : tileType ≠ ADDR_THICK_TILING)
    (ht : ComputeSurfaceThickness tileMode = 4) :
    ComputePixelIndexWithinMicroTile x y z bpp tileMode tileType < 256 ∧
    (ComputePixelIndexWithinMicroTile x y z bpp tileMode tileType =
        ComputePixelIndexWithinMicroTile x' y' z' bpp tileMode tileType →
      x % 8 = x' % 8 ∧ y % 8 = y' % 8 ∧ z % 4 = z' % 4) := by
  rewrite [ComputePixelIndexWithinMicroTile_sum x y z bpp tileMode tileType htt,
    ComputePixelIndexWithinMicroTile_sum x' y' z' bpp tileMode tileType htt, ht]
  simp only [show (4 : Nat) > 1 by decide, show ¬ ((4 : Nat) = 8) by decide, if_true, if_false,
    Nat.add_zero]
  split_ifs <;> refine ⟨by omega, fun h => ?_⟩ <;>
    obtain ⟨e0, e1, e2, e3, e4, e5, e6, e7⟩ :=
      digits_inj _ _ _ _ _ _ _ _ _ _ _ _ _ _ _ _ h <;>
    clear h <;> refine ⟨?_, ?_, ?_⟩ <;> omega

/-- An injective map between two finite ranges of the same size reaches every value. -/
theorem surjective_of_injective_range (n : Nat) (g : Nat → Nat)
    (hlt : ∀ i, i < n → g i < n)
    (hinj : ∀ i j, i < n → j < n → g i = g j → i = j) :
    ∀ v, v < n → ∃ i, i < n ∧ g i = v := by
  intro v hv
  have hb := (Fintype.bijective_iff_injective_and_card
    (fun i : Fin n => (⟨g i.1, hlt i.1 i.2⟩ : Fin n))).2
    ⟨fun a b hab => Fin.ext (hinj a.1 b.1 a.2 b.2 (congrArg Fin.val hab)), rfl⟩
  obtain ⟨i, hi⟩ := hb.2 ⟨v, hv⟩
  exact ⟨i.1, i.2, congrArg Fin.val hi⟩

theorem pixelIndex_thin_onto (bpp : Nat) (tileMode : AddrTileMode)
    (tileType : AddrTileType) (htt : tileType ≠ ADDR_THICK_TILING)
    (ht : ComputeSurfaceThickness tileMode = 1) (n : Nat) (hn : n < 64) :
    ∃ x y, x < 8 ∧ y < 8 ∧
      ComputePixelIndexWithinMicroTile x y 0 bpp tileMode tileType = n := by
  obtain ⟨i, hi, hv⟩ := surjective_of_injective_range 64
    (fun i => ComputePixelIndexWithinMicroTile (i % 8) (i / 8) 0 bpp tileMode tileType)
    (fun i _ => (pixelIndex_thin _ _ _ 0 0 0 _ _ _ htt ht).1)
    (fun i j hi hj h => by
      have := (pixelIndex_thin (i % 8) (i / 8) 0 (j % 8) (j / 8) 0 bpp tileMode tileType
        htt ht).2 h
      omega) n hn
  exact ⟨i % 8, i / 8, by omega, by omega, hv⟩

theorem pixelIndex_thick_onto (bpp : Nat) (tileMode : AddrTileMode)
    (tileType : AddrTileType) (htt : tileType ≠ ADDR_THICK_TILING)
    (ht : ComputeSurfaceThickness tileMode = 4) (n : Nat) (hn : n < 256) :
    ∃ x y z, x < 8 ∧ y < 8 ∧ z < 4 ∧
      ComputePixelIndexWithinMicroTile x y z bpp tileMode tileType = n := by
  obtain ⟨i, hi, hv⟩ := surjective_of_injective_range 256
    (fun i => ComputePixelIndexWithinMicroTile (i % 8) (i / 8 % 8) (i / 64) bpp tileMode
      tileType)
    (fun i _ => (pixelIndex_thick _ _ _ 0 0 0 _ _ _ htt ht).1)
    (fun i j hi hj h => by
      have := (pixelIndex_thick (i % 8) (i / 8 % 8) (i / 64) (j % 8) (j / 8 % 8) (j / 64) bpp
        tileMode tileType htt ht).2 h
      omega) n hn
  exact ⟨i % 8, i / 8 % 8, i / 64, by omega, by omega, by omega, hv⟩

/-- C30: for the displayable and non-displayable tile types and every bpp, the pixel index
within a micro tile depends only on `x mod 8`, `y mod 8` and `z mod thickness`; for a mode of
thickness 1 it stays below 64, separates distinct `(x mod 8, y mod 8)` and reaches every value
below 64, and for a mode of thickness 4 it stays below 256, separates distinct
`(x mod 8, y mod 8, z mod 4)` and reaches every value below 256. -/
theorem C30_pixel_index_bijection (bpp : Nat) (tileMode : AddrTileMode)
    (tileType : AddrTileType)
    (htt : tileType = ADDR_DISPLAYABLE ∨ tileType = ADDR_NON_DISPLAYABLE) :
    (∀ x y z, ComputePixelIndexWithinMicroTile x y z bpp tileMode tileType =
      ComputePixelIndexWithinMicroTile (x % 8) (y % 8) (z % ComputeSurfaceThickness tileMode)
        bpp tileMode tileType) ∧
    (ComputeSurfaceThickness tileMode = 1 →
      (∀ x y z, ComputePixelIndexWithinMicroTile x y z bpp tileMode tileType < 64) ∧
      (∀ x y z x' y' z', ComputePixelIndexWithinMicroTile x y z bpp tileMode tileType =
          ComputePixelIndexWithinMicroTile x' y' z' bpp tileMode tileType →
        x % 8 = x' % 8 ∧ y % 8 = y' % 8) ∧
      (∀ n, n < 64 → ∃ x y, x < 8 ∧ y < 8 ∧
        ComputePixelIndexWithinMicroTile x y 0 bpp tileMode tileType = n)) ∧
    (ComputeSurfaceThickness tileMode = 4 →
      (∀ x y z, ComputePixelIndexWithinMicroTile x y z bpp tileMode tileType < 256) ∧
      (∀ x y z x' y' z', ComputePixelIndexWithinMicroTile x y z bpp tileMode tileType =
          ComputePixelIndexWithinMicroTile x' y' z' bpp tileMode tileType →
        x % 8 = x' % 8 ∧ y % 8 = y' % 8 ∧ z % 4 = z' % 4) ∧
      (∀ n, n < 256 → ∃ x y z, x < 8 ∧ y < 8 ∧ z < 4 ∧
        ComputePixelIndexWithinMicroTile x y z bpp tileMode tileType = n)) := by
  have hne : tileType ≠ ADDR_THICK_TILING := by
    rcases htt with h | h <;> rw [h] <;> decide
  refine ⟨fun x y z => pixelIndex_periodic x y z bpp tileMode tileType hne, fun ht => ?_,
    fun ht => ?_⟩
  · exact ⟨fun x y z => (pixelIndex_thin x y z 0 0 0 bpp tileMode tileType hne ht).1,
      fun x y z x' y' z' => (pixelIndex_thin x y z x' y' z' bpp tileMode tileType hne ht).2,
      fun n hn => pixelIndex_thin_onto bpp tileMode tileType hne ht n hn⟩
  · exact ⟨fun x y z => (pixelIndex_thick x y z 0 0 0 bpp tileMode tileType hne ht).1,
      fun x y z x' y' z' => (pixelIndex_thick x y z x' y' z' bpp tileMode tileType hne ht).2,
      fun n hn => pixelIndex_thick_onto bpp tileMode tileType hne ht n hn⟩

theorem C30_pixel_index_bijection_witness :
    (ADDR_DISPLAYABLE = ADDR_DISPLAYABLE ∨ ADDR_DISPLAYABLE = ADDR_NON_DISPLAYABLE) ∧
    ComputePixelIndexWithinMicroTile 13 22 6 32 ADDR_TM_2D_TILED_THICK ADDR_DISPLAYABLE =
      ComputePixelIndexWithinMicroTile 5 6 2 32 ADDR_TM_2D_TILED_THICK ADDR_DISPLAYABLE ∧
    ComputePixelIndexWithinMicroTile 13 22 6 32 ADDR_TM_2D_TILED_THICK ADDR_DISPLAYABLE = 185 ∧
    ComputePixelIndexWithinMicroTile 13 22 6 32 ADDR_TM_2D_TILED_THICK ADDR_DISPLAYABLE < 256 ∧
    ComputePixelIndexWithinMicroTile 13 22 0 32 ADDR_TM_2D_TILED_THIN1 ADDR_DISPLAYABLE < 64 :=
  ⟨Or.inl rfl,
    (C30_pixel_index_bijection 32 ADDR_TM_2D_TILED_THICK ADDR_DISPLAYABLE (Or.inl rfl)).1 13 22 6,
    by decide,
    ((C30_pixel_index_bijection 32 ADDR_TM_2D_TILED_THICK ADDR_DISPLAYABLE (Or.inl rfl)).2.2
      (by decide)).1 13 22 6,
    ((C30_pixel_index_bijection 32 ADDR_TM_2D_TILED_THIN1 ADDR_DISPLAYABLE (Or.inl rfl)).2.1
      (by decide)).1 13 22 0⟩

/-! ## Pipe and bank of the micro tiles of a macro tile -/

theorem lor_shift_sum3 (a0 a1 a2 : Nat) :
    (a0 % 2) ||| ((a1 % 2) <<< 1) ||| ((a2 % 2) <<< 2) =
      a0 % 2 + 2 * (a1 % 2) + 4 * (a2 % 2) := by
  rw [lor_shiftLeft_eq_add 1 (a0 % 2) (a1 % 2) (by omega),
    lor_shiftLeft_eq_add 2 (a0 % 2 + 2 ^ 1 * (a1 % 2)) (a2 % 2) (by omega)]
  omega

/-- The pipe of a coordinate as a sum of binary digits. -/
theorem ComputePipeFromCoordWoRotation_sum (lib : R600AddrLib) (x y : Nat) :
    ComputePipeFromCoordWoRotation lib x y =
      if lib.mPipes = 1 then 0
      else if lib.mPipes = 2 then (y / 8 + x / 8) % 2
      else if lib.mPipes = 4 then (y / 8 + x / 16) % 2 + 2 * ((y / 16 + x / 8) % 2)
      else if lib.mPipes = 8 then
        (y / 8 + x / 32) % 2 + 2 * ((y / 16 + x / 32 + x / 16) % 2) +
          4 * ((y / 32 + x / 8) % 2)
      else 0 := by
  unfold ComputePipeFromCoordWoRotation
  simp only [BIT_eq_div_mod, xor_mod_two, show (2 : Nat) ^ 3 = 8 by norm_num,
    show (2 : Nat) ^ 4 = 16 by norm_num, show (2 : Nat) ^ 5 = 32 by norm_num]
  split_ifs <;> dsimp only
  · rfl
  · exact (lor_shift_sum3 _ 0 0).trans (by omega)
  · exact (lor_shift_sum3 _ _ 0).trans (by omega)
  · exact lor_shift_sum3 _ _ _
  · rfl

/-- The bank of a coordinate as a sum of binary digits. -/
theorem ComputeBankFromCoordWoRotation_sum (lib : R600AddrLib) (x y : Nat) :
    ComputeBankFromCoordWoRotation lib x y =
      if lib.mBanks = 4 then
        (if lib.mConfigFlags.optimalBankSwap = true ∧ lib.mPipes = 8 then
            (y / lib.mPipes / 16 + x / 8 + x / 32) % 2
          else (y / lib.mPipes / 16 + x / 8) % 2) +
          2 * ((y / lib.mPipes / 8 + x / 16) % 2)
      else if lib.mBanks = 8 then
        (if lib.mConfigFlags.optimalBankSwap = true ∧ lib.mPipes = 8 then
            (y / lib.mPipes / 32 + x / 8 + x / lib.mBanks / 8) % 2
          else (y / lib.mPipes / 32 + x / 8) % 2) +
          2 * ((y / lib.mPipes / 32 + y / lib.mPipes / 16 + x / 16) % 2) +
          4 * ((y / lib.mPipes / 8 + x / 32) % 2)
      else 0 := by
  unfold ComputeBankFromCoordWoRotation
  simp only [BIT_eq_div_mod, xor_mod_two, show (2 : Nat) ^ 3 = 8 by norm_num,
    show (2 : Nat) ^ 4 = 16 by norm_num, show (2 : Nat) ^ 5 = 32 by norm_num]
  split_ifs <;> dsimp only
  · exact (lor_shift_sum3 _ _ 0).trans (by omega)
  · exact (lor_shift_sum3 _ _ 0).trans (by omega)
  · exact lor_shift_sum3 _ _ _
  · exact lor_shift_sum3 _ _ _
  · rfl

/-- The pipe in terms of the micro-tile coordinates `x / 8` and `y / 8`. -/
theorem pipe_of_micro_tile (lib : R600AddrLib) (x y : Nat) :
    ComputePipeFromCoordWoRotation lib x y =
      if lib.mPipes = 1 then 0
      else if lib.mPipes = 2 then (y / 8 + x / 8) % 2
      else if lib.mPipes = 4 then (y / 8 + x / 8 / 2) % 2 + 2 * ((y / 8 / 2 + x / 8) % 2)
      else if lib.mPipes = 8 then
        (y / 8 + x / 8 / 4) % 2 + 2 * ((y / 8 / 2 + x / 8 / 4 + x / 8 / 2) % 2) +
          4 * ((y / 8 / 4 + x / 8) % 2)
      else 0 := by
  rw [ComputePipeFromCoordWoRotation_sum]
  simp only [Nat.div_div_eq_div_mul, Nat.reduceMul]

/-- The bank in terms of the micro-tile coordinates `x / 8` and `y / 8`. -/
theorem bank_of_micro_tile (lib : R600AddrLib) (x y : Nat) :
    ComputeBankFromCoordWoRotation lib x y =
      if lib.mBanks = 4 then
        (if lib.mConfigFlags.optimalBankSwap = true ∧ lib.mPipes = 8 then
            (y / 8 / lib.mPipes / 2 + x / 8 + x / 8 / 4) % 2
          else (y / 8 / lib.mPipes / 2 + x / 8) % 2) +
          2 * ((y / 8 / lib.mPipes + x / 8 / 2) % 2)
      else if lib.mBanks = 8 then
        (if lib.mConfigFlags.optimalBankSwap = true ∧ lib.mPipes = 8 then
            (y / 8 / lib.mPipes / 4 + x / 8 + x / 8 / lib.mBanks) % 2
          else (y / 8 / lib.mPipes / 4 + x / 8) % 2) +
          2 * ((y / 8 / lib.mPipes / 4 + y / 8 / lib.mPipes / 2 + x / 8 / 2) % 2) +
          4 * ((y / 8 / lib.mPipes + x / 8 / 4) % 2)
      else 0 := by
  rw [ComputeBankFromCoordWoRotation_sum]
  have e8 : y / lib.mPipes / 8 = y / 8 / lib.mPipes := by
    rw [Nat.div_div_eq_div_mul, Nat.div_div_eq_div_mul, Nat.mul_comm]
  have e16 : y / lib.mPipes / 16 = y / 8 / lib.mPipes / 2 := by
    rw [Nat.div_div_eq_div_mul, Nat.div_div_eq_div_mul, Nat.div_div_eq_div_mul]
    congr 1
    omega
  have e32 : y / lib.mPipes / 32 = y / 8 / lib.mPipes / 4 := by
    rw [Nat.div_div_eq_div_mul, Nat.div_div_eq_div_mul, Nat.div_div_eq_div_mul]
    congr 1
    omega
  have f8 : x / lib.mBanks / 8 = x / 8 / lib.mBanks := by
    rw [Nat.div_div_eq_div_mul, Nat.div_div_eq_div_mul, Nat.mul_comm]
  have f16 : x / 16 = x / 8 / 2 := by omega
  have f32 : x / 32 = x / 8 / 4 := by omega
  rw [e8, e16, e32, f8, f16, f32]

theorem pipe_bank_range (lib : R600AddrLib)
    (hP : lib.mPipes = 1 ∨ lib.mPipes = 2 ∨ lib.mPipes = 4 ∨ lib.mPipes = 8)
    (hB : lib.mBanks = 4 ∨ lib.mBanks = 8) (x y : Nat) :
    ComputePipeFromCoordWoRotation lib x y < lib.mPipes ∧
    ComputeBankFromCoordWoRotation lib x y < lib.mBanks := by
  rw [ComputePipeFromCoordWoRotation_sum, ComputeBankFromCoordWoRotation_sum]
  constructor
  · rcases hP with h | h | h | h <;> rw [h] <;>
      simp only [show ¬ ((2 : Nat) = 1) by decide, show ¬ ((4 : Nat) = 1) by decide,
        show ¬ ((4 : Nat) = 2) by decide, show ¬ ((8 : Nat) = 1) by decide,
        show ¬ ((8 : Nat) = 2) by decide, show ¬ ((8 : Nat) = 4) by decide, if_true,
        if_false] <;> omega
  · rcases hB with h | h <;> rw [h] <;>
      simp only [show ¬ ((8 : Nat) = 4) by decide, if_true, if_false] <;>
      split_ifs <;> omega

/-- Inside one macro tile (`8 * banks` pixels wide, `8 * pipes` pixels high) the pipe and the
bank of a pixel tell which micro tile it lies in. -/
theorem pipe_bank_injective (lib : R600AddrLib)
    (hP : lib.mPipes = 1 ∨ lib.mPipes = 2 ∨ lib.mPipes = 4 ∨ lib.mPipes = 8)
    (hB : lib.mBanks = 4 ∨ lib.mBanks = 8) (x y x' y' : Nat)
    (hx : x / (8 * lib.mBanks) = x' / (8 * lib.mBanks))
    (hy : y / (8 * lib.mPipes) = y' / (8 * lib.mPipes))
    (hp : ComputePipeFromCoordWoRotation lib x y = ComputePipeFromCoordWoRotation lib x' y')
    (hb : ComputeBankFromCoordWoRotation lib x y = ComputeBankFromCoordWoRotation lib x' y') :
    x / 8 = x' / 8 ∧ y / 8 = y' / 8 := by
  rw [pipe_of_micro_tile, pipe_of_micro_tile] at hp
  rw [bank_of_micro_tile, bank_of_micro_tile] at hb
  rw [← Nat.div_div_eq_div_mul, ← Nat.div_div_eq_div_mul] at hx hy
  rw [← hy] at hb
  generalize lib.mConfigFlags.optimalBankSwap = opt at hb
  generalize y / 8 / lib.mPipes = r at hb
  generalize x / 8 = a at *
  generalize x' / 8 = a' at *
  generalize y / 8 = c at *
  generalize y' / 8 = c' at *
  generalize lib.mPipes = P at *
  generalize lib.mBanks = B at *
  have ha : a = a' := by
    clear hp hy
    rcases hB with h' | h' <;> subst h' <;>
      simp only [show ¬ ((8 : Nat) = 4) by decide, if_true, if_false] at hb <;>
      split_ifs at hb <;> omega
  subst ha
  clear hb hx
  refine ⟨rfl, ?_⟩
  rcases hP with h | h | h | h <;> subst h <;>
    simp only [show ¬ ((2 : Nat) = 1) by decide, show ¬ ((4 : Nat) = 1) by decide,
      show ¬ ((4 : Nat) = 2) by decide, show ¬ ((8 : Nat) = 1) by decide,
      show ¬ ((8 : Nat) = 2) by decide, show ¬ ((8 : Nat) = 4) by decide, if_true,
      if_false] at hp <;>
    omega

/-- C29: for 1, 2, 4 or 8 pipes, 4 or 8 banks, either value of `optimalBankSwap` and every
macro-tile origin `(X0, Y0)` with `X0` a multiple of `8 * banks` and `Y0` a multiple of
`8 * pipes`, the map `(i, j) ↦ (pipe, bank)` of the micro tile at `(X0 + 8 i, Y0 + 8 j)` sends
`[0, banks) × [0, pipes)` into `[0, pipes) × [0, banks)`, takes different values on different
micro tiles, and reaches every `(pipe, bank)` pair. -/
theorem C29_pipe_bank_bijection (lib : R600AddrLib)
    (hP : lib.mPipes = 1 ∨ lib.mPipes = 2 ∨ lib.mPipes = 4 ∨ lib.mPipes = 8)
    (hB : lib.mBanks = 4 ∨ lib.mBanks = 8) (X0 Y0 : Nat)
    (hX : X0 % (8 * lib.mBanks) = 0) (hY : Y0 % (8 * lib.mPipes) = 0) :
    (∀ i j, i < lib.mBanks → j < lib.mPipes →
      ComputePipeFromCoordWoRotation lib (X0 + 8 * i) (Y0 + 8 * j) < lib.mPipes ∧
      ComputeBankFromCoordWoRotation lib (X0 + 8 * i) (Y0 + 8 * j) < lib.mBanks) ∧
    (∀ i j i' j', i < lib.mBanks → j < lib.mPipes → i' < lib.mBanks → j' < lib.mPipes →
      ComputePipeFromCoordWoRotation lib (X0 + 8 * i) (Y0 + 8 * j) =
        ComputePipeFromCoordWoRotation lib (X0 + 8 * i') (Y0 + 8 * j') →
      ComputeBankFromCoordWoRotation lib (X0 + 8 * i) (Y0 + 8 * j) =
        ComputeBankFromCoordWoRotation lib (X0 + 8 * i') (Y0 + 8 * j') →
      i = i' ∧ j = j') ∧
    (∀ p b, p < lib.mPipes → b < lib.mBanks → ∃ i j, i < lib.mBanks ∧ j < lib.mPipes ∧
      ComputePipeFromCoordWoRotation lib (X0 + 8 * i) (Y0 + 8 * j) = p ∧
      ComputeBankFromCoordWoRotation lib (X0 + 8 * i) (Y0 + 8 * j) = b) := by
  have hinj : ∀ i j i' j', i < lib.mBanks → j < lib.mPipes → i' < lib.mBanks →
      j' < lib.mPipes →
      ComputePipeFromCoordWoRotation lib (X0 + 8 * i) (Y0 + 8 * j) =
        ComputePipeFromCoordWoRotation lib (X0 + 8 * i') (Y0 + 8 * j') →
      ComputeBankFromCoordWoRotation lib (X0 + 8 * i) (Y0 + 8 * j) =
        ComputeBankFromCoordWoRotation lib (X0 + 8 * i') (Y0 + 8 * j') →
      i = i' ∧ j = j' := by
    intro i j i' j' hi hj hi' hj' hp hb
    have hx : (X0 + 8 * i) / (8 * lib.mBanks) = (X0 + 8 * i') / (8 * lib.mBanks) := by
      rcases hB with h | h <;> rw [h] at hX hi hi' ⊢ <;> omega
    have hy : (Y0 + 8 * j) / (8 * lib.mPipes) = (Y0 + 8 * j') / (8 * lib.mPipes) := by
      rcases hP with h | h | h | h <;> rw [h] at hY hj hj' ⊢ <;> omega
    have := pipe_bank_injective lib hP hB _ _ _ _ hx hy hp hb
    omega
  refine ⟨fun i j _ _ => pipe_bank_range lib hP hB _ _, hinj, ?_⟩
  intro p b hp hb
  have hBpos : 0 < lib.mBanks := by omega
  have key := surjective_of_injective_range (lib.mPipes * lib.mBanks)
    (fun k => ComputePipeFromCoordWoRotation lib (X0 + 8 * (k % lib.mBanks))
        (Y0 + 8 * (k / lib.mBanks)) +
      lib.mPipes * ComputeBankFromCoordWoRotation lib (X0 + 8 * (k % lib.mBanks))
        (Y0 + 8 * (k / lib.mBanks)))
    (fun k _ => by
      beta_reduce
      obtain ⟨h1, h2⟩ := pipe_bank_range lib hP hB (X0 + 8 * (k % lib.mBanks))
        (Y0 + 8 * (k / lib.mBanks))
      calc _ < lib.mPipes + lib.mPipes * ComputeBankFromCoordWoRotation lib
              (X0 + 8 * (k % lib.mBanks)) (Y0 + 8 * (k / lib.mBanks)) := by omega
        _ = lib.mPipes * (ComputeBankFromCoordWoRotation lib
              (X0 + 8 * (k % lib.mBanks)) (Y0 + 8 * (k / lib.mBanks)) + 1) := by ring
        _ ≤ lib.mPipes * lib.mBanks := Nat.mul_le_mul_left _ h2)
    (fun k k' hk hk' h => by
      obtain ⟨h1, h2⟩ := pipe_bank_range lib hP hB (X0 + 8 * (k % lib.mBanks))
        (Y0 + 8 * (k / lib.mBanks))
      obtain ⟨h1', h2'⟩ := pipe_bank_range lib hP hB (X0 + 8 * (k' % lib.mBanks))
        (Y0 + 8 * (k' / lib.mBanks))
      have e := hinj (k % lib.mBanks) (k / lib.mBanks) (k' % lib.mBanks) (k' / lib.mBanks)
        (Nat.mod_lt _ hBpos)
        ((Nat.div_lt_iff_lt_mul hBpos).2 hk) (Nat.mod_lt _ hBpos)
        ((Nat.div_lt_iff_lt_mul hBpos).2 hk')
        (by
          have := congrArg (fun v => v % lib.mPipes) h
          simpa [Nat.add_mul_mod_self_left, Nat.mod_eq_of_lt h1, Nat.mod_eq_of_lt h1'] using
            this)
        (by
          have := congrArg (fun v => v / lib.mPipes) h
          have hPpos : 0 < lib.mPipes := by omega
          simpa [Nat.add_mul_div_left _ _ hPpos, Nat.div_eq_of_lt h1, Nat.div_eq_of_lt h1']
            using this)
      rw [← Nat.mod_add_div k lib.mBanks, ← Nat.mod_add_div k' lib.mBanks, e.1, e.2])
    (p + lib.mPipes * b)
    (by
      calc p + lib.mPipes * b < lib.mPipes + lib.mPipes * b := by omega
        _ = lib.mPipes * (b + 1) := by ring
        _ ≤ lib.mPipes * lib.mBanks := Nat.mul_le_mul_left _ hb)
  obtain ⟨k, hk, hv⟩ := key
  obtain ⟨h1, h2⟩ := pipe_bank_range lib hP hB (X0 + 8 * (k % lib.mBanks))
    (Y0 + 8 * (k / lib.mBanks))
  have hPpos : 0 < lib.mPipes := by omega
  refine ⟨k % lib.mBanks, k / lib.mBanks, Nat.mod_lt _ hBpos,
    (Nat.div_lt_iff_lt_mul hBpos).2 hk, ?_, ?_⟩
  · have := congrArg (fun v => v % lib.mPipes) hv
    simpa [Nat.add_mul_mod_self_left, Nat.mod_eq_of_lt h1, Nat.mod_eq_of_lt hp] using this
  · have := congrArg (fun v => v / lib.mPipes) hv
    simpa [Nat.add_mul_div_left _ _ hPpos, Nat.div_eq_of_lt h1, Nat.div_eq_of_lt hp] using this

theorem C29_pipe_bank_bijection_witness :
    (exampleLib.mPipes = 1 ∨ exampleLib.mPipes = 2 ∨ exampleLib.mPipes = 4 ∨
      exampleLib.mPipes = 8) ∧
    (exampleLib.mBanks = 4 ∨ exampleLib.mBanks = 8) ∧
    32 % (8 * exampleLib.mBanks) = 0 ∧ 64 % (8 * exampleLib.mPipes) = 0 ∧
    (∀ i j i' j', i < exampleLib.mBanks → j < exampleLib.mPipes → i' < exampleLib.mBanks →
      j' < exampleLib.mPipes →
      ComputePipeFromCoordWoRotation exampleLib (32 + 8 * i) (64 + 8 * j) =
        ComputePipeFromCoordWoRotation exampleLib (32 + 8 * i') (64 + 8 * j') →
      ComputeBankFromCoordWoRotation exampleLib (32 + 8 * i) (64 + 8 * j) =
        ComputeBankFromCoordWoRotation exampleLib (32 + 8 * i') (64 + 8 * j') →
      i = i' ∧ j = j') ∧
    (∀ p b, p < exampleLib.mPipes → b < exampleLib.mBanks → ∃ i j, i < exampleLib.mBanks ∧
      j < exampleLib.mPipes ∧
      ComputePipeFromCoordWoRotation exampleLib (32 + 8 * i) (64 + 8 * j) = p ∧
      ComputeBankFromCoordWoRotation exampleLib (32 + 8 * i) (64 + 8 * j) = b) :=
  ⟨by decide, by decide, by decide, by decide,
    (C29_pipe_bank_bijection exampleLib (by decide) (by decide) 32 64 (by decide)
      (by decide)).2.1,
    (C29_pipe_bank_bijection exampleLib (by decide) (by decide) 32 64 (by decide)
      (by decide)).2.2⟩

/-! ## Micro-tiled addresses -/

theorem GetTileType_ne_thick (isDepth : Bool) : GetTileType isDepth ≠ ADDR_THICK_TILING := by
  cases isDepth <;> decide

/-- The address of a pixel of slice 0 of a `1D_TILED_THIN1` surface without a compressed
depth layout: micro tiles of `8 * bpp` bytes in row-major order, pixels inside by their pixel
index. -/
theorem ComputeSurfaceAddrFromCoordMicroTiled_thin1 (x y bpp pitch height tileBase : Nat)
    (isDepth : Bool)
    (hbpp : bpp = 8 ∨ bpp = 16 ∨ bpp = 32 ∨ bpp = 64 ∨ bpp = 128)
    (hM : 8 * bpp * (x / 8 + y / 8 * (pitch / 8) + 1) ≤ 2 ^ 64) :
    ComputeSurfaceAddrFromCoordMicroTiled x y 0 bpp pitch height ADDR_TM_1D_TILED_THIN1 isDepth
        tileBase 0 =
      (bpp / 8 * (64 * (x / 8 + y / 8 * (pitch / 8)) +
        ComputePixelIndexWithinMicroTile x y 0 bpp ADDR_TM_1D_TILED_THIN1
          (GetTileType isDepth)), 0) := by
  have hpi := (pixelIndex_thin x y 0 0 0 0 bpp ADDR_TM_1D_TILED_THIN1 (GetTileType isDepth)
    (GetTileType_ne_thick isDepth) rfl).1
  unfold ComputeSurfaceAddrFromCoordMicroTiled
  simp only [MicroTileWidth, MicroTileHeight, MicroTilePixels, reduceCtorEq, if_false, ne_eq,
    not_true_eq_false, false_and, BITS_TO_BYTES64, u64, u32, Nat.zero_div, Nat.zero_mul,
    Nat.zero_mod, Nat.add_zero, Nat.mul_one]
  generalize ComputePixelIndexWithinMicroTile x y 0 bpp ADDR_TM_1D_TILED_THIN1
    (GetTileType isDepth) = pi at *
  generalize x / 8 + y / 8 * (pitch / 8) = M at *
  rcases hbpp with h | h | h | h | h <;> subst h <;>
    simp only [Prod.mk.injEq, Nat.reduceMul, Nat.reduceAdd, Nat.reducePow, Nat.reduceMod,
      Nat.reduceDiv] at hM ⊢ <;>
    constructor <;> omega

/-- Row-major tile indices: bound and uniqueness of the decomposition. -/
theorem tile_index_lt (a c p q : Nat) (ha : a < p) (hc : c < q) : a + c * p + 1 ≤ q * p := by
  calc a + c * p + 1 ≤ p + c * p := by omega
    _ = (c + 1) * p := by ring
    _ ≤ q * p := Nat.mul_le_mul_right _ hc

theorem tile_index_inj (a c a' c' p : Nat) (ha : a < p) (ha' : a' < p)
    (h : a + c * p = a' + c' * p) : a = a' ∧ c = c' := by
  have hp : 0 < p := by omega
  have h1 := congrArg (fun v => v % p) h
  have h2 := congrArg (fun v => v / p) h
  simp only [Nat.add_mul_mod_self_right, Nat.mod_eq_of_lt ha, Nat.mod_eq_of_lt ha'] at h1
  simp only [Nat.add_mul_div_right _ _ hp, Nat.div_eq_of_lt ha, Nat.div_eq_of_lt ha',
    Nat.zero_add] at h2
  exact ⟨h1, h2⟩

/-- C28: for `1D_TILED_THIN1`, colour or depth, `compBits = 0`, bpp 8, 16, 32, 64 or 128,
slice 0, and pitch and height positive multiples of 8 with `pitch * height * bpp < 2 ^ 32`,
every pixel gets bit position 0 and an address that is a multiple of `bpp / 8`, and
`(x, y) ↦ addr / (bpp / 8)` sends `[0, pitch) × [0, height)` into `[0, pitch * height)`,
separates distinct pixels and reaches every value below `pitch * height`. -/
theorem C28_micro_tiled_bijection (bpp pitch height tileBase : Nat) (isDepth : Bool)
    (hbpp : bpp = 8 ∨ bpp = 16 ∨ bpp = 32 ∨ bpp = 64 ∨ bpp = 128)
    (hp : 0 < pitch) (hp8 : pitch % 8 = 0) (hh : 0 < height) (hh8 : height % 8 = 0)
    (hsz : pitch * height * bpp < 2 ^ 32) :
    (∀ x y, x < pitch → y < height →
      (ComputeSurfaceAddrFromCoordMicroTiled x y 0 bpp pitch height ADDR_TM_1D_TILED_THIN1
        isDepth tileBase 0).2 = 0 ∧
      (ComputeSurfaceAddrFromCoordMicroTiled x y 0 bpp pitch height ADDR_TM_1D_TILED_THIN1
        isDepth tileBase 0).1 % (bpp / 8) = 0 ∧
      (ComputeSurfaceAddrFromCoordMicroTiled x y 0 bpp pitch height ADDR_TM_1D_TILED_THIN1
        isDepth tileBase 0).1 / (bpp / 8) < pitch * height) ∧
    (∀ x y x' y', x < pitch → y < height → x' < pitch → y' < height →
      (ComputeSurfaceAddrFromCoordMicroTiled x y 0 bpp pitch height ADDR_TM_1D_TILED_THIN1
        isDepth tileBase 0).1 / (bpp / 8) =
      (ComputeSurfaceAddrFromCoordMicroTiled x' y' 0 bpp pitch height ADDR_TM_1D_TILED_THIN1
        isDepth tileBase 0).1 / (bpp / 8) →
      x = x' ∧ y = y') ∧
    (∀ n, n < pitch * height → ∃ x y, x < pitch ∧ y < height ∧
      (ComputeSurfaceAddrFromCoordMicroTiled x y 0 bpp pitch height ADDR_TM_1D_TILED_THIN1
        isDepth tileBase 0).1 / (bpp / 8) = n) := by
  obtain ⟨p, rfl⟩ : ∃ p, pitch = 8 * p := ⟨pitch / 8, by omega⟩
  obtain ⟨q, rfl⟩ : ∃ q, height = 8 * q := ⟨height / 8, by omega⟩
  have hb8 : 0 < bpp / 8 := by omega
  have hbm : 8 * (bpp / 8) = bpp := by omega
  have harea : 8 * p * (8 * q) = 64 * (q * p) := by ring
  have hval : ∀ x y, x < 8 * p → y < 8 * q →
      ComputeSurfaceAddrFromCoordMicroTiled x y 0 bpp (8 * p) (8 * q) ADDR_TM_1D_TILED_THIN1
          isDepth tileBase 0 =
        (bpp / 8 * (64 * (x / 8 + y / 8 * p) +
          ComputePixelIndexWithinMicroTile x y 0 bpp ADDR_TM_1D_TILED_THIN1
            (GetTileType isDepth)), 0) := by
    intro x y hx hy
    have hM := tile_index_lt (x / 8) (y / 8) p q (by omega) (by omega)
    have h := ComputeSurfaceAddrFromCoordMicroTiled_thin1 x y bpp (8 * p) (8 * q) tileBase
      isDepth hbpp (by
        rw [Nat.mul_div_cancel_left p (by decide : 0 < 8)]
        have h64 : 64 * (x / 8 + y / 8 * p + 1) * bpp ≤ 8 * p * (8 * q) * bpp := by
          rw [harea]
          exact Nat.mul_le_mul_right _ (Nat.mul_le_mul_left _ hM)
        have e : 8 * bpp * (x / 8 + y / 8 * p + 1) ≤ 64 * (x / 8 + y / 8 * p + 1) * bpp := by
          calc 8 * bpp * (x / 8 + y / 8 * p + 1) = 8 * ((x / 8 + y / 8 * p + 1) * bpp) := by
                ring
            _ ≤ 64 * ((x / 8 + y / 8 * p + 1) * bpp) := Nat.mul_le_mul_right _ (by decide)
            _ = 64 * (x / 8 + y / 8 * p + 1) * bpp := by ring
        have : (2 : Nat) ^ 32 ≤ 2 ^ 64 := by decide
        omega)
    rw [Nat.mul_div_cancel_left p (by decide : 0 < 8)] at h
    exact h
  have hpi : ∀ x y, ComputePixelIndexWithinMicroTile x y 0 bpp ADDR_TM_1D_TILED_THIN1
      (GetTileType isDepth) < 64 := fun x y =>
    (pixelIndex_thin x y 0 0 0 0 bpp ADDR_TM_1D_TILED_THIN1 (GetTileType isDepth)
      (GetTileType_ne_thick isDepth) rfl).1
  have hinj : ∀ x y x' y', x < 8 * p → y < 8 * q → x' < 8 * p → y' < 8 * q →
      (ComputeSurfaceAddrFromCoordMicroTiled x y 0 bpp (8 * p) (8 * q) ADDR_TM_1D_TILED_THIN1
        isDepth tileBase 0).1 / (bpp / 8) =
      (ComputeSurfaceAddrFromCoordMicroTiled x' y' 0 bpp (8 * p) (8 * q)
        ADDR_TM_1D_TILED_THIN1 isDepth tileBase 0).1 / (bpp / 8) →
      x = x' ∧ y = y' := by
    intro x y x' y' hx hy hx' hy' h
    rw [hval x y hx hy, hval x' y' hx' hy'] at h
    simp only [Nat.mul_div_cancel_left _ hb8] at h
    have h1 := hpi x y
    have h2 := hpi x' y'
    have hpe : ComputePixelIndexWithinMicroTile x y 0 bpp ADDR_TM_1D_TILED_THIN1
        (GetTileType isDepth) =
      ComputePixelIndexWithinMicroTile x' y' 0 bpp ADDR_TM_1D_TILED_THIN1
        (GetTileType isDepth) := by omega
    have hMe : x / 8 + y / 8 * p = x' / 8 + y' / 8 * p := by omega
    have h3 := (pixelIndex_thin x y 0 x' y' 0 bpp ADDR_TM_1D_TILED_THIN1 (GetTileType isDepth)
      (GetTileType_ne_thick isDepth) rfl).2 hpe
    have h4 := tile_index_inj (x / 8) (y / 8) (x' / 8) (y' / 8) p (by omega) (by omega) hMe
    omega
  have hrange : ∀ x y, x < 8 * p → y < 8 * q →
      (ComputeSurfaceAddrFromCoordMicroTiled x y 0 bpp (8 * p) (8 * q) ADDR_TM_1D_TILED_THIN1
        isDepth tileBase 0).1 / (bpp / 8) < 8 * p * (8 * q) := by
    intro x y hx hy
    rw [hval x y hx hy]
    simp only [Nat.mul_div_cancel_left _ hb8]
    have hM := tile_index_lt (x / 8) (y / 8) p q (by omega) (by omega)
    have h1 := hpi x y
    omega
  refine ⟨fun x y hx hy => ⟨?_, ?_, hrange x y hx hy⟩, hinj, ?_⟩
  · rw [hval x y hx hy]
  · rw [hval x y hx hy]
    exact Nat.mul_mod_right _ _
  · intro n hn
    have h8p : 0 < 8 * p := hp
    obtain ⟨k, hk, hv⟩ := surjective_of_injective_range (8 * p * (8 * q))
      (fun k => (ComputeSurfaceAddrFromCoordMicroTiled (k % (8 * p)) (k / (8 * p)) 0 bpp
        (8 * p) (8 * q) ADDR_TM_1D_TILED_THIN1 isDepth tileBase 0).1 / (bpp / 8))
      (fun k hk => hrange _ _ (Nat.mod_lt _ h8p) ((Nat.div_lt_iff_lt_mul h8p).2
        (by rw [Nat.mul_comm]; exact hk)))
      (fun k k' hk hk' h => by
        have e := hinj _ _ _ _ (Nat.mod_lt _ h8p) ((Nat.div_lt_iff_lt_mul h8p).2
          (by rw [Nat.mul_comm]; exact hk)) (Nat.mod_lt _ h8p) ((Nat.div_lt_iff_lt_mul h8p).2
          (by rw [Nat.mul_comm]; exact hk')) h
        rw [← Nat.mod_add_div k (8 * p), ← Nat.mod_add_div k' (8 * p), e.1, e.2]) n hn
    exact ⟨k % (8 * p), k / (8 * p), Nat.mod_lt _ h8p, (Nat.div_lt_iff_lt_mul h8p).2
      (by rw [Nat.mul_comm]; exact hk), hv⟩

theorem C28_micro_tiled_bijection_witness :
    ((32 : Nat) = 8 ∨ (32 : Nat) = 16 ∨ (32 : Nat) = 32 ∨ (32 : Nat) = 64 ∨
      (32 : Nat) = 128) ∧
    0 < 16 ∧ 16 % 8 = 0 ∧ 0 < 8 ∧ 8 % 8 = 0 ∧ 16 * 8 * 32 < 2 ^ 32 ∧
    ComputeSurfaceAddrFromCoordMicroTiled 13 6 0 32 16 8 ADDR_TM_1D_TILED_THIN1 false 0 0 =
      (484, 0) ∧
    (ComputeSurfaceAddrFromCoordMicroTiled 13 6 0 32 16 8 ADDR_TM_1D_TILED_THIN1 false
      0 0).1 / (32 / 8) < 16 * 8 ∧
    (∀ n, n < 16 * 8 → ∃ x y, x < 16 ∧ y < 8 ∧
      (ComputeSurfaceAddrFromCoordMicroTiled x y 0 32 16 8 ADDR_TM_1D_TILED_THIN1 false
        0 0).1 / (32 / 8) = n) :=
  ⟨by decide, by decide, by decide, by decide, by decide, by decide, by decide,
    ((C28_micro_tiled_bijection 32 16 8 0 false (by decide) (by decide) (by decide)
      (by decide) (by decide) (by decide)).1 13 6 (by decide) (by decide)).2.2,
    (C28_micro_tiled_bijection 32 16 8 0 false (by decide) (by decide) (by decide)
      (by decide) (by decide) (by decide)).2.2⟩

/-! ## Macro-tiled addresses of `2D_TILED_THIN1` colour surfaces -/

/-- The final OR of the macro-tiled address for any 64-bit total offset: the part of the
offset above the interleave is kept modulo `2 ^ (64 - (g + pb + bb))`. -/
theorem macro_offset_fields_mod (g pb bb T pipe bank : Nat) (hsum : g + pb + bb ≤ 64)
    (hT64 : T < 2 ^ 64) (hpipe : pipe < 2 ^ pb) (hbank : bank < 2 ^ bb) :
    u64 (bank <<< (pb + g)) ||| u64 (pipe <<< g) ||| (T &&& ((1 <<< g) - 1)) |||
        u64 ((T &&& not64 ((1 <<< g) - 1)) <<< (bb + pb)) =
      2 ^ (g + pb + bb) * (T / 2 ^ g % 2 ^ (64 - (g + pb + bb))) +
        (2 ^ (g + pb) * bank + (2 ^ g * pipe + T % 2 ^ g)) := by
  have low : T &&& ((1 <<< g) - 1) = T % 2 ^ g := by
    rw [Nat.one_shiftLeft]
    exact Nat.and_pow_two_sub_one_eq_mod _ _
  have high : T &&& not64 ((1 <<< g) - 1) = T / 2 ^ g * 2 ^ g := by
    rw [Nat.one_shiftLeft, not64_two_pow_sub_one (by omega)]
    exact and_two_pow_sub_two_pow T g 64 hT64 (by omega)
  have hg : 0 < 2 ^ g := Nat.pos_pow_of_pos g (by norm_num)
  have hr : T % 2 ^ g < 2 ^ g := Nat.mod_lt _ hg
  have h1 : 2 ^ g * pipe + T % 2 ^ g < 2 ^ (g + pb) := by
    rw [Nat.pow_add]
    calc 2 ^ g * pipe + T % 2 ^ g < 2 ^ g * pipe + 2 ^ g := by omega
      _ = 2 ^ g * (pipe + 1) := by ring
      _ ≤ 2 ^ g * 2 ^ pb := Nat.mul_le_mul_left _ hpipe
  have h2 : 2 ^ (g + pb) * bank + (2 ^ g * pipe + T % 2 ^ g) < 2 ^ (g + pb + bb) := by
    rw [Nat.pow_add (2) (g + pb) bb]
    calc 2 ^ (g + pb) * bank + (2 ^ g * pipe + T % 2 ^ g)
          < 2 ^ (g + pb) * bank + 2 ^ (g + pb) := by omega
      _ = 2 ^ (g + pb) * (bank + 1) := by ring
      _ ≤ 2 ^ (g + pb) * 2 ^ bb := Nat.mul_le_mul_left _ hbank
  have hle : 2 ^ (g + pb + bb) ≤ 2 ^ 64 := Nat.pow_le_pow_right (by norm_num) hsum
  have eB : u64 (bank <<< (pb + g)) = 2 ^ (g + pb) * bank := by
    rw [Nat.shiftLeft_eq, Nat.add_comm pb g, Nat.mul_comm]
    exact u64_of_lt (by omega)
  have eP : u64 (pipe <<< g) = 2 ^ g * pipe := by
    rw [Nat.shiftLeft_eq, Nat.mul_comm]
    exact u64_of_lt (by omega)
  have eH : u64 ((T / 2 ^ g * 2 ^ g) <<< (bb + pb)) =
      2 ^ (g + pb + bb) * (T / 2 ^ g % 2 ^ (64 - (g + pb + bb))) := by
    have e : (T / 2 ^ g * 2 ^ g) <<< (bb + pb) = 2 ^ (g + pb + bb) * (T / 2 ^ g) := by
      rw [Nat.shiftLeft_eq, Nat.pow_add, Nat.pow_add, Nat.pow_add]
      ring
    have e64 : (2 : Nat) ^ 64 = 2 ^ (g + pb + bb) * 2 ^ (64 - (g + pb + bb)) := by
      rw [← Nat.pow_add]
      congr 1
      omega
    rw [e]
    unfold u64
    rw [e64, Nat.mul_mod_mul_left]
  rw [low, high, eB, eP, eH]
  rw [Nat.mul_add_lt_is_or h2, Nat.mul_add_lt_is_or h1, Nat.mul_add_lt_is_or hr]
  rw [Nat.lor_comm _ (2 ^ (g + pb + bb) * (T / 2 ^ g % 2 ^ (64 - (g + pb + bb)))),
    Nat.lor_assoc (2 ^ (g + pb) * bank)]

theorem totalOffset_lt (lib : R600AddrLib) (p : MacroTiledParts) :
    p.totalOffset lib < 2 ^ 64 := u64_lt _

/-- The base-2 logarithms of a valid geometry. -/
theorem Log2_valid (lib : R600AddrLib) (hv : lib.ValidConfig) :
    2 ^ Log2 lib.mPipeInterleaveBytes = lib.mPipeInterleaveBytes ∧
    2 ^ Log2 lib.mPipes = lib.mPipes ∧ 2 ^ Log2 lib.mBanks = lib.mBanks ∧
    Log2 lib.mPipeInterleaveBytes + Log2 lib.mPipes + Log2 lib.mBanks ≤ 64 := by
  obtain ⟨hpipes, hbanks, hgroup, -⟩ := hv
  rcases hpipes with h1 | h1 | h1 | h1 <;> rcases hbanks with h2 | h2 <;>
    rcases hgroup with h3 | h3 <;> rw [h1, h2, h3] <;> decide

/-- The returned address written with its four fields; `A` is what is left of the offset
above the interleave. -/
theorem MacroTiledParts_offset_fields (lib : R600AddrLib) (hv : lib.ValidConfig)
    (p : MacroTiledParts) (hpipe : p.pipe < lib.mPipes) (hbank : p.bank < lib.mBanks) :
    ∃ A, A ≤ p.totalOffset lib / lib.mPipeInterleaveBytes ∧
      p.offset lib = lib.mPipeInterleaveBytes * (lib.mPipes * lib.mBanks) * A +
        (lib.mPipeInterleaveBytes * lib.mPipes * p.bank +
          (lib.mPipeInterleaveBytes * p.pipe +
            p.totalOffset lib % lib.mPipeInterleaveBytes)) ∧
      p.totalOffset lib % (2 ^ 64 / (lib.mPipes * lib.mBanks)) =
        lib.mPipeInterleaveBytes * A + p.totalOffset lib % lib.mPipeInterleaveBytes := by
  obtain ⟨hG, hP, hB, hsum⟩ := Log2_valid lib hv
  generalize hg : Log2 lib.mPipeInterleaveBytes = g at *
  generalize hpb : Log2 lib.mPipes = pb at *
  generalize hbb : Log2 lib.mBanks = bb at *
  have hT := totalOffset_lt lib p
  refine ⟨p.totalOffset lib / 2 ^ g % 2 ^ (64 - (g + pb + bb)), ?_, ?_, ?_⟩
  · rw [hG]
    exact Nat.mod_le _ _
  · have h := macro_offset_fields_mod g pb bb (p.totalOffset lib) p.pipe p.bank hsum hT
      (by rw [hP]; exact hpipe) (by rw [hB]; exact hbank)
    have e : p.offset lib = u64 (p.bank <<< (pb + g)) ||| u64 (p.pipe <<< g) |||
        (p.totalOffset lib &&& ((1 <<< g) - 1)) |||
        u64 ((p.totalOffset lib &&& not64 ((1 <<< g) - 1)) <<< (bb + pb)) := by
      unfold MacroTiledParts.offset
      simp only [hg, hpb, hbb]
    rw [e, h, Nat.pow_add, Nat.pow_add, hG, hP, hB]
    ring
  · have e64 : (2 : Nat) ^ 64 / (lib.mPipes * lib.mBanks) = 2 ^ g * 2 ^ (64 - (g + pb + bb)) := by
      rw [← hP, ← hB, ← Nat.pow_add, ← Nat.pow_add, Nat.pow_div (by omega) (by norm_num)]
      congr 1
      omega
    rw [e64, Nat.mod_mul, hG, Nat.add_comm]

theorem pipes_banks_bounds (lib : R600AddrLib) (hv : lib.ValidConfig) :
    1 ≤ lib.mPipes ∧ lib.mPipes ≤ 8 ∧ 4 ≤ lib.mBanks ∧ lib.mBanks ≤ 8 ∧
    4 ≤ lib.mPipes * lib.mBanks ∧ lib.mPipes * lib.mBanks ≤ 64 := by
  obtain ⟨hpipes, hbanks, -⟩ := hv
  rcases hpipes with h1 | h1 | h1 | h1 <;> rcases hbanks with h2 | h2 <;> rw [h1, h2] <;>
    decide

/-- The total offset when the element offset is small: no carry out of 64 bits. -/
theorem MacroTiledParts_totalOffset (lib : R600AddrLib) (hv : lib.ValidConfig)
    (p : MacroTiledParts) (he : p.elemOffset < 2 ^ 63) :
    p.totalOffset lib =
      p.elemOffset + u64 (p.macroTileOffset + p.sliceOffset) / (lib.mPipes * lib.mBanks) := by
  obtain ⟨-, hP, hB, -⟩ := Log2_valid lib hv
  obtain ⟨-, -, -, -, h4, -⟩ := pipes_banks_bounds lib hv
  unfold MacroTiledParts.totalOffset
  rw [Nat.shiftRight_eq_div_pow, Nat.pow_add, hB, hP, Nat.mul_comm lib.mBanks]
  apply u64_of_lt
  have h1 := u64_lt (p.macroTileOffset + p.sliceOffset)
  have h2 : u64 (p.macroTileOffset + p.sliceOffset) / (lib.mPipes * lib.mBanks) ≤
      u64 (p.macroTileOffset + p.sliceOffset) / 4 :=
    Nat.div_le_div_left h4 (by decide)
  omega

/-- The intermediate values of a `2D_TILED_THIN1` colour request with one sample: the element
offset is `bpp / 8` times the pixel index, the pipe and bank are those of the coordinate
XOR-ed with a constant `C` of the slice and the swizzles, and macro tiles of
`8 * bpp * pipes * banks` bytes follow one another in row-major order. -/
theorem MacroTiledParts_thin1 (lib : R600AddrLib) (hv : lib.ValidConfig)
    (slice bpp pitch height tileBase compBits pipeSwizzle bankSwizzle : Nat)
    (hbpp : bpp = 8 ∨ bpp = 16 ∨ bpp = 32 ∨ bpp = 64 ∨ bpp = 128) :
    ∃ C, ∀ x y,
      ComputeSurfaceAddrFromCoordMacroTiledParts lib x y slice 0 bpp pitch height 1
          ADDR_TM_2D_TILED_THIN1 false tileBase compBits pipeSwizzle bankSwizzle =
        some ⟨bpp / 8 * ComputePixelIndexWithinMicroTile x y slice bpp ADDR_TM_2D_TILED_THIN1
            ADDR_DISPLAYABLE,
          ((ComputePipeFromCoordWoRotation lib x y +
              lib.mPipes * ComputeBankFromCoordWoRotation lib x y) ^^^ C) %
            (lib.mPipes * lib.mBanks) % lib.mPipes,
          ((ComputePipeFromCoordWoRotation lib x y +
              lib.mPipes * ComputeBankFromCoordWoRotation lib x y) ^^^ C) %
            (lib.mPipes * lib.mBanks) / lib.mPipes,
          u64 (8 * bpp * (lib.mPipes * lib.mBanks) *
            (x / (8 * lib.mBanks) + pitch / (8 * lib.mBanks) * (y / (8 * lib.mPipes)))),
          u64 (BITS_TO_BYTES64 (u64 (u32 (pitch * height) * bpp)) * u64 slice),
          0⟩ := by
  refine ⟨u64 (lib.mPipes * 0 * (lib.mBanks >>> 1 + 1)) ^^^
    u64 (u64 (pipeSwizzle + lib.mPipes * bankSwizzle) +
      slice * ComputeSurfaceRotationFromTileMode lib ADDR_TM_2D_TILED_THIN1), fun x y => ?_⟩
  obtain ⟨hP1, hP8, hB4, hB8, hPB4, hPB64⟩ := pipes_banks_bounds lib hv
  have hpi := (pixelIndex_thin x y slice 0 0 0 bpp ADDR_TM_2D_TILED_THIN1 ADDR_DISPLAYABLE
    (by decide) rfl).1
  obtain ⟨hpp, hbk⟩ := pipe_bank_range lib hv.1 hv.2.1 x y
  unfold ComputeSurfaceAddrFromCoordMacroTiledParts
  simp only [show ComputeSurfaceThickness ADDR_TM_2D_TILED_THIN1 = 1 from rfl,
    show IsThickMacroTiled ADDR_TM_2D_TILED_THIN1 = false from rfl,
    show IsBankSwappedTileMode ADDR_TM_2D_TILED_THIN1 = false from rfl,
    show GetTileType false = ADDR_DISPLAYABLE from rfl,
    Bool.false_eq_true, if_false, gt_iff_lt, Nat.lt_irrefl, false_and, decide_False,
    Nat.mul_one, Nat.div_one, Nat.zero_mul, Nat.zero_add, Nat.one_mul]
  generalize ComputePixelIndexWithinMicroTile x y slice bpp ADDR_TM_2D_TILED_THIN1
    ADDR_DISPLAYABLE = pi at *
  generalize ComputePipeFromCoordWoRotation lib x y = pp at *
  generalize ComputeBankFromCoordWoRotation lib x y = bk at *
  have f1 : u64 (u64 (bpp * pi) + u64 0) = bpp * pi := by
    unfold u64
    rcases hbpp with h | h | h | h | h <;> subst h <;> omega
  have f2 : bpp * pi / 8 = bpp / 8 * pi := by
    rcases hbpp with h | h | h | h | h <;> subst h <;> omega
  have f2' : u32 (bpp * pi % 8) = 0 := by
    unfold u32
    rcases hbpp with h | h | h | h | h <;> subst h <;> omega
  have f3 : u64 (pp + lib.mPipes * bk) = pp + lib.mPipes * bk := by
    apply u64_of_lt
    have : lib.mPipes * bk ≤ 8 * 8 := Nat.mul_le_mul hP8 (by omega)
    omega
  have f4 : u64 (lib.mPipes * lib.mBanks) = lib.mPipes * lib.mBanks :=
    u64_of_lt (by omega)
  have f5 : BITS_TO_BYTES64 (u64 (bpp * (8 * lib.mPipes) * (8 * lib.mBanks))) =
      8 * bpp * (lib.mPipes * lib.mBanks) := by
    have e : bpp * (8 * lib.mPipes) * (8 * lib.mBanks) =
        64 * (bpp * (lib.mPipes * lib.mBanks)) := by ring
    have e' : 8 * bpp * (lib.mPipes * lib.mBanks) = 8 * (bpp * (lib.mPipes * lib.mBanks)) := by
      ring
    have hz : bpp * (lib.mPipes * lib.mBanks) ≤ 128 * 64 := Nat.mul_le_mul (by omega) hPB64
    rw [e, e']
    generalize bpp * (lib.mPipes * lib.mBanks) = z at hz
    unfold BITS_TO_BYTES64 u64
    omega
  rw [f1, f2, f2', f3, f4, f5]

/-- Divisibility facts of the power-of-two sizes of a valid geometry and a standard bpp. -/
theorem thin1_size_facts (lib : R600AddrLib) (hv : lib.ValidConfig) (bpp : Nat)
    (hbpp : bpp = 8 ∨ bpp = 16 ∨ bpp = 32 ∨ bpp = 64 ∨ bpp = 128) :
    0 < bpp / 8 ∧ 8 * (bpp / 8) = bpp ∧ bpp / 8 ≤ 16 ∧
    2 ^ 64 % (bpp / 8 * (lib.mPipes * lib.mBanks)) = 0 ∧
    2 ^ 64 % (8 * bpp * (lib.mPipes * lib.mBanks)) = 0 ∧
    lib.mPipeInterleaveBytes % (bpp / 8) = 0 ∧
    8 * bpp * max 1 (lib.mPipeInterleaveBytes / (8 * bpp)) % lib.mPipeInterleaveBytes = 0 := by
  obtain ⟨hpipes, hbanks, hgroup, -⟩ := hv
  rcases hpipes with h1 | h1 | h1 | h1 <;> rcases hbanks with h2 | h2 <;>
    rcases hgroup with h3 | h3 <;> rw [h1, h2, h3] <;>
    rcases hbpp with h | h | h | h | h <;> subst h <;> decide

/-- The arithmetic behind the bound of an address by the slice size. -/
theorem address_bound (G P B k b T A pipe bank q Mtot : Nat) (hG : 0 < G)
    (hA : A ≤ T / G) (hpipe : pipe < P) (hbank : bank < B) (hmod : T % G + b ≤ G)
    (hb : 0 < b) (hT : T + b ≤ k * Mtot) (hq : k * Mtot = G * q) :
    G * (P * B) * A + (G * P * bank + (G * pipe + T % G)) + b ≤ P * B * (k * Mtot) := by
  have hTq : T / G < q := by
    rw [Nat.div_lt_iff_lt_mul hG, Nat.mul_comm, ← hq]
    omega
  have hr := tile_index_lt pipe bank P B hpipe hbank
  have h1 : P * B * A + (pipe + bank * P + 1) ≤ P * B * q := by
    calc P * B * A + (pipe + bank * P + 1) ≤ P * B * A + B * P := by omega
      _ = P * B * (A + 1) := by ring
      _ ≤ P * B * q := Nat.mul_le_mul_left _ (by omega)
  have h2 := Nat.mul_le_mul_left G h1
  have e1 : G * (P * B * A + (pipe + bank * P + 1)) =
      G * (P * B) * A + (G * P * bank + (G * pipe + G)) := by ring
  have e2 : G * (P * B * q) = P * B * (G * q) := by ring
  rw [e1, e2, ← hq] at h2
  omega

theorem dvd_mod_add_le (b T G : Nat) (hG : 0 < G) (hbT : T % b = 0) (hbG : G % b = 0) :
    T % G + b ≤ G := by
  have hd : b ∣ T % G :=
    (Nat.dvd_mod_iff (Nat.dvd_of_mod_eq_zero hbG)).2 (Nat.dvd_of_mod_eq_zero hbT)
  obtain ⟨i, hi⟩ := hd
  obtain ⟨j, hj⟩ := Nat.dvd_of_mod_eq_zero hbG
  have hlt := Nat.mod_lt T hG
  rw [hi] at hlt ⊢
  rw [hj] at hlt ⊢
  have hij : i < j := Nat.lt_of_mul_lt_mul_left hlt
  calc b * i + b = b * (i + 1) := by ring
    _ ≤ b * j := Nat.mul_le_mul_left _ hij

/-- C27: for a valid geometry, `2D_TILED_THIN1`, a colour surface with one sample, bpp 8, 16,
32, 64 or 128, in-range swizzles, slice 0, pitch a positive multiple of
`8 * banks * max 1 (pipeInterleaveBytes / (8 * bpp))` and height a positive multiple of
`8 * pipes`, every pixel with `x < pitch` and `y < height` gets an address (with bit
position 0) such that `addr + bpp / 8 ≤ pitch * height * bpp / 8`. -/
theorem C27_macro_tiled_address_inside_slice (lib : R600AddrLib) (hv : lib.ValidConfig)
    (x y bpp pitch height tileBase compBits pipeSwizzle bankSwizzle : Nat)
    (hbpp : bpp = 8 ∨ bpp = 16 ∨ bpp = 32 ∨ bpp = 64 ∨ bpp = 128)
    (_hps : pipeSwizzle < lib.mPipes) (_hbs : bankSwizzle < lib.mBanks)
    (_hpitch : 0 < pitch)
    (hpa : pitch % (8 * lib.mBanks * max 1 (lib.mPipeInterleaveBytes / (8 * bpp))) = 0)
    (_hheight : 0 < height) (hha : height % (8 * lib.mPipes) = 0)
    (hx : x < pitch) (hy : y < height) :
    ∃ addr, ComputeSurfaceAddrFromCoordMacroTiled lib x y 0 0 bpp pitch height 1
        ADDR_TM_2D_TILED_THIN1 false tileBase compBits pipeSwizzle bankSwizzle =
        some (addr, 0) ∧
      addr + bpp / 8 ≤ pitch * height * bpp / 8 := by
  obtain ⟨C, hparts⟩ := MacroTiledParts_thin1 lib hv 0 bpp pitch height tileBase compBits
    pipeSwizzle bankSwizzle hbpp
  obtain ⟨hP1, hP8, hB4, hB8, hPB4, hPB64⟩ := pipes_banks_bounds lib hv
  obtain ⟨hb0, hb8, hb16, hdPB, -, hdG, hdk⟩ := thin1_size_facts lib hv bpp hbpp
  have hGpos : 0 < lib.mPipeInterleaveBytes := by
    rcases hv.2.2.1 with h | h <;> omega
  have hpi := (pixelIndex_thin x y 0 0 0 0 bpp ADDR_TM_2D_TILED_THIN1 ADDR_DISPLAYABLE
    (by decide) rfl).1
  -- the surface in macro tiles
  generalize hr0 : max 1 (lib.mPipeInterleaveBytes / (8 * bpp)) = r0 at hpa hdk
  obtain ⟨j, hj⟩ : ∃ j, pitch = 8 * lib.mBanks * r0 * j := Nat.dvd_of_mod_eq_zero hpa
  obtain ⟨ph, hph⟩ : ∃ ph, height = 8 * lib.mPipes * ph := Nat.dvd_of_mod_eq_zero hha
  have hpw : pitch / (8 * lib.mBanks) = r0 * j := by
    rw [hj, Nat.mul_assoc, Nat.mul_div_cancel_left _ (by omega : 0 < 8 * lib.mBanks)]
  have hphd : height / (8 * lib.mPipes) = ph := by
    rw [hph, Nat.mul_div_cancel_left _ (by omega : 0 < 8 * lib.mPipes)]
  have hX : x / (8 * lib.mBanks) < r0 * j := by
    rw [Nat.div_lt_iff_lt_mul (by omega : 0 < 8 * lib.mBanks)]
    have e : r0 * j * (8 * lib.mBanks) = 8 * lib.mBanks * r0 * j := by ring
    omega
  have hY : y / (8 * lib.mPipes) < ph := by
    rw [Nat.div_lt_iff_lt_mul (by omega : 0 < 8 * lib.mPipes)]
    have e : ph * (8 * lib.mPipes) = 8 * lib.mPipes * ph := by ring
    omega
  have hM := tile_index_lt _ _ _ _ hX hY
  -- the intermediate values
  obtain ⟨p, hp⟩ : ∃ p, ComputeSurfaceAddrFromCoordMacroTiledParts lib x y 0 0 bpp pitch
      height 1 ADDR_TM_2D_TILED_THIN1 false tileBase compBits pipeSwizzle bankSwizzle =
      some p := ⟨_, hparts x y⟩
  have e := Option.some.inj ((hparts x y).symm.trans hp)
  have he : p.elemOffset = bpp / 8 * ComputePixelIndexWithinMicroTile x y 0 bpp
      ADDR_TM_2D_TILED_THIN1 ADDR_DISPLAYABLE := by rw [← e]
  have hpipe : p.pipe < lib.mPipes := by
    rw [← e]
    exact Nat.mod_lt _ hP1
  have hbank : p.bank < lib.mBanks := by
    rw [← e]
    exact (Nat.div_lt_iff_lt_mul hP1).2
      (by rw [Nat.mul_comm lib.mBanks]; exact Nat.mod_lt _ (by omega))
  have hmto : p.macroTileOffset = u64 (8 * bpp * (lib.mPipes * lib.mBanks) *
      (x / (8 * lib.mBanks) + r0 * j * (y / (8 * lib.mPipes)))) := by
    rw [← e, ← hpw]
  have hso : p.sliceOffset = 0 := by
    rw [← e]
    show u64 (_ * u64 0) = 0
    rfl
  have hbit : p.bitPosition = 0 := by rw [← e]
  generalize ComputePixelIndexWithinMicroTile x y 0 bpp ADDR_TM_2D_TILED_THIN1
    ADDR_DISPLAYABLE = pi at *
  have hesmall : bpp / 8 * pi ≤ 16 * 64 := Nat.mul_le_mul hb16 (by omega)
  have hT := MacroTiledParts_totalOffset lib hv p (by rw [he]; omega)
  rw [hmto, hso, he, Nat.add_zero, show ∀ z, u64 (u64 z) = u64 z from fun z => Nat.mod_mod _ _]
    at hT
  generalize hMdef : x / (8 * lib.mBanks) + r0 * j * (y / (8 * lib.mPipes)) = M at hT
  have hM' : M + 1 ≤ r0 * j * ph := by
    rw [← hMdef, Nat.mul_comm (r0 * j) ph, Nat.mul_comm (r0 * j)]
    exact hM
  -- the total offset is at most that of the exact product and is a multiple of `bpp / 8`
  have hdiv : u64 (8 * bpp * (lib.mPipes * lib.mBanks) * M) / (lib.mPipes * lib.mBanks) ≤
      8 * bpp * M := by
    have e1 : 8 * bpp * (lib.mPipes * lib.mBanks) * M =
        lib.mPipes * lib.mBanks * (8 * bpp * M) := by ring
    calc _ ≤ 8 * bpp * (lib.mPipes * lib.mBanks) * M / (lib.mPipes * lib.mBanks) :=
          Nat.div_le_div_right (Nat.mod_le _ _)
      _ = 8 * bpp * M := by rw [e1, Nat.mul_div_cancel_left _ (by omega)]
  have hdvd : (u64 (8 * bpp * (lib.mPipes * lib.mBanks) * M) / (lib.mPipes * lib.mBanks)) %
      (bpp / 8) = 0 := by
    have d1 : bpp / 8 * (lib.mPipes * lib.mBanks) ∣
        8 * bpp * (lib.mPipes * lib.mBanks) * M :=
      ⟨64 * M, by
        have : 8 * bpp = 64 * (bpp / 8) := by omega
        rw [this]
        ring⟩
    have d2 : bpp / 8 * (lib.mPipes * lib.mBanks) ∣
        u64 (8 * bpp * (lib.mPipes * lib.mBanks) * M) :=
      (Nat.dvd_mod_iff (Nat.dvd_of_mod_eq_zero hdPB)).2 d1
    obtain ⟨c, hc⟩ := d2
    rw [hc, Nat.mul_comm (bpp / 8), Nat.mul_assoc,
      Nat.mul_div_cancel_left _ (by omega : 0 < lib.mPipes * lib.mBanks)]
    exact Nat.mul_mod_right _ _
  generalize u64 (8 * bpp * (lib.mPipes * lib.mBanks) * M) / (lib.mPipes * lib.mBanks) = D
    at hT hdiv hdvd
  have hTdvd : p.totalOffset lib % (bpp / 8) = 0 := by
    rw [hT]
    obtain ⟨c, hc⟩ := Nat.dvd_of_mod_eq_zero hdvd
    rw [hc, ← Nat.mul_add]
    exact Nat.mul_mod_right _ _
  have hTle : p.totalOffset lib + bpp / 8 ≤ 8 * bpp * (r0 * j * ph) := by
    have h1 : 8 * bpp * (M + 1) ≤ 8 * bpp * (r0 * j * ph) := Nat.mul_le_mul_left _ hM'
    have h2 : 8 * bpp * (M + 1) = 8 * bpp * M + 8 * bpp := by ring
    have h3 : bpp / 8 * pi + bpp / 8 ≤ 8 * bpp := by
      have : bpp / 8 * pi ≤ bpp / 8 * 63 := Nat.mul_le_mul_left _ (by omega)
      omega
    omega
  obtain ⟨q, hq⟩ : ∃ q, 8 * bpp * (r0 * j * ph) = lib.mPipeInterleaveBytes * q := by
    obtain ⟨c, hc⟩ := Nat.dvd_of_mod_eq_zero hdk
    refine ⟨c * (j * ph), ?_⟩
    calc 8 * bpp * (r0 * j * ph) = 8 * bpp * r0 * (j * ph) := by ring
      _ = lib.mPipeInterleaveBytes * (c * (j * ph)) := by rw [hc]; ring
  obtain ⟨A, hA, hoff, -⟩ := MacroTiledParts_offset_fields lib hv p hpipe hbank
  have hbound := address_bound lib.mPipeInterleaveBytes lib.mPipes lib.mBanks (8 * bpp)
    (bpp / 8) (p.totalOffset lib) A p.pipe p.bank q (r0 * j * ph) hGpos hA hpipe hbank
    (dvd_mod_add_le _ _ _ hGpos hTdvd hdG) hb0 hTle hq
  have hN : pitch * height * bpp / 8 =
      lib.mPipes * lib.mBanks * (8 * bpp * (r0 * j * ph)) := by
    have e1 : pitch * height * bpp =
        8 * (lib.mPipes * lib.mBanks * (8 * bpp * (r0 * j * ph))) := by
      rw [hj, hph]
      ring
    rw [e1, Nat.mul_div_cancel_left _ (by decide : 0 < 8)]
  refine ⟨p.offset lib, ?_, ?_⟩
  · unfold ComputeSurfaceAddrFromCoordMacroTiled
    rw [hp, ← hbit]
    rfl
  · rw [hN, hoff]
    exact hbound

theorem C27_macro_tiled_address_inside_slice_witness :
    exampleLib.ValidConfig ∧
    ((32 : Nat) = 8 ∨ (32 : Nat) = 16 ∨ (32 : Nat) = 32 ∨ (32 : Nat) = 64 ∨
      (32 : Nat) = 128) ∧
    0 < exampleLib.mPipes ∧ 0 < exampleLib.mBanks ∧ 0 < 64 ∧
    64 % (8 * exampleLib.mBanks * max 1 (exampleLib.mPipeInterleaveBytes / (8 * 32))) = 0 ∧
    0 < 32 ∧ 32 % (8 * exampleLib.mPipes) = 0 ∧ 45 < 64 ∧ 22 < 32 ∧
    ∃ addr, ComputeSurfaceAddrFromCoordMacroTiled exampleLib 45 22 0 0 32 64 32 1
        ADDR_TM_2D_TILED_THIN1 false 0 0 0 0 = some (addr, 0) ∧
      addr + 32 / 8 ≤ 64 * 32 * 32 / 8 :=
  ⟨by decide, by decide, by decide, by decide, by decide, by decide, by decide, by decide,
    by decide, by decide,
    C27_macro_tiled_address_inside_slice exampleLib (by decide) 45 22 32 64 32 0 0 0 0
      (by decide) (by decide) (by decide) (by decide) (by decide) (by decide) (by decide)
      (by decide) (by decide)⟩

theorem xor_mod_two_pow (a b n : Nat) : (a ^^^ b) % 2 ^ n = (a % 2 ^ n) ^^^ (b % 2 ^ n) := by
  apply Nat.eq_of_testBit_eq
  intro i
  simp only [Nat.testBit_mod_two_pow, Nat.testBit_xor]
  cases decide (i < n) <;> simp

/-- XOR with a constant, reduced modulo a power of two, separates values below that power. -/
theorem xor_mod_inj (n v v' C : Nat) (hv : v < 2 ^ n) (hv' : v' < 2 ^ n)
    (h : (v ^^^ C) % 2 ^ n = (v' ^^^ C) % 2 ^ n) : v = v' := by
  rw [xor_mod_two_pow, xor_mod_two_pow, Nat.mod_eq_of_lt hv, Nat.mod_eq_of_lt hv'] at h
  exact Nat.xor_left_injective h

/-- The four fields of an address determine it. -/
theorem fields_unique (G P B A A' pipe pipe' bank bank' r r' : Nat)
    (hr : r < G) (hr' : r' < G) (hpipe : pipe < P) (hpipe' : pipe' < P)
    (hbank : bank < B) (hbank' : bank' < B)
    (h : G * (P * B) * A + (G * P * bank + (G * pipe + r)) =
      G * (P * B) * A' + (G * P * bank' + (G * pipe' + r'))) :
    A = A' ∧ bank = bank' ∧ pipe = pipe' ∧ r = r' := by
  have e : ∀ a bk pp s : Nat, G * (P * B) * a + (G * P * bk + (G * pp + s)) =
      s + (pp + (bk + a * B) * P) * G := by
    intro a bk pp s
    ring
  rw [e, e] at h
  obtain ⟨h1, h2⟩ := tile_index_inj _ _ _ _ G hr hr' h
  obtain ⟨h3, h4⟩ := tile_index_inj _ _ _ _ P hpipe hpipe' h2
  obtain ⟨h5, h6⟩ := tile_index_inj _ _ _ _ B hbank hbank' h4
  exact ⟨h6, h5, h3, h1⟩

/-- C26 (amended): for a valid geometry, `2D_TILED_THIN1`, a colour surface with one sample,
bpp 8, 16, 32, 64 or 128, in-range swizzles, pitch a positive multiple of `8 * banks`, height
a positive multiple of `8 * pipes`, and a slice of at most `2 ^ 64` bytes
(`pitch * height * (bpp / 8) ≤ 2 ^ 64`): for every slice, two pixels with `x < pitch` and
`y < height` both get an address (with bit position 0), and equal addresses only when they
are the same pixel. -/
theorem C26_macro_tiled_injective (lib : R600AddrLib) (hv : lib.ValidConfig)
    (slice bpp pitch height tileBase compBits pipeSwizzle bankSwizzle : Nat)
    (hbpp : bpp = 8 ∨ bpp = 16 ∨ bpp = 32 ∨ bpp = 64 ∨ bpp = 128)
    (_hps : pipeSwizzle < lib.mPipes) (_hbs : bankSwizzle < lib.mBanks)
    (_hpitch : 0 < pitch) (hpa : pitch % (8 * lib.mBanks) = 0)
    (_hheight : 0 < height) (hha : height % (8 * lib.mPipes) = 0)
    (hfit : pitch * height * (bpp / 8) ≤ 2 ^ 64)
    (x y x' y' : Nat) (hx : x < pitch) (hy : y < height) (hx' : x' < pitch)
    (hy' : y' < height) :
    ∃ addr addr',
      ComputeSurfaceAddrFromCoordMacroTiled lib x y slice 0 bpp pitch height 1
        ADDR_TM_2D_TILED_THIN1 false tileBase compBits pipeSwizzle bankSwizzle =
        some (addr, 0) ∧
      ComputeSurfaceAddrFromCoordMacroTiled lib x' y' slice 0 bpp pitch height 1
        ADDR_TM_2D_TILED_THIN1 false tileBase compBits pipeSwizzle bankSwizzle =
        some (addr', 0) ∧
      (addr = addr' → x = x' ∧ y = y') := by
  obtain ⟨C, hparts⟩ := MacroTiledParts_thin1 lib hv slice bpp pitch height tileBase compBits
    pipeSwizzle bankSwizzle hbpp
  obtain ⟨hP1, hP8, hB4, hB8, hPB4, hPB64⟩ := pipes_banks_bounds lib hv
  obtain ⟨hb0, hb8, hb16, -, -, -, -⟩ := thin1_size_facts lib hv bpp hbpp
  obtain ⟨hG2, hP2, hB2, -⟩ := Log2_valid lib hv
  have hGpos : 0 < lib.mPipeInterleaveBytes := by
    rcases hv.2.2.1 with h | h <;> omega
  have hPBpos : 0 < lib.mPipes * lib.mBanks := by omega
  have hPB2 : lib.mPipes * lib.mBanks = 2 ^ (Log2 lib.mPipes + Log2 lib.mBanks) := by
    rw [Nat.pow_add, hP2, hB2]
  have h64 : (2 : Nat) ^ 64 = lib.mPipes * lib.mBanks * (2 ^ 64 / (lib.mPipes * lib.mBanks)) := by
    rw [Nat.mul_div_cancel']
    rw [hPB2]
    exact Nat.pow_dvd_pow 2 (by
      have := (Log2_valid lib hv).2.2.2
      omega)
  generalize hL : 2 ^ 64 / (lib.mPipes * lib.mBanks) = L at h64
  -- the surface in macro tiles
  obtain ⟨pw, hpw⟩ : ∃ pw, pitch = 8 * lib.mBanks * pw := Nat.dvd_of_mod_eq_zero hpa
  obtain ⟨ph, hph⟩ : ∃ ph, height = 8 * lib.mPipes * ph := Nat.dvd_of_mod_eq_zero hha
  have hpwd : pitch / (8 * lib.mBanks) = pw := by
    rw [hpw, Nat.mul_div_cancel_left _ (by omega : 0 < 8 * lib.mBanks)]
  have hfitL : 8 * bpp * (pw * ph) ≤ L := by
    rw [← hL, Nat.le_div_iff_mul_le hPBpos]
    have e1 : pitch * height * (bpp / 8) =
        8 * (8 * (bpp / 8)) * (pw * ph) * (lib.mPipes * lib.mBanks) := by
      rw [hpw, hph]
      ring
    rw [hb8] at e1
    omega
  -- what the two pixels have in common
  have key : ∀ u v, u < pitch → v < height →
      ∃ p, ComputeSurfaceAddrFromCoordMacroTiledParts lib u v slice 0 bpp pitch height 1
          ADDR_TM_2D_TILED_THIN1 false tileBase compBits pipeSwizzle bankSwizzle = some p ∧
        p.bitPosition = 0 ∧ p.pipe < lib.mPipes ∧ p.bank < lib.mBanks ∧
        u / (8 * lib.mBanks) < pw ∧
        p.pipe + lib.mPipes * p.bank =
          ((ComputePipeFromCoordWoRotation lib u v +
            lib.mPipes * ComputeBankFromCoordWoRotation lib u v) ^^^ C) %
            (lib.mPipes * lib.mBanks) ∧
        bpp / 8 * ComputePixelIndexWithinMicroTile u v slice bpp ADDR_TM_2D_TILED_THIN1
            ADDR_DISPLAYABLE +
          (u / (8 * lib.mBanks) + v / (8 * lib.mPipes) * pw) * (8 * bpp) < L ∧
        ∃ σ, p.totalOffset lib % L =
          (bpp / 8 * ComputePixelIndexWithinMicroTile u v slice bpp ADDR_TM_2D_TILED_THIN1
            ADDR_DISPLAYABLE +
            (u / (8 * lib.mBanks) + v / (8 * lib.mPipes) * pw) * (8 * bpp) + σ) % L ∧
          σ = u64 (BITS_TO_BYTES64 (u64 (u32 (pitch * height) * bpp)) * u64 slice) /
            (lib.mPipes * lib.mBanks) := by
    intro u v hu hv'
    have hpi := (pixelIndex_thin u v slice 0 0 0 bpp ADDR_TM_2D_TILED_THIN1 ADDR_DISPLAYABLE
      (by decide) rfl).1
    have hU : u / (8 * lib.mBanks) < pw := by
      rw [Nat.div_lt_iff_lt_mul (by omega : 0 < 8 * lib.mBanks)]
      have e : pw * (8 * lib.mBanks) = 8 * lib.mBanks * pw := by ring
      omega
    have hV : v / (8 * lib.mPipes) < ph := by
      rw [Nat.div_lt_iff_lt_mul (by omega : 0 < 8 * lib.mPipes)]
      have e : ph * (8 * lib.mPipes) = 8 * lib.mPipes * ph := by ring
      omega
    have hM := tile_index_lt _ _ _ _ hU hV
    refine ⟨_, hparts u v, rfl, Nat.mod_lt _ hP1, (Nat.div_lt_iff_lt_mul hP1).2
      (by rw [Nat.mul_comm lib.mBanks]; exact Nat.mod_lt _ hPBpos), hU,
      Nat.mod_add_div _ _, ?_, ?_⟩
    · generalize ComputePixelIndexWithinMicroTile u v slice bpp ADDR_TM_2D_TILED_THIN1
        ADDR_DISPLAYABLE = pi at *
      generalize u / (8 * lib.mBanks) + v / (8 * lib.mPipes) * pw = M at *
      have h1 : 8 * bpp * (M + 1) ≤ 8 * bpp * (pw * ph) :=
        Nat.mul_le_mul_left _ (by rw [Nat.mul_comm pw]; exact hM)
      have h2 : 8 * bpp * (M + 1) = M * (8 * bpp) + 8 * bpp := by ring
      have h3 : bpp / 8 * pi ≤ bpp / 8 * 63 := Nat.mul_le_mul_left _ (by omega)
      omega
    · refine ⟨_, ?_, rfl⟩
      have hesmall : bpp / 8 * ComputePixelIndexWithinMicroTile u v slice bpp
          ADDR_TM_2D_TILED_THIN1 ADDR_DISPLAYABLE ≤ 16 * 64 :=
        Nat.mul_le_mul hb16 (by omega)
      rw [MacroTiledParts_totalOffset lib hv _ (by
        show bpp / 8 * ComputePixelIndexWithinMicroTile u v slice bpp
          ADDR_TM_2D_TILED_THIN1 ADDR_DISPLAYABLE < 2 ^ 63
        omega)]
      show (bpp / 8 * ComputePixelIndexWithinMicroTile u v slice bpp ADDR_TM_2D_TILED_THIN1
          ADDR_DISPLAYABLE +
        u64 (u64 (8 * bpp * (lib.mPipes * lib.mBanks) *
            (u / (8 * lib.mBanks) + pitch / (8 * lib.mBanks) * (v / (8 * lib.mPipes)))) +
          u64 (BITS_TO_BYTES64 (u64 (u32 (pitch * height) * bpp)) * u64 slice)) /
          (lib.mPipes * lib.mBanks)) % L = _
      rw [hpwd]
      generalize u64 (BITS_TO_BYTES64 (u64 (u32 (pitch * height) * bpp)) * u64 slice) = S
      generalize bpp / 8 * ComputePixelIndexWithinMicroTile u v slice bpp
        ADDR_TM_2D_TILED_THIN1 ADDR_DISPLAYABLE = e
      have eM : 8 * bpp * (lib.mPipes * lib.mBanks) *
          (u / (8 * lib.mBanks) + pw * (v / (8 * lib.mPipes))) =
          lib.mPipes * lib.mBanks *
            ((u / (8 * lib.mBanks) + v / (8 * lib.mPipes) * pw) * (8 * bpp)) := by ring
      rw [eM]
      generalize (u / (8 * lib.mBanks) + v / (8 * lib.mPipes) * pw) * (8 * bpp) = W
      have e1 : u64 (u64 (lib.mPipes * lib.mBanks * W) + S) / (lib.mPipes * lib.mBanks) =
          (W + S / (lib.mPipes * lib.mBanks)) % L := by
        unfold u64
        rw [Nat.mod_add_mod, h64, Nat.mod_mul_right_div_self, Nat.mul_add_div hPBpos]
      rw [e1, Nat.add_mod_mod, Nat.add_assoc]
  obtain ⟨p, hp, hbit, hpipe, hbank, hX, hbp, hlt, σ, hT, hσ⟩ := key x y hx hy
  obtain ⟨p', hp', hbit', hpipe', hbank', hX', hbp', hlt', σ', hT', hσ'⟩ := key x' y' hx' hy'
  refine ⟨p.offset lib, p'.offset lib, ?_, ?_, fun h => ?_⟩
  · unfold ComputeSurfaceAddrFromCoordMacroTiled
    rw [hp, ← hbit]
    rfl
  · unfold ComputeSurfaceAddrFromCoordMacroTiled
    rw [hp', ← hbit']
    rfl
  · obtain ⟨A, -, hoff, hmodT⟩ := MacroTiledParts_offset_fields lib hv p hpipe hbank
    obtain ⟨A', -, hoff', hmodT'⟩ := MacroTiledParts_offset_fields lib hv p' hpipe' hbank'
    rw [hoff, hoff'] at h
    obtain ⟨hAA, hbb, hpp, hrr⟩ := fields_unique _ _ _ _ _ _ _ _ _ _ _
      (Nat.mod_lt _ hGpos) (Nat.mod_lt _ hGpos) hpipe hpipe' hbank hbank' h
    -- the total offsets agree modulo `2 ^ 64 / (pipes * banks)`
    rw [hL] at hmodT hmodT'
    have hTT : p.totalOffset lib % L = p'.totalOffset lib % L := by
      rw [hmodT, hmodT', hAA, hrr]
    rw [hT, hT', hσ, ← hσ'] at hTT
    have hcancel := Nat.ModEq.add_right_cancel' σ' hTT
    have heq := Nat.ModEq.eq_of_lt_of_lt hcancel hlt hlt'
    have hk : bpp / 8 * ComputePixelIndexWithinMicroTile x y slice bpp ADDR_TM_2D_TILED_THIN1
        ADDR_DISPLAYABLE < 8 * bpp := by
      have hpi := (pixelIndex_thin x y slice 0 0 0 bpp ADDR_TM_2D_TILED_THIN1
        ADDR_DISPLAYABLE (by decide) rfl).1
      have h3 : bpp / 8 * ComputePixelIndexWithinMicroTile x y slice bpp
          ADDR_TM_2D_TILED_THIN1 ADDR_DISPLAYABLE ≤ bpp / 8 * 63 :=
        Nat.mul_le_mul_left _ (by omega)
      omega
    have hk' : bpp / 8 * ComputePixelIndexWithinMicroTile x' y' slice bpp
        ADDR_TM_2D_TILED_THIN1 ADDR_DISPLAYABLE < 8 * bpp := by
      have hpi := (pixelIndex_thin x' y' slice 0 0 0 bpp ADDR_TM_2D_TILED_THIN1
        ADDR_DISPLAYABLE (by decide) rfl).1
      have h3 : bpp / 8 * ComputePixelIndexWithinMicroTile x' y' slice bpp
          ADDR_TM_2D_TILED_THIN1 ADDR_DISPLAYABLE ≤ bpp / 8 * 63 :=
        Nat.mul_le_mul_left _ (by omega)
      omega
    obtain ⟨hee, hMM⟩ := tile_index_inj _ _ _ _ _ hk hk' heq
    obtain ⟨hXX, hYY⟩ := tile_index_inj _ _ _ _ _ hX hX' hMM
    have hpie := Nat.eq_of_mul_eq_mul_left hb0 hee
    obtain ⟨hx8, hy8⟩ := (pixelIndex_thin x y slice x' y' slice bpp ADDR_TM_2D_TILED_THIN1
      ADDR_DISPLAYABLE (by decide) rfl).2 hpie
    -- the pipe and the bank of the two coordinates agree
    obtain ⟨hr1, hr2⟩ := pipe_bank_range lib hv.1 hv.2.1 x y
    obtain ⟨hr1', hr2'⟩ := pipe_bank_range lib hv.1 hv.2.1 x' y'
    have hvv : ComputePipeFromCoordWoRotation lib x y +
        lib.mPipes * ComputeBankFromCoordWoRotation lib x y =
        ComputePipeFromCoordWoRotation lib x' y' +
          lib.mPipes * ComputeBankFromCoordWoRotation lib x' y' := by
      have hb1 : ∀ a c, a < lib.mPipes → c < lib.mBanks →
          a + lib.mPipes * c < 2 ^ (Log2 lib.mPipes + Log2 lib.mBanks) := by
        intro a c ha hc
        rw [← hPB2]
        have := tile_index_lt a c lib.mPipes lib.mBanks ha hc
        rw [Nat.mul_comm lib.mPipes c, Nat.mul_comm lib.mPipes lib.mBanks]
        omega
      apply xor_mod_inj (Log2 lib.mPipes + Log2 lib.mBanks) _ _ C (hb1 _ _ hr1 hr2)
        (hb1 _ _ hr1' hr2')
      rw [← hPB2, ← hbp, ← hbp', hpp, hbb]
    rw [Nat.mul_comm lib.mPipes, Nat.mul_comm lib.mPipes] at hvv
    obtain ⟨hpe, hbe⟩ := tile_index_inj _ _ _ _ _ hr1 hr1' hvv
    have hXX' : x / (8 * lib.mBanks) = x' / (8 * lib.mBanks) := hXX
    have hYY' : y / (8 * lib.mPipes) = y' / (8 * lib.mPipes) := hYY
    obtain ⟨hx3, hy3⟩ := pipe_bank_injective lib hv.1 hv.2.1 x y x' y' hXX' hYY' hpe hbe
    constructor <;> omega

theorem C26_macro_tiled_injective_witness :
    exampleLib.ValidConfig ∧
    ((32 : Nat) = 8 ∨ (32 : Nat) = 16 ∨ (32 : Nat) = 32 ∨ (32 : Nat) = 64 ∨
      (32 : Nat) = 128) ∧
    0 < exampleLib.mPipes ∧ 0 < exampleLib.mBanks ∧
    0 < 64 ∧ 64 % (8 * exampleLib.mBanks) = 0 ∧ 0 < 32 ∧ 32 % (8 * exampleLib.mPipes) = 0 ∧
    64 * 32 * (32 / 8) ≤ 2 ^ 64 ∧ 45 < 64 ∧ 22 < 32 ∧ 13 < 64 ∧ 6 < 32 ∧
    ∃ addr addr',
      ComputeSurfaceAddrFromCoordMacroTiled exampleLib 45 22 1 0 32 64 32 1
        ADDR_TM_2D_TILED_THIN1 false 0 0 0 0 = some (addr, 0) ∧
      ComputeSurfaceAddrFromCoordMacroTiled exampleLib 13 6 1 0 32 64 32 1
        ADDR_TM_2D_TILED_THIN1 false 0 0 0 0 = some (addr', 0) ∧
      (addr = addr' → 45 = 13 ∧ 22 = 6) :=
  ⟨by decide, by decide, by decide, by decide, by decide, by decide, by decide, by decide,
    by decide, by decide, by decide, by decide, by decide,
    C26_macro_tiled_injective exampleLib (by decide) 1 32 64 32 0 0 0 0 (by decide)
      (by decide) (by decide) (by decide) (by decide) (by decide) (by decide) (by decide)
      45 22 13 6 (by decide) (by decide) (by decide) (by decide)⟩

/-- C26 as stated fails when a slice is larger than `2 ^ 64` bytes: with one pipe, four banks,
128 bits per pixel, pitch `2 ^ 30` and height `2 ^ 30 + 8`, the macro-tile offset of row
`2 ^ 30` is `2 ^ 64`, which wraps to 0, and the pixels `(0, 0)` and `(0, 2 ^ 30)` of slice 0
both get address 0. -/
theorem C26_addresses_collide_past_64_bits :
    exampleLibOnePipe.ValidConfig ∧
    0 < exampleLibOnePipe.mPipes ∧ 0 < exampleLibOnePipe.mBanks ∧
    0 < 2 ^ 30 ∧ 2 ^ 30 % (8 * exampleLibOnePipe.mBanks) = 0 ∧
    0 < 2 ^ 30 + 8 ∧ (2 ^ 30 + 8) % (8 * exampleLibOnePipe.mPipes) = 0 ∧
    0 < 2 ^ 30 ∧ 2 ^ 30 < 2 ^ 30 + 8 ∧
    ComputeSurfaceAddrFromCoordMacroTiled exampleLibOnePipe 0 0 0 0 128 (2 ^ 30) (2 ^ 30 + 8) 1
      ADDR_TM_2D_TILED_THIN1 false 0 0 0 0 = some (0, 0) ∧
    ComputeSurfaceAddrFromCoordMacroTiled exampleLibOnePipe 0 (2 ^ 30) 0 0 128 (2 ^ 30)
      (2 ^ 30 + 8) 1 ADDR_TM_2D_TILED_THIN1 false 0 0 0 0 = some (0, 0) ∧
    (0 : Nat) ≠ 2 ^ 30 ∧ ¬ (2 ^ 30 * (2 ^ 30 + 8) * (128 / 8) ≤ 2 ^ 64) := by
  decide

/-! ## `NextPow2` -/

/-- The loop of `NextPow2` started at `2 ^ i`, with every smaller power below `dim` and enough
fuel to reach `2 ^ 31`: it stops at the least `2 ^ k` with `dim ≤ 2 ^ k`. -/
theorem NextPow2Loop_least (dim : Nat) (hd : dim ≤ 2 ^ 31) :
    ∀ (fuel i : Nat), i ≤ 31 → 31 ≤ i + fuel → (i = 0 ∨ 2 ^ (i - 1) < dim) →
      ∃ k, k ≤ 31 ∧ NextPow2Loop fuel dim (2 ^ i) = 2 ^ k ∧ dim ≤ 2 ^ k ∧
        (k = 0 ∨ 2 ^ (k - 1) < dim) := by
  intro fuel
  induction fuel with
  | zero =>
    intro i hi h31 _
    have : i = 31 := by omega
    subst this
    exact ⟨31, Nat.le_refl _, rfl, hd, Or.inr (by
      rcases ‹(31 = 0 ∨ 2 ^ (31 - 1) < dim)› with h | h
      · omega
      · exact h)⟩
  | succ n ih =>
    intro i hi h31 hlow
    unfold NextPow2Loop
    split_ifs with h
    · have hlt : i < 31 := by
        by_contra hc
        have : i = 31 := by omega
        subst this
        omega
      have e : u32 (2 ^ i <<< 1) = 2 ^ (i + 1) := by
        rw [Nat.shiftLeft_eq, ← Nat.pow_succ]
        apply u32_of_lt
        exact Nat.pow_lt_pow_right (by norm_num) (by omega)
      rw [e]
      exact ih (i + 1) (by omega) (by omega) (Or.inr h)
    · exact ⟨i, hi, rfl, by omega, hlow⟩

theorem pow_le_of_least (k j dim : Nat) (hk : k = 0 ∨ 2 ^ (k - 1) < dim) (hj : dim ≤ 2 ^ j) :
    2 ^ k ≤ 2 ^ j := by
  apply Nat.pow_le_pow_right (by norm_num)
  rcases hk with h | h
  · omega
  · have : 2 ^ (k - 1) < 2 ^ j := by omega
    have := (Nat.pow_lt_pow_iff_right (by norm_num : 1 < 2)).1 this
    omega

/-- `NextPow2` of a value up to `2 ^ 31` is the least power of two that is not below it. -/
theorem NextPow2_least (dim : Nat) (hd : dim ≤ 2 ^ 31) :
    ∃ k, k ≤ 31 ∧ NextPow2 dim = 2 ^ k ∧ dim ≤ 2 ^ k ∧ (k = 0 ∨ 2 ^ (k - 1) < dim) := by
  unfold NextPow2
  split_ifs with h
  · exact ⟨31, Nat.le_refl _, rfl, hd, Or.inr (by omega)⟩
  · exact NextPow2Loop_least dim hd 32 0 (by omega) (by omega) (Or.inl rfl)

/-- C39: `NextPow2 d` is a power of two `2 ^ k` with `k ≤ 31`; for `1 ≤ d ≤ 2 ^ 31` it is the
least power of two that is at least `d`; it is 1 for `d = 0` and `2 ^ 31` for `d > 2 ^ 31`;
hence `NextPow2 d ≥ d` for `d ≤ 2 ^ 31`, and `NextPow2` is idempotent. The loop ends: for
`d ≤ 0x7fffffff` it has left the condition `newDim < dim` within 31 rounds, and any number
of further rounds returns the same value. -/
theorem C39_next_pow2 (d : Nat) :
    (∃ k, k ≤ 31 ∧ NextPow2 d = 2 ^ k) ∧
    (1 ≤ d → d ≤ 2 ^ 31 → d ≤ NextPow2 d ∧ ∀ j, d ≤ 2 ^ j → NextPow2 d ≤ 2 ^ j) ∧
    (d = 0 → NextPow2 d = 1) ∧
    (2 ^ 31 < d → NextPow2 d = 2 ^ 31) ∧
    (d ≤ 2 ^ 31 → d ≤ NextPow2 d) ∧
    NextPow2 (NextPow2 d) = NextPow2 d ∧
    (d ≤ 0x7fffffff → ∀ fuel, 31 ≤ fuel →
      NextPow2Loop fuel d 1 = NextPow2 d ∧ ¬ (NextPow2Loop fuel d 1 < d)) := by
  have hbig : 2 ^ 31 < d → NextPow2 d = 2 ^ 31 := by
    intro h
    unfold NextPow2
    rw [if_pos (by omega)]
    rfl
  have hpow : ∃ k, k ≤ 31 ∧ NextPow2 d = 2 ^ k := by
    by_cases h : d ≤ 2 ^ 31
    · obtain ⟨k, hk, e, -, -⟩ := NextPow2_least d h
      exact ⟨k, hk, e⟩
    · exact ⟨31, Nat.le_refl _, hbig (by omega)⟩
  refine ⟨hpow, ?_, ?_, hbig, fun h => NextPow2_ge d h, ?_, ?_⟩
  · intro _ h
    obtain ⟨k, -, e, hge, hlow⟩ := NextPow2_least d h
    rw [e]
    exact ⟨hge, fun j hj => pow_le_of_least k j d hlow hj⟩
  · intro h
    subst h
    decide
  · obtain ⟨k, hk, e⟩ := hpow
    rw [e]
    have h31 : 2 ^ k ≤ 2 ^ 31 := Nat.pow_le_pow_right (by norm_num) hk
    obtain ⟨k', -, e', hge, hlow⟩ := NextPow2_least (2 ^ k) h31
    rw [e']
    exact Nat.le_antisymm (pow_le_of_least k' k _ hlow (Nat.le_refl _)) hge
  · intro h fuel hf
    have hd : d ≤ 2 ^ 31 := by omega
    obtain ⟨k, -, e, hge, hlow⟩ := NextPow2_least d hd
    obtain ⟨k', -, e', hge', hlow'⟩ :=
      NextPow2Loop_least d hd fuel 0 (by omega) (by omega) (Or.inl rfl)
    rw [Nat.pow_zero] at e'
    rw [e, e']
    exact ⟨Nat.le_antisymm (pow_le_of_least k' k d hlow' hge) (pow_le_of_least k k' d hlow hge'),
      by omega⟩

/-! ## The format table -/

/-- Codes from 64 on take the default branch of `GetBitsPerPixel`. -/
theorem GetBitsPerPixel_default (format : Nat) (h : 64 ≤ format) :
    GetBitsPerPixel format = (0, ADDR_UNCOMPRESSED, 1, 1, 0) := by
  unfold GetBitsPerPixel
  split <;> first | rfl | omega

/-- The format table of `GetBitsPerPixel`, entry by entry. -/
theorem GetBitsPerPixel_table (f : Nat) :
    ((GetBitsPerPixel f).2.2.1, (GetBitsPerPixel f).2.2.2.1) = expansionSpec f ∧
    ((GetBitsPerPixel f).2.2.2.2 = if f = ADDR_FMT_X24_8_32_FLOAT then 24 else 0) ∧
    (f ∈ [ADDR_FMT_8_8_8, ADDR_FMT_16_16_16, ADDR_FMT_16_16_16_FLOAT, ADDR_FMT_32_32_32,
      ADDR_FMT_32_32_32_FLOAT] → (GetBitsPerPixel f).1 % 3 = 0) ∧
    (IsBlockCompressed f = true →
      (GetBitsPerPixel f).1 = (if f = ADDR_FMT_BC1 ∨ f = ADDR_FMT_BC4 then 64 else 128) ∧
      (((GetBitsPerPixel f).2.1 = ADDR_PACKED_BC1 ∨ (GetBitsPerPixel f).2.1 = ADDR_PACKED_BC4) ∧
          (GetBitsPerPixel f).1 = 64 ∨
        ((GetBitsPerPixel f).2.1 = ADDR_PACKED_BC2 ∨ (GetBitsPerPixel f).2.1 = ADDR_PACKED_BC3 ∨
          (GetBitsPerPixel f).2.1 = ADDR_PACKED_BC5) ∧ (GetBitsPerPixel f).1 = 128)) := by
  by_cases h : f < 64
  · interval_cases f <;> decide
  · have e := GetBitsPerPixel_default f (by omega)
    have hbc : IsBlockCompressed f = false := by
      unfold IsBlockCompressed ADDR_FMT_BC1 ADDR_FMT_BC7
      exact decide_eq_false (by omega)
    have h1 : f ∉ [ADDR_FMT_8_8_8, ADDR_FMT_16_16_16, ADDR_FMT_16_16_16_FLOAT,
        ADDR_FMT_32_32_32, ADDR_FMT_32_32_32_FLOAT] := by
      simp only [ADDR_FMT_8_8_8, ADDR_FMT_16_16_16, ADDR_FMT_16_16_16_FLOAT, ADDR_FMT_32_32_32,
        ADDR_FMT_32_32_32_FLOAT, List.mem_cons, List.mem_singleton, List.not_mem_nil, or_false]
      omega
    have h2 : f ∉ [ADDR_FMT_1, ADDR_FMT_1_REVERSED] := by
      simp only [ADDR_FMT_1, ADDR_FMT_1_REVERSED, List.mem_cons, List.mem_singleton,
        List.not_mem_nil, or_false]
      omega
    have h3 : f ≠ ADDR_FMT_X24_8_32_FLOAT := by
      unfold ADDR_FMT_X24_8_32_FLOAT
      omega
    unfold expansionSpec
    rw [e, hbc, if_neg h1, if_neg h2, if_neg h3]
    exact ⟨rfl, rfl, fun hc => absurd hc h1, fun hc => absurd hc (by decide)⟩

/-- Two spec-side expansion values decide the class of the format. -/
theorem expansionSpec_iff (f : Nat) :
    (expansionSpec f = (4, 4) ↔ IsBlockCompressed f = true) ∧
    (expansionSpec f = (3, 1) ↔ f ∈ [ADDR_FMT_8_8_8, ADDR_FMT_16_16_16,
      ADDR_FMT_16_16_16_FLOAT, ADDR_FMT_32_32_32, ADDR_FMT_32_32_32_FLOAT]) ∧
    (expansionSpec f = (8, 1) ↔ f ∈ [ADDR_FMT_1, ADDR_FMT_1_REVERSED]) := by
  by_cases hbc : IsBlockCompressed f = true
  · have hr : 0x31 ≤ f ∧ f ≤ 0x37 := by
      unfold IsBlockCompressed ADDR_FMT_BC1 ADDR_FMT_BC7 at hbc
      exact of_decide_eq_true hbc
    have h1 : f ∉ [ADDR_FMT_8_8_8, ADDR_FMT_16_16_16, ADDR_FMT_16_16_16_FLOAT,
        ADDR_FMT_32_32_32, ADDR_FMT_32_32_32_FLOAT] := by
      simp only [ADDR_FMT_8_8_8, ADDR_FMT_16_16_16, ADDR_FMT_16_16_16_FLOAT, ADDR_FMT_32_32_32,
        ADDR_FMT_32_32_32_FLOAT, List.mem_cons, List.mem_singleton, List.not_mem_nil, or_false]
      omega
    have h2 : f ∉ [ADDR_FMT_1, ADDR_FMT_1_REVERSED] := by
      simp only [ADDR_FMT_1, ADDR_FMT_1_REVERSED, List.mem_cons, List.mem_singleton,
        List.not_mem_nil, or_false]
      omega
    unfold expansionSpec
    rw [if_pos hbc]
    exact ⟨⟨fun _ => hbc, fun _ => rfl⟩, ⟨fun h => absurd h (by decide), fun h => absurd h h1⟩,
      ⟨fun h => absurd h (by decide), fun h => absurd h h2⟩⟩
  · by_cases h1 : f ∈ [ADDR_FMT_8_8_8, ADDR_FMT_16_16_16, ADDR_FMT_16_16_16_FLOAT,
        ADDR_FMT_32_32_32, ADDR_FMT_32_32_32_FLOAT]
    · have h2 : f ∉ [ADDR_FMT_1, ADDR_FMT_1_REVERSED] := by
        simp only [ADDR_FMT_8_8_8, ADDR_FMT_16_16_16, ADDR_FMT_16_16_16_FLOAT,
          ADDR_FMT_32_32_32, ADDR_FMT_32_32_32_FLOAT, ADDR_FMT_1, ADDR_FMT_1_REVERSED,
          List.mem_cons, List.mem_singleton, List.not_mem_nil, or_false] at h1 ⊢
        omega
      unfold expansionSpec
      rw [if_neg hbc, if_pos h1]
      exact ⟨⟨fun h => absurd h (by decide), fun h => absurd h hbc⟩, ⟨fun _ => h1, fun _ => rfl⟩,
        ⟨fun h => absurd h (by decide), fun h => absurd h h2⟩⟩
    · by_cases h2 : f ∈ [ADDR_FMT_1, ADDR_FMT_1_REVERSED]
      · unfold expansionSpec
        rw [if_neg hbc, if_neg h1, if_pos h2]
        exact ⟨⟨fun h => absurd h (by decide), fun h => absurd h hbc⟩,
          ⟨fun h => absurd h (by decide), fun h => absurd h h1⟩, ⟨fun _ => h2, fun _ => rfl⟩⟩
      · unfold expansionSpec
        rw [if_neg hbc, if_neg h1, if_neg h2]
        exact ⟨⟨fun h => absurd h (by decide), fun h => absurd h hbc⟩,
          ⟨fun h => absurd h (by decide), fun h => absurd h h1⟩,
          ⟨fun h => absurd h (by decide), fun h => absurd h h2⟩⟩

/-- C40: for every format code, the expansion factors of `GetBitsPerPixel` are (4, 4) exactly
for the block-compressed formats (BC1 .. BC7), (3, 1) exactly for `8_8_8`, `16_16_16`,
`16_16_16_FLOAT`, `32_32_32`, `32_32_32_FLOAT`, (8, 1) exactly for `ADDR_FMT_1` and
`ADDR_FMT_1_REVERSED`, and (1, 1) otherwise; `unusedBits` is 24 for `X24_8_32_FLOAT` and 0
otherwise; the (3, 1) formats have a bpp divisible by 3; a block-compressed format has bpp 64
(BC1, BC4) or 128 (the others), and `AdjustSurfaceInfo` returns that same bpp for its element
mode whatever bpp it is given. -/
theorem C40_bits_per_pixel_table (f : Nat) :
    ((((GetBitsPerPixel f).2.2.1, (GetBitsPerPixel f).2.2.2.1) = (4, 4)) ↔
      IsBlockCompressed f = true) ∧
    ((((GetBitsPerPixel f).2.2.1, (GetBitsPerPixel f).2.2.2.1) = (3, 1)) ↔
      f ∈ [ADDR_FMT_8_8_8, ADDR_FMT_16_16_16, ADDR_FMT_16_16_16_FLOAT, ADDR_FMT_32_32_32,
        ADDR_FMT_32_32_32_FLOAT]) ∧
    ((((GetBitsPerPixel f).2.2.1, (GetBitsPerPixel f).2.2.2.1) = (8, 1)) ↔
      f ∈ [ADDR_FMT_1, ADDR_FMT_1_REVERSED]) ∧
    (((GetBitsPerPixel f).2.2.1, (GetBitsPerPixel f).2.2.2.1) = expansionSpec f) ∧
    ((GetBitsPerPixel f).2.2.2.2 = if f = ADDR_FMT_X24_8_32_FLOAT then 24 else 0) ∧
    (f ∈ [ADDR_FMT_8_8_8, ADDR_FMT_16_16_16, ADDR_FMT_16_16_16_FLOAT, ADDR_FMT_32_32_32,
      ADDR_FMT_32_32_32_FLOAT] → (GetBitsPerPixel f).1 % 3 = 0) ∧
    (IsBlockCompressed f = true →
      (GetBitsPerPixel f).1 = (if f = ADDR_FMT_BC1 ∨ f = ADDR_FMT_BC4 then 64 else 128) ∧
      ∀ bpp width height,
        (AdjustSurfaceInfo (GetBitsPerPixel f).2.1 (GetBitsPerPixel f).2.2.1
          (GetBitsPerPixel f).2.2.2.1 bpp width height).1 = (GetBitsPerPixel f).1) := by
  obtain ⟨t1, t2, t3, t4⟩ := GetBitsPerPixel_table f
  obtain ⟨s1, s2, s3⟩ := expansionSpec_iff f
  rw [← t1] at s1 s2 s3
  refine ⟨s1, s2, s3, t1, t2, t3, fun hbc => ?_⟩
  obtain ⟨u1, u2⟩ := t4 hbc
  refine ⟨u1, fun bpp width height => ?_⟩
  unfold AdjustSurfaceInfo
  rcases u2 with ⟨hm | hm, hb⟩ | ⟨hm | hm | hm, hb⟩ <;> rw [hm, hb] <;> dsimp only <;>
    split_ifs <;> rfl

/-! ## Tile-mode degradation -/

/-- C33: on every valid hardware configuration, `HwlDegradeThickTileMode` is the table of the
specification for every mode, sample count, tile-slice count and depth flag. -/
theorem C33_degrade_thick_tile_mode (lib : R600AddrLib) (hv : lib.ValidConfig)
    (tileMode : AddrTileMode) (numSamples tileSlices : Nat) (isDepth : Bool) :
    HwlDegradeThickTileMode lib tileMode numSamples tileSlices isDepth =
      degradeThickSpec lib.mPipeInterleaveBytes lib.mSplitSize lib.mConfigFlags.no1DTiledMSAA
        tileMode numSamples tileSlices isDepth := by
  have e2 : u32 (2 * lib.mPipeInterleaveBytes) = 2 * lib.mPipeInterleaveBytes := by
    apply u32_of_lt
    rcases hv.2.2.1 with h | h <;> rw [h] <;> decide
  have e4 : u32 (4 * lib.mPipeInterleaveBytes) = 4 * lib.mPipeInterleaveBytes := by
    apply u32_of_lt
    rcases hv.2.2.1 with h | h <;> rw [h] <;> decide
  unfold HwlDegradeThickTileMode degradeThickSpec
  rw [e2, e4]
  cases tileMode <;> simp only [reduceCtorEq, if_true, if_false, or_false, false_or, or_true,
    true_or, thin1OfFamily, thin2OfFamily]

theorem C33_degrade_thick_tile_mode_witness :
    exampleLib.ValidConfig ∧
    HwlDegradeThickTileMode exampleLib ADDR_TM_1D_TILED_THICK 4 1 false =
      degradeThickSpec exampleLib.mPipeInterleaveBytes exampleLib.mSplitSize
        exampleLib.mConfigFlags.no1DTiledMSAA ADDR_TM_1D_TILED_THICK 4 1 false ∧
    HwlDegradeThickTileMode exampleLib ADDR_TM_1D_TILED_THICK 4 1 false =
      ADDR_TM_2D_TILED_THICK :=
  ⟨by decide, C33_degrade_thick_tile_mode exampleLib (by decide) ADDR_TM_1D_TILED_THICK 4 1
    false, by decide⟩

/-! ## Tile mode of a mip level -/

/-- The rotation step of `ComputeSurfaceMipLevelTileMode` on a valid configuration: with one
pipe every 3D or 3B mode is demoted, with two or more pipes the mode is kept. -/
theorem rotation_step (lib : R600AddrLib) (hv : lib.ValidConfig) (d : AddrTileMode) :
    (if ComputeSurfaceRotationFromTileMode lib d % lib.mPipes = 0 then demote3DSpec d else d) =
      (if lib.mPipes = 1 then demote3DSpec d else d) ∧
    (d ∈ modes3D → (ComputeSurfaceRotationFromTileMode lib d % lib.mPipes = 0 ↔
      lib.mPipes = 1)) := by
  obtain ⟨hp, hb, -⟩ := hv
  rcases hp with h | h | h | h <;> rcases hb with h' | h' <;> cases d <;>
    simp only [ComputeSurfaceRotationFromTileMode, h, h'] <;> decide

theorem NoRecursive_eq (lib : R600AddrLib) (hv : lib.ValidConfig) (base : AddrTileMode)
    (bpp numSamples : Nat) (isDepth : Bool) :
    ComputeSurfaceMipLevelTileModeNoRecursive lib base bpp numSamples isDepth =
      if lib.mPipes = 1 then
        demote3DSpec (HwlDegradeThickTileMode lib base numSamples
          (ComputeSurfaceTileSlices lib base bpp numSamples) isDepth)
      else HwlDegradeThickTileMode lib base numSamples
        (ComputeSurfaceTileSlices lib base bpp numSamples) isDepth := by
  unfold ComputeSurfaceMipLevelTileModeNoRecursive
  dsimp only
  generalize HwlDegradeThickTileMode lib base numSamples
    (ComputeSurfaceTileSlices lib base bpp numSamples) isDepth = d
  rw [← (rotation_step lib hv d).1]
  split_ifs
  · cases d <;> rfl
  · rfl

/-- C34: on every valid hardware configuration and at mip level 0, with `d` the mode that
reaches the rotation step (the degraded base mode): `ComputeSurfaceMipLevelTileMode` returns a
3D or 3B mode only if there are at least two pipes; with one pipe it returns the 2D or 2B
mode of the same thickness for a 3D or 3B `d` (and `d` itself otherwise); with two or more
pipes it returns `d`, so no 3D or 3B mode is demoted; and for a 3D or 3B `d` the rotation is
a multiple of the pipe count exactly when there is one pipe. -/
theorem C34_3d_modes_need_two_pipes (lib : R600AddrLib) (hv : lib.ValidConfig)
    (base : AddrTileMode) (bpp width height numSlices numSamples : Nat)
    (isDepth noRecursive : Bool) :
    (ComputeSurfaceMipLevelTileMode lib base bpp 0 width height numSlices numSamples isDepth
        noRecursive ∈ modes3D → 2 ≤ lib.mPipes) ∧
    (lib.mPipes = 1 →
      ComputeSurfaceMipLevelTileMode lib base bpp 0 width height numSlices numSamples isDepth
          noRecursive =
        demote3DSpec (HwlDegradeThickTileMode lib base numSamples
          (ComputeSurfaceTileSlices lib base bpp numSamples) isDepth)) ∧
    (2 ≤ lib.mPipes →
      ComputeSurfaceMipLevelTileMode lib base bpp 0 width height numSlices numSamples isDepth
          noRecursive =
        HwlDegradeThickTileMode lib base numSamples
          (ComputeSurfaceTileSlices lib base bpp numSamples) isDepth) ∧
    (HwlDegradeThickTileMode lib base numSamples
        (ComputeSurfaceTileSlices lib base bpp numSamples) isDepth ∈ modes3D →
      (ComputeSurfaceRotationFromTileMode lib (HwlDegradeThickTileMode lib base numSamples
        (ComputeSurfaceTileSlices lib base bpp numSamples) isDepth) % lib.mPipes = 0 ↔
        lib.mPipes = 1)) := by
  have hr : ComputeSurfaceMipLevelTileMode lib base bpp 0 width height numSlices numSamples
      isDepth noRecursive =
      ComputeSurfaceMipLevelTileModeNoRecursive lib base bpp numSamples isDepth := by
    unfold ComputeSurfaceMipLevelTileMode
    simp only [or_true, if_true]
  rw [hr, NoRecursive_eq lib hv]
  generalize HwlDegradeThickTileMode lib base numSamples
    (ComputeSurfaceTileSlices lib base bpp numSamples) isDepth = d
  have hp := hv.1
  refine ⟨?_, ?_, ?_, (rotation_step lib hv d).2⟩
  · intro hm
    by_cases h1 : lib.mPipes = 1
    · rw [if_pos h1] at hm
      exfalso
      revert hm
      cases d <;> decide
    · omega
  · intro h1
    rw [if_pos h1]
  · intro h2
    rw [if_neg (by omega)]

theorem C34_3d_modes_need_two_pipes_witness :
    exampleLibOnePipe.ValidConfig ∧
    (exampleLibOnePipe.mPipes = 1 →
      ComputeSurfaceMipLevelTileMode exampleLibOnePipe ADDR_TM_3D_TILED_THICK 32 0 64 64 8 1
          false false =
        demote3DSpec (HwlDegradeThickTileMode exampleLibOnePipe ADDR_TM_3D_TILED_THICK 1
          (ComputeSurfaceTileSlices exampleLibOnePipe ADDR_TM_3D_TILED_THICK 32 1) false)) ∧
    ComputeSurfaceMipLevelTileMode exampleLibOnePipe ADDR_TM_3D_TILED_THICK 32 0 64 64 8 1
      false false = ADDR_TM_2D_TILED_THICK :=
  ⟨by decide,
    (C34_3d_modes_need_two_pipes exampleLibOnePipe (by decide) ADDR_TM_3D_TILED_THICK 32 64 64
      8 1 false false).2.1,
    by decide⟩

/-! ## The nested call of `ComputeSurfaceMipLevelTileMode` -/

theorem BITS_TO_BYTES32_u32_le (x : Nat) : BITS_TO_BYTES32 (u32 x) ≤ 2 ^ 29 := by
  unfold BITS_TO_BYTES32 u32
  omega

/-- The dual-base adjustment leaves an even quotient. -/
theorem dual_adjust_even (pre m : Nat) (hm : 0 < m) (hb : pre + m < 2 ^ 32) :
    (if pre / m % 2 ≠ 0 then u32 (pre + m) else pre) / m % 2 = 0 := by
  split_ifs with h
  · rw [u32_of_lt hb, Nat.add_div_right _ hm]
    omega
  · omega

theorem normalisedBpp_eq (bpp : Nat) :
    (if (if bpp = 96 ∨ bpp = 48 ∨ bpp = 24 then bpp / 3 else bpp) = 3 then 1
      else if bpp = 96 ∨ bpp = 48 ∨ bpp = 24 then bpp / 3 else bpp) = normalisedBppSpec bpp := by
  unfold normalisedBppSpec
  split_ifs <;> omega

/-- C38: on an R6xx instance with a valid configuration, for every macro tile mode from
`2D_TILED_THIN1` to `3B_TILED_THICK`, bpp in 1..128 and 1 to 8 samples,
`macroBytes = ceil (bpp' * macroTileHeight * macroTileWidth / 8)` is positive and the base
alignment of `ComputeSurfaceAlignmentsMacrotiled` has an even quotient
`floor (baseAlign / macroBytes)`; on an R7xx instance `IsDualBaseAlignNeeded` is false for
every tile mode, so the adjustment is never applied. -/
theorem C38_dual_base_align (lib : R600AddrLib) (hv : lib.ValidConfig)
    (tileMode : AddrTileMode) (bpp numSamples : Nat) (flags : ADDR_SURFACE_FLAGS)
    (hm : ADDR_TM_2D_TILED_THIN1.toNat ≤ tileMode.toNat ∧
      tileMode.toNat ≤ ADDR_TM_3B_TILED_THICK.toNat)
    (hbpp : 1 ≤ bpp ∧ bpp ≤ 128) (hns : 1 ≤ numSamples ∧ numSamples ≤ 8) :
    (lib.mChipFamily = ADDR_CHIP_FAMILY_R6XX →
      0 < ceilDiv (normalisedBppSpec bpp *
        (ComputeSurfaceAlignmentsMacrotiled lib tileMode bpp flags numSamples).2.2.2.2 *
        (ComputeSurfaceAlignmentsMacrotiled lib tileMode bpp flags numSamples).2.2.2.1) 8 ∧
      (ComputeSurfaceAlignmentsMacrotiled lib tileMode bpp flags numSamples).1 /
        ceilDiv (normalisedBppSpec bpp *
          (ComputeSurfaceAlignmentsMacrotiled lib tileMode bpp flags numSamples).2.2.2.2 *
          (ComputeSurfaceAlignmentsMacrotiled lib tileMode bpp flags numSamples).2.2.2.1) 8 % 2 =
        0) ∧
    (lib.mChipFamily = ADDR_CHIP_FAMILY_R7XX →
      ∀ mode, IsDualBaseAlignNeeded lib mode = false) := by
  refine ⟨fun hR6 => ?_, fun hR7 mode => ?_⟩
  swap
  · unfold IsDualBaseAlignNeeded
    rw [hR7]
    rfl
  obtain ⟨⟨j, hj6, hj3, hj⟩, ⟨k, hk8, hk⟩⟩ := macroTileDims_facts lib hv tileMode
  obtain ⟨hpipes, hbanks, hgroup, -⟩ := hv
  have hw : u32 (8 * lib.mBanks) / ComputeMacroTileAspectRatio tileMode =
      (macroTileDims lib tileMode).1 := by
    unfold macroTileDims
    rw [u32_of_lt (by omega)]
  have hk256 : (macroTileDims lib tileMode).2 ≤ 2 ^ 8 := by
    rw [hk]
    exact Nat.pow_le_pow_right (by norm_num) hk8
  have hkpos : 0 < (macroTileDims lib tileMode).2 := by
    rw [hk]
    exact Nat.pos_pow_of_pos _ (by norm_num)
  have hh : u32 (ComputeMacroTileAspectRatio tileMode * 8 * lib.mPipes) =
      (macroTileDims lib tileMode).2 := by
    apply u32_of_lt
    have : ComputeMacroTileAspectRatio tileMode * 8 * lib.mPipes =
      (macroTileDims lib tileMode).2 := rfl
    omega
  have hj64 : (macroTileDims lib tileMode).1 ≤ 2 ^ 6 := by
    rw [hj]
    exact Nat.pow_le_pow_right (by norm_num) hj6
  have hjpos : 0 < (macroTileDims lib tileMode).1 := by
    rw [hj]
    exact Nat.pos_pow_of_pos _ (by norm_num)
  have hdual : IsDualBaseAlignNeeded lib tileMode = true := by
    unfold IsDualBaseAlignNeeded
    exact decide_eq_true ⟨hR6, by
      have : ADDR_TM_1D_TILED_THICK.toNat < ADDR_TM_2D_TILED_THIN1.toNat := by decide
      omega⟩
  have hq : 1 ≤ normalisedBppSpec bpp ∧ normalisedBppSpec bpp ≤ 128 := by
    unfold normalisedBppSpec
    split_ifs <;> omega
  unfold ComputeSurfaceAlignmentsMacrotiled
  dsimp only
  rw [hw, hh, hdual, normalisedBpp_eq]
  simp only [if_true]
  generalize normalisedBppSpec bpp = q at hq ⊢
  generalize (macroTileDims lib tileMode).1 = W at hj64 hjpos ⊢
  generalize (macroTileDims lib tileMode).2 = H at hk256 hkpos ⊢
  have hprod : q * H * W ≤ 128 * 2 ^ 8 * 2 ^ 6 :=
    Nat.mul_le_mul (Nat.mul_le_mul hq.2 hk256) hj64
  have hprod1 : 1 ≤ q * H * W :=
    Nat.mul_pos (Nat.mul_pos hq.1 hkpos) hjpos
  have hM : BITS_TO_BYTES32 (u32 (q * H * W)) = ceilDiv (q * H * W) 8 := by
    unfold BITS_TO_BYTES32 ceilDiv
    rw [u32_of_lt (show q * H * W < 2 ^ 32 by omega),
      u32_of_lt (show q * H * W + 7 < 2 ^ 32 by omega)]
  rw [hM]
  generalize ceilDiv (q * H * W) 8 = m at hM ⊢
  have hm1 : 1 ≤ m ∧ m ≤ 2 ^ 18 := by
    rw [← hM]
    unfold BITS_TO_BYTES32
    rw [u32_of_lt (show q * H * W < 2 ^ 32 by omega),
      u32_of_lt (show q * H * W + 7 < 2 ^ 32 by omega)]
    omega
  refine ⟨hm1.1, dual_adjust_even _ m hm1.1 ?_⟩
  have hX : ∀ z : Nat, z ≤ 2 ^ 30 → z / (if BITS_TO_BYTES32
      (u32 (ComputeSurfaceThickness tileMode * numSamples * q * 64)) ≥ lib.mSplitSize then
      BITS_TO_BYTES32 (u32 (ComputeSurfaceThickness tileMode * numSamples * q * 64)) /
        lib.mSplitSize else 1) + m < 2 ^ 32 := by
    intro z hz
    have := Nat.div_le_self z (if BITS_TO_BYTES32
      (u32 (ComputeSurfaceThickness tileMode * numSamples * q * 64)) ≥ lib.mSplitSize then
      BITS_TO_BYTES32 (u32 (ComputeSurfaceThickness tileMode * numSamples * q * 64)) /
        lib.mSplitSize else 1)
    omega
  apply hX
  have hY := BITS_TO_BYTES32_u32_le
  have hnm : numSamples * m ≤ 8 * 2 ^ 18 := Nat.mul_le_mul hns.2 hm1.2
  have h1 : u32 (numSamples * m) ≤ 8 * 2 ^ 18 := Nat.le_trans (u32_le _) hnm
  have h2 : u32 (u32 (numSamples * m) * 2) ≤ 8 * 2 ^ 18 * 2 :=
    Nat.le_trans (u32_le _) (by omega)
  split_ifs <;> apply max_le <;> first
    | exact Nat.le_trans (hY _) (by norm_num)
    | omega

/-- C38 on `exampleLibR6` (8 pipes, 8 banks) for `2D_TILED_THIN1`, 128 bits per pixel and 3
samples: the macro tile has 65536 bytes, three of them make the alignment before the
adjustment, and the adjustment adds a fourth. -/
theorem C38_dual_base_align_witness :
    exampleLibR6.ValidConfig ∧
    (ADDR_TM_2D_TILED_THIN1.toNat ≤ ADDR_TM_2D_TILED_THIN1.toNat ∧
      ADDR_TM_2D_TILED_THIN1.toNat ≤ ADDR_TM_3B_TILED_THICK.toNat) ∧
    ((1 : Nat) ≤ 128 ∧ (128 : Nat) ≤ 128) ∧ ((1 : Nat) ≤ 3 ∧ (3 : Nat) ≤ 8) ∧
    exampleLibR6.mChipFamily = ADDR_CHIP_FAMILY_R6XX ∧
    ComputeSurfaceAlignmentsMacrotiled exampleLibR6 ADDR_TM_2D_TILED_THIN1 128
      ADDR_SURFACE_FLAGS.none 3 = (262144, 64, 64, 64, 64) ∧
    (0 < ceilDiv (normalisedBppSpec 128 *
        (ComputeSurfaceAlignmentsMacrotiled exampleLibR6 ADDR_TM_2D_TILED_THIN1 128
          ADDR_SURFACE_FLAGS.none 3).2.2.2.2 *
        (ComputeSurfaceAlignmentsMacrotiled exampleLibR6 ADDR_TM_2D_TILED_THIN1 128
          ADDR_SURFACE_FLAGS.none 3).2.2.2.1) 8 ∧
      (ComputeSurfaceAlignmentsMacrotiled exampleLibR6 ADDR_TM_2D_TILED_THIN1 128
          ADDR_SURFACE_FLAGS.none 3).1 /
        ceilDiv (normalisedBppSpec 128 *
          (ComputeSurfaceAlignmentsMacrotiled exampleLibR6 ADDR_TM_2D_TILED_THIN1 128
            ADDR_SURFACE_FLAGS.none 3).2.2.2.2 *
          (ComputeSurfaceAlignmentsMacrotiled exampleLibR6 ADDR_TM_2D_TILED_THIN1 128
            ADDR_SURFACE_FLAGS.none 3).2.2.2.1) 8 % 2 = 0) :=
  ⟨by decide, by decide, by decide, by decide, by decide, by decide,
    (C38_dual_base_align exampleLibR6 (by decide) ADDR_TM_2D_TILED_THIN1 128 3
      ADDR_SURFACE_FLAGS.none (by decide) (by decide) (by decide)).1 (by decide)⟩

/-! ## Slice swizzle fed back to the swizzle extraction -/

/-- The slice tile swizzle of a macro-tiled mode at base address 0 is the combined swizzle
`s = (baseSwizzle + (slice / thickness) * rotation) mod (pipes * banks)` in units of 256
bytes. -/
theorem ComputeSliceTileSwizzle_zero_base (lib : R600AddrLib) (hv : lib.ValidConfig)
    (tileMode : AddrTileMode) (baseSwizzle slice : Nat)
    (hm : IsMacroTiled tileMode = true) :
    ComputeSliceTileSwizzle lib tileMode baseSwizzle slice 0 =
      (baseSwizzle + slice / ComputeSurfaceThickness tileMode *
        rotationSpec lib.mPipes lib.mBanks tileMode) % (lib.mPipes * lib.mBanks) *
        (lib.mPipeInterleaveBytes / 256) := by
  have hrot := rotation_eq_spec lib hv tileMode
  obtain ⟨hp, hb, hg, -⟩ := hv
  unfold ComputeSliceTileSwizzle
  rw [hrot]
  simp only [hm, not_true_eq_false, if_false]
  generalize slice / ComputeSurfaceThickness tileMode *
    rotationSpec lib.mPipes lib.mBanks tileMode = r
  have key : ∀ k : Nat, k ≤ 6 → lib.mPipes * lib.mBanks = 2 ^ k →
      u32 ((0 ^^^ u32 ((u32 (baseSwizzle + u32 r) &&&
        sub32 (u32 (lib.mPipes * lib.mBanks)) 1) * lib.mPipeInterleaveBytes)) >>> 8) =
      (baseSwizzle + r) % (lib.mPipes * lib.mBanks) * (lib.mPipeInterleaveBytes / 256) := by
    intro k hk hpb
    rw [hpb]
    have h1 : 2 ^ k ≤ 2 ^ 6 := Nat.pow_le_pow_right (by norm_num) hk
    have h0 : 0 < 2 ^ k := Nat.pos_pow_of_pos k (by norm_num)
    rw [u32_of_lt (show 2 ^ k < 2 ^ 32 by omega), sub32_eq h0 (by omega),
      wrapped_sum_mask k (by omega)]
    have hs : (baseSwizzle + r) % 2 ^ k < 2 ^ k := Nat.mod_lt _ h0
    generalize (baseSwizzle + r) % 2 ^ k = s at hs
    have hprod : s * lib.mPipeInterleaveBytes < 2 ^ 32 := by
      have : s * lib.mPipeInterleaveBytes ≤ 64 * 512 :=
        Nat.mul_le_mul (by omega) (by omega)
      omega
    rw [u32_of_lt hprod, Nat.zero_xor, Nat.shiftRight_eq_div_pow]
    have e : s * lib.mPipeInterleaveBytes / 2 ^ 8 = s * (lib.mPipeInterleaveBytes / 256) := by
      rcases hg with h | h <;> rw [h] <;> omega
    rw [e]
    apply u32_of_lt
    have : s * (lib.mPipeInterleaveBytes / 256) ≤ 64 * 2 :=
      Nat.mul_le_mul (by omega) (by omega)
    omega
  rcases hp with h | h | h | h <;> rcases hb with h' | h'
  · exact key 2 (by norm_num) (by rw [h, h']; norm_num)
  · exact key 3 (by norm_num) (by rw [h, h']; norm_num)
  · exact key 3 (by norm_num) (by rw [h, h']; norm_num)
  · exact key 4 (by norm_num) (by rw [h, h']; norm_num)
  · exact key 4 (by norm_num) (by rw [h, h']; norm_num)
  · exact key 5 (by norm_num) (by rw [h, h']; norm_num)
  · exact key 5 (by norm_num) (by rw [h, h']; norm_num)
  · exact key 6 (by norm_num) (by rw [h, h']; norm_num)

/-- C36: on every valid hardware configuration, for every macro tile mode from
`2D_TILED_THIN1` to `3B_TILED_THICK` and every base swizzle and slice, feeding
`ComputeSliceTileSwizzle` at base address 0 to `ExtractBankPipeSwizzle` gives
`pipeSwizzle + pipes * bankSwizzle = (baseSwizzle + (slice / thickness) * rotation)
mod (pipes * banks)`, with `pipeSwizzle < pipes` and `bankSwizzle < banks`. -/
theorem C36_slice_swizzle_round_trip (lib : R600AddrLib) (hv : lib.ValidConfig)
    (tileMode : AddrTileMode) (baseSwizzle slice : Nat)
    (hm : ADDR_TM_2D_TILED_THIN1.toNat ≤ tileMode.toNat ∧
      tileMode.toNat ≤ ADDR_TM_3B_TILED_THICK.toNat) :
    (ExtractBankPipeSwizzle lib (ComputeSliceTileSwizzle lib tileMode baseSwizzle slice 0)).2 +
        lib.mPipes *
          (ExtractBankPipeSwizzle lib
            (ComputeSliceTileSwizzle lib tileMode baseSwizzle slice 0)).1 =
      (baseSwizzle + slice / ComputeSurfaceThickness tileMode *
        rotationSpec lib.mPipes lib.mBanks tileMode) % (lib.mPipes * lib.mBanks) ∧
    (ExtractBankPipeSwizzle lib
      (ComputeSliceTileSwizzle lib tileMode baseSwizzle slice 0)).2 < lib.mPipes ∧
    (ExtractBankPipeSwizzle lib
      (ComputeSliceTileSwizzle lib tileMode baseSwizzle slice 0)).1 < lib.mBanks := by
  have hmac : IsMacroTiled tileMode = true := by
    unfold IsMacroTiled
    apply decide_eq_true
    have : ADDR_TM_3B_TILED_THICK.toNat ≤ ADDR_TM_3D_TILED_XTHICK.toNat := by decide
    omega
  rw [ComputeSliceTileSwizzle_zero_base lib hv tileMode baseSwizzle slice hmac]
  obtain ⟨hpipes, hbanks, hgroup, -⟩ := hv
  have hP : 0 < lib.mPipes := by omega
  have hB : 0 < lib.mBanks := by omega
  have hb : lib.mBanks = 1 ∨ lib.mBanks = 2 ∨ lib.mBanks = 4 ∨ lib.mBanks = 8 := by
    rcases hbanks with h | h
    · exact Or.inr (Or.inr (Or.inl h))
    · exact Or.inr (Or.inr (Or.inr h))
  have hs : (baseSwizzle + slice / ComputeSurfaceThickness tileMode *
      rotationSpec lib.mPipes lib.mBanks tileMode) % (lib.mPipes * lib.mBanks) <
      lib.mPipes * lib.mBanks := Nat.mod_lt _ (Nat.mul_pos hP hB)
  generalize (baseSwizzle + slice / ComputeSurfaceThickness tileMode *
    rotationSpec lib.mPipes lib.mBanks tileMode) % (lib.mPipes * lib.mBanks) = s at hs ⊢
  have hsh : lib.mPipeInterleaveBytes >>> 8 = lib.mPipeInterleaveBytes / 256 := by
    rw [Nat.shiftRight_eq_div_pow]
  have hgpos : 0 < lib.mPipeInterleaveBytes / 256 := by
    rcases hgroup with h | h <;> rw [h] <;> decide
  unfold ExtractBankPipeSwizzle
  dsimp only
  rw [swizzle_mask lib.mPipes hpipes, swizzle_mask lib.mBanks hb, hsh,
    Nat.mul_div_cancel _ hgpos]
  have hq : s / lib.mPipes < lib.mBanks := (Nat.div_lt_iff_lt_mul hP).2 (by
    rw [Nat.mul_comm]
    exact hs)
  rw [Nat.mod_eq_of_lt hq]
  exact ⟨Nat.mod_add_div s lib.mPipes, Nat.mod_lt _ hP, hq⟩

theorem C36_slice_swizzle_round_trip_witness :
    exampleLib.ValidConfig ∧
    (ADDR_TM_2D_TILED_THIN1.toNat ≤ ADDR_TM_2D_TILED_THICK.toNat ∧
      ADDR_TM_2D_TILED_THICK.toNat ≤ ADDR_TM_3B_TILED_THICK.toNat) ∧
    ExtractBankPipeSwizzle exampleLib
      (ComputeSliceTileSwizzle exampleLib ADDR_TM_2D_TILED_THICK 5 9 0) = (3, 1) ∧
    (ExtractBankPipeSwizzle exampleLib
        (ComputeSliceTileSwizzle exampleLib ADDR_TM_2D_TILED_THICK 5 9 0)).2 +
        exampleLib.mPipes *
          (ExtractBankPipeSwizzle exampleLib
            (ComputeSliceTileSwizzle exampleLib ADDR_TM_2D_TILED_THICK 5 9 0)).1 =
      (5 + 9 / ComputeSurfaceThickness ADDR_TM_2D_TILED_THICK *
        rotationSpec exampleLib.mPipes exampleLib.mBanks ADDR_TM_2D_TILED_THICK) %
        (exampleLib.mPipes * exampleLib.mBanks) :=
  ⟨by decide, by decide, by decide,
    (C36_slice_swizzle_round_trip exampleLib (by decide) ADDR_TM_2D_TILED_THICK 5 9
      (by decide)).1⟩

/-! ## Termination of the bank-swap width -/

/-- With a non-zero bound the halving loop ends: a width below `2 ^ fuel` is halved `n` times,
`n` being the first count at which it is below the bound. -/
theorem BankSwapHalveLoop_returns : ∀ (fuel w t : Nat), 0 < t → w < 2 ^ fuel →
    ∃ n, BankSwapHalveLoop (fuel + 1) w t = some (w >>> n) ∧ w >>> n < t ∧
      ∀ i, i < n → t ≤ w >>> i := by
  intro fuel
  induction fuel with
  | zero =>
    intro w t ht hw
    refine ⟨0, ?_, ?_, ?_⟩
    · unfold BankSwapHalveLoop
      rw [if_neg (by simp at hw; omega)]
      rfl
    · simp at hw
      simp [hw, ht]
    · intro i hi
      omega
  | succ k ih =>
    intro w t ht hw
    by_cases h : w ≥ t
    · have h2 : w >>> 1 < 2 ^ k := by
        rw [Nat.shiftRight_eq_div_pow]
        rw [Nat.pow_succ] at hw
        omega
      obtain ⟨n, h3, h4, h5⟩ := ih (w >>> 1) t ht h2
      refine ⟨n + 1, ?_, ?_, ?_⟩
      · rw [BankSwapHalveLoop, if_pos h, h3, ← Nat.shiftRight_add, Nat.add_comm]
      · rw [← Nat.shiftRight_add, Nat.add_comm] at h4
        exact h4
      · intro i hi
        cases i with
        | zero => exact h
        | succ j =>
          have := h5 j (by omega)
          rw [← Nat.shiftRight_add, Nat.add_comm] at this
          exact this
    · refine ⟨0, ?_, ?_, ?_⟩
      · rw [BankSwapHalveLoop, if_neg h]
        rfl
      · simp only [Nat.shiftRight_zero]
        omega
      · intro i hi
        omega

theorem ComputeSurfaceBankSwappedWidth_eq (lib : R600AddrLib) (tileMode : AddrTileMode)
    (bpp numSamples pitch : Nat) :
    ComputeSurfaceBankSwappedWidth lib tileMode bpp numSamples pitch =
      if IsBankSwappedTileMode tileMode then
        BankSwapHalveLoop 34 (BankSwapClamp lib tileMode bpp numSamples) (u32 (2 * pitch))
      else some 0 := rfl

theorem BankSwapClamp_lt (lib : R600AddrLib) (tileMode : AddrTileMode)
    (bpp numSamples : Nat) : BankSwapClamp lib tileMode bpp numSamples < 2 ^ 32 := by
  unfold BankSwapClamp
  dsimp only
  refine Nat.lt_of_le_of_lt (Nat.min_le_left _ _) ?_
  exact Nat.lt_of_le_of_lt (Nat.div_le_self _ _) (u32_lt _)

/-- For a bank-swapped mode the routine returns exactly when the 32-bit value of `2 * pitch`
is not zero, and it then returns the clamped width halved until it is below `2 * pitch`. -/
theorem ComputeSurfaceBankSwappedWidth_returns (lib : R600AddrLib) (tileMode : AddrTileMode)
    (bpp numSamples pitch : Nat) (hm : IsBankSwappedTileMode tileMode = true) :
    (u32 (2 * pitch) ≠ 0 →
      ∃ n, ComputeSurfaceBankSwappedWidth lib tileMode bpp numSamples pitch =
          some (BankSwapClamp lib tileMode bpp numSamples >>> n) ∧
        BankSwapClamp lib tileMode bpp numSamples >>> n < u32 (2 * pitch) ∧
        ∀ i, i < n → u32 (2 * pitch) ≤ BankSwapClamp lib tileMode bpp numSamples >>> i) ∧
    (u32 (2 * pitch) = 0 →
      ComputeSurfaceBankSwappedWidth lib tileMode bpp numSamples pitch = none) := by
  rw [ComputeSurfaceBankSwappedWidth_eq, if_pos hm]
  constructor
  · intro h
    exact BankSwapHalveLoop_returns 33 _ _ (Nat.pos_of_ne_zero h)
      (Nat.lt_trans (BankSwapClamp_lt lib tileMode bpp numSamples) (by norm_num))
  · intro h
    rw [h]
    exact BankSwapHalveLoop_zero _ _

/-- A mode that is not bank-swapped gives the width 0. -/
theorem ComputeSurfaceBankSwappedWidth_zero (lib : R600AddrLib) (tileMode : AddrTileMode)
    (bpp numSamples pitch : Nat) (hm : IsBankSwappedTileMode tileMode = false) :
    ComputeSurfaceBankSwappedWidth lib tileMode bpp numSamples pitch = some 0 := by
  rw [ComputeSurfaceBankSwappedWidth_eq, hm]
  rfl

/-- C31 (evaluation at the failing input): on the valid configuration `exampleLib`, with
32 bits per pixel and one sample, the pitch `0x80000000` is a 32-bit value whose double is 0
in 32 bits, so the loop `while (bankSwapWidth >= 2 * pitch)` has no exit with any amount of
fuel, and `ComputeSurfaceBankSwappedWidth` does not return for any of the six bank-swapped
modes; the same happens for the pitch 0. -/
theorem C31_bank_swapped_width_does_not_return :
    exampleLib.ValidConfig ∧
    (2147483648 < 2 ^ 32 ∧ u32 (2 * 2147483648) = 0) ∧
    (∀ fuel w, BankSwapHalveLoop fuel w (u32 (2 * 2147483648)) = none) ∧
    (∀ m ∈ [ADDR_TM_2B_TILED_THIN1, ADDR_TM_2B_TILED_THIN2, ADDR_TM_2B_TILED_THIN4,
        ADDR_TM_2B_TILED_THICK, ADDR_TM_3B_TILED_THIN1, ADDR_TM_3B_TILED_THICK],
      IsBankSwappedTileMode m = true ∧
      ComputeSurfaceBankSwappedWidth exampleLib m 32 1 2147483648 = none ∧
      ComputeSurfaceBankSwappedWidth exampleLib m 32 1 0 = none) :=
  ⟨by decide, by decide, BankSwapHalveLoop_zero, by decide⟩

/-! ## Divisions of the macro-tiled address routine -/


/-- C32 (evaluation at the failing input): the request `exampleThickSplitAddrIn` on the valid
configuration `exampleLib` passes the validation of `HwlComputeSurfaceAddrFromCoord` and has
`bpp = 128`, `pitch = 32` and two samples, and its mode `2D_TILED_THICK` is dispatched to
`ComputeSurfaceAddrFromCoordMacroTiled`. There `microTileBytes = 8192` exceeds
`mSplitSize = 2048`, so the sample-split block runs with `bytesPerSample = 4096`;
`samplesPerSlice = mSplitSize / bytesPerSample` is 0, and the next statement,
`numSampleSplits = numSamples / samplesPerSlice`, divides by it. -/
theorem C32_thick_sample_split_divides_by_zero :
    exampleLib.ValidConfig ∧
    ¬ (exampleThickSplitAddrIn.pipeSwizzle ≥ exampleLib.mPipes ∨
      exampleThickSplitAddrIn.bankSwizzle ≥ exampleLib.mBanks ∨
      exampleThickSplitAddrIn.x > exampleThickSplitAddrIn.pitch ∨
      exampleThickSplitAddrIn.y > exampleThickSplitAddrIn.height ∨
      exampleThickSplitAddrIn.numSamples > 8) ∧
    (exampleThickSplitAddrIn.bpp = 128 ∧ exampleThickSplitAddrIn.pitch = 32 ∧
      exampleThickSplitAddrIn.tileMode = ADDR_TM_2D_TILED_THICK ∧
      max 1 exampleThickSplitAddrIn.numSamples = 2) ∧
    (u64 (MicroTilePixels * ComputeSurfaceThickness ADDR_TM_2D_TILED_THICK * 128 * 2) / 8 =
        8192 ∧
      exampleLib.mSplitSize = 2048 ∧
      exampleLib.mSplitSize /
        (u64 (MicroTilePixels * ComputeSurfaceThickness ADDR_TM_2D_TILED_THICK * 128 * 2) / 8 /
          2) = 0) ∧
    ComputeSurfaceAddrFromCoordMacroTiledZeroDivisor exampleLib 128 32 2
      ADDR_TM_2D_TILED_THICK = some MacroTiledDivisor.samplesPerSlice := by
  decide

/-! ## Dual pitch alignment -/

/-- `PowTwoAlign` to a power of two, also when the addition wraps. -/
theorem PowTwoAlign_two_pow (x k : Nat) (hk : k ≤ 31) :
    PowTwoAlign x (2 ^ k) = u32 (x + (2 ^ k - 1)) / 2 ^ k * 2 ^ k := by
  unfold PowTwoAlign
  have h1 := Nat.one_le_two_pow (n := k)
  have h2 : 2 ^ k < 2 ^ 32 := Nat.pow_lt_pow_right (by norm_num) (by omega)
  rw [sub32_eq h1 h2, not32_two_pow_sub_one (by omega),
    and_two_pow_sub_two_pow _ _ _ (u32_lt _) (by omega)]

/-- The pitch alignment and the macro-tile width of `2D_TILED_THIN1` with one sample and a
micro tile of at least one pipe interleave: one or two macro tiles. -/
theorem thin1_pitchAlign (lib : R600AddrLib) (hv : lib.ValidConfig) (bpp : Nat)
    (flags : ADDR_SURFACE_FLAGS) (hbpp : lib.mPipeInterleaveBytes ≤ 8 * bpp) :
    ((ComputeSurfaceAlignmentsMacrotiled lib ADDR_TM_2D_TILED_THIN1 bpp flags 1).2.1 =
        8 * lib.mBanks ∨
      (ComputeSurfaceAlignmentsMacrotiled lib ADDR_TM_2D_TILED_THIN1 bpp flags 1).2.1 =
        16 * lib.mBanks) ∧
    (ComputeSurfaceAlignmentsMacrotiled lib ADDR_TM_2D_TILED_THIN1 bpp flags 1).2.2.2.1 =
      8 * lib.mBanks := by
  obtain ⟨-, hb, hg, -⟩ := hv
  unfold ComputeSurfaceAlignmentsMacrotiled
  dsimp only
  have ha : ComputeMacroTileAspectRatio ADDR_TM_2D_TILED_THIN1 = 1 := rfl
  have ht : ComputeSurfaceThickness ADDR_TM_2D_TILED_THIN1 = 1 := rfl
  rw [ha, ht, u32_of_lt (show 8 * lib.mBanks < 2 ^ 32 by omega), Nat.div_one, Nat.div_one,
    u32_of_lt (show 8 * 1 < 2 ^ 32 by norm_num)]
  refine ⟨?_, rfl⟩
  generalize hq : (if (if bpp = 96 ∨ bpp = 48 ∨ bpp = 24 then bpp / 3 else bpp) = 3 then 1
    else if bpp = 96 ∨ bpp = 48 ∨ bpp = 24 then bpp / 3 else bpp) = q
  have hq1 : 16 ≤ q ∧ (q < 32 → q = 16 ∧ lib.mPipeInterleaveBytes = 256) ∧
      (lib.mPipeInterleaveBytes = 512 → 32 ≤ q) := by
    rw [← hq]
    split_ifs <;> omega
  have hm : lib.mPipeInterleaveBytes / q / (8 * 1) ≤ 2 ∧
      (lib.mPipeInterleaveBytes / q / (8 * 1) = 2 ∨ lib.mPipeInterleaveBytes / q / (8 * 1) ≤ 1) := by
    rw [Nat.div_div_eq_div_mul]
    have h1 : lib.mPipeInterleaveBytes / (q * (8 * 1)) < 3 := by
      apply Nat.div_lt_of_lt_mul
      omega
    omega
  generalize lib.mPipeInterleaveBytes / q / (8 * 1) = m at hm
  have hm2 : m = 0 ∨ m = 1 ∨ m = 2 := by omega
  rcases hb with hb | hb <;> rcases hm2 with h | h | h <;> rw [hb, h] <;> decide

/-- The dual-pitch block on an R6xx instance for `2D_TILED_THIN1`, one sample and a micro
tile of at least one pipe interleave: a pitch wider than one macro tile leaves the block
with an odd macro-tile index of its last pixel, or with the pitch 0 when the added macro
tile wraps in 32 bits. -/
theorem DualPitchAlign_thin1 (lib : R600AddrLib) (hv : lib.ValidConfig)
    (hchip : lib.mChipFamily = ADDR_CHIP_FAMILY_R6XX) (bpp pitch height macroHeight : Nat)
    (hbpp : lib.mPipeInterleaveBytes ≤ 8 * bpp) (hp : 8 * lib.mBanks < pitch)
    (hlt : pitch < 2 ^ 32) :
    DualPitchAlign lib ADDR_TM_2D_TILED_THIN1 false 0 bpp 1 pitch height (8 * lib.mBanks)
        macroHeight = 0 ∨
    ((DualPitchAlign lib ADDR_TM_2D_TILED_THIN1 false 0 bpp 1 pitch height (8 * lib.mBanks)
        macroHeight - 1) / (8 * lib.mBanks) % 2 = 1 ∧
      1 ≤ DualPitchAlign lib ADDR_TM_2D_TILED_THIN1 false 0 bpp 1 pitch height (8 * lib.mBanks)
        macroHeight ∧
      DualPitchAlign lib ADDR_TM_2D_TILED_THIN1 false 0 bpp 1 pitch height (8 * lib.mBanks)
        macroHeight < 2 ^ 32) := by
  obtain ⟨-, hb, hg, -⟩ := hv
  unfold DualPitchAlign
  have hn : IsDualPitchAlignNeeded lib ADDR_TM_2D_TILED_THIN1 false 0 = true := by
    unfold IsDualPitchAlignNeeded
    simp [hchip]
  have ht : ComputeSurfaceThickness ADDR_TM_2D_TILED_THIN1 = 1 := rfl
  rw [hn, if_pos rfl]
  dsimp only
  rw [ht, Nat.div_one, Nat.div_one, sub32_eq (by omega) hlt, Nat.and_one_is_mod]
  have htg : max 1 ((lib.mPipeInterleaveBytes >>> 3) / bpp) = 1 := by
    have h1 : (lib.mPipeInterleaveBytes >>> 3) / bpp ≤ 1 := by
      rw [Nat.shiftRight_eq_div_pow]
      apply Nat.div_le_of_le_mul
      have := Nat.div_mul_le_self lib.mPipeInterleaveBytes (2 ^ 3)
      omega
    omega
  rw [htg]
  have hp' : pitch > 8 * lib.mBanks := hp
  simp only [hp', true_or, if_true, true_and]
  rcases hb with hb | hb <;> rw [hb] at hp ⊢ <;> norm_num only <;>
    unfold u32 <;> split_ifs <;> omega

/-- At mip level 0 `ComputeSurfaceMipLevelTileMode` returns at its first `return`. -/
theorem ComputeSurfaceMipLevelTileMode_level_zero (lib : R600AddrLib) (base : AddrTileMode)
    (bpp width height numSlices numSamples : Nat) (isDepth noRecursive : Bool) :
    ComputeSurfaceMipLevelTileMode lib base bpp 0 width height numSlices numSamples isDepth
        noRecursive =
      ComputeSurfaceMipLevelTileModeNoRecursive lib base bpp numSamples isDepth := by
  unfold ComputeSurfaceMipLevelTileMode
  simp only [or_true, if_true]

/-- The tile mode of mip level 0 of a `2D_TILED_THIN1` surface is `2D_TILED_THIN1`. -/
theorem ComputeSurfaceMipLevelTileMode_thin1 (lib : R600AddrLib)
    (bpp width height numSlices numSamples : Nat) (isDepth noRecursive : Bool) :
    ComputeSurfaceMipLevelTileMode lib ADDR_TM_2D_TILED_THIN1 bpp 0 width height numSlices
      numSamples isDepth noRecursive = ADDR_TM_2D_TILED_THIN1 := by
  rw [ComputeSurfaceMipLevelTileMode_level_zero]
  unfold ComputeSurfaceMipLevelTileModeNoRecursive
  have h : ∀ slices, HwlDegradeThickTileMode lib ADDR_TM_2D_TILED_THIN1 numSamples slices
      isDepth = ADDR_TM_2D_TILED_THIN1 := fun _ => rfl
  dsimp only
  rw [h]
  split_ifs <;> rfl

/-- At mip level 0 `ComputeSurfaceInfoMacroTiled` keeps the mode `2D_TILED_THIN1` and pads the
pitch that leaves the dual-pitch block. -/
theorem ComputeSurfaceInfoMacroTiled_thin1 (lib : R600AddrLib)
    (pIn : ADDR_COMPUTE_SURFACE_INFO_INPUT) (pOut : ADDR_COMPUTE_SURFACE_INFO_OUTPUT)
    (padDims : Nat) (hlevel : pIn.mipLevel = 0) :
    ∃ o, ComputeSurfaceInfoMacroTiled lib pIn pOut padDims ADDR_TM_2D_TILED_THIN1
        ADDR_TM_2D_TILED_THIN1 = some o ∧
      o.tileMode = ADDR_TM_2D_TILED_THIN1 ∧
      o.pitch = (PadDimensions lib ADDR_TM_2D_TILED_THIN1 pIn.flags padDims
        (DualPitchAlign lib ADDR_TM_2D_TILED_THIN1 pIn.flags.depth 0 pIn.bpp pIn.numSamples
          pIn.width pIn.height
          (ComputeSurfaceAlignmentsMacrotiled lib ADDR_TM_2D_TILED_THIN1 pIn.bpp pIn.flags
            pIn.numSamples).2.2.2.1
          (ComputeSurfaceAlignmentsMacrotiled lib ADDR_TM_2D_TILED_THIN1 pIn.bpp pIn.flags
            pIn.numSamples).2.2.2.2)
        (max (ComputeSurfaceAlignmentsMacrotiled lib ADDR_TM_2D_TILED_THIN1 pIn.bpp pIn.flags
            pIn.numSamples).2.1 0)
        pIn.height
        (ComputeSurfaceAlignmentsMacrotiled lib ADDR_TM_2D_TILED_THIN1 pIn.bpp pIn.flags
            pIn.numSamples).2.2.1
        pIn.numSlices 1).1 := by
  have hd : MipLevelDims pIn pIn.width padDims =
      (pIn.width, pIn.height, pIn.numSlices, padDims) := by
    unfold MipLevelDims
    rw [hlevel]
    rfl
  have hw : ComputeSurfaceBankSwappedWidth lib ADDR_TM_2D_TILED_THIN1 pIn.bpp pIn.numSamples
      pIn.width = some 0 := rfl
  unfold ComputeSurfaceInfoMacroTiled
  dsimp only
  rw [hd]
  dsimp only
  rw [hlevel]
  simp only [ne_eq, not_true_eq_false, false_and, and_false, decide_False, Bool.false_eq_true,
    if_false, hw]
  exact ⟨_, rfl, rfl, rfl⟩

/-- The padded pitch of a `2D_TILED_THIN1` surface after the dual-pitch block: an even number
of macro tiles. -/
theorem padded_dual_pitch_even (lib : R600AddrLib) (hv : lib.ValidConfig)
    (flags : ADDR_SURFACE_FLAGS) (padDims d a height heightAlign slices : Nat)
    (ha : a = 8 * lib.mBanks ∨ a = 16 * lib.mBanks)
    (hd : d = 0 ∨ ((d - 1) / (8 * lib.mBanks) % 2 = 1 ∧ 1 ≤ d ∧ d < 2 ^ 32)) :
    (PadDimensions lib ADDR_TM_2D_TILED_THIN1 flags padDims d (max a 0) height heightAlign
      slices 1).1 / (8 * lib.mBanks) % 2 = 0 := by
  obtain ⟨-, hb, -⟩ := hv
  unfold PadDimensions
  dsimp only
  rw [Nat.max_eq_left (Nat.zero_le a)]
  have h5 := PowTwoAlign_two_pow d 5 (by norm_num)
  have h6 := PowTwoAlign_two_pow d 6 (by norm_num)
  have h7 := PowTwoAlign_two_pow d 7 (by norm_num)
  norm_num only at h5 h6 h7
  have p5 : IsPow2 32 = true := by decide
  have p6 : IsPow2 64 = true := by decide
  have p7 : IsPow2 128 = true := by decide
  unfold u32 at h5 h6 h7
  rcases hb with hb | hb <;> rcases ha with ha | ha <;> rw [hb] at ha hd ⊢ <;>
    norm_num only at ha hd ⊢ <;> subst ha <;>
    first
    | (rw [p5, if_pos rfl, h5]; omega)
    | (rw [p6, if_pos rfl, h6]; omega)
    | (rw [p7, if_pos rfl, h7]; omega)

/-- C37: on an R6xx instance with a valid hardware configuration, for every request in the
mode `2D_TILED_THIN1` at mip level 0 that is neither depth nor fmask, has one sample, a
32-bit width of at least 1, a height of at least 1 and `8 * bpp >= pipeInterleaveBytes`,
`HwlComputeSurfaceInfo` returns `ADDR_OK` in the mode `2D_TILED_THIN1`, and when the width
exceeds the macro-tile width `8 * banks` the returned pitch holds an even number of macro
tiles. -/
theorem C37_dual_pitch_even_macro_tiles (lib : R600AddrLib) (hv : lib.ValidConfig)
    (hchip : lib.mChipFamily = ADDR_CHIP_FAMILY_R6XX)
    (pIn : ADDR_COMPUTE_SURFACE_INFO_INPUT) (pOut : ADDR_COMPUTE_SURFACE_INFO_OUTPUT)
    (hmode : pIn.tileMode = ADDR_TM_2D_TILED_THIN1) (hlevel : pIn.mipLevel = 0)
    (hdepth : pIn.flags.depth = false) (hfmask : pIn.flags.fmask = false)
    (hns : pIn.numSamples = 1) (hbpp : lib.mPipeInterleaveBytes ≤ 8 * pIn.bpp)
    (_hw : 1 ≤ pIn.width) (hw32 : pIn.width < 2 ^ 32) (_hh : 1 ≤ pIn.height) :
    ∃ out, HwlComputeSurfaceInfo lib pIn pOut = some (ADDR_OK, out) ∧
      out.tileMode = ADDR_TM_2D_TILED_THIN1 ∧
      (8 * lib.mBanks < pIn.width → out.pitch / (8 * lib.mBanks) % 2 = 0) := by
  unfold HwlComputeSurfaceInfo
  dsimp only
  rw [hfmask]
  simp only [Bool.false_eq_true, if_false]
  rw [hmode, hlevel, ComputeSurfaceMipLevelTileMode_thin1]
  dsimp only
  obtain ⟨o, ho, htm, hpitch⟩ := ComputeSurfaceInfoMacroTiled_thin1 lib pIn pOut
    (if pIn.flags.cube = true ∧ 0 = 0 then 2 else 0) hlevel
  rw [ho]
  refine ⟨o, rfl, htm, ?_⟩
  intro hwide
  rw [hpitch, hdepth, hns]
  have hal := thin1_pitchAlign lib hv pIn.bpp pIn.flags hbpp
  rw [hal.2]
  exact padded_dual_pitch_even lib hv pIn.flags _ _ _ _ _ _ hal.1
    (DualPitchAlign_thin1 lib hv hchip pIn.bpp pIn.width pIn.height _ hbpp hwide hw32)

theorem C37_dual_pitch_even_macro_tiles_witness :
    (∃ out,
      HwlComputeSurfaceInfo exampleLibR6 (exampleSurfIn ADDR_TM_2D_TILED_THIN1 64 1 130 100)
          exampleSurfOut = some (ADDR_OK, out) ∧
        out.tileMode = ADDR_TM_2D_TILED_THIN1 ∧
        (8 * exampleLibR6.mBanks < (exampleSurfIn ADDR_TM_2D_TILED_THIN1 64 1 130 100).width →
          out.pitch / (8 * exampleLibR6.mBanks) % 2 = 0)) ∧
    8 * exampleLibR6.mBanks < (exampleSurfIn ADDR_TM_2D_TILED_THIN1 64 1 130 100).width ∧
    (HwlComputeSurfaceInfo exampleLibR6 (exampleSurfIn ADDR_TM_2D_TILED_THIN1 64 1 130 100)
      exampleSurfOut).map (fun r => r.2.pitch) = some 256 :=
  ⟨C37_dual_pitch_even_macro_tiles exampleLibR6 (by decide) rfl
      (exampleSurfIn ADDR_TM_2D_TILED_THIN1 64 1 130 100) exampleSurfOut rfl rfl rfl rfl rfl
      (by decide) (by decide) (by decide) (by decide),
    by decide, by decide⟩

/-! ## Where the macro-tiled address routine divides by zero -/

/-- Monotonicity of a product of four factors. -/
theorem mul_le_mul4 (a b c d a' b' c' d' : Nat) (ha : a ≤ a') (hb : b ≤ b') (hc : c ≤ c')
    (hd : d ≤ d') : a * b * c * d ≤ a' * b' * c' * d' :=
  Nat.mul_le_mul (Nat.mul_le_mul (Nat.mul_le_mul ha hb) hc) hd

/-- The clamped bank-swap width is at least 1 for bpp in 1..128 and 1 to 8 samples. -/
theorem BankSwapClamp_pos (lib : R600AddrLib) (hv : lib.ValidConfig) (tileMode : AddrTileMode)
    (bpp numSamples : Nat) (hbpp : 1 ≤ bpp ∧ bpp ≤ 128)
    (hns : 1 ≤ numSamples ∧ numSamples ≤ 8) :
    1 ≤ BankSwapClamp lib tileMode bpp numSamples := by
  have hP : 1 ≤ lib.mPipes ∧ lib.mPipes ≤ 8 := by
    have := hv.1
    omega
  have hB : 4 ≤ lib.mBanks ∧ lib.mBanks ≤ 8 := by
    have := hv.2.1
    omega
  have hR : 1024 ≤ lib.mRowSize ∧ lib.mRowSize ≤ 8192 := by
    have := hv.2.2.2.1
    omega
  have hW : lib.mSwapSize ≤ 1024 := by
    have := hv.2.2.2.2.1
    omega
  have hS : 1024 ≤ lib.mSplitSize := by
    have := hv.2.2.2.2.2
    omega
  clear hv
  unfold BankSwapClamp
  dsimp only
  rw [u32_of_lt (show 8 * bpp < 2 ^ 32 by omega)]
  have hspt : 1 ≤ lib.mSplitSize / (8 * bpp) :=
    Nat.div_pos (by omega) (by omega)
  rw [if_pos (Nat.ne_of_gt hspt)]
  have hq : numSamples / (lib.mSplitSize / (8 * bpp)) ≤ numSamples := Nat.div_le_self _ _
  have hq1 : bpp = 1 → numSamples / (lib.mSplitSize / (8 * bpp)) = 0 := by
    intro h
    apply Nat.div_eq_of_lt
    rw [h]
    omega
  generalize numSamples / (lib.mSplitSize / (8 * bpp)) = q at hq hq1
  generalize hspl : max 1 q = spl
  have hspl1 : 1 ≤ spl ∧ spl ≤ numSamples ∧ (bpp = 1 → spl = 1) := by
    refine ⟨by omega, by omega, ?_⟩
    intro h
    have := hq1 h
    omega
  clear hspl hq hq1
  generalize hn : (if IsThickMacroTiled tileMode = true then 4 else numSamples) = n
  have hn1 : 1 ≤ n ∧ n ≤ 8 ∧ (n = numSamples ∨ n = 4) := by
    rw [← hn]
    split_ifs <;> omega
  have hf := aspect_cases tileMode
  generalize ComputeMacroTileAspectRatio tileMode = f at hf
  have hf1 : 1 ≤ f ∧ f ≤ 4 := by omega
  clear hf
  -- the numerator of `heightBytes`
  have hN1 := mul_le_mul4 n f lib.mPipes bpp 8 4 lib.mPipes 128 hn1.2.1 hf1.2 (Nat.le_refl _)
    hbpp.2
  have hN2 := mul_le_mul4 n 1 1 1 n f lib.mPipes bpp (Nat.le_refl _) hf1.1
    (show 1 ≤ lib.mPipes by omega) hbpp.1
  have hN3 : 2 ≤ bpp → 4 * 1 * 1 * 2 ≤ 4 * f * lib.mPipes * bpp := fun h =>
    mul_le_mul4 4 1 1 2 4 f lib.mPipes bpp (Nat.le_refl _) hf1.1
      (show 1 ≤ lib.mPipes by omega) h
  have hPB := mul_le_mul4 lib.mPipes 4 1024 1 lib.mPipes lib.mBanks lib.mRowSize 1
    (Nat.le_refl _) (show 4 ≤ lib.mBanks by omega) (show 1024 ≤ lib.mRowSize by omega)
    (Nat.le_refl _)
  have hPB2 := mul_le_mul4 lib.mPipes lib.mBanks lib.mRowSize 1 8 8 8192 1
    (show lib.mPipes ≤ 8 by omega) (show lib.mBanks ≤ 8 by omega)
    (show lib.mRowSize ≤ 8192 by omega) (Nat.le_refl _)
  simp only [Nat.mul_one] at hN2 hPB hPB2
  have hsplN : spl ≤ n * f * lib.mPipes * bpp := by
    rcases hn1.2.2 with h | h
    · omega
    · by_cases hb1 : bpp = 1
      · have := hspl1.2.2 hb1
        omega
      · have := hN3 (by omega)
        rw [h]
        omega
  generalize n * f * lib.mPipes * bpp = N at hN1 hN2 hN3 hsplN
  rw [u32_of_lt (show N < 2 ^ 32 by omega),
    u32_of_lt (show lib.mPipes * lib.mBanks * lib.mRowSize < 2 ^ 32 by omega)]
  have hH1 : 1 ≤ N / spl := Nat.div_pos hsplN (by omega)
  have hH2 : N / spl ≤ N := Nat.div_le_self _ _
  have hmax : 1 ≤ lib.mPipes * lib.mBanks * lib.mRowSize / (N / spl) :=
    Nat.div_pos (by omega) (by omega)
  -- `swapWidth`
  have hst : (lib.mSwapSize >>> 1) / bpp ≤ 512 := by
    refine Nat.le_trans (Nat.div_le_self _ _) ?_
    rw [Nat.shiftRight_eq_div_pow]
    omega
  generalize (lib.mSwapSize >>> 1) / bpp = st at hst
  have hsw1 := mul_le_mul4 (max 1 st) 8 lib.mBanks 1 512 8 8 1 (by omega) (Nat.le_refl _)
    (show lib.mBanks ≤ 8 by omega) (Nat.le_refl _)
  have hsw2 := mul_le_mul4 1 8 4 1 (max 1 st) 8 lib.mBanks 1 (by omega) (Nat.le_refl _)
    (show 4 ≤ lib.mBanks by omega) (Nat.le_refl _)
  simp only [Nat.mul_one] at hsw1 hsw2
  rw [u32_of_lt (show max 1 st * 8 * lib.mBanks < 2 ^ 32 by omega)]
  generalize max 1 st * 8 * lib.mBanks = sw at hsw1 hsw2
  generalize lib.mPipes * lib.mBanks * lib.mRowSize / (N / spl) = smax at hmax
  generalize u32 (lib.mPipeInterleaveBytes * 8 * lib.mBanks) / (u32 (n * (8 * bpp)) / spl) = smin
  omega

/-- For a bank-swapped mode, bpp in 1..128, 1 to 8 samples and a pitch whose double is not 0
in 32 bits, the bank-swap width is returned and is not 0. -/
theorem ComputeSurfaceBankSwappedWidth_pos (lib : R600AddrLib) (hv : lib.ValidConfig)
    (tileMode : AddrTileMode) (bpp numSamples pitch : Nat)
    (hm : IsBankSwappedTileMode tileMode = true) (hbpp : 1 ≤ bpp ∧ bpp ≤ 128)
    (hns : 1 ≤ numSamples ∧ numSamples ≤ 8) (hp : u32 (2 * pitch) ≠ 0) :
    ∃ w, ComputeSurfaceBankSwappedWidth lib tileMode bpp numSamples pitch = some w ∧ 0 < w := by
  obtain ⟨n, h1, -, h3⟩ :=
    (ComputeSurfaceBankSwappedWidth_returns lib tileMode bpp numSamples pitch hm).1 hp
  refine ⟨_, h1, ?_⟩
  have hc := BankSwapClamp_pos lib hv tileMode bpp numSamples hbpp hns
  have ht : 2 ≤ u32 (2 * pitch) := by
    unfold u32 at hp ⊢
    omega
  cases n with
  | zero =>
    rw [Nat.shiftRight_zero]
    omega
  | succ k =>
    have := h3 k (by omega)
    rw [Nat.shiftRight_succ]
    omega


/-- The macro tile modes from `2D_TILED_THIN1` to `3B_TILED_THICK` are 1 or 4 slices thick. -/
theorem macro_thickness (tileMode : AddrTileMode)
    (hm : ADDR_TM_2D_TILED_THIN1.toNat ≤ tileMode.toNat ∧
      tileMode.toNat ≤ ADDR_TM_3B_TILED_THICK.toNat) :
    ComputeSurfaceThickness tileMode = 1 ∨ ComputeSurfaceThickness tileMode = 4 := by
  revert hm
  cases tileMode <;> decide

/-- On a valid hardware configuration, for a macro tile mode from `2D_TILED_THIN1` to
`3B_TILED_THICK`, bpp in 1..128, 1 to 8 samples and a pitch whose double is not 0 in 32 bits,
`ComputeSurfaceAddrFromCoordMacroTiled` divides by zero exactly when there are several
samples and one sample of a micro tile, `8 * thickness * bpp` bytes, exceeds the split size;
the zero divisor is then `samplesPerSlice`. Thin modes never meet the condition. -/
theorem ComputeSurfaceAddrFromCoordMacroTiledZeroDivisor_eq (lib : R600AddrLib)
    (hv : lib.ValidConfig)
    (bpp pitch numSamples : Nat) (tileMode : AddrTileMode)
    (hm : ADDR_TM_2D_TILED_THIN1.toNat ≤ tileMode.toNat ∧
      tileMode.toNat ≤ ADDR_TM_3B_TILED_THICK.toNat)
    (hbpp : 1 ≤ bpp ∧ bpp ≤ 128) (hns : 1 ≤ numSamples ∧ numSamples ≤ 8)
    (hp : u32 (2 * pitch) ≠ 0) :
    ComputeSurfaceAddrFromCoordMacroTiledZeroDivisor lib bpp pitch numSamples tileMode =
      if 1 < numSamples ∧ lib.mSplitSize < 8 * ComputeSurfaceThickness tileMode * bpp then
        some MacroTiledDivisor.samplesPerSlice
      else none := by
  have ht := macro_thickness tileMode hm
  have ht0 : ComputeSurfaceThickness tileMode ≠ 0 := by omega
  have hbits : u64 (MicroTilePixels * ComputeSurfaceThickness tileMode * bpp * numSamples) =
      8 * (8 * ComputeSurfaceThickness tileMode * bpp * numSamples) := by
    have h1 := mul_le_mul4 64 (ComputeSurfaceThickness tileMode) bpp numSamples 64 4 128 8
      (Nat.le_refl _) (by omega) hbpp.2 hns.2
    have h2 : MicroTilePixels = 64 := rfl
    rw [h2, u64_of_lt (by omega)]
    ring
  have hb1 := mul_le_mul4 8 1 1 1 8 (ComputeSurfaceThickness tileMode) bpp 1
    (Nat.le_refl _) (by omega) hbpp.1 (Nat.le_refl _)
  simp only [Nat.mul_one] at hb1
  unfold ComputeSurfaceAddrFromCoordMacroTiledZeroDivisor
  dsimp only
  rw [hbits, Nat.mul_div_cancel_left _ (show 0 < 8 by norm_num),
    Nat.mul_div_cancel _ (show 0 < numSamples by omega)]
  generalize 8 * ComputeSurfaceThickness tileMode * bpp = b at hb1
  rw [if_neg (show ¬ numSamples = 0 by omega)]
  have hP : 1 ≤ lib.mPipes ∧ lib.mPipes ≤ 8 := by
    have := hv.1
    omega
  have hB : 4 ≤ lib.mBanks ∧ lib.mBanks ≤ 8 := by
    have := hv.2.1
    omega
  have hS : 1024 ≤ lib.mSplitSize := by
    have := hv.2.2.2.2.2
    omega
  have hmul : b * 1 ≤ b * numSamples := Nat.mul_le_mul_left b hns.1
  have hmul2 : 1 * numSamples ≤ b * numSamples := Nat.mul_le_mul_right numSamples (by omega)
  by_cases hA : 1 < numSamples ∧ lib.mSplitSize < b
  · have hd : decide (numSamples > 1 ∧ b * numSamples > lib.mSplitSize) = true :=
      decide_eq_true ⟨hA.1, by omega⟩
    rw [hd, if_pos hA]
    simp only [true_and, if_true]
    rw [if_neg (show ¬ b = 0 by omega), Nat.div_eq_of_lt hA.2, if_pos rfl]
  · rw [if_neg hA]
    have hsps : 1 ≤ (if decide (numSamples > 1 ∧ b * numSamples > lib.mSplitSize) = true then
          lib.mSplitSize / b else numSamples) ∧
        (if decide (numSamples > 1 ∧ b * numSamples > lib.mSplitSize) = true then
          lib.mSplitSize / b else numSamples) ≤ numSamples := by
      by_cases hs : numSamples > 1 ∧ b * numSamples > lib.mSplitSize
      · rw [decide_eq_true hs, if_pos rfl]
        exact ⟨Nat.div_pos (by omega) (by omega), Nat.le_of_lt (Nat.div_lt_of_lt_mul hs.2)⟩
      · rw [decide_eq_false hs]
        simp only [Bool.false_eq_true, if_false]
        omega
    generalize decide (numSamples > 1 ∧ b * numSamples > lib.mSplitSize) = sp at hsps ⊢
    generalize (if sp = true then lib.mSplitSize / b else numSamples) = sps at hsps ⊢
    have hnss : 1 ≤ (if sp = true then numSamples / sps else 1) ∧
        (if sp = true then numSamples / sps else 1) ≤ numSamples := by
      split_ifs
      · exact ⟨Nat.div_pos hsps.2 (by omega), Nat.div_le_self _ _⟩
      · omega
    generalize (if sp = true then numSamples / sps else 1) = nss at hnss ⊢
    have htsb : 1 ≤ 8 * (b * numSamples) / nss := Nat.div_pos (by omega) (by omega)
    have hns' : 1 ≤ (if sp = true then u32 sps else numSamples) ∧
        (if sp = true then u32 sps else numSamples) ≤ 8 := by
      rw [u32_of_lt (show sps < 2 ^ 32 by omega)]
      split_ifs <;> omega
    generalize (if sp = true then u32 sps else numSamples) = ns' at hns' ⊢
    have e1 : ¬ b = 0 := by omega
    have e2 : ¬ sps = 0 := by omega
    have e3 : ¬ nss = 0 := by omega
    have e4 : ¬ 8 * (b * numSamples) / nss = 0 := by omega
    have hPB := mul_le_mul4 1 4 1 1 lib.mPipes lib.mBanks 1 1 hP.1 hB.1 (Nat.le_refl _)
      (Nat.le_refl _)
    have hPB2 := mul_le_mul4 lib.mPipes lib.mBanks 1 1 8 8 1 1 hP.2 hB.2 (Nat.le_refl _)
      (Nat.le_refl _)
    simp only [Nat.mul_one] at hPB hPB2
    have e5 : ¬ u64 (lib.mPipes * lib.mBanks) = 0 := by
      rw [u64_of_lt (by omega)]
      omega
    have e6 : ¬ lib.mPipes = 0 := by omega
    simp only [e1, e2, e3, e4, e5, e6, ht0, and_false, if_false]
    clear hbits hmul hmul2 htsb e1 e2 e3 e4 e5 e6 hnss hsps hA ht ht0
    have hsw : IsBankSwappedTileMode tileMode = true →
        ∃ w, ComputeSurfaceBankSwappedWidth lib tileMode bpp ns' pitch = some w ∧ 0 < w :=
      fun h => ComputeSurfaceBankSwappedWidth_pos lib hv tileMode bpp ns' pitch h hbpp hns' hp
    cases tileMode <;>
      first
      | exact absurd hm (by decide)
      | (dsimp only [IsBankSwappedTileMode]
         rw [if_neg (by omega), if_neg (by omega)]
         first
         | rfl
         | (obtain ⟨w, hw, hw0⟩ := hsw rfl
            rw [if_pos rfl, hw]
            dsimp only
            rw [if_neg (by omega)]))

end AddrLib
